import Mathlib

/-!
Super-cluster reaction lists, fluxes and Jacobian entries of Xolotl.

A shallow embedding of `xolotlCore/reactants/psiclusters/PSISuperCluster.cpp`.

* `double` values are elements of an arbitrary field `K` (exact arithmetic);
  the definitions are computable and can be run with `K = ℚ`.
* C arrays are total functions from their index type; an update of one cell is
  `Function.update`.  Indices that the source computes as `indexList[i] - 1` or
  `getId() - 1` are integers.
* `for` loops and `std::for_each` are folds that thread the mutated variables.
* The process-wide configuration `psDim` / `indexList` is passed explicitly.
-/

namespace Xolotl

variable {K : Type} [Field K]

set_option linter.unusedSectionVars false

/-! ## Control flow and arrays -/

/-- The counted loop `for (int i = lo; i < hi; i++) body`, threading the
mutated variables through the iterations. -/
def forLoop {σ : Type} (lo hi : Nat) (body : Nat → σ → σ) (init : σ) : σ :=
  (List.range' lo (hi - lo)).foldl (fun s i => body i s) init

/-- The call `std::for_each(l.begin(), l.end(), body)`, threading the variables
captured by reference. -/
def forEach {α σ : Type} (l : List α) (body : σ → α → σ) (init : σ) : σ :=
  l.foldl body init

/-- The statement `a[i] += v`. -/
def addAt {ι : Type} [DecidableEq ι] (a : ι → K) (i : ι) (v : K) : ι → K :=
  Function.update a i (a i + v)

/-- The statement `a[i] -= v`. -/
def subAt {ι : Type} [DecidableEq ι] (a : ι → K) (i : ι) (v : K) : ι → K :=
  Function.update a i (a i - v)

/-- The statement `a[i][j] += v`. -/
def addAt2 (a : Nat → Nat → K) (i j : Nat) (v : K) : Nat → Nat → K :=
  Function.update a i (addAt (a i) j v)

/-- The statement `a[i][j][k] += v`. -/
def addAt3 (a : Nat → Nat → Nat → K) (i j k : Nat) (v : K) : Nat → Nat → Nat → K :=
  Function.update a i (addAt2 (a i) j k v)

/-! ## Data model -/

/-- Values of `ReactantType` that the super-cluster code tests for, and the
remaining cluster kinds. -/
inductive ReactantType where
  | He
  | D
  | T
  | V
  | I
  | HeV
  | HeI
  | PSIMixed
  | PSISuper
  deriving DecidableEq, Repr

/-- A cluster as the super-cluster code sees it through a `PSICluster&`.
`addr` is the identity of the object (its address, which is what the lookup
maps are keyed on).  The other fields are the results of the member functions
that the code calls on the reference; they are declared in headers outside the
translated file and are therefore taken as given: `getId()`, `getMomentId(axis)`,
`getType()`, `getSize()`, `*(getBounds(axis).begin())`, `*(getBounds(axis).end())`,
`isMixed()`, `getConcentration(concs)`, `getMoment(concs, axis)`,
`getDistance(n, axis)`, `getFactor(n, axis)` and `getName()`. -/
structure PSICluster (K : Type) where
  addr : Nat
  id : Int
  momId : Int → Int
  type : ReactantType
  size : Int
  boundsBegin : Nat → Int
  boundsEnd : Nat → Int
  mixed : Bool
  getConcentration : (Int → K) → K
  getMoment : (Int → K) → Int → K
  getDistance : Int → Int → K
  getFactor : Int → Int → K
  name : String := ""

/-- A production reaction `first + second → product` with its per-grid-point
rate array. -/
structure ProductionReaction (K : Type) where
  first : PSICluster K
  second : PSICluster K
  kConstant : Nat → K

/-- A dissociation reaction `dissociating → first + second` with its
per-grid-point rate array. -/
structure DissociationReaction (K : Type) where
  dissociating : PSICluster K
  first : PSICluster K
  second : PSICluster K
  kConstant : Nat → K

/-- Entry of `effReactingList`: `coefs[5][5][5]`. -/
structure ProductionPair (K : Type) where
  reaction : ProductionReaction K
  first : PSICluster K
  second : PSICluster K
  coefs : Nat → Nat → Nat → K

/-- Entry of `effCombiningList`; `first` is the other operand. -/
structure CombiningCluster (K : Type) where
  reaction : ProductionReaction K
  first : PSICluster K
  coefs : Nat → Nat → Nat → K

/-- Entry of `effDissociatingList` and of `effEmissionList`: `coefs[5][5]`. -/
structure DissociationPair (K : Type) where
  reaction : DissociationReaction K
  first : PSICluster K
  second : PSICluster K
  coefs : Nat → Nat → K

/-- Entry of `effReactingList0`. -/
structure ProductionPair0 (K : Type) where
  reaction : ProductionReaction K
  first : PSICluster K
  second : PSICluster K
  coeff0 : K

/-- Entry of `effCombiningList0`. -/
structure CombiningCluster0 (K : Type) where
  reaction : ProductionReaction K
  first : PSICluster K
  coeff0 : K

/-- Entry of `effDissociatingList0` and of `effEmissionList0`. -/
structure DissociationPair0 (K : Type) where
  reaction : DissociationReaction K
  first : PSICluster K
  second : PSICluster K
  coeff0 : K

/-- The flux result `PSISuperCluster::Flux`: the scalar `flux` and the array
`momentFlux`. -/
structure Flux (K : Type) where
  flux : K
  momentFlux : Int → K

/-- The species that index the composition map. -/
inductive Species where
  | He
  | D
  | T
  | V
  | I
  deriving DecidableEq, Repr

/-- Key of `effReactingListMap`, `effDissociatingListMap` and
`effEmissionListMap`: a pair of cluster addresses. -/
abbrev PairKey := Nat × Nat

/-- The members of `PSISuperCluster` that the translated functions read or
write.  `self` is the object seen as a `PSICluster` (its own address, ids,
bounds and state accessors).  A list iterator is a position in the list, and a
lookup map is an association list from key to position.  `migrationEnergy` is
`none` for `std::numeric_limits<double>::infinity()`; `heVList` holds the
`(He, D, T, V)` tuples of the members; the two connectivity sets hold ids. -/
structure PSISuperCluster (K : Type) where
  self : PSICluster K
  nTot : Int
  numAtom : Int → K
  sectionWidth : Int → Int
  dispersion : Int → K
  reactionRadius : K
  formationEnergy : K
  diffusionFactor : K
  migrationEnergy : Option K := none
  composition : Species → Int := fun _ => 0
  full : Bool := false
  heVList : List (Int × Int × Int × Int) := []
  effReactingList : List (ProductionPair K) := []
  effCombiningList : List (CombiningCluster K) := []
  effDissociatingList : List (DissociationPair K) := []
  effEmissionList : List (DissociationPair K) := []
  effReactingListMap : List (PairKey × Nat) := []
  effCombiningListMap : List (Nat × Nat) := []
  effDissociatingListMap : List (PairKey × Nat) := []
  effEmissionListMap : List (PairKey × Nat) := []
  effReactingList0 : List (ProductionPair0 K) := []
  effCombiningList0 : List (CombiningCluster0 K) := []
  effDissociatingList0 : List (DissociationPair0 K) := []
  effEmissionList0 : List (DissociationPair0 K) := []
  reactionConnectivitySet : Finset Int := ∅
  dissociationConnectivitySet : Finset Int := ∅

/-! ## Flux evaluation -/

/-- The recurring block
`double l[5] = {}; l[0] = c.getConcentration(concs);
for (int i = 1; i < psDim; i++) l[i] = c.getMoment(concs, indexList[i]-1);`. -/
def gatherMoments (psDim : Nat) (indexList : Nat → Int) (c : PSICluster K)
    (concs : Int → K) : Nat → K :=
  let l : Nat → K := fun _ => 0
  let l := Function.update l 0 (c.getConcentration concs)
  forLoop 1 psDim (fun i l => Function.update l i (c.getMoment concs (indexList i - 1))) l

/-- The contraction loops of `getProductionFlux`:
`sum[k] += coefs[j][i][k] * lA[j] * lB[i]` for `k`, `j`, `i` below `psDim`. -/
def productionSum (psDim : Nat) (coefs : Nat → Nat → Nat → K) (lA lB : Nat → K) : Nat → K :=
  forLoop 0 psDim (fun k sum =>
    forLoop 0 psDim (fun j sum =>
      forLoop 0 psDim (fun i sum => addAt sum k (coefs j i k * lA j * lB i)) sum) sum)
    (fun _ => 0)

/-- The contraction loops of `getCombinationFlux`:
`sum[k] += coefs[i][j][k] * lA[i] * lB[j]` for `k`, `j`, `i` below `psDim`. -/
def combinationSum (psDim : Nat) (coefs : Nat → Nat → Nat → K) (lA lB : Nat → K) : Nat → K :=
  forLoop 0 psDim (fun k sum =>
    forLoop 0 psDim (fun j sum =>
      forLoop 0 psDim (fun i sum => addAt sum k (coefs i j k * lA i * lB j)) sum) sum)
    (fun _ => 0)

/-- The contraction loops of `getDissociationFlux` and `getEmissionFlux`:
`sum[j] += coefs[i][j] * lA[i]` for `j`, `i` below `psDim`. -/
def dissociationSum (psDim : Nat) (coefs : Nat → Nat → K) (lA : Nat → K) : Nat → K :=
  forLoop 0 psDim (fun j sum =>
    forLoop 0 psDim (fun i sum => addAt sum j (coefs i j * lA i)) sum)
    (fun _ => 0)

/-- Body of the `for_each` in `getProductionFlux`. -/
def getProductionFluxBody (psDim : Nat) (indexList : Nat → Int) (s : PSISuperCluster K)
    (concs : Int → K) (xi : Nat) (superFlux : Flux K) (currPair : ProductionPair K) : Flux K :=
  let firstReactant := currPair.first
  let secondReactant := currPair.second
  let lA := gatherMoments psDim indexList firstReactant concs
  let lB := gatherMoments psDim indexList secondReactant concs
  let sum := productionSum psDim currPair.coefs lA lB
  let value := currPair.reaction.kConstant xi / (s.nTot : K)
  let superFlux := { superFlux with flux := superFlux.flux + value * sum 0 }
  forLoop 1 psDim (fun i superFlux =>
    { superFlux with
      momentFlux := addAt superFlux.momentFlux (indexList i - 1) (value * sum i) }) superFlux

/-- `PSISuperCluster::getProductionFlux`. -/
def getProductionFlux (psDim : Nat) (indexList : Nat → Int) (s : PSISuperCluster K)
    (concs : Int → K) (xi : Nat) (flux : Flux K) : Flux K :=
  forEach s.effReactingList (getProductionFluxBody psDim indexList s concs xi) flux

/-- Body of the `for_each` in `getCombinationFlux`: the scalar flux is
incremented, the moment fluxes are decremented. -/
def getCombinationFluxBody (psDim : Nat) (indexList : Nat → Int) (s : PSISuperCluster K)
    (concs : Int → K) (xi : Nat) (superFlux : Flux K) (currComb : CombiningCluster K) : Flux K :=
  let combiningCluster := currComb.first
  let lA := gatherMoments psDim indexList s.self concs
  let lB := gatherMoments psDim indexList combiningCluster concs
  let sum := combinationSum psDim currComb.coefs lA lB
  let value := currComb.reaction.kConstant xi / (s.nTot : K)
  let superFlux := { superFlux with flux := superFlux.flux + value * sum 0 }
  forLoop 1 psDim (fun i superFlux =>
    { superFlux with
      momentFlux := subAt superFlux.momentFlux (indexList i - 1) (value * sum i) }) superFlux

/-- `PSISuperCluster::getCombinationFlux`. -/
def getCombinationFlux (psDim : Nat) (indexList : Nat → Int) (s : PSISuperCluster K)
    (concs : Int → K) (xi : Nat) (flux : Flux K) : Flux K :=
  forEach s.effCombiningList (getCombinationFluxBody psDim indexList s concs xi) flux

/-- Body of the `for_each` in `getDissociationFlux`. -/
def getDissociationFluxBody (psDim : Nat) (indexList : Nat → Int) (s : PSISuperCluster K)
    (concs : Int → K) (xi : Nat) (superFlux : Flux K) (currPair : DissociationPair K) : Flux K :=
  let dissociatingCluster := currPair.first
  let lA := gatherMoments psDim indexList dissociatingCluster concs
  let sum := dissociationSum psDim currPair.coefs lA
  let value := currPair.reaction.kConstant xi / (s.nTot : K)
  let superFlux := { superFlux with flux := superFlux.flux + value * sum 0 }
  forLoop 1 psDim (fun i superFlux =>
    { superFlux with
      momentFlux := addAt superFlux.momentFlux (indexList i - 1) (value * sum i) }) superFlux

/-- `PSISuperCluster::getDissociationFlux`. -/
def getDissociationFlux (psDim : Nat) (indexList : Nat → Int) (s : PSISuperCluster K)
    (concs : Int → K) (xi : Nat) (flux : Flux K) : Flux K :=
  forEach s.effDissociatingList (getDissociationFluxBody psDim indexList s concs xi) flux

/-- Body of the `for_each` in `getEmissionFlux`: the scalar flux is
incremented, the moment fluxes are decremented. -/
def getEmissionFluxBody (psDim : Nat) (indexList : Nat → Int) (s : PSISuperCluster K)
    (concs : Int → K) (xi : Nat) (superFlux : Flux K) (currPair : DissociationPair K) : Flux K :=
  let lA := gatherMoments psDim indexList s.self concs
  let sum := dissociationSum psDim currPair.coefs lA
  let value := currPair.reaction.kConstant xi / (s.nTot : K)
  let superFlux := { superFlux with flux := superFlux.flux + value * sum 0 }
  forLoop 1 psDim (fun i superFlux =>
    { superFlux with
      momentFlux := subAt superFlux.momentFlux (indexList i - 1) (value * sum i) }) superFlux

/-- `PSISuperCluster::getEmissionFlux`. -/
def getEmissionFlux (psDim : Nat) (indexList : Nat → Int) (s : PSISuperCluster K)
    (concs : Int → K) (xi : Nat) (flux : Flux K) : Flux K :=
  forEach s.effEmissionList (getEmissionFluxBody psDim indexList s concs xi) flux

/-! ## Effective reaction list builders -/

/-- The statement `f(*listit)` for a list iterator: the entry at position `pos`
is updated in place. -/
def modifyAt {α : Type} (l : List α) (pos : Nat) (f : α → α) : List α :=
  match l[pos]? with
  | some x => l.set pos (f x)
  | none => l

/-- Modelled from the spec: the constructor of `ProductionPair` is declared in
the header, which is not among the sources; a lazily created entry starts with
an all-zero tensor onto which the updates accumulate. -/
def ProductionPair.create (reaction : ProductionReaction K) (first second : PSICluster K) :
    ProductionPair K :=
  { reaction := reaction, first := first, second := second, coefs := fun _ _ _ => 0 }

/-- Modelled from the spec: the constructor of `CombiningCluster` (header not
among the sources); the tensor of a new entry is zero. -/
def CombiningCluster.create (reaction : ProductionReaction K) (other : PSICluster K) :
    CombiningCluster K :=
  { reaction := reaction, first := other, coefs := fun _ _ _ => 0 }

/-- Modelled from the spec: the constructor of `DissociationPair` (header not
among the sources); the matrix of a new entry is zero. -/
def DissociationPair.create (reaction : DissociationReaction K) (first second : PSICluster K) :
    DissociationPair K :=
  { reaction := reaction, first := first, second := second, coefs := fun _ _ => 0 }

/-- Modelled from the spec: `findOtherCluster(ProductionReaction&)` is declared
in a header that is not among the sources; it yields the operand that is not
this cluster. -/
def findOtherClusterProd (s : PSISuperCluster K) (reaction : ProductionReaction K) :
    PSICluster K :=
  if reaction.first.addr = s.self.addr then reaction.second else reaction.first

/-- Modelled from the spec: `findOtherCluster(DissociationReaction&)` is
declared in a header that is not among the sources; it yields the product that
is not this cluster (the co-emitted partner). -/
def findOtherClusterDiss (s : PSISuperCluster K) (reaction : DissociationReaction K) :
    PSICluster K :=
  if reaction.first.addr = s.self.addr then reaction.second else reaction.first

/-- `PSISuperCluster::addToEffReactingList`.  The result is the new state and
the returned iterator (a list position); `none` is the failing
`assert(listit != effReactingList.end())`.  The lookup map is consulted but
no statement of the function stores anything in it. -/
def addToEffReactingList (s : PSISuperCluster K) (reaction : ProductionReaction K) :
    Option (PSISuperCluster K × Nat) :=
  let rkey : PairKey := (reaction.first.addr, reaction.second.addr)
  let mapit := s.effReactingListMap.lookup rkey
  let r : PSISuperCluster K × Nat :=
    match mapit with
    | some pos => (s, pos)
    | none =>
      let s1 := { s with
        effReactingList := s.effReactingList
          ++ [ProductionPair.create reaction reaction.first reaction.second] }
      (s1, s1.effReactingList.length - 1)
  if r.2 ≠ r.1.effReactingList.length then some r else none

/-- `PSISuperCluster::addToEffCombiningList`. -/
def addToEffCombiningList (s : PSISuperCluster K) (reaction : ProductionReaction K) :
    Option (PSISuperCluster K × Nat) :=
  let otherCluster := findOtherClusterProd s reaction
  let rkey : Nat := otherCluster.addr
  let mapit := s.effCombiningListMap.lookup rkey
  let r : PSISuperCluster K × Nat :=
    match mapit with
    | some pos => (s, pos)
    | none =>
      let s1 := { s with
        effCombiningList := s.effCombiningList
          ++ [CombiningCluster.create reaction otherCluster] }
      (s1, s1.effCombiningList.length - 1)
  if r.2 ≠ r.1.effCombiningList.length then some r else none

/-- `PSISuperCluster::addToEffDissociatingList`. -/
def addToEffDissociatingList (s : PSISuperCluster K) (reaction : DissociationReaction K) :
    Option (PSISuperCluster K × Nat) :=
  let emittedCluster := findOtherClusterDiss s reaction
  let rkey : PairKey := (reaction.dissociating.addr, emittedCluster.addr)
  let mapit := s.effDissociatingListMap.lookup rkey
  let r : PSISuperCluster K × Nat :=
    match mapit with
    | some pos => (s, pos)
    | none =>
      let s1 := { s with
        effDissociatingList := s.effDissociatingList
          ++ [DissociationPair.create reaction reaction.dissociating emittedCluster] }
      (s1, s1.effDissociatingList.length - 1)
  if r.2 ≠ r.1.effDissociatingList.length then some r else none

/-- `PSISuperCluster::addToEffEmissionList`. -/
def addToEffEmissionList (s : PSISuperCluster K) (reaction : DissociationReaction K) :
    Option (PSISuperCluster K × Nat) :=
  let rkey : PairKey := (reaction.first.addr, reaction.second.addr)
  let mapit := s.effEmissionListMap.lookup rkey
  let r : PSISuperCluster K × Nat :=
    match mapit with
    | some pos => (s, pos)
    | none =>
      let s1 := { s with
        effEmissionList := s.effEmissionList
          ++ [DissociationPair.create reaction reaction.first reaction.second] }
      (s1, s1.effEmissionList.length - 1)
  if r.2 ≠ r.1.effEmissionList.length then some r else none

/-- The loops of the raw-mode update of a rank-3 tensor:
`int n = 0; for i, j, k below psDim: coefs[i][j][k] += coef[n]; n++`.
The state is the tensor together with the counter `n`. -/
def addFlatCoefs3 (psDim : Nat) (coef : Nat → K) (coefs : Nat → Nat → Nat → K) :
    (Nat → Nat → Nat → K) × Nat :=
  forLoop 0 psDim (fun i st =>
    forLoop 0 psDim (fun j st =>
      forLoop 0 psDim (fun k st => (addAt3 st.1 i j k (coef st.2), st.2 + 1)) st) st)
    (coefs, 0)

/-- `PSISuperCluster::resultFrom(ProductionReaction&, double*)`. -/
def resultFromCoef (psDim : Nat) (s : PSISuperCluster K) (reaction : ProductionReaction K)
    (coef : Nat → K) : Option (PSISuperCluster K) :=
  match addToEffReactingList s reaction with
  | none => none
  | some (s1, listit) =>
    some { s1 with
      effReactingList := modifyAt s1.effReactingList listit (fun prodPair =>
        { prodPair with coefs := (addFlatCoefs3 psDim coef prodPair.coefs).1 }) }

/-! ## Explicit per-member updates -/

/-- The block `double d[5] = { }; d[0] = 1.0;
if (c.getType() == ReactantType::PSISuper)
  for (int i = 1; i < psDim; i++) d[i] = c.getDistance(x[indexList[i]-1], indexList[i]-1);`
for an operand `c` of the reaction. -/
def operandDistance (psDim : Nat) (indexList : Nat → Int) (c : PSICluster K) (x : Int → Int) :
    Nat → K :=
  let d : Nat → K := Function.update (fun _ => 0) 0 1
  if c.type = ReactantType.PSISuper then
    forLoop 1 psDim (fun i d =>
      Function.update d i (c.getDistance (x (indexList i - 1)) (indexList i - 1))) d
  else d

/-- The block `double distance[5] = { }; distance[0] = 1.0;
for (int i = 1; i < psDim; i++) distance[i] = getDistance(x[indexList[i]-1], indexList[i]-1);`
on this cluster. -/
def ownDistance (psDim : Nat) (indexList : Nat → Int) (c : PSICluster K) (x : Int → Int) :
    Nat → K :=
  forLoop 1 psDim (fun i d =>
    Function.update d i (c.getDistance (x (indexList i - 1)) (indexList i - 1)))
    (Function.update (fun _ => 0) 0 1)

/-- The block `double factor[5] = { }; factor[0] = 1.0;
for (int i = 1; i < psDim; i++) factor[i] = getFactor(x[indexList[i]-1], indexList[i]-1);`
on this cluster. -/
def ownFactor (psDim : Nat) (indexList : Nat → Int) (c : PSICluster K) (x : Int → Int) :
    Nat → K :=
  forLoop 1 psDim (fun i f =>
    Function.update f i (c.getFactor (x (indexList i - 1)) (indexList i - 1)))
    (Function.update (fun _ => 0) 0 1)

/-- The coefficient update of `resultFrom(ProductionReaction&, int a[4], int b[4])` on the
entry `prodPair`: both operand distances are taken from `b`, the factor from `a`. -/
def resultFromEntry (psDim : Nat) (indexList : Nat → Int) (s : PSISuperCluster K)
    (a b : Int → Int) (prodPair : ProductionPair K) : ProductionPair K :=
  let firstDistance := operandDistance psDim indexList prodPair.first b
  let secondDistance := operandDistance psDim indexList prodPair.second b
  let factor := ownFactor psDim indexList s.self a
  { prodPair with
    coefs := forLoop 0 psDim (fun k coefs =>
      forLoop 0 psDim (fun j coefs =>
        forLoop 0 psDim (fun i coefs =>
          addAt3 coefs i j k (firstDistance i * secondDistance j * factor k)) coefs) coefs)
      prodPair.coefs }

/-- `PSISuperCluster::resultFrom(ProductionReaction&, int a[4], int b[4])`. -/
def resultFrom (psDim : Nat) (indexList : Nat → Int) (s : PSISuperCluster K)
    (reaction : ProductionReaction K) (a b : Int → Int) : Option (PSISuperCluster K) :=
  match addToEffReactingList s reaction with
  | none => none
  | some (s1, listit) =>
    some { s1 with
      effReactingList :=
        modifyAt s1.effReactingList listit (resultFromEntry psDim indexList s1 a b) }

/-- The coefficient update of `participateIn(ProductionReaction&, int a[4])` on the entry
`combCluster`: `coefs[j][0][k] += distance[j] * factor[k]`. -/
def participateInProductionEntry (psDim : Nat) (indexList : Nat → Int) (s : PSISuperCluster K)
    (a : Int → Int) (combCluster : CombiningCluster K) : CombiningCluster K :=
  let distance := ownDistance psDim indexList s.self a
  let factor := ownFactor psDim indexList s.self a
  { combCluster with
    coefs := forLoop 0 psDim (fun k coefs =>
      forLoop 0 psDim (fun j coefs => addAt3 coefs j 0 k (distance j * factor k)) coefs)
      combCluster.coefs }

/-- `PSISuperCluster::participateIn(ProductionReaction&, int a[4])`. -/
def participateInProduction (psDim : Nat) (indexList : Nat → Int) (s : PSISuperCluster K)
    (reaction : ProductionReaction K) (a : Int → Int) : Option (PSISuperCluster K) :=
  match addToEffCombiningList s reaction with
  | none => none
  | some (s1, listit) =>
    some { s1 with
      effCombiningList :=
        modifyAt s1.effCombiningList listit (participateInProductionEntry psDim indexList s1 a) }

/-- The coefficient update of `participateIn(DissociationReaction&, int a[4], int b[4])`
on the entry `dissPair`: the distance of the dissociating parent is taken from `a`, this
cluster's factor from `b`; `coefs[i][j] += distance[i] * factor[j]`. -/
def participateInDissociationEntry (psDim : Nat) (indexList : Nat → Int)
    (s : PSISuperCluster K) (reaction : DissociationReaction K) (a b : Int → Int)
    (dissPair : DissociationPair K) : DissociationPair K :=
  let distance := operandDistance psDim indexList reaction.dissociating a
  let factor := ownFactor psDim indexList s.self b
  { dissPair with
    coefs := forLoop 0 psDim (fun j coefs =>
      forLoop 0 psDim (fun i coefs => addAt2 coefs i j (distance i * factor j)) coefs)
      dissPair.coefs }

/-- `PSISuperCluster::participateIn(DissociationReaction&, int a[4], int b[4])`. -/
def participateInDissociation (psDim : Nat) (indexList : Nat → Int) (s : PSISuperCluster K)
    (reaction : DissociationReaction K) (a b : Int → Int) : Option (PSISuperCluster K) :=
  match addToEffDissociatingList s reaction with
  | none => none
  | some (s1, listit) =>
    some { s1 with
      effDissociatingList :=
        modifyAt s1.effDissociatingList listit
          (participateInDissociationEntry psDim indexList s1 reaction a b) }

/-- The coefficient update of `emitFrom(DissociationReaction&, int a[4])` on the entry
`dissPair`: distance and factor of this cluster are both taken from `a`. -/
def emitFromEntry (psDim : Nat) (indexList : Nat → Int) (s : PSISuperCluster K)
    (a : Int → Int) (dissPair : DissociationPair K) : DissociationPair K :=
  let distance := ownDistance psDim indexList s.self a
  let factor := ownFactor psDim indexList s.self a
  { dissPair with
    coefs := forLoop 0 psDim (fun j coefs =>
      forLoop 0 psDim (fun i coefs => addAt2 coefs i j (distance i * factor j)) coefs)
      dissPair.coefs }

/-- `PSISuperCluster::emitFrom(DissociationReaction&, int a[4])`. -/
def emitFrom (psDim : Nat) (indexList : Nat → Int) (s : PSISuperCluster K)
    (reaction : DissociationReaction K) (a : Int → Int) : Option (PSISuperCluster K) :=
  match addToEffEmissionList s reaction with
  | none => none
  | some (s1, listit) =>
    some { s1 with
      effEmissionList :=
        modifyAt s1.effEmissionList listit (emitFromEntry psDim indexList s1 a) }

/-! ## Raw-mode updates -/

/-- The loops of the raw-mode update of a matrix:
`int n = 0; for i, j below psDim: coefs[i][j] += coef[n]; n++`. -/
def addFlatCoefs2 (psDim : Nat) (coef : Nat → K) (coefs : Nat → Nat → K) :
    (Nat → Nat → K) × Nat :=
  forLoop 0 psDim (fun i st =>
    forLoop 0 psDim (fun j st => (addAt2 st.1 i j (coef st.2), st.2 + 1)) st)
    (coefs, 0)

/-- `PSISuperCluster::participateIn(ProductionReaction&, double*)`. -/
def participateInProductionCoef (psDim : Nat) (s : PSISuperCluster K)
    (reaction : ProductionReaction K) (coef : Nat → K) : Option (PSISuperCluster K) :=
  match addToEffCombiningList s reaction with
  | none => none
  | some (s1, listit) =>
    some { s1 with
      effCombiningList := modifyAt s1.effCombiningList listit (fun combCluster =>
        { combCluster with coefs := (addFlatCoefs3 psDim coef combCluster.coefs).1 }) }

/-- `PSISuperCluster::participateIn(DissociationReaction&, double*)`. -/
def participateInDissociationCoef (psDim : Nat) (s : PSISuperCluster K)
    (reaction : DissociationReaction K) (coef : Nat → K) : Option (PSISuperCluster K) :=
  match addToEffDissociatingList s reaction with
  | none => none
  | some (s1, listit) =>
    some { s1 with
      effDissociatingList := modifyAt s1.effDissociatingList listit (fun dissPair =>
        { dissPair with coefs := (addFlatCoefs2 psDim coef dissPair.coefs).1 }) }

/-- `PSISuperCluster::emitFrom(DissociationReaction&, double*)`. -/
def emitFromCoef (psDim : Nat) (s : PSISuperCluster K)
    (reaction : DissociationReaction K) (coef : Nat → K) : Option (PSISuperCluster K) :=
  match addToEffEmissionList s reaction with
  | none => none
  | some (s1, listit) =>
    some { s1 with
      effEmissionList := modifyAt s1.effEmissionList listit (fun dissPair =>
        { dissPair with coefs := (addFlatCoefs2 psDim coef dissPair.coefs).1 }) }

/-- The invariant that ties a lookup map to its list: every stored position is the
position of an entry of the list, and that entry carries the stored key.  It holds for
the empty maps of a newly constructed cluster. -/
def MapConsistent {α κ : Type} [BEq κ] (map : List (κ × Nat)) (l : List α) (keyOf : α → κ) :
    Prop :=
  ∀ key pos, map.lookup key = some pos → ∃ e, l[pos]? = some e ∧ keyOf e = key

/-! ## Zeroth-moment specialisation -/

/-- Modelled from the spec: the converting constructor of `ProductionPair0` is
declared in the header, which is not among the sources; the reduced entry keeps
the reaction and the operands and holds the `[0][0][0]` coefficient as `coeff0`. -/
def ProductionPair0.ofPair (p : ProductionPair K) : ProductionPair0 K :=
  { reaction := p.reaction, first := p.first, second := p.second, coeff0 := p.coefs 0 0 0 }

/-- Modelled from the spec: the converting constructor of `CombiningCluster0`
(header not among the sources); `coeff0` is the `[0][0][0]` coefficient. -/
def CombiningCluster0.ofCluster (c : CombiningCluster K) : CombiningCluster0 K :=
  { reaction := c.reaction, first := c.first, coeff0 := c.coefs 0 0 0 }

/-- Modelled from the spec: the converting constructor of `DissociationPair0`
(header not among the sources); `coeff0` is the `[0][0]` coefficient. -/
def DissociationPair0.ofPair (p : DissociationPair K) : DissociationPair0 K :=
  { reaction := p.reaction, first := p.first, second := p.second, coeff0 := p.coefs 0 0 }

/-- `PSISuperCluster::useZerothMomentSpecializations` (the `#if READY` blocks
are not compiled). -/
def useZerothMomentSpecializations (s : PSISuperCluster K) : PSISuperCluster K :=
  let s := forEach s.effReactingList (fun (s : PSISuperCluster K) currPair =>
    { s with effReactingList0 := s.effReactingList0 ++ [ProductionPair0.ofPair currPair] }) s
  let s := forEach s.effCombiningList (fun (s : PSISuperCluster K) currCluster =>
    { s with effCombiningList0 := s.effCombiningList0 ++ [CombiningCluster0.ofCluster currCluster] }) s
  let s := forEach s.effDissociatingList (fun (s : PSISuperCluster K) currPair =>
    { s with effDissociatingList0 := s.effDissociatingList0 ++ [DissociationPair0.ofPair currPair] }) s
  forEach s.effEmissionList (fun (s : PSISuperCluster K) currPair =>
    { s with effEmissionList0 := s.effEmissionList0 ++ [DissociationPair0.ofPair currPair] }) s

/-- `PSISuperCluster::computeProdFlux0`. -/
def computeProdFlux0 (s : PSISuperCluster K) (concs : Int → K) (xi : Nat) (flux : Flux K) :
    Flux K :=
  forEach s.effReactingList0 (fun (superFlux : Flux K) currPair =>
    let firstReactant := currPair.first
    let secondReactant := currPair.second
    let lA := firstReactant.getConcentration concs
    let lB := secondReactant.getConcentration concs
    let sum := currPair.coeff0 * lA * lB
    let value := currPair.reaction.kConstant xi / (s.nTot : K)
    { superFlux with flux := superFlux.flux + value * sum }) flux

/-- `PSISuperCluster::computeCombFlux0`. -/
def computeCombFlux0 (s : PSISuperCluster K) (concs : Int → K) (xi : Nat) (flux : Flux K) :
    Flux K :=
  forEach s.effCombiningList0 (fun (superFlux : Flux K) currComb =>
    let combiningCluster := currComb.first
    let lA := s.self.getConcentration concs
    let lB := combiningCluster.getConcentration concs
    let sum := currComb.coeff0 * lA * lB
    let value := currComb.reaction.kConstant xi / (s.nTot : K)
    { superFlux with flux := superFlux.flux + value * sum }) flux

/-- `PSISuperCluster::computeDissFlux0`. -/
def computeDissFlux0 (s : PSISuperCluster K) (concs : Int → K) (xi : Nat) (flux : Flux K) :
    Flux K :=
  forEach s.effDissociatingList0 (fun (superFlux : Flux K) currPair =>
    let dissociatingCluster := currPair.first
    let lA := dissociatingCluster.getConcentration concs
    let sum := currPair.coeff0 * lA
    let value := currPair.reaction.kConstant xi / (s.nTot : K)
    { superFlux with flux := superFlux.flux + value * sum }) flux

/-- `PSISuperCluster::computeEmitFlux0`. -/
def computeEmitFlux0 (s : PSISuperCluster K) (concs : Int → K) (xi : Nat) (flux : Flux K) :
    Flux K :=
  forEach s.effEmissionList0 (fun (superFlux : Flux K) currPair =>
    let lA := s.self.getConcentration concs
    let sum := currPair.coeff0 * lA
    let value := currPair.reaction.kConstant xi / (s.nTot : K)
    { superFlux with flux := superFlux.flux + value * sum }) flux

/-! ## Jacobian assembly -/

/-- The counted loop whose body may throw: `none` is the propagated exception. -/
def forLoopM {σ : Type} (lo hi : Nat) (body : Nat → σ → Option σ) (init : σ) : Option σ :=
  (List.range' lo (hi - lo)).foldlM (fun s i => body i s) init

/-- `std::for_each` whose body may throw. -/
def forEachM {α σ : Type} (l : List α) (body : σ → α → Option σ) (init : σ) : Option σ :=
  l.foldlM body init

/-- The statement `partials[i][idx] += v`. -/
def addPartial (partials : Nat → Int → K) (i : Nat) (idx : Int) (v : K) : Nat → Int → K :=
  Function.update partials i (addAt (partials i) idx v)

/-- The statement `partials[i][idx] -= v`. -/
def subPartial (partials : Nat → Int → K) (i : Nat) (idx : Int) (v : K) : Nat → Int → K :=
  Function.update partials i (subAt (partials i) idx v)

/-- The loops of `computeProductionPartialDerivatives` filling `sum[5][5][2]`:
`sum[k][j][0] += coefs[j][i][k] * lB[i]; sum[k][j][1] += coefs[i][j][k] * lA[i]`. -/
def productionPartialSums (psDim : Nat) (coefs : Nat → Nat → Nat → K) (lA lB : Nat → K) :
    Nat → Nat → Nat → K :=
  forLoop 0 psDim (fun k sum =>
    forLoop 0 psDim (fun j sum =>
      forLoop 0 psDim (fun i sum =>
        let sum := addAt3 sum k j 0 (coefs j i k * lB i)
        addAt3 sum k j 1 (coefs i j k * lA i)) sum) sum)
    (fun _ _ _ => 0)

/-- The loops of `computeCombinationPartialDerivatives` filling `sum[5][5][2]`:
`sum[k][j][0] += coefs[i][j][k] * lA[i]; sum[k][j][1] += coefs[j][i][k] * lB[i]`. -/
def combinationPartialSums (psDim : Nat) (coefs : Nat → Nat → Nat → K) (lA lB : Nat → K) :
    Nat → Nat → Nat → K :=
  forLoop 0 psDim (fun k sum =>
    forLoop 0 psDim (fun j sum =>
      forLoop 0 psDim (fun i sum =>
        let sum := addAt3 sum k j 0 (coefs i j k * lA i)
        addAt3 sum k j 1 (coefs j i k * lB i)) sum) sum)
    (fun _ _ _ => 0)

/-- The index of a cluster's `j`-th state variable as the Jacobian code computes
it: `getId() - 1` for `j == 0`, `getMomentId(indexList[j]-1) - 1` otherwise. -/
def stateIndex (indexList : Nat → Int) (c : PSICluster K) (j : Nat) : Int :=
  if j = 0 then c.id - 1 else c.momId (indexList j - 1) - 1

/-- Body of the `for_each` in `computeProductionPartialDerivatives`.
`partialsIdxMap[j]->at(index)` throws for a missing key: a map is a function to
`Option`, and the body yields `none` when a lookup fails. -/
def computeProductionPartialDerivativesBody (psDim : Nat) (indexList : Nat → Int)
    (s : PSISuperCluster K) (concs : Int → K) (xi : Nat)
    (partialsIdxMap : Nat → Int → Option Int) (partials : Nat → Int → K)
    (currPair : ProductionPair K) : Option (Nat → Int → K) :=
  let firstReactant := currPair.first
  let secondReactant := currPair.second
  let lA := gatherMoments psDim indexList firstReactant concs
  let lB := gatherMoments psDim indexList secondReactant concs
  let sum := productionPartialSums psDim currPair.coefs lA lB
  let value := currPair.reaction.kConstant xi / (s.nTot : K)
  forLoopM 0 psDim (fun j partials =>
    let indexA := stateIndex indexList firstReactant j
    let indexB := stateIndex indexList secondReactant j
    match partialsIdxMap j indexA, partialsIdxMap j indexB with
    | some partialsIdxA, some partialsIdxB =>
      some (forLoop 0 psDim (fun i partials =>
        let partials := addPartial partials i partialsIdxA (value * sum i j 0)
        addPartial partials i partialsIdxB (value * sum i j 1)) partials)
    | _, _ => none) partials

/-- `PSISuperCluster::computeProductionPartialDerivatives`. -/
def computeProductionPartialDerivatives (psDim : Nat) (indexList : Nat → Int)
    (s : PSISuperCluster K) (concs : Int → K) (xi : Nat)
    (partialsIdxMap : Nat → Int → Option Int) (partials : Nat → Int → K) :
    Option (Nat → Int → K) :=
  forEachM s.effReactingList
    (computeProductionPartialDerivativesBody psDim indexList s concs xi partialsIdxMap) partials

/-- Body of the `for_each` in `computeCombinationPartialDerivatives`; `indexA`
belongs to the partner, `indexB` to this cluster. -/
def computeCombinationPartialDerivativesBody (psDim : Nat) (indexList : Nat → Int)
    (s : PSISuperCluster K) (concs : Int → K) (xi : Nat)
    (partialsIdxMap : Nat → Int → Option Int) (partials : Nat → Int → K)
    (currComb : CombiningCluster K) : Option (Nat → Int → K) :=
  let cluster := currComb.first
  let lA := gatherMoments psDim indexList s.self concs
  let lB := gatherMoments psDim indexList cluster concs
  let sum := combinationPartialSums psDim currComb.coefs lA lB
  let value := currComb.reaction.kConstant xi / (s.nTot : K)
  forLoopM 0 psDim (fun j partials =>
    let indexA := stateIndex indexList cluster j
    let indexB := stateIndex indexList s.self j
    match partialsIdxMap j indexA, partialsIdxMap j indexB with
    | some partialsIdxA, some partialsIdxB =>
      some (forLoop 0 psDim (fun i partials =>
        let partials := subPartial partials i partialsIdxA (value * sum i j 0)
        subPartial partials i partialsIdxB (value * sum i j 1)) partials)
    | _, _ => none) partials

/-- `PSISuperCluster::computeCombinationPartialDerivatives`. -/
def computeCombinationPartialDerivatives (psDim : Nat) (indexList : Nat → Int)
    (s : PSISuperCluster K) (concs : Int → K) (xi : Nat)
    (partialsIdxMap : Nat → Int → Option Int) (partials : Nat → Int → K) :
    Option (Nat → Int → K) :=
  forEachM s.effCombiningList
    (computeCombinationPartialDerivativesBody psDim indexList s concs xi partialsIdxMap) partials

/-- Body of the `for_each` in `computeDissociationPartialDerivatives`. -/
def computeDissociationPartialDerivativesBody (psDim : Nat) (indexList : Nat → Int)
    (s : PSISuperCluster K) (xi : Nat)
    (partialsIdxMap : Nat → Int → Option Int) (partials : Nat → Int → K)
    (currPair : DissociationPair K) : Option (Nat → Int → K) :=
  let cluster := currPair.first
  let value := currPair.reaction.kConstant xi / (s.nTot : K)
  forLoopM 0 psDim (fun j partials =>
    let index := stateIndex indexList cluster j
    match partialsIdxMap j index with
    | some partialsIdx =>
      some (forLoop 0 psDim (fun i partials =>
        addPartial partials i partialsIdx (value * currPair.coefs j i)) partials)
    | none => none) partials

/-- `PSISuperCluster::computeDissociationPartialDerivatives`. -/
def computeDissociationPartialDerivatives (psDim : Nat) (indexList : Nat → Int)
    (s : PSISuperCluster K) (xi : Nat)
    (partialsIdxMap : Nat → Int → Option Int) (partials : Nat → Int → K) :
    Option (Nat → Int → K) :=
  forEachM s.effDissociatingList
    (computeDissociationPartialDerivativesBody psDim indexList s xi partialsIdxMap) partials

/-- Body of the `for_each` in `computeEmissionPartialDerivatives`. -/
def computeEmissionPartialDerivativesBody (psDim : Nat) (indexList : Nat → Int)
    (s : PSISuperCluster K) (xi : Nat)
    (partialsIdxMap : Nat → Int → Option Int) (partials : Nat → Int → K)
    (currPair : DissociationPair K) : Option (Nat → Int → K) :=
  let value := currPair.reaction.kConstant xi / (s.nTot : K)
  forLoopM 0 psDim (fun j partials =>
    let index := stateIndex indexList s.self j
    match partialsIdxMap j index with
    | some partialsIdx =>
      some (forLoop 0 psDim (fun i partials =>
        subPartial partials i partialsIdx (value * currPair.coefs j i)) partials)
    | none => none) partials

/-- `PSISuperCluster::computeEmissionPartialDerivatives`. -/
def computeEmissionPartialDerivatives (psDim : Nat) (indexList : Nat → Int)
    (s : PSISuperCluster K) (xi : Nat)
    (partialsIdxMap : Nat → Int → Option Int) (partials : Nat → Int → K) :
    Option (Nat → Int → K) :=
  forEachM s.effEmissionList
    (computeEmissionPartialDerivativesBody psDim indexList s xi partialsIdxMap) partials

/-! ## Overlap-region derivations: the bounds loop -/

/-- The local arrays of the overlap loops (`productLo` / `dissoLo` is `lo`,
`productHi` / `dissoHi` is `hi`) and the running product `nOverlap`.  The `int`
values are unbounded integers: the loops are modelled for compositions far
below the range of `int`. -/
structure OverlapRegion where
  lo : Nat → Int
  hi : Nat → Int
  singleComp : Nat → Int
  r1Lo : Nat → Int
  r1Hi : Nat → Int
  width : Nat → Int
  nOverlap : Int

/-- The declarations `int productLo[4] = { }, ..., width[4] = { }; int nOverlap = 1;`. -/
def OverlapRegion.init : OverlapRegion :=
  { lo := fun _ => 0, hi := fun _ => 0, singleComp := fun _ => 0, r1Lo := fun _ => 0,
    r1Hi := fun _ => 0, width := fun _ => 0, nOverlap := 1 }

/-- The tail common to the four bounds loops:
`if (i == 4) singleComp[i-1] -= iSize;
width[i-1] = std::min(hi[i-1], r1Hi[i-1] + singleComp[i-1])
  - std::max(lo[i-1], r1Lo[i-1] + singleComp[i-1]) + 1;
nOverlap *= width[i-1];`. -/
def OverlapRegion.finishAxis (o : OverlapRegion) (i : Nat) (iSize : Int) : OverlapRegion :=
  let o := if i = 4 then
      { o with singleComp := Function.update o.singleComp (i - 1) (o.singleComp (i - 1) - iSize) }
    else o
  let o := { o with
    width := Function.update o.width (i - 1)
      (min (o.hi (i - 1)) (o.r1Hi (i - 1) + o.singleComp (i - 1))
        - max (o.lo (i - 1)) (o.r1Lo (i - 1) + o.singleComp (i - 1)) + 1) }
  { o with nOverlap := o.nOverlap * o.width (i - 1) }

/-- The bounds loop of `resultFrom(ProductionReaction&, IReactant& product)`. -/
def resultFromOverlap (prodPair : ProductionPair K) (product : PSICluster K) : OverlapRegion :=
  let superR1 := prodPair.first
  let superR2 := prodPair.second
  let superProd := product
  let iSize : Int :=
    if superR1.type = ReactantType.I then superR1.size
    else if superR2.type = ReactantType.I then superR2.size
    else 0
  forLoop 1 5 (fun i (o : OverlapRegion) =>
    let o := { o with
      lo := Function.update o.lo (i - 1) (superProd.boundsBegin (i - 1))
      hi := Function.update o.hi (i - 1) (superProd.boundsEnd (i - 1) - 1) }
    let o := if prodPair.first.type = ReactantType.PSISuper then
        { o with
          r1Lo := Function.update o.r1Lo (i - 1) (superR1.boundsBegin (i - 1))
          r1Hi := Function.update o.r1Hi (i - 1) (superR1.boundsEnd (i - 1) - 1)
          singleComp := Function.update o.singleComp (i - 1) (superR2.boundsBegin (i - 1)) }
      else o
    let o := if prodPair.second.type = ReactantType.PSISuper then
        { o with
          singleComp := Function.update o.singleComp (i - 1) (superR1.boundsBegin (i - 1))
          r1Lo := Function.update o.r1Lo (i - 1) (superR2.boundsBegin (i - 1))
          r1Hi := Function.update o.r1Hi (i - 1) (superR2.boundsEnd (i - 1) - 1) }
      else o
    o.finishAxis i iSize) OverlapRegion.init

/-- The bounds loop of `participateIn(ProductionReaction&, IReactant& product)`. -/
def participateInProductionOverlap (s : PSISuperCluster K) (reaction : ProductionReaction K)
    (product : PSICluster K) : OverlapRegion :=
  let superProd := product
  let otherCluster := findOtherClusterProd s reaction
  let iSize : Int := if otherCluster.type = ReactantType.I then otherCluster.size else 0
  forLoop 1 5 (fun i (o : OverlapRegion) =>
    let o := { o with
      lo := Function.update o.lo (i - 1) (superProd.boundsBegin (i - 1))
      hi := Function.update o.hi (i - 1) (superProd.boundsEnd (i - 1) - 1) }
    let o := { o with
      r1Lo := Function.update o.r1Lo (i - 1) (s.self.boundsBegin (i - 1))
      r1Hi := Function.update o.r1Hi (i - 1) (s.self.boundsEnd (i - 1) - 1) }
    let o := { o with
      singleComp := Function.update o.singleComp (i - 1) (otherCluster.boundsBegin (i - 1)) }
    o.finishAxis i iSize) OverlapRegion.init

/-- The bounds loop of `participateIn(DissociationReaction&, IReactant& disso)`. -/
def participateInDissociationOverlap (s : PSISuperCluster K)
    (reaction : DissociationReaction K) (disso : PSICluster K) : OverlapRegion :=
  let superDisso := disso
  let emittedCluster := findOtherClusterDiss s reaction
  let iSize : Int := if emittedCluster.type = ReactantType.I then emittedCluster.size else 0
  forLoop 1 5 (fun i (o : OverlapRegion) =>
    let o := { o with
      lo := Function.update o.lo (i - 1) (superDisso.boundsBegin (i - 1))
      hi := Function.update o.hi (i - 1) (superDisso.boundsEnd (i - 1) - 1) }
    let o := { o with
      r1Lo := Function.update o.r1Lo (i - 1) (s.self.boundsBegin (i - 1))
      r1Hi := Function.update o.r1Hi (i - 1) (s.self.boundsEnd (i - 1) - 1) }
    let o := { o with
      singleComp := Function.update o.singleComp (i - 1) (emittedCluster.boundsBegin (i - 1)) }
    o.finishAxis i iSize) OverlapRegion.init

/-- The bounds loop of `emitFrom(DissociationReaction&, IReactant& disso)`. -/
def emitFromOverlap (dissPair : DissociationPair K) (disso : PSICluster K) : OverlapRegion :=
  let superR1 := dissPair.first
  let superR2 := dissPair.second
  let superDisso := disso
  let iSize : Int :=
    if superR1.type = ReactantType.I then superR1.size
    else if superR2.type = ReactantType.I then superR2.size
    else 0
  forLoop 1 5 (fun i (o : OverlapRegion) =>
    let o := { o with
      lo := Function.update o.lo (i - 1) (superDisso.boundsBegin (i - 1))
      hi := Function.update o.hi (i - 1) (superDisso.boundsEnd (i - 1) - 1) }
    let o := if dissPair.first.type = ReactantType.PSISuper then
        { o with
          r1Lo := Function.update o.r1Lo (i - 1) (superR1.boundsBegin (i - 1))
          r1Hi := Function.update o.r1Hi (i - 1) (superR1.boundsEnd (i - 1) - 1)
          singleComp := Function.update o.singleComp (i - 1) (superR2.boundsBegin (i - 1)) }
      else o
    let o := if dissPair.second.type = ReactantType.PSISuper then
        { o with
          singleComp := Function.update o.singleComp (i - 1) (superR1.boundsBegin (i - 1))
          r1Lo := Function.update o.r1Lo (i - 1) (superR2.boundsBegin (i - 1))
          r1Hi := Function.update o.r1Hi (i - 1) (superR2.boundsEnd (i - 1) - 1) }
      else o
    o.finishAxis i iSize) OverlapRegion.init

/-! ## Overlap-region derivations: the coefficients -/

/-- The moment sums `firstOrderSum(lo, hi, mean)`, `secondOrderSum(lo, hi, mean)` and
`secondOrderOffsetSum(lo, hi, mean1, mean2, offset)` that the overlap-region derivations
call.  They are declared in a header that is not among the sources, so every definition
that calls them takes them as a parameter. -/
structure MomentSums (K : Type) where
  firstOrderSum : Int → Int → K → K
  secondOrderSum : Int → Int → K → K
  secondOrderOffsetSum : Int → Int → K → K → Int → K

/-- The value of `isMixed()` as the factor it is in the products `isMixed() * a`. -/
def mixedFactor (c : PSICluster K) : K :=
  if c.mixed then 1 else 0

/-- The block `// Compute the coefficients` of
`resultFrom(ProductionReaction&, IReactant& product)`, run on the arrays `o` that the
bounds loop has filled.  The arrays of the bounds loop are read at `i - 1`, the members
`dispersion` and `numAtom` at `indexList[i] - 1`, as in the source; products of `int`
values are unbounded integers. -/
def resultFromOverlapCoefs (sums : MomentSums K) (psDim : Nat) (indexList : Nat → Int)
    (s : PSISuperCluster K) (o : OverlapRegion) (prodPair : ProductionPair K) :
    ProductionPair K :=
  let prodPair := { prodPair with coefs := addAt3 prodPair.coefs 0 0 0 (o.nOverlap : K) }
  forLoop 1 psDim (fun i (prodPair : ProductionPair K) =>
    let v : K := ((o.nOverlap : K) / (s.dispersion (indexList i - 1) * (o.width (i - 1) : K)))
      * sums.firstOrderSum
            (max (o.lo (i - 1)) (o.r1Lo (i - 1) + o.singleComp (i - 1)))
            (min (o.hi (i - 1)) (o.r1Hi (i - 1) + o.singleComp (i - 1)))
            (s.numAtom (indexList i - 1))
    let prodPair := { prodPair with coefs := addAt3 prodPair.coefs 0 0 i v }
    let prodPair :=
      if o.r1Hi (i - 1) ≠ o.r1Lo (i - 1) then
        let a : K := (((o.nOverlap * 2 : Int) : K)
            / (((o.r1Hi (i - 1) - o.r1Lo (i - 1)) * o.width (i - 1) : Int) : K))
          * sums.firstOrderSum
            (max (o.lo (i - 1) - o.singleComp (i - 1)) (o.r1Lo (i - 1)))
            (min (o.hi (i - 1) - o.singleComp (i - 1)) (o.r1Hi (i - 1)))
            ((((o.r1Lo (i - 1) + o.r1Hi (i - 1) : Int) : K)) / 2)
        let prodPair :=
          { prodPair with coefs := addAt3 prodPair.coefs 0 i 0 (mixedFactor prodPair.second * a) }
        let prodPair :=
          { prodPair with coefs := addAt3 prodPair.coefs i 0 0 (mixedFactor prodPair.first * a) }
        let a : K := (((o.nOverlap * 2 : Int) : K)
            / ((((o.r1Hi (i - 1) - o.r1Lo (i - 1)) * o.width (i - 1) : Int) : K)
                * s.dispersion (indexList i - 1)))
          * sums.secondOrderOffsetSum
            (max (o.lo (i - 1)) (o.r1Lo (i - 1) + o.singleComp (i - 1)))
            (min (o.hi (i - 1)) (o.r1Hi (i - 1) + o.singleComp (i - 1)))
            (s.numAtom (indexList i - 1))
            ((((o.r1Lo (i - 1) + o.r1Hi (i - 1) : Int) : K)) / 2)
            (-o.singleComp (i - 1))
        let prodPair :=
          { prodPair with coefs := addAt3 prodPair.coefs 0 i i (mixedFactor prodPair.second * a) }
        { prodPair with coefs := addAt3 prodPair.coefs i 0 i (mixedFactor prodPair.first * a) }
      else prodPair
    forLoop 1 psDim (fun j (prodPair : ProductionPair K) =>
      if i = j then prodPair
      else if o.r1Hi (i - 1) ≠ o.r1Lo (i - 1) then
        let a : K := (((o.nOverlap * 2 : Int) : K)
            / ((((o.r1Hi (i - 1) - o.r1Lo (i - 1)) * o.width (i - 1) * o.width (j - 1) : Int) : K)
                * s.dispersion (indexList j - 1)))
          * sums.firstOrderSum
            (max (o.lo (i - 1) - o.singleComp (i - 1)) (o.r1Lo (i - 1)))
            (min (o.hi (i - 1) - o.singleComp (i - 1)) (o.r1Hi (i - 1)))
            ((((o.r1Lo (i - 1) + o.r1Hi (i - 1) : Int) : K)) / 2)
          * sums.firstOrderSum
            (max (o.lo (j - 1)) (o.r1Lo (j - 1) + o.singleComp (j - 1)))
            (min (o.hi (j - 1)) (o.r1Hi (j - 1) + o.singleComp (j - 1)))
            (s.numAtom (indexList j - 1))
        let prodPair :=
          { prodPair with coefs := addAt3 prodPair.coefs 0 i j (mixedFactor prodPair.second * a) }
        { prodPair with coefs := addAt3 prodPair.coefs i 0 j (mixedFactor prodPair.first * a) }
      else prodPair) prodPair) prodPair

/-- `PSISuperCluster::resultFrom(ProductionReaction&, IReactant& product)`. -/
def resultFromReactant (sums : MomentSums K) (psDim : Nat) (indexList : Nat → Int)
    (s : PSISuperCluster K) (reaction : ProductionReaction K) (product : PSICluster K) :
    Option (PSISuperCluster K) :=
  match addToEffReactingList s reaction with
  | none => none
  | some (s1, listit) =>
    some { s1 with
      effReactingList := modifyAt s1.effReactingList listit (fun prodPair =>
        resultFromOverlapCoefs sums psDim indexList s1 (resultFromOverlap prodPair product)
          prodPair) }

/-- One iteration of the loop `for (int i = 1; i < psDim; i++)` in the block
`// Compute the coefficients` of `participateIn(ProductionReaction&, IReactant& product)`. -/
def participateInProductionOverlapStep (sums : MomentSums K) (psDim : Nat) (indexList : Nat → Int)
    (s : PSISuperCluster K) (o : OverlapRegion) (i : Nat) (combCluster : CombiningCluster K) :
    CombiningCluster K :=
  let v : K := ((o.nOverlap : K) / (s.dispersion (indexList i - 1) * (o.width (i - 1) : K)))
    * sums.firstOrderSum
          (max (o.lo (i - 1) - o.singleComp (i - 1)) (o.r1Lo (i - 1)))
          (min (o.hi (i - 1) - o.singleComp (i - 1)) (o.r1Hi (i - 1)))
          (s.numAtom (indexList i - 1))
  let combCluster := { combCluster with coefs := addAt3 combCluster.coefs 0 0 i v }
  let combCluster :=
    if s.sectionWidth (indexList i - 1) ≠ 1 then
      let v : K := (((o.nOverlap * 2 : Int) : K)
          / (((s.sectionWidth (indexList i - 1) - 1) * o.width (i - 1) : Int) : K))
        * sums.firstOrderSum
          (max (o.lo (i - 1) - o.singleComp (i - 1)) (o.r1Lo (i - 1)))
          (min (o.hi (i - 1) - o.singleComp (i - 1)) (o.r1Hi (i - 1)))
          (s.numAtom (indexList i - 1))
      { combCluster with coefs := addAt3 combCluster.coefs i 0 0 v }
    else combCluster
  let combCluster :=
    if s.sectionWidth (indexList i - 1) ≠ 1 then
      let v : K := (((o.nOverlap * 2 : Int) : K)
          / ((((s.sectionWidth (indexList i - 1) - 1) * o.width (i - 1) : Int) : K)
              * s.dispersion (indexList i - 1)))
        * sums.secondOrderSum
          (max (o.lo (i - 1) - o.singleComp (i - 1)) (o.r1Lo (i - 1)))
          (min (o.hi (i - 1) - o.singleComp (i - 1)) (o.r1Hi (i - 1)))
          (s.numAtom (indexList i - 1))
      { combCluster with coefs := addAt3 combCluster.coefs i 0 i v }
    else combCluster
  forLoop 1 psDim (fun j (combCluster : CombiningCluster K) =>
    if i = j then combCluster
    else if s.sectionWidth (indexList i - 1) ≠ 1 then
      let v : K := (((o.nOverlap * 2 : Int) : K)
          / ((((s.sectionWidth (indexList i - 1) - 1) * o.width (i - 1) * o.width (j - 1) : Int) : K)
              * s.dispersion (indexList j - 1)))
        * sums.firstOrderSum
          (max (o.lo (i - 1) - o.singleComp (i - 1)) (o.r1Lo (i - 1)))
          (min (o.hi (i - 1) - o.singleComp (i - 1)) (o.r1Hi (i - 1)))
          (s.numAtom (indexList i - 1))
        * sums.firstOrderSum
          (max (o.lo (j - 1) - o.singleComp (j - 1)) (o.r1Lo (j - 1)))
          (min (o.hi (j - 1) - o.singleComp (j - 1)) (o.r1Hi (j - 1)))
          (s.numAtom (indexList j - 1))
      { combCluster with coefs := addAt3 combCluster.coefs i 0 j v }
    else combCluster) combCluster

/-- The block `// Compute the coefficients` of
`participateIn(ProductionReaction&, IReactant& product)`, run on the arrays `o` that the
bounds loop has filled. -/
def participateInProductionOverlapCoefs (sums : MomentSums K) (psDim : Nat)
    (indexList : Nat → Int) (s : PSISuperCluster K) (o : OverlapRegion)
    (combCluster : CombiningCluster K) : CombiningCluster K :=
  let combCluster :=
    { combCluster with coefs := addAt3 combCluster.coefs 0 0 0 (o.nOverlap : K) }
  forLoop 1 psDim (participateInProductionOverlapStep sums psDim indexList s o) combCluster

/-- `PSISuperCluster::participateIn(ProductionReaction&, IReactant& product)`. -/
def participateInProductionReactant (sums : MomentSums K) (psDim : Nat)
    (indexList : Nat → Int) (s : PSISuperCluster K) (reaction : ProductionReaction K)
    (product : PSICluster K) : Option (PSISuperCluster K) :=
  match addToEffCombiningList s reaction with
  | none => none
  | some (s1, listit) =>
    some { s1 with
      effCombiningList := modifyAt s1.effCombiningList listit
        (participateInProductionOverlapCoefs sums psDim indexList s1
          (participateInProductionOverlap s1 reaction product)) }

/-- The block `// Compute the coefficients` of
`participateIn(DissociationReaction&, IReactant& disso)`, run on the arrays `o` that the
bounds loop has filled (`o.lo`, `o.hi` are `dissoLo`, `dissoHi`). -/
def participateInDissociationOverlapCoefs (sums : MomentSums K) (psDim : Nat)
    (indexList : Nat → Int) (s : PSISuperCluster K) (o : OverlapRegion)
    (dissPair : DissociationPair K) : DissociationPair K :=
  let dissPair := { dissPair with coefs := addAt2 dissPair.coefs 0 0 (o.nOverlap : K) }
  forLoop 1 psDim (fun i (dissPair : DissociationPair K) =>
    let v : K := ((o.nOverlap : K) / (s.dispersion (indexList i - 1) * (o.width (i - 1) : K)))
      * sums.firstOrderSum
            (max (o.lo (i - 1) - o.singleComp (i - 1)) (o.r1Lo (i - 1)))
            (min (o.hi (i - 1) - o.singleComp (i - 1)) (o.r1Hi (i - 1)))
            (s.numAtom (indexList i - 1))
    let dissPair := { dissPair with coefs := addAt2 dissPair.coefs 0 i v }
    let dissPair :=
      if o.hi (i - 1) ≠ o.lo (i - 1) then
        let v : K := (((2 * o.nOverlap : Int) : K)
            / (((o.hi (i - 1) - o.lo (i - 1)) * o.width (i - 1) : Int) : K))
          * sums.firstOrderSum
            (max (o.lo (i - 1)) (o.r1Lo (i - 1) + o.singleComp (i - 1)))
            (min (o.hi (i - 1)) (o.r1Hi (i - 1) + o.singleComp (i - 1)))
            ((((o.lo (i - 1) + o.hi (i - 1) : Int) : K)) / 2)
        let dissPair := { dissPair with coefs := addAt2 dissPair.coefs i 0 v }
        let v : K := (((2 * o.nOverlap : Int) : K)
            / ((((o.hi (i - 1) - o.lo (i - 1)) * o.width (i - 1) : Int) : K)
                * s.dispersion (indexList i - 1)))
          * sums.secondOrderOffsetSum
            (max (o.lo (i - 1)) (o.r1Lo (i - 1) + o.singleComp (i - 1)))
            (min (o.hi (i - 1)) (o.r1Hi (i - 1) + o.singleComp (i - 1)))
            ((((o.lo (i - 1) + o.hi (i - 1) : Int) : K)) / 2)
            (s.numAtom (indexList i - 1))
            (-o.singleComp (i - 1))
        { dissPair with coefs := addAt2 dissPair.coefs i i v }
      else dissPair
    forLoop 1 psDim (fun j (dissPair : DissociationPair K) =>
      if i = j then dissPair
      else if o.hi (i - 1) ≠ o.lo (i - 1) then
        let v : K := (((o.nOverlap * 2 : Int) : K)
            / ((((o.hi (i - 1) - o.lo (i - 1)) * o.width (i - 1) * o.width (j - 1) : Int) : K)
                * s.dispersion (indexList j - 1)))
          * sums.firstOrderSum
            (max (o.lo (i - 1)) (o.singleComp (i - 1) + o.r1Lo (i - 1)))
            (min (o.hi (i - 1)) (o.singleComp (i - 1) + o.r1Hi (i - 1)))
            ((((o.lo (i - 1) + o.hi (i - 1) : Int) : K)) / 2)
          * sums.firstOrderSum
            (max (o.lo (j - 1) - o.singleComp (j - 1)) (o.r1Lo (j - 1)))
            (min (o.hi (j - 1) - o.singleComp (j - 1)) (o.r1Hi (j - 1)))
            (s.numAtom (indexList j - 1))
        { dissPair with coefs := addAt2 dissPair.coefs i j v }
      else dissPair) dissPair) dissPair

/-- `PSISuperCluster::participateIn(DissociationReaction&, IReactant& disso)`. -/
def participateInDissociationReactant (sums : MomentSums K) (psDim : Nat)
    (indexList : Nat → Int) (s : PSISuperCluster K) (reaction : DissociationReaction K)
    (disso : PSICluster K) : Option (PSISuperCluster K) :=
  match addToEffDissociatingList s reaction with
  | none => none
  | some (s1, listit) =>
    some { s1 with
      effDissociatingList := modifyAt s1.effDissociatingList listit
        (participateInDissociationOverlapCoefs sums psDim indexList s1
          (participateInDissociationOverlap s1 reaction disso)) }

/-- One iteration of the loop `for (int i = 1; i < psDim; i++)` in the block
`// Compute the coefficients` of `emitFrom(DissociationReaction&, IReactant& disso)`. -/
def emitFromOverlapStep (sums : MomentSums K) (psDim : Nat) (indexList : Nat → Int)
    (s : PSISuperCluster K) (o : OverlapRegion) (i : Nat) (dissPair : DissociationPair K) :
    DissociationPair K :=
  let v : K := ((o.nOverlap : K) / (s.dispersion (indexList i - 1) * (o.width (i - 1) : K)))
    * sums.firstOrderSum
          (max (o.lo (i - 1)) (o.r1Lo (i - 1) + o.singleComp (i - 1)))
          (min (o.hi (i - 1)) (o.r1Hi (i - 1) + o.singleComp (i - 1)))
          (s.numAtom (indexList i - 1))
  let dissPair := { dissPair with coefs := addAt2 dissPair.coefs 0 i v }
  let dissPair :=
    if s.sectionWidth (indexList i - 1) ≠ 1 then
      let v : K := (((2 * o.nOverlap : Int) : K)
          / (((s.sectionWidth (indexList i - 1) - 1) * o.width (i - 1) : Int) : K))
        * sums.firstOrderSum
          (max (o.lo (i - 1)) (o.r1Lo (i - 1) + o.singleComp (i - 1)))
          (min (o.hi (i - 1)) (o.r1Hi (i - 1) + o.singleComp (i - 1)))
          (s.numAtom (indexList i - 1))
      let dissPair := { dissPair with coefs := addAt2 dissPair.coefs i 0 v }
      let v : K := (((2 * o.nOverlap : Int) : K)
          / ((((s.sectionWidth (indexList i - 1) - 1) * o.width (i - 1) : Int) : K)
              * s.dispersion (indexList i - 1)))
        * sums.secondOrderSum
          (max (o.lo (i - 1)) (o.r1Lo (i - 1) + o.singleComp (i - 1)))
          (min (o.hi (i - 1)) (o.r1Hi (i - 1) + o.singleComp (i - 1)))
          (s.numAtom (indexList i - 1))
      { dissPair with coefs := addAt2 dissPair.coefs i i v }
    else dissPair
  forLoop 1 psDim (fun j (dissPair : DissociationPair K) =>
    if i = j then dissPair
    else if s.sectionWidth (indexList i - 1) ≠ 1 then
      let v : K := (((2 * o.nOverlap : Int) : K)
          / (((o.width (i - 1) * o.width (j - 1) * (s.sectionWidth (indexList i - 1) - 1) : Int) : K)
              * s.dispersion (indexList j - 1)))
        * sums.firstOrderSum
          (max (o.lo (i - 1)) (o.r1Lo (i - 1) + o.singleComp (i - 1)))
          (min (o.hi (i - 1)) (o.r1Hi (i - 1) + o.singleComp (i - 1)))
          (s.numAtom (indexList i - 1))
        * sums.firstOrderSum
          (max (o.lo (j - 1)) (o.r1Lo (j - 1) + o.singleComp (j - 1)))
          (min (o.hi (j - 1)) (o.r1Hi (j - 1) + o.singleComp (j - 1)))
          (s.numAtom (indexList j - 1))
      { dissPair with coefs := addAt2 dissPair.coefs i j v }
    else dissPair) dissPair

/-- The block `// Compute the coefficients` of
`emitFrom(DissociationReaction&, IReactant& disso)`, run on the arrays `o` that the
bounds loop has filled (`o.lo`, `o.hi` are `dissoLo`, `dissoHi`). -/
def emitFromOverlapCoefs (sums : MomentSums K) (psDim : Nat) (indexList : Nat → Int)
    (s : PSISuperCluster K) (o : OverlapRegion) (dissPair : DissociationPair K) :
    DissociationPair K :=
  let dissPair := { dissPair with coefs := addAt2 dissPair.coefs 0 0 (o.nOverlap : K) }
  forLoop 1 psDim (emitFromOverlapStep sums psDim indexList s o) dissPair

/-- `PSISuperCluster::emitFrom(DissociationReaction&, IReactant& disso)`. -/
def emitFromReactant (sums : MomentSums K) (psDim : Nat) (indexList : Nat → Int)
    (s : PSISuperCluster K) (reaction : DissociationReaction K) (disso : PSICluster K) :
    Option (PSISuperCluster K) :=
  match addToEffEmissionList s reaction with
  | none => none
  | some (s1, listit) =>
    some { s1 with
      effEmissionList := modifyAt s1.effEmissionList listit (fun dissPair =>
        emitFromOverlapCoefs sums psDim indexList s1 (emitFromOverlap dissPair disso)
          dissPair) }

/-! ## Construction and membership -/

/-- The conversion `(int) x` of a `double`: truncation toward zero. -/
def truncToInt {F : Type} [LinearOrderedField F] [FloorRing F] (x : F) : Int :=
  if 0 ≤ x then ⌊x⌋ else ⌈x⌉

/-- The value of an `int` expression whose exact result is `x`, as a 32-bit
two's-complement `int` holds it: `x` reduced modulo `2^32` into `[-2^31, 2^31)`. -/
def wrapInt (x : Int) : Int :=
  (x + 2147483648) % 4294967296 - 2147483648

/-- The product `a * b` of two `int` values. -/
def mulInt (a b : Int) : Int :=
  wrapInt (a * b)

/-- The body of the constructor `PSISuperCluster::PSISuperCluster(num, _nTot, width,
lower, higher, network, registry)`.  `init` is the object as the base-class constructor
and the default member initialisers leave it (both are in headers outside the sources).
Bounds are stored as the half-open range `[lower, higher + 1)`; the `int` values are
integers, taken non-negative where the source converts them to the unsigned `SizeType`,
and the product of the four section widths in the test for `full` is the `int` product
`mulInt`. -/
def PSISuperCluster.construct {F : Type} [LinearOrderedField F] [FloorRing F]
    (init : PSISuperCluster F) (num : Nat → F) (nTot : Int) (width lower higher : Nat → Int) :
    PSISuperCluster F :=
  let s : PSISuperCluster F := { init with nTot := nTot }
  let s := forLoop 0 4 (fun i (s : PSISuperCluster F) =>
    let s := { s with numAtom := Function.update s.numAtom (i : Int) (num i) }
    let s := { s with self := { s.self with size := s.self.size + truncToInt (num i) } }
    let s := { s with sectionWidth := Function.update s.sectionWidth (i : Int) (width i) }
    { s with self := { s.self with
        boundsBegin := Function.update s.self.boundsBegin i (lower i)
        boundsEnd := Function.update s.self.boundsEnd i (higher i + 1) } }) s
  let s := { s with composition := Function.update s.composition Species.He (truncToInt (num 0)) }
  let s := { s with composition := Function.update s.composition Species.D (truncToInt (num 1)) }
  let s := { s with composition := Function.update s.composition Species.T (truncToInt (num 2)) }
  let s := { s with composition := Function.update s.composition Species.V (truncToInt (num 3)) }
  let s := { s with composition := Function.update s.composition Species.I nTot }
  let s := { s with formationEnergy := 0 }
  let s := { s with migrationEnergy := none }
  let s := { s with diffusionFactor := 0 }
  let s := { s with self := { s.self with type := ReactantType.PSISuper } }
  { s with
    full := decide
      (mulInt (mulInt (mulInt (s.sectionWidth 0) (s.sectionWidth 1)) (s.sectionWidth 2))
        (s.sectionWidth 3) = s.nTot) }

/-- The first loop of `setHeVVector`: for every member, the reaction radius grows by
`rad / nTot` and `nSquare[axis]` by the square of the member's value on each axis.
`memberRadius v` stands for the radius `rad` of a member with `v` vacancies, which the
source computes with `sqrt`, `cbrt` and `pi`. -/
def setHeVVectorSums (memberRadius : Int → K) (s : PSISuperCluster K) :
    PSISuperCluster K × (Nat → K) :=
  forEach s.heVList (fun (st : PSISuperCluster K × (Nat → K)) pair =>
    let rad := memberRadius pair.2.2.2
    let s := { st.1 with reactionRadius := st.1.reactionRadius + rad / (st.1.nTot : K) }
    let nSquare := st.2
    let nSquare := addAt nSquare 0 ((pair.1 * pair.1 : Int) : K)
    let nSquare := addAt nSquare 1 ((pair.2.1 * pair.2.1 : Int) : K)
    let nSquare := addAt nSquare 2 ((pair.2.2.1 * pair.2.2.1 : Int) : K)
    let nSquare := addAt nSquare 3 ((pair.2.2.2 * pair.2.2.2 : Int) : K)
    (s, nSquare)) (s, fun _ => 0)

/-- `PSISuperCluster::setHeVVector`. -/
def setHeVVector (memberRadius : Int → K) (s : PSISuperCluster K)
    (vec : List (Int × Int × Int × Int)) : PSISuperCluster K :=
  let s := { s with heVList := vec }
  let r := setHeVVectorSums memberRadius s
  let s := r.1
  let nSquare := r.2
  forLoop 0 4 (fun i (s : PSISuperCluster K) =>
    if s.sectionWidth (i : Int) = 1 then
      { s with dispersion := Function.update s.dispersion (i : Int) 1 }
    else
      let d : K := 2 * (nSquare i - s.numAtom (i : Int) * (s.nTot : K) * s.numAtom (i : Int))
        / ((s.nTot * (s.sectionWidth (i : Int) - 1) : Int) : K)
      { s with dispersion := Function.update s.dispersion (i : Int) d }) s

/-! ## Connectivity -/

/-- Modelled from the spec: `setReactionConnectivity(id)` is declared in a header that is
not among the sources; it adds `id` to the reaction connectivity set.  The state is the
pair of the reaction and the dissociation connectivity set. -/
def setReactionConnectivity (c : Finset Int × Finset Int) (id : Int) :
    Finset Int × Finset Int :=
  (insert id c.1, c.2)

/-- Modelled from the spec: `setDissociationConnectivity(id)` is declared in a header that
is not among the sources; it adds `id` to the dissociation connectivity set. -/
def setDissociationConnectivity (c : Finset Int × Finset Int) (id : Int) :
    Finset Int × Finset Int :=
  (c.1, insert id c.2)

/-- The statements of `PSISuperCluster::resetConnectivities` that rebuild the two
connectivity sets, starting from the cleared sets.  The lists are only read. -/
def resetConnectivitySets (psDim : Nat) (indexList : Nat → Int) (s : PSISuperCluster K) :
    Finset Int × Finset Int :=
  let c : Finset Int × Finset Int := (∅, ∅)
  let c := setReactionConnectivity c s.self.id
  let c := setDissociationConnectivity c s.self.id
  let c := forLoop 0 4 (fun i c =>
    let c := setReactionConnectivity c (s.self.momId (i : Int))
    setDissociationConnectivity c (s.self.momId (i : Int))) c
  let c := forEach s.effReactingList (fun c currPair =>
    let c := setReactionConnectivity c currPair.first.id
    let c := setReactionConnectivity c currPair.second.id
    forLoop 1 psDim (fun i c =>
      let c := setReactionConnectivity c (currPair.first.momId (indexList i - 1))
      setReactionConnectivity c (currPair.second.momId (indexList i - 1))) c) c
  let c := forEach s.effCombiningList (fun c currComb =>
    let c := setReactionConnectivity c currComb.first.id
    forLoop 1 psDim (fun i c =>
      setReactionConnectivity c (currComb.first.momId (indexList i - 1))) c) c
  forEach s.effDissociatingList (fun c currPair =>
    let c := setDissociationConnectivity c currPair.first.id
    forLoop 1 psDim (fun i c =>
      setDissociationConnectivity c (currPair.first.momId (indexList i - 1))) c) c

/-- `PSISuperCluster::resetConnectivities`: both sets are cleared and rebuilt, then the
four lookup maps are cleared. -/
def resetConnectivities (psDim : Nat) (indexList : Nat → Int) (s : PSISuperCluster K) :
    PSISuperCluster K :=
  let c := resetConnectivitySets psDim indexList s
  let s := { s with reactionConnectivitySet := c.1, dissociationConnectivitySet := c.2 }
  let s := { s with effReactingListMap := [] }
  let s := { s with effCombiningListMap := [] }
  let s := { s with effDissociatingListMap := [] }
  { s with effEmissionListMap := [] }

/-! ## Unsupported vector queries -/

/-- The statement `assert(c);` followed by the rest of a function that returns `k`: a
failed assertion aborts and nothing is returned. -/
def assertThen {α : Type} (c : Bool) (k : α) : Option α :=
  if c then some k else none

/-- The loops `for i, j, k below psDim: tempVec.push_back(coefs[i][j][k])`. -/
def pushCoefs3 (psDim : Nat) (coefs : Nat → Nat → Nat → K) (tempVec : List K) : List K :=
  forLoop 0 psDim (fun i tempVec =>
    forLoop 0 psDim (fun j tempVec =>
      forLoop 0 psDim (fun k tempVec => tempVec ++ [coefs i j k]) tempVec) tempVec) tempVec

/-- The loops `for i, j below psDim: tempVec.push_back(coefs[i][j])`. -/
def pushCoefs2 (psDim : Nat) (coefs : Nat → Nat → K) (tempVec : List K) : List K :=
  forLoop 0 psDim (fun i tempVec =>
    forLoop 0 psDim (fun j tempVec => tempVec ++ [coefs i j]) tempVec) tempVec

/-- `PSISuperCluster::getProdVector`: `assert(false)` comes first. -/
def getProdVector (psDim : Nat) (s : PSISuperCluster K) : Option (List (List K)) :=
  assertThen false
    (forEach s.effReactingList (fun toReturn currPair =>
      let tempVec : List K := []
      let tempVec := tempVec ++ [((currPair.first.id - 1 : Int) : K)]
      let tempVec := tempVec ++ [((currPair.second.id - 1 : Int) : K)]
      let tempVec := pushCoefs3 psDim currPair.coefs tempVec
      toReturn ++ [tempVec]) [])

/-- `PSISuperCluster::getCombVector`: `assert(false)` comes first. -/
def getCombVector (psDim : Nat) (s : PSISuperCluster K) : Option (List (List K)) :=
  assertThen false
    (forEach s.effCombiningList (fun toReturn cc =>
      let tempVec : List K := []
      let tempVec := tempVec ++ [((cc.first.id - 1 : Int) : K)]
      let tempVec := pushCoefs3 psDim cc.coefs tempVec
      toReturn ++ [tempVec]) [])

/-- `PSISuperCluster::getDissoVector`: `assert(false)` comes first. -/
def getDissoVector (psDim : Nat) (s : PSISuperCluster K) : Option (List (List K)) :=
  assertThen false
    (forEach s.effDissociatingList (fun toReturn currPair =>
      let tempVec : List K := []
      let tempVec := tempVec ++ [((currPair.first.id - 1 : Int) : K)]
      let tempVec := tempVec ++ [((currPair.second.id - 1 : Int) : K)]
      let tempVec := pushCoefs2 psDim currPair.coefs tempVec
      toReturn ++ [tempVec]) [])

/-- `PSISuperCluster::getEmitVector`: `assert(false)` comes first. -/
def getEmitVector (psDim : Nat) (s : PSISuperCluster K) : Option (List (List K)) :=
  assertThen false
    (forEach s.effEmissionList (fun toReturn currPair =>
      let tempVec : List K := []
      let tempVec := tempVec ++ [((currPair.first.id - 1 : Int) : K)]
      let tempVec := tempVec ++ [((currPair.second.id - 1 : Int) : K)]
      let tempVec := pushCoefs2 psDim currPair.coefs tempVec
      toReturn ++ [tempVec]) [])

/-! ## Coefficient dump -/

/-- What is written to the output stream, one item per `<<`: the text of a string
literal, a cluster name, a list size, a `double`, the character `' '` or the character
`'\n'`.  The stream is the list of the items written so far; how a `double` is formatted
is left to the stream. -/
inductive OutToken (K : Type) where
  | text (str : String)
  | name (str : String)
  | count (n : Nat)
  | value (x : K)
  | space
  | newline

/-- `PSISuperCluster::dumpCoefficients(std::ostream&, ProductionCoefficientBase const&)`,
on the tensor of the entry. -/
def dumpCoefficients3 (psDim : Nat) (os : List (OutToken K)) (coefs : Nat → Nat → Nat → K) :
    List (OutToken K) :=
  let os := os ++ [OutToken.text "a[0-4][0-4][0-4]: "]
  forLoop 0 psDim (fun k os =>
    forLoop 0 psDim (fun j os =>
      forLoop 0 psDim (fun i os =>
        os ++ [OutToken.value (coefs k j i), OutToken.space]) os) os) os

/-- `PSISuperCluster::dumpCoefficients(std::ostream&, SuperDissociationPair const&)`, on
the matrix of the entry. -/
def dumpCoefficients2 (psDim : Nat) (os : List (OutToken K)) (coefs : Nat → Nat → K) :
    List (OutToken K) :=
  let os := os ++ [OutToken.text "a[0-4][0-4]: "]
  forLoop 0 psDim (fun j os =>
    forLoop 0 psDim (fun i os =>
      os ++ [OutToken.value (coefs j i), OutToken.space]) os) os

/-- `PSISuperCluster::outputCoefficientsTo`. -/
def outputCoefficientsTo (psDim : Nat) (s : PSISuperCluster K) (os : List (OutToken K)) :
    List (OutToken K) :=
  let os := os ++ [OutToken.text "name: ", OutToken.name s.self.name, OutToken.newline]
  let os := os ++ [OutToken.text "reacting: ", OutToken.count s.effReactingList.length,
    OutToken.newline]
  let os := forEach s.effReactingList (fun os currPair =>
    let os := os ++ [OutToken.text "first: ", OutToken.name currPair.first.name,
      OutToken.text "; second: ", OutToken.name currPair.second.name, OutToken.text ";"]
    let os := dumpCoefficients3 psDim os currPair.coefs
    os ++ [OutToken.newline]) os
  let os := os ++ [OutToken.text "combining: ", OutToken.count s.effCombiningList.length,
    OutToken.newline]
  let os := forEach s.effCombiningList (fun os currComb =>
    let os := os ++ [OutToken.text "other: ", OutToken.name currComb.first.name,
      OutToken.text ";"]
    let os := dumpCoefficients3 psDim os currComb.coefs
    os ++ [OutToken.newline]) os
  let os := os ++ [OutToken.text "dissociating: ",
    OutToken.count s.effDissociatingList.length, OutToken.newline]
  let os := forEach s.effDissociatingList (fun os currPair =>
    let os := os ++ [OutToken.text "first: ", OutToken.name currPair.first.name,
      OutToken.text "; second: ", OutToken.name currPair.second.name, OutToken.text "; "]
    let os := dumpCoefficients2 psDim os currPair.coefs
    os ++ [OutToken.newline]) os
  let os := os ++ [OutToken.text "emitting: ", OutToken.count s.effEmissionList.length,
    OutToken.newline]
  forEach s.effEmissionList (fun os currPair =>
    let os := os ++ [OutToken.text "first: ", OutToken.name currPair.first.name,
      OutToken.text "; second: ", OutToken.name currPair.second.name, OutToken.text "; "]
    let os := dumpCoefficients2 psDim os currPair.coefs
    os ++ [OutToken.newline]) os

/-- Row-major order as the specification states it: the `psDim^3` values of a tensor,
value number `n` being `coefs[n / psDim / psDim][n / psDim % psDim][n % psDim]` (the last
index runs fastest). -/
def rowMajor3 (psDim : Nat) (coefs : Nat → Nat → Nat → K) : List K :=
  (List.range (psDim * psDim * psDim)).map
    (fun n => coefs (n / psDim / psDim) (n / psDim % psDim) (n % psDim))

/-- Row-major order as the specification states it: the `psDim^2` values of a matrix,
value number `n` being `coefs[n / psDim][n % psDim]`. -/
def rowMajor2 (psDim : Nat) (coefs : Nat → Nat → K) : List K :=
  (List.range (psDim * psDim)).map (fun n => coefs (n / psDim) (n % psDim))

/-! ## Batch updates -/

/-- Modelled from the spec: `PendingProductionReactionInfo` is declared in a header that
is not among the sources; the batch updates read its two composition arrays `a` (the
product or emitted member) and `b` (the reacting member). -/
structure PendingProductionReactionInfo where
  a : Int → Int
  b : Int → Int

/-- The `for_each` over `prInfos` in
`resultFrom(ProductionReaction&, const std::vector<PendingProductionReactionInfo>&)`,
acting on the entry `prodPair`. -/
def resultFromBatchEntry (psDim : Nat) (indexList : Nat → Int) (s : PSISuperCluster K)
    (prInfos : List PendingProductionReactionInfo) (prodPair : ProductionPair K) :
    ProductionPair K :=
  forEach prInfos (fun (prodPair : ProductionPair K) currPRI =>
    let firstDistance := operandDistance psDim indexList prodPair.first currPRI.b
    let secondDistance := operandDistance psDim indexList prodPair.second currPRI.b
    let factor := ownFactor psDim indexList s.self currPRI.a
    { prodPair with
      coefs := forLoop 0 psDim (fun k coefs =>
        forLoop 0 psDim (fun j coefs =>
          forLoop 0 psDim (fun i coefs =>
            addAt3 coefs i j k (firstDistance i * secondDistance j * factor k)) coefs) coefs)
        prodPair.coefs }) prodPair

/-- `PSISuperCluster::resultFrom(ProductionReaction&,
const std::vector<PendingProductionReactionInfo>&)`. -/
def resultFromBatch (psDim : Nat) (indexList : Nat → Int) (s : PSISuperCluster K)
    (reaction : ProductionReaction K) (prInfos : List PendingProductionReactionInfo) :
    Option (PSISuperCluster K) :=
  match addToEffReactingList s reaction with
  | none => none
  | some (s1, listit) =>
    some { s1 with
      effReactingList :=
        modifyAt s1.effReactingList listit (resultFromBatchEntry psDim indexList s1 prInfos) }

/-- The `for_each` over `pendingPRInfos` in
`participateIn(ProductionReaction&, const std::vector<PendingProductionReactionInfo>&)`:
distance and factor of this cluster are both taken from `currPRInfo.b`. -/
def participateInProductionBatchEntry (psDim : Nat) (indexList : Nat → Int)
    (s : PSISuperCluster K) (pendingPRInfos : List PendingProductionReactionInfo)
    (combCluster : CombiningCluster K) : CombiningCluster K :=
  forEach pendingPRInfos (fun (combCluster : CombiningCluster K) currPRInfo =>
    let distance := ownDistance psDim indexList s.self currPRInfo.b
    let factor := ownFactor psDim indexList s.self currPRInfo.b
    { combCluster with
      coefs := forLoop 0 psDim (fun k coefs =>
        forLoop 0 psDim (fun j coefs => addAt3 coefs j 0 k (distance j * factor k)) coefs)
        combCluster.coefs }) combCluster

/-- `PSISuperCluster::participateIn(ProductionReaction&,
const std::vector<PendingProductionReactionInfo>&)`. -/
def participateInProductionBatch (psDim : Nat) (indexList : Nat → Int)
    (s : PSISuperCluster K) (reaction : ProductionReaction K)
    (pendingPRInfos : List PendingProductionReactionInfo) : Option (PSISuperCluster K) :=
  match addToEffCombiningList s reaction with
  | none => none
  | some (s1, listit) =>
    some { s1 with
      effCombiningList :=
        modifyAt s1.effCombiningList listit
          (participateInProductionBatchEntry psDim indexList s1 pendingPRInfos) }

/-- The `for_each` over `prInfos` in
`participateIn(DissociationReaction&, const std::vector<PendingProductionReactionInfo>&)`:
the distance of the dissociating parent is taken from `currPRI.a`, this cluster's factor
from `currPRI.b`. -/
def participateInDissociationBatchEntry (psDim : Nat) (indexList : Nat → Int)
    (s : PSISuperCluster K) (reaction : DissociationReaction K)
    (prInfos : List PendingProductionReactionInfo) (dissPair : DissociationPair K) :
    DissociationPair K :=
  forEach prInfos (fun (dissPair : DissociationPair K) currPRI =>
    let distance := operandDistance psDim indexList reaction.dissociating currPRI.a
    let factor := ownFactor psDim indexList s.self currPRI.b
    { dissPair with
      coefs := forLoop 0 psDim (fun j coefs =>
        forLoop 0 psDim (fun i coefs => addAt2 coefs i j (distance i * factor j)) coefs)
        dissPair.coefs }) dissPair

/-- `PSISuperCluster::participateIn(DissociationReaction&,
const std::vector<PendingProductionReactionInfo>&)`. -/
def participateInDissociationBatch (psDim : Nat) (indexList : Nat → Int)
    (s : PSISuperCluster K) (reaction : DissociationReaction K)
    (prInfos : List PendingProductionReactionInfo) : Option (PSISuperCluster K) :=
  match addToEffDissociatingList s reaction with
  | none => none
  | some (s1, listit) =>
    some { s1 with
      effDissociatingList :=
        modifyAt s1.effDissociatingList listit
          (participateInDissociationBatchEntry psDim indexList s1 reaction prInfos) }

/-- The `for_each` over `prInfos` in
`emitFrom(DissociationReaction&, const std::vector<PendingProductionReactionInfo>&)`:
distance and factor of this cluster are both taken from `currPRI.a`. -/
def emitFromBatchEntry (psDim : Nat) (indexList : Nat → Int) (s : PSISuperCluster K)
    (prInfos : List PendingProductionReactionInfo) (dissPair : DissociationPair K) :
    DissociationPair K :=
  forEach prInfos (fun (dissPair : DissociationPair K) currPRI =>
    let distance := ownDistance psDim indexList s.self currPRI.a
    let factor := ownFactor psDim indexList s.self currPRI.a
    { dissPair with
      coefs := forLoop 0 psDim (fun j coefs =>
        forLoop 0 psDim (fun i coefs => addAt2 coefs i j (distance i * factor j)) coefs)
        dissPair.coefs }) dissPair

/-- `PSISuperCluster::emitFrom(DissociationReaction&,
const std::vector<PendingProductionReactionInfo>&)`. -/
def emitFromBatch (psDim : Nat) (indexList : Nat → Int) (s : PSISuperCluster K)
    (reaction : DissociationReaction K) (prInfos : List PendingProductionReactionInfo) :
    Option (PSISuperCluster K) :=
  match addToEffEmissionList s reaction with
  | none => none
  | some (s1, listit) =>
    some { s1 with
      effEmissionList :=
        modifyAt s1.effEmissionList listit (emitFromBatchEntry psDim indexList s1 prInfos) }

/-- An entry of the combining list that was created by `addToEffCombiningList` for the
partner `other` and has since been touched only by the explicit update
`participateIn(ProductionReaction&, int a[4])` and the batch update
`participateIn(ProductionReaction&, const std::vector<PendingProductionReactionInfo>&)`. -/
inductive BuiltByCombiningUpdates (psDim : Nat) (indexList : Nat → Int)
    (s : PSISuperCluster K) (reaction : ProductionReaction K) (other : PSICluster K) :
    CombiningCluster K → Prop where
  | created : BuiltByCombiningUpdates psDim indexList s reaction other
      (CombiningCluster.create reaction other)
  | explicit (a : Int → Int) (e : CombiningCluster K) :
      BuiltByCombiningUpdates psDim indexList s reaction other e →
      BuiltByCombiningUpdates psDim indexList s reaction other
        (participateInProductionEntry psDim indexList s a e)
  | batch (prInfos : List PendingProductionReactionInfo) (e : CombiningCluster K) :
      BuiltByCombiningUpdates psDim indexList s reaction other e →
      BuiltByCombiningUpdates psDim indexList s reaction other
        (participateInProductionBatchEntry psDim indexList s prInfos e)

/-! ## Jacobian assembly by direct global index -/

/-- Body of the `for_each` in `computeProdPartials2` (the branch compiled when `READY`
is not defined).  The columns are written directly: `getId() - 1` for `j == 0`, and
`getMomentId(indexList[j] - 1)` for `j >= 1`. -/
def computeProdPartials2Body (psDim : Nat) (indexList : Nat → Int)
    (s : PSISuperCluster K) (concs : Int → K) (xi : Nat) (partials : Nat → Int → K)
    (currPair : ProductionPair K) : Nat → Int → K :=
  let firstReactant := currPair.first
  let secondReactant := currPair.second
  let lA := gatherMoments psDim indexList firstReactant concs
  let lB := gatherMoments psDim indexList secondReactant concs
  let sum := productionPartialSums psDim currPair.coefs lA lB
  let value := currPair.reaction.kConstant xi / (s.nTot : K)
  forLoop 0 psDim (fun j partials =>
    let indexA := if j = 0 then firstReactant.id - 1 else firstReactant.momId (indexList j - 1)
    let indexB :=
      if j = 0 then secondReactant.id - 1 else secondReactant.momId (indexList j - 1)
    forLoop 0 psDim (fun i partials =>
      let partials := addPartial partials i indexA (value * sum i j 0)
      addPartial partials i indexB (value * sum i j 1)) partials) partials

/-- `PSISuperCluster::computeProdPartials2`. -/
def computeProdPartials2 (psDim : Nat) (indexList : Nat → Int) (s : PSISuperCluster K)
    (concs : Int → K) (xi : Nat) (partials : Nat → Int → K) : Nat → Int → K :=
  forEach s.effReactingList (computeProdPartials2Body psDim indexList s concs xi) partials

/-- Body of the `for_each` in `computeCombPartials2`. -/
def computeCombPartials2Body (psDim : Nat) (indexList : Nat → Int)
    (s : PSISuperCluster K) (concs : Int → K) (xi : Nat) (partials : Nat → Int → K)
    (currComb : CombiningCluster K) : Nat → Int → K :=
  let cluster := currComb.first
  let lA := gatherMoments psDim indexList s.self concs
  let lB := gatherMoments psDim indexList cluster concs
  let sum := combinationPartialSums psDim currComb.coefs lA lB
  let value := currComb.reaction.kConstant xi / (s.nTot : K)
  forLoop 0 psDim (fun j partials =>
    let indexA := if j = 0 then cluster.id - 1 else cluster.momId (indexList j - 1) - 1
    let indexB := if j = 0 then s.self.id - 1 else s.self.momId (indexList j - 1) - 1
    forLoop 0 psDim (fun i partials =>
      let partials := subPartial partials i indexA (value * sum i j 0)
      subPartial partials i indexB (value * sum i j 1)) partials) partials

/-- `PSISuperCluster::computeCombPartials2`. -/
def computeCombPartials2 (psDim : Nat) (indexList : Nat → Int) (s : PSISuperCluster K)
    (concs : Int → K) (xi : Nat) (partials : Nat → Int → K) : Nat → Int → K :=
  forEach s.effCombiningList (computeCombPartials2Body psDim indexList s concs xi) partials

/-- Body of the `for_each` in `computeDissPartials2`. -/
def computeDissPartials2Body (psDim : Nat) (indexList : Nat → Int)
    (s : PSISuperCluster K) (xi : Nat) (partials : Nat → Int → K)
    (currPair : DissociationPair K) : Nat → Int → K :=
  let cluster := currPair.first
  let value := currPair.reaction.kConstant xi / (s.nTot : K)
  forLoop 0 psDim (fun j partials =>
    let index := if j = 0 then cluster.id - 1 else cluster.momId (indexList j - 1) - 1
    forLoop 0 psDim (fun i partials =>
      addPartial partials i index (value * currPair.coefs j i)) partials) partials

/-- `PSISuperCluster::computeDissPartials2`. -/
def computeDissPartials2 (psDim : Nat) (indexList : Nat → Int) (s : PSISuperCluster K)
    (xi : Nat) (partials : Nat → Int → K) : Nat → Int → K :=
  forEach s.effDissociatingList (computeDissPartials2Body psDim indexList s xi) partials

/-- Body of the `for_each` in `computeEmitPartials2`. -/
def computeEmitPartials2Body (psDim : Nat) (indexList : Nat → Int)
    (s : PSISuperCluster K) (xi : Nat) (partials : Nat → Int → K)
    (currPair : DissociationPair K) : Nat → Int → K :=
  let value := currPair.reaction.kConstant xi / (s.nTot : K)
  forLoop 0 psDim (fun j partials =>
    let index := if j = 0 then s.self.id - 1 else s.self.momId (indexList j - 1) - 1
    forLoop 0 psDim (fun i partials =>
      subPartial partials i index (value * currPair.coefs j i)) partials) partials

/-- `PSISuperCluster::computeEmitPartials2`. -/
def computeEmitPartials2 (psDim : Nat) (indexList : Nat → Int) (s : PSISuperCluster K)
    (xi : Nat) (partials : Nat → Int → K) : Nat → Int → K :=
  forEach s.effEmissionList (computeEmitPartials2Body psDim indexList s xi) partials

/-- `PSISuperCluster::computePartialDerivatives2`: the four direct-index assemblers in
the order production, combination, dissociation, emission. -/
def computePartialDerivatives2 (psDim : Nat) (indexList : Nat → Int) (s : PSISuperCluster K)
    (concs : Int → K) (xi : Nat) (partials : Nat → Int → K) : Nat → Int → K :=
  let partials := computeProdPartials2 psDim indexList s concs xi partials
  let partials := computeCombPartials2 psDim indexList s concs xi partials
  let partials := computeDissPartials2 psDim indexList s xi partials
  computeEmitPartials2 psDim indexList s xi partials

/-- `PSISuperCluster::computePartialDerivatives`: the four general assemblers in the
order production, combination, dissociation, emission; `none` when a lookup in the
caller's index map throws. -/
def computePartialDerivatives (psDim : Nat) (indexList : Nat → Int) (s : PSISuperCluster K)
    (concs : Int → K) (xi : Nat) (partialsIdxMap : Nat → Int → Option Int)
    (partials : Nat → Int → K) : Option (Nat → Int → K) :=
  (computeProductionPartialDerivatives psDim indexList s concs xi partialsIdxMap partials).bind
    fun partials =>
  (computeCombinationPartialDerivatives psDim indexList s concs xi partialsIdxMap partials).bind
    fun partials =>
  (computeDissociationPartialDerivatives psDim indexList s xi partialsIdxMap partials).bind
    fun partials =>
  computeEmissionPartialDerivatives psDim indexList s xi partialsIdxMap partials

/-- `PSISuperCluster::computeProdPartials0`, over the reduced reacting list. -/
def computeProdPartials0 (s : PSISuperCluster K) (concs : Int → K) (xi : Nat)
    (partials : Int → K) : Int → K :=
  forEach s.effReactingList0 (fun partials (currPair : ProductionPair0 K) =>
    let firstReactant := currPair.first
    let secondReactant := currPair.second
    let lA := firstReactant.getConcentration concs
    let lB := secondReactant.getConcentration concs
    let sum0 := currPair.coeff0 * lB
    let sum1 := currPair.coeff0 * lA
    let value := currPair.reaction.kConstant xi / (s.nTot : K)
    let indexA := firstReactant.id - 1
    let indexB := secondReactant.id - 1
    let partials := addAt partials indexA (value * sum0)
    addAt partials indexB (value * sum1)) partials

/-- `PSISuperCluster::computeCombPartials0`, over the reduced combining list. -/
def computeCombPartials0 (s : PSISuperCluster K) (concs : Int → K) (xi : Nat)
    (partials : Int → K) : Int → K :=
  forEach s.effCombiningList0 (fun partials (currComb : CombiningCluster0 K) =>
    let cluster := currComb.first
    let lA := s.self.getConcentration concs
    let lB := cluster.getConcentration concs
    let sum0 := currComb.coeff0 * lA
    let sum1 := currComb.coeff0 * lB
    let value := currComb.reaction.kConstant xi / (s.nTot : K)
    let indexA := cluster.id - 1
    let indexB := s.self.id - 1
    let partials := subAt partials indexA (value * sum0)
    subAt partials indexB (value * sum1)) partials

/-- `PSISuperCluster::computeDissPartials0`, over the reduced dissociating list. -/
def computeDissPartials0 (s : PSISuperCluster K) (xi : Nat) (partials : Int → K) : Int → K :=
  forEach s.effDissociatingList0 (fun partials (currPair : DissociationPair0 K) =>
    let cluster := currPair.first
    let value := currPair.reaction.kConstant xi / (s.nTot : K)
    let index := cluster.id - 1
    addAt partials index (value * currPair.coeff0)) partials

/-- `PSISuperCluster::computeEmitPartials0`, over the reduced emission list. -/
def computeEmitPartials0 (s : PSISuperCluster K) (xi : Nat) (partials : Int → K) : Int → K :=
  forEach s.effEmissionList0 (fun partials (currPair : DissociationPair0 K) =>
    let value := currPair.reaction.kConstant xi / (s.nTot : K)
    let index := s.self.id - 1
    subAt partials index (value * currPair.coeff0)) partials

/-! ## Integrated concentrations -/

/-- `std::get<Axis>(pair)` on a member tuple `(He, D, T, V)`. -/
def tupleGet (pair : Int × Int × Int × Int) (axis : Nat) : Int :=
  match axis with
  | 0 => pair.1
  | 1 => pair.2.1
  | 2 => pair.2.2.1
  | _ => pair.2.2.2

/-- `PSISuperCluster::getTotalConcentration`.  The five-argument overload
`getConcentration(concs, heDistance, dDistance, tDistance, vDistance)` lives in a header
that is not among the sources and is the parameter `getConcentration`. -/
def getTotalConcentration (getConcentration : (Int → K) → K → K → K → K → K)
    (s : PSISuperCluster K) (concs : Int → K) : K :=
  forEach s.heVList (fun (conc : K) pair =>
    let heDistance := s.self.getDistance (tupleGet pair 0) 0
    let dDistance := s.self.getDistance (tupleGet pair 1) 1
    let tDistance := s.self.getDistance (tupleGet pair 2) 2
    let vDistance := s.self.getDistance (tupleGet pair 3) 3
    conc + getConcentration concs heDistance dDistance tDistance vDistance) 0

/-- `PSISuperCluster::getTotalAtomConcHelper<Axis>`. -/
def getTotalAtomConcHelper (getConcentration : (Int → K) → K → K → K → K → K)
    (axis : Nat) (s : PSISuperCluster K) (concs : Int → K) : K :=
  forEach s.heVList (fun (conc : K) pair =>
    let heDistance := s.self.getDistance (tupleGet pair 0) 0
    let dDistance := s.self.getDistance (tupleGet pair 1) 1
    let tDistance := s.self.getDistance (tupleGet pair 2) 2
    let vDistance := s.self.getDistance (tupleGet pair 3) 3
    conc + getConcentration concs heDistance dDistance tDistance vDistance
      * ((tupleGet pair axis : Int) : K)) 0

/-- `PSISuperCluster::getTotalAtomConcentration`: `none` is the failed
`assert(axis <= 2)`; a negative axis falls through the `switch` and returns 0. -/
def getTotalAtomConcentration (getConcentration : (Int → K) → K → K → K → K → K)
    (s : PSISuperCluster K) (concs : Int → K) (axis : Int) : Option K :=
  if axis ≤ 2 then
    some (if axis = 0 then getTotalAtomConcHelper getConcentration 0 s concs
      else if axis = 1 then getTotalAtomConcHelper getConcentration 1 s concs
      else if axis = 2 then getTotalAtomConcHelper getConcentration 2 s concs
      else 0)
  else none

/-- `PSISuperCluster::getTotalVacancyConcentration`. -/
def getTotalVacancyConcentration (getConcentration : (Int → K) → K → K → K → K → K)
    (s : PSISuperCluster K) (concs : Int → K) : K :=
  getTotalAtomConcHelper getConcentration 3 s concs

/-- `PSISuperCluster::getIntegratedVConcentration`: members whose vacancy value differs
from `v` are skipped. -/
def getIntegratedVConcentration (getConcentration : (Int → K) → K → K → K → K → K)
    (s : PSISuperCluster K) (concs : Int → K) (v : Int) : K :=
  forEach s.heVList (fun (conc : K) pair =>
    if tupleGet pair 3 ≠ v then conc
    else
      let heDistance := s.self.getDistance (tupleGet pair 0) 0
      let dDistance := s.self.getDistance (tupleGet pair 1) 1
      let tDistance := s.self.getDistance (tupleGet pair 2) 2
      let vDistance := s.self.getDistance (tupleGet pair 3) 3
      conc + getConcentration concs heDistance dDistance tDistance vDistance) 0

/-! ## Overlap-region derivations with checked divisions -/

/-- A division of the overlap-region derivations with its divisor checked: `none` when
the divisor is zero. -/
def checkedDiv [DecidableEq K] (x y : K) : Option K :=
  if y = 0 then none else some (x / y)

/-- The block `// Compute the coefficients` of
`resultFrom(ProductionReaction&, IReactant& product)` with every division checked. -/
def resultFromOverlapCoefsChecked [DecidableEq K] (sums : MomentSums K) (psDim : Nat)
    (indexList : Nat → Int) (s : PSISuperCluster K) (o : OverlapRegion)
    (prodPair : ProductionPair K) : Option (ProductionPair K) :=
  let prodPair := { prodPair with coefs := addAt3 prodPair.coefs 0 0 0 (o.nOverlap : K) }
  forLoopM 1 psDim (fun i (prodPair : ProductionPair K) => do
    let q ← checkedDiv (o.nOverlap : K) (s.dispersion (indexList i - 1) * (o.width (i - 1) : K))
    let v : K := q * sums.firstOrderSum
            (max (o.lo (i - 1)) (o.r1Lo (i - 1) + o.singleComp (i - 1)))
            (min (o.hi (i - 1)) (o.r1Hi (i - 1) + o.singleComp (i - 1)))
            (s.numAtom (indexList i - 1))
    let prodPair := { prodPair with coefs := addAt3 prodPair.coefs 0 0 i v }
    let prodPair ←
      if o.r1Hi (i - 1) ≠ o.r1Lo (i - 1) then do
        let q ← checkedDiv (((o.nOverlap * 2 : Int) : K))
            (((o.r1Hi (i - 1) - o.r1Lo (i - 1)) * o.width (i - 1) : Int) : K)
        let mean ← checkedDiv (((o.r1Lo (i - 1) + o.r1Hi (i - 1) : Int) : K)) 2
        let a : K := q * sums.firstOrderSum
            (max (o.lo (i - 1) - o.singleComp (i - 1)) (o.r1Lo (i - 1)))
            (min (o.hi (i - 1) - o.singleComp (i - 1)) (o.r1Hi (i - 1)))
            mean
        let prodPair :=
          { prodPair with coefs := addAt3 prodPair.coefs 0 i 0 (mixedFactor prodPair.second * a) }
        let prodPair :=
          { prodPair with coefs := addAt3 prodPair.coefs i 0 0 (mixedFactor prodPair.first * a) }
        let q ← checkedDiv (((o.nOverlap * 2 : Int) : K))
            ((((o.r1Hi (i - 1) - o.r1Lo (i - 1)) * o.width (i - 1) : Int) : K)
                * s.dispersion (indexList i - 1))
        let mean ← checkedDiv (((o.r1Lo (i - 1) + o.r1Hi (i - 1) : Int) : K)) 2
        let a : K := q * sums.secondOrderOffsetSum
            (max (o.lo (i - 1)) (o.r1Lo (i - 1) + o.singleComp (i - 1)))
            (min (o.hi (i - 1)) (o.r1Hi (i - 1) + o.singleComp (i - 1)))
            (s.numAtom (indexList i - 1))
            mean
            (-o.singleComp (i - 1))
        let prodPair :=
          { prodPair with coefs := addAt3 prodPair.coefs 0 i i (mixedFactor prodPair.second * a) }
        pure { prodPair with coefs := addAt3 prodPair.coefs i 0 i (mixedFactor prodPair.first * a) }
      else pure prodPair
    forLoopM 1 psDim (fun j (prodPair : ProductionPair K) =>
      if i = j then pure prodPair
      else if o.r1Hi (i - 1) ≠ o.r1Lo (i - 1) then do
        let q ← checkedDiv (((o.nOverlap * 2 : Int) : K))
            ((((o.r1Hi (i - 1) - o.r1Lo (i - 1)) * o.width (i - 1) * o.width (j - 1) : Int) : K)
                * s.dispersion (indexList j - 1))
        let mean ← checkedDiv (((o.r1Lo (i - 1) + o.r1Hi (i - 1) : Int) : K)) 2
        let a : K := q
          * sums.firstOrderSum
            (max (o.lo (i - 1) - o.singleComp (i - 1)) (o.r1Lo (i - 1)))
            (min (o.hi (i - 1) - o.singleComp (i - 1)) (o.r1Hi (i - 1)))
            mean
          * sums.firstOrderSum
            (max (o.lo (j - 1)) (o.r1Lo (j - 1) + o.singleComp (j - 1)))
            (min (o.hi (j - 1)) (o.r1Hi (j - 1) + o.singleComp (j - 1)))
            (s.numAtom (indexList j - 1))
        let prodPair :=
          { prodPair with coefs := addAt3 prodPair.coefs 0 i j (mixedFactor prodPair.second * a) }
        pure { prodPair with coefs := addAt3 prodPair.coefs i 0 j (mixedFactor prodPair.first * a) }
      else pure prodPair) prodPair) prodPair

/-- The loop body of `participateIn(ProductionReaction&, IReactant& product)` with every
division checked. -/
def participateInProductionOverlapStepChecked [DecidableEq K] (sums : MomentSums K)
    (psDim : Nat) (indexList : Nat → Int) (s : PSISuperCluster K) (o : OverlapRegion)
    (i : Nat) (combCluster : CombiningCluster K) : Option (CombiningCluster K) := do
  let q ← checkedDiv (o.nOverlap : K) (s.dispersion (indexList i - 1) * (o.width (i - 1) : K))
  let v : K := q * sums.firstOrderSum
          (max (o.lo (i - 1) - o.singleComp (i - 1)) (o.r1Lo (i - 1)))
          (min (o.hi (i - 1) - o.singleComp (i - 1)) (o.r1Hi (i - 1)))
          (s.numAtom (indexList i - 1))
  let combCluster := { combCluster with coefs := addAt3 combCluster.coefs 0 0 i v }
  let combCluster ←
    if s.sectionWidth (indexList i - 1) ≠ 1 then do
      let q ← checkedDiv (((o.nOverlap * 2 : Int) : K))
          (((s.sectionWidth (indexList i - 1) - 1) * o.width (i - 1) : Int) : K)
      let v : K := q * sums.firstOrderSum
          (max (o.lo (i - 1) - o.singleComp (i - 1)) (o.r1Lo (i - 1)))
          (min (o.hi (i - 1) - o.singleComp (i - 1)) (o.r1Hi (i - 1)))
          (s.numAtom (indexList i - 1))
      pure { combCluster with coefs := addAt3 combCluster.coefs i 0 0 v }
    else pure combCluster
  let combCluster ←
    if s.sectionWidth (indexList i - 1) ≠ 1 then do
      let q ← checkedDiv (((o.nOverlap * 2 : Int) : K))
          ((((s.sectionWidth (indexList i - 1) - 1) * o.width (i - 1) : Int) : K)
              * s.dispersion (indexList i - 1))
      let v : K := q * sums.secondOrderSum
          (max (o.lo (i - 1) - o.singleComp (i - 1)) (o.r1Lo (i - 1)))
          (min (o.hi (i - 1) - o.singleComp (i - 1)) (o.r1Hi (i - 1)))
          (s.numAtom (indexList i - 1))
      pure { combCluster with coefs := addAt3 combCluster.coefs i 0 i v }
    else pure combCluster
  forLoopM 1 psDim (fun j (combCluster : CombiningCluster K) =>
    if i = j then pure combCluster
    else if s.sectionWidth (indexList i - 1) ≠ 1 then do
      let q ← checkedDiv (((o.nOverlap * 2 : Int) : K))
          ((((s.sectionWidth (indexList i - 1) - 1) * o.width (i - 1) * o.width (j - 1) : Int) : K)
              * s.dispersion (indexList j - 1))
      let v : K := q
        * sums.firstOrderSum
          (max (o.lo (i - 1) - o.singleComp (i - 1)) (o.r1Lo (i - 1)))
          (min (o.hi (i - 1) - o.singleComp (i - 1)) (o.r1Hi (i - 1)))
          (s.numAtom (indexList i - 1))
        * sums.firstOrderSum
          (max (o.lo (j - 1) - o.singleComp (j - 1)) (o.r1Lo (j - 1)))
          (min (o.hi (j - 1) - o.singleComp (j - 1)) (o.r1Hi (j - 1)))
          (s.numAtom (indexList j - 1))
      pure { combCluster with coefs := addAt3 combCluster.coefs i 0 j v }
    else pure combCluster) combCluster

/-- The block `// Compute the coefficients` of
`participateIn(ProductionReaction&, IReactant& product)` with every division checked. -/
def participateInProductionOverlapCoefsChecked [DecidableEq K] (sums : MomentSums K)
    (psDim : Nat) (indexList : Nat → Int) (s : PSISuperCluster K) (o : OverlapRegion)
    (combCluster : CombiningCluster K) : Option (CombiningCluster K) :=
  let combCluster :=
    { combCluster with coefs := addAt3 combCluster.coefs 0 0 0 (o.nOverlap : K) }
  forLoopM 1 psDim (participateInProductionOverlapStepChecked sums psDim indexList s o)
    combCluster

/-- The block `// Compute the coefficients` of
`participateIn(DissociationReaction&, IReactant& disso)` with every division checked. -/
def participateInDissociationOverlapCoefsChecked [DecidableEq K] (sums : MomentSums K)
    (psDim : Nat) (indexList : Nat → Int) (s : PSISuperCluster K) (o : OverlapRegion)
    (dissPair : DissociationPair K) : Option (DissociationPair K) :=
  let dissPair := { dissPair with coefs := addAt2 dissPair.coefs 0 0 (o.nOverlap : K) }
  forLoopM 1 psDim (fun i (dissPair : DissociationPair K) => do
    let q ← checkedDiv (o.nOverlap : K) (s.dispersion (indexList i - 1) * (o.width (i - 1) : K))
    let v : K := q * sums.firstOrderSum
            (max (o.lo (i - 1) - o.singleComp (i - 1)) (o.r1Lo (i - 1)))
            (min (o.hi (i - 1) - o.singleComp (i - 1)) (o.r1Hi (i - 1)))
            (s.numAtom (indexList i - 1))
    let dissPair := { dissPair with coefs := addAt2 dissPair.coefs 0 i v }
    let dissPair ←
      if o.hi (i - 1) ≠ o.lo (i - 1) then do
        let q ← checkedDiv (((2 * o.nOverlap : Int) : K))
            (((o.hi (i - 1) - o.lo (i - 1)) * o.width (i - 1) : Int) : K)
        let mean ← checkedDiv (((o.lo (i - 1) + o.hi (i - 1) : Int) : K)) 2
        let v : K := q * sums.firstOrderSum
            (max (o.lo (i - 1)) (o.r1Lo (i - 1) + o.singleComp (i - 1)))
            (min (o.hi (i - 1)) (o.r1Hi (i - 1) + o.singleComp (i - 1)))
            mean
        let dissPair := { dissPair with coefs := addAt2 dissPair.coefs i 0 v }
        let q ← checkedDiv (((2 * o.nOverlap : Int) : K))
            ((((o.hi (i - 1) - o.lo (i - 1)) * o.width (i - 1) : Int) : K)
                * s.dispersion (indexList i - 1))
        let mean ← checkedDiv (((o.lo (i - 1) + o.hi (i - 1) : Int) : K)) 2
        let v : K := q * sums.secondOrderOffsetSum
            (max (o.lo (i - 1)) (o.r1Lo (i - 1) + o.singleComp (i - 1)))
            (min (o.hi (i - 1)) (o.r1Hi (i - 1) + o.singleComp (i - 1)))
            mean
            (s.numAtom (indexList i - 1))
            (-o.singleComp (i - 1))
        pure { dissPair with coefs := addAt2 dissPair.coefs i i v }
      else pure dissPair
    forLoopM 1 psDim (fun j (dissPair : DissociationPair K) =>
      if i = j then pure dissPair
      else if o.hi (i - 1) ≠ o.lo (i - 1) then do
        let q ← checkedDiv (((o.nOverlap * 2 : Int) : K))
            ((((o.hi (i - 1) - o.lo (i - 1)) * o.width (i - 1) * o.width (j - 1) : Int) : K)
                * s.dispersion (indexList j - 1))
        let mean ← checkedDiv (((o.lo (i - 1) + o.hi (i - 1) : Int) : K)) 2
        let v : K := q
          * sums.firstOrderSum
            (max (o.lo (i - 1)) (o.singleComp (i - 1) + o.r1Lo (i - 1)))
            (min (o.hi (i - 1)) (o.singleComp (i - 1) + o.r1Hi (i - 1)))
            mean
          * sums.firstOrderSum
            (max (o.lo (j - 1) - o.singleComp (j - 1)) (o.r1Lo (j - 1)))
            (min (o.hi (j - 1) - o.singleComp (j - 1)) (o.r1Hi (j - 1)))
            (s.numAtom (indexList j - 1))
        pure { dissPair with coefs := addAt2 dissPair.coefs i j v }
      else pure dissPair) dissPair) dissPair

/-- The loop body of `emitFrom(DissociationReaction&, IReactant& disso)` with every
division checked. -/
def emitFromOverlapStepChecked [DecidableEq K] (sums : MomentSums K) (psDim : Nat)
    (indexList : Nat → Int) (s : PSISuperCluster K) (o : OverlapRegion) (i : Nat)
    (dissPair : DissociationPair K) : Option (DissociationPair K) := do
  let q ← checkedDiv (o.nOverlap : K) (s.dispersion (indexList i - 1) * (o.width (i - 1) : K))
  let v : K := q * sums.firstOrderSum
          (max (o.lo (i - 1)) (o.r1Lo (i - 1) + o.singleComp (i - 1)))
          (min (o.hi (i - 1)) (o.r1Hi (i - 1) + o.singleComp (i - 1)))
          (s.numAtom (indexList i - 1))
  let dissPair := { dissPair with coefs := addAt2 dissPair.coefs 0 i v }
  let dissPair ←
    if s.sectionWidth (indexList i - 1) ≠ 1 then do
      let q ← checkedDiv (((2 * o.nOverlap : Int) : K))
          (((s.sectionWidth (indexList i - 1) - 1) * o.width (i - 1) : Int) : K)
      let v : K := q * sums.firstOrderSum
          (max (o.lo (i - 1)) (o.r1Lo (i - 1) + o.singleComp (i - 1)))
          (min (o.hi (i - 1)) (o.r1Hi (i - 1) + o.singleComp (i - 1)))
          (s.numAtom (indexList i - 1))
      let dissPair := { dissPair with coefs := addAt2 dissPair.coefs i 0 v }
      let q ← checkedDiv (((2 * o.nOverlap : Int) : K))
          ((((s.sectionWidth (indexList i - 1) - 1) * o.width (i - 1) : Int) : K)
              * s.dispersion (indexList i - 1))
      let v : K := q * sums.secondOrderSum
          (max (o.lo (i - 1)) (o.r1Lo (i - 1) + o.singleComp (i - 1)))
          (min (o.hi (i - 1)) (o.r1Hi (i - 1) + o.singleComp (i - 1)))
          (s.numAtom (indexList i - 1))
      pure { dissPair with coefs := addAt2 dissPair.coefs i i v }
    else pure dissPair
  forLoopM 1 psDim (fun j (dissPair : DissociationPair K) =>
    if i = j then pure dissPair
    else if s.sectionWidth (indexList i - 1) ≠ 1 then do
      let q ← checkedDiv (((2 * o.nOverlap : Int) : K))
          (((o.width (i - 1) * o.width (j - 1) * (s.sectionWidth (indexList i - 1) - 1) : Int) : K)
              * s.dispersion (indexList j - 1))
      let v : K := q
        * sums.firstOrderSum
          (max (o.lo (i - 1)) (o.r1Lo (i - 1) + o.singleComp (i - 1)))
          (min (o.hi (i - 1)) (o.r1Hi (i - 1) + o.singleComp (i - 1)))
          (s.numAtom (indexList i - 1))
        * sums.firstOrderSum
          (max (o.lo (j - 1)) (o.r1Lo (j - 1) + o.singleComp (j - 1)))
          (min (o.hi (j - 1)) (o.r1Hi (j - 1) + o.singleComp (j - 1)))
          (s.numAtom (indexList j - 1))
      pure { dissPair with coefs := addAt2 dissPair.coefs i j v }
    else pure dissPair) dissPair

/-- The block `// Compute the coefficients` of
`emitFrom(DissociationReaction&, IReactant& disso)` with every division checked. -/
def emitFromOverlapCoefsChecked [DecidableEq K] (sums : MomentSums K) (psDim : Nat)
    (indexList : Nat → Int) (s : PSISuperCluster K) (o : OverlapRegion)
    (dissPair : DissociationPair K) : Option (DissociationPair K) :=
  let dissPair := { dissPair with coefs := addAt2 dissPair.coefs 0 0 (o.nOverlap : K) }
  forLoopM 1 psDim (emitFromOverlapStepChecked sums psDim indexList s o) dissPair

/-! ## Full groups -/

/-- Spec side: the dense hyper-rectangle of members with lower corner `lower` and `W i`
values on axis `i`. -/
def denseRectangle (lower : Nat → Int) (W : Nat → Nat) : List (Int × Int × Int × Int) :=
  (List.range (W 0)).flatMap fun (a0 : Nat) =>
    (List.range (W 1)).flatMap fun (a1 : Nat) =>
      (List.range (W 2)).flatMap fun (a2 : Nat) =>
        (List.range (W 3)).map fun (a3 : Nat) =>
          (lower 0 + (a0 : Int), lower 1 + (a1 : Int), lower 2 + (a2 : Int),
            lower 3 + (a3 : Int))

/-! ## Reading the parameter file -/

/-- The value of `EXIT_SUCCESS`. -/
def EXIT_SUCCESS : Int := 0

/-- The value of `EXIT_FAILURE`. -/
def EXIT_FAILURE : Int := 1

/-- The members of `Options` that `readParams` reads or writes itself: `shouldRunFlag`
and `exitCode`.  `settings` stands for all the other members, which only the option
handlers write. -/
structure Options (σ : Type) where
  shouldRunFlag : Bool
  exitCode : Int
  settings : σ

/-- The call `currOpt->handler(this, arg)` of an option handler: the handlers are
declared in headers that are not among the sources, so a handler is any function that
updates the options object and returns whether reading may continue. -/
abbrev OptionHandler (σ : Type) := Options σ → String → Options σ × Bool

/-- The map `optionsMap` from option key to handler pointer: `none` when `find` returns
`end()`, `some none` for a key that is mapped to `nullptr`. -/
abbrev OptionsMap (σ : Type) := String → Option (Option (OptionHandler σ))

/-- The member initialisers `shouldRunFlag(true), exitCode(EXIT_SUCCESS)` of the
constructor `Options::Options`; the other members are the initial `settings`. -/
def Options.construct {σ : Type} (settings : σ) : Options σ :=
  { shouldRunFlag := true, exitCode := EXIT_SUCCESS, settings := settings }

/-- The statements `shouldRunFlag = false; exitCode = EXIT_FAILURE;`. -/
def Options.fail {σ : Type} (opts : Options σ) : Options σ :=
  { opts with shouldRunFlag := false, exitCode := EXIT_FAILURE }

/-- The `while (line.size() > 0)` loop of `Options::readParams`.  The first argument is
the current `line` followed by the results of the later calls of `reader.loadLine()`; an
exhausted reader returns the empty vector, which ends the loop.  The state is the options
object together with the record of the handler calls made so far (key and argument), which
the code does not keep and which is used only to state which handlers ran.  Messages
written to `std::cerr` are not modelled.  `none` is the undefined behaviour of reading
`line[1]` on a line with a single token. -/
def readParamsLoop {σ : Type} (optionsMap : OptionsMap σ) :
    List (List String) → Options σ × List (String × String) →
      Option (Options σ × List (String × String))
  | [], st => some st
  | line :: reader, st =>
    match line with
    | [] => some st
    | key :: args =>
      match optionsMap key with
      | some currOpt =>
        match currOpt with
        | none => some (st.1.fail, st.2)
        | some handler =>
          match args with
          | [] => none
          | arg :: _ =>
            let r := handler st.1 arg
            let continueReading := r.2
            if !continueReading then some (r.1.fail, st.2 ++ [(key, arg)])
            else readParamsLoop optionsMap reader (r.1, st.2 ++ [(key, arg)])
      | none => some (st.1.fail, st.2)

/-- `Options::readParams`.  `good` is the value of `paramStream->good()` right after the
stream has been opened on `argv[0]`, and `lines` are the results of the successive calls
of `reader.loadLine()` on that stream. -/
def readParams {σ : Type} (optionsMap : OptionsMap σ) (good : Bool)
    (lines : List (List String)) (opts : Options σ) :
    Option (Options σ × List (String × String)) :=
  if !good then some (opts.fail, [])
  else readParamsLoop optionsMap lines (opts, [])

/-- Spec side: the lines `pre` are all recognized and every handler succeeds, processed in
order from the state `st`; the result is the state after the last of them. -/
def runAccepted {σ : Type} (optionsMap : OptionsMap σ) :
    List (List String) → Options σ × List (String × String) →
      Option (Options σ × List (String × String))
  | [], st => some st
  | line :: rest, st =>
    match line with
    | key :: arg :: _ =>
      match optionsMap key with
      | some (some handler) =>
        if (handler st.1 arg).2 then
          runAccepted optionsMap rest ((handler st.1 arg).1, st.2 ++ [(key, arg)])
        else none
      | _ => none
    | _ => none

/-- Spec side: a handler that reports success leaves `shouldRunFlag` and `exitCode` as
they were. -/
def HandlersKeepFlags {σ : Type} (optionsMap : OptionsMap σ) : Prop :=
  ∀ key handler, optionsMap key = some (some handler) → ∀ (opts : Options σ) (arg : String),
    (handler opts arg).2 = true →
      (handler opts arg).1.shouldRunFlag = opts.shouldRunFlag
      ∧ (handler opts arg).1.exitCode = opts.exitCode

/-! ## Notions used to state the properties -/

/-- Spec side: the super-cluster states whose combining list is built only by the combining
updates: starting from a state with an empty combining list, any number of calls of the
explicit update `participateInProduction` and of the batch update
`participateInProductionBatch`. -/
inductive CombiningListBuiltByUpdates (psDim : Nat) (indexList : Nat → Int) :
    PSISuperCluster K → Prop where
  | start (s : PSISuperCluster K) : s.effCombiningList = [] →
      CombiningListBuiltByUpdates psDim indexList s
  | explicit (s s2 : PSISuperCluster K) (reaction : ProductionReaction K) (a : Int → Int) :
      CombiningListBuiltByUpdates psDim indexList s →
      participateInProduction psDim indexList s reaction a = some s2 →
      CombiningListBuiltByUpdates psDim indexList s2
  | batch (s s2 : PSISuperCluster K) (reaction : ProductionReaction K)
      (pendingPRInfos : List PendingProductionReactionInfo) :
      CombiningListBuiltByUpdates psDim indexList s →
      participateInProductionBatch psDim indexList s reaction pendingPRInfos = some s2 →
      CombiningListBuiltByUpdates psDim indexList s2

/-- Spec side: the per-axis overlap width as the specification writes it,
`min(productHi, r1Hi + singleComp) - max(productLo, r1Lo + singleComp) + 1`, for the range
`productLo..productHi` and the range `r1Lo..r1Hi` shifted by `singleComp`. -/
def specOverlapWidth (productLo productHi r1Lo r1Hi singleComp : Int) : Int :=
  min productHi (r1Hi + singleComp) - max productLo (r1Lo + singleComp) + 1

/-! ## Concrete networks used to run the definitions -/

/-- A cluster with address `addr`, id `id`, moment ids `id + 1 + axis`, the same
inclusive bounds `lo .. hi` on every axis, reading its concentration and
moments from the concentration vector at its ids, with distance `n - lo` and
factor `2 (n - lo)` for a member value `n` on every axis. -/
def sampleCluster (K : Type) [Field K] (addr : Nat) (id : Int) (type : ReactantType)
    (lo hi : Int) : PSICluster K :=
  { addr := addr, id := id, momId := fun axis => id + 1 + axis, type := type, size := 1,
    boundsBegin := fun _ => lo, boundsEnd := fun _ => hi + 1, mixed := false,
    getConcentration := fun concs => concs (id - 1),
    getMoment := fun concs axis => concs (id + 1 + axis - 1),
    getDistance := fun n _ => ((n - lo : Int) : K),
    getFactor := fun n _ => 2 * ((n - lo : Int) : K) }

/-- A super-cluster with address 1 and id 1, bounds `0 .. 1`, `nTot = 2`, and
empty lists and maps, as it is right after construction. -/
def sampleSuper (K : Type) [Field K] : PSISuperCluster K :=
  { self := sampleCluster K 1 1 ReactantType.PSISuper 0 1, nTot := 2,
    numAtom := fun _ => 0, sectionWidth := fun _ => 2, dispersion := fun _ => 1,
    reactionRadius := 0, formationEnergy := 0, diffusionFactor := 0 }

/-- The production reaction `A + B → sampleSuper` with `A` at address 2, id 6 and
`B` at address 3, id 11, and rate 1 at every grid point. -/
def sampleProduction (K : Type) [Field K] : ProductionReaction K :=
  { first := sampleCluster K 2 6 ReactantType.He 1 1,
    second := sampleCluster K 3 11 ReactantType.V 1 1,
    kConstant := fun _ => 1 }

/-- The production reaction `sampleSuper + B → product`, rate 1. -/
def sampleCombination (K : Type) [Field K] : ProductionReaction K :=
  { first := sampleCluster K 1 1 ReactantType.PSISuper 0 1,
    second := sampleCluster K 3 11 ReactantType.V 0 0,
    kConstant := fun _ => 1 }

/-- The dissociation `sampleSuper → A + B`, rate 1. -/
def sampleEmission (K : Type) [Field K] : DissociationReaction K :=
  { dissociating := sampleCluster K 1 1 ReactantType.PSISuper 0 1,
    first := sampleCluster K 2 6 ReactantType.He 1 1,
    second := sampleCluster K 3 11 ReactantType.V 1 1,
    kConstant := fun _ => 1 }

/-- The dissociation `P → sampleSuper + B` of a parent `P` at address 4, id 16,
rate 1. -/
def sampleDissociation (K : Type) [Field K] : DissociationReaction K :=
  { dissociating := sampleCluster K 4 16 ReactantType.PSISuper 0 3,
    first := sampleCluster K 1 1 ReactantType.PSISuper 0 1,
    second := sampleCluster K 3 11 ReactantType.V 1 1,
    kConstant := fun _ => 1 }

/-- The sample super-cluster with one combining entry whose tensor is 1 everywhere. -/
def sampleCombiningState (K : Type) [Field K] : PSISuperCluster K :=
  { sampleSuper K with
    effCombiningList :=
      [{ reaction := sampleCombination K, first := (sampleCombination K).second,
         coefs := fun _ _ _ => 1 }] }

/-- The sample super-cluster with one emission entry whose matrix is 1 everywhere. -/
def sampleEmittingState (K : Type) [Field K] : PSISuperCluster K :=
  { sampleSuper K with
    effEmissionList :=
      [{ reaction := sampleEmission K, first := (sampleEmission K).first,
         second := (sampleEmission K).second, coefs := fun _ _ => 1 }] }

/-- The flux result with every component zero. -/
def zeroFlux (K : Type) [Field K] : Flux K :=
  { flux := 0, momentFlux := fun _ => 0 }

/-- The sample super-cluster with one entry in each of the four effective lists
(all coefficients 1) and empty reduced lists. -/
def sampleNetworkState (K : Type) [Field K] : PSISuperCluster K :=
  { sampleSuper K with
    effReactingList :=
      [{ reaction := sampleProduction K, first := (sampleProduction K).first,
         second := (sampleProduction K).second, coefs := fun _ _ _ => 1 }]
    effCombiningList :=
      [{ reaction := sampleCombination K, first := (sampleCombination K).second,
         coefs := fun _ _ _ => 1 }]
    effDissociatingList :=
      [{ reaction := sampleDissociation K, first := (sampleDissociation K).dissociating,
         second := (sampleDissociation K).second, coefs := fun _ _ => 1 }]
    effEmissionList :=
      [{ reaction := sampleEmission K, first := (sampleEmission K).first,
         second := (sampleEmission K).second, coefs := fun _ _ => 1 }] }

/-- The accessors `getConcentration` and `getMoment` are declared in headers that are
not among the sources and are fields of `PSICluster` here.  A cluster reads its own
state when its concentration is the entry of the concentration vector at `getId() - 1`
and its moment along an axis is the entry at `getMomentId(axis) - 1`: the indices under
which the Jacobian code files the derivatives with respect to these variables. -/
def ReadsOwnState (c : PSICluster K) : Prop :=
  ∀ concs : Int → K,
    c.getConcentration concs = concs (c.id - 1)
    ∧ ∀ axis : Int, c.getMoment concs axis = concs (c.momId axis - 1)

/-- A reacting entry for `sampleProduction` with all coefficients 1. -/
def sampleProductionPair (K : Type) [Field K] : ProductionPair K :=
  { reaction := sampleProduction K, first := (sampleProduction K).first,
    second := (sampleProduction K).second, coefs := fun _ _ _ => 1 }

/-- A group of three members with He values 2, 3, 4 (one vacancy each): `nTot = 3`,
mean composition 3 and section width 3 on the He axis, width 1 elsewhere. -/
def sampleGroup (K : Type) [Field K] : PSISuperCluster K :=
  { sampleSuper K with
    nTot := 3
    numAtom := fun axis => if axis = 0 then 3 else if axis = 3 then 1 else 0
    sectionWidth := fun axis => if axis = 0 then 3 else 1 }

/-- A dissociating entry for `sampleDissociation` (parent id 16, moment id 17 on axis 0)
with all coefficients 1. -/
def sampleDissociationPair (K : Type) [Field K] : DissociationPair K :=
  { reaction := sampleDissociation K, first := (sampleDissociation K).dissociating,
    second := (sampleDissociation K).second, coefs := fun _ _ => 1 }

/-- A product super-cluster with address 5 and id 21, bounds `0 .. 2`, `nTot = 3`, and
empty lists and maps. -/
def sampleProductSuper (K : Type) [Field K] : PSISuperCluster K :=
  { sampleSuper K with
    self := sampleCluster K 5 21 ReactantType.PSISuper 0 2
    nTot := 3 }

/-- The sample super-cluster as the base-class constructor leaves it before the body of
the `PSISuperCluster` constructor runs: size 0. -/
def sampleBase (K : Type) [Field K] : PSISuperCluster K :=
  { sampleSuper K with self := { (sampleSuper K).self with size := 0 } }

/-- Moment sums that return 1 whatever the range, used to run the overlap-region
derivations on concrete inputs. -/
def sampleSums (K : Type) [Field K] : MomentSums K :=
  { firstOrderSum := fun _ _ _ => 1, secondOrderSum := fun _ _ _ => 1,
    secondOrderOffsetSum := fun _ _ _ _ _ => 1 }

/-- A cluster of a helium-vacancy network: inclusive bounds `heLo .. heHi` on the helium
axis 0 and `vLo .. vHi` on the vacancy axis 3, the single value 0 on the deuterium and
tritium axes 1 and 2; ids and state accessors as in `sampleCluster`. -/
def sampleHeVCluster (K : Type) [Field K] (addr : Nat) (id : Int) (type : ReactantType)
    (heLo heHi vLo vHi : Int) : PSICluster K :=
  { addr := addr, id := id, momId := fun axis => id + 1 + axis, type := type, size := 1,
    boundsBegin := fun axis => if axis = 0 then heLo else if axis = 3 then vLo else 0,
    boundsEnd := fun axis => if axis = 0 then heHi + 1 else if axis = 3 then vHi + 1 else 1,
    mixed := false,
    getConcentration := fun concs => concs (id - 1),
    getMoment := fun concs axis => concs (id + 1 + axis - 1),
    getDistance := fun _ _ => 0,
    getFactor := fun _ _ => 0 }

/-- The full group of the four members with helium 2 or 3 and 4 or 5 vacancies: means
`5/2` and `9/2`, section width 2 and dispersion `1/2` on the helium and vacancy axes,
width 1 and dispersion 1 on the other two. -/
def sampleHeVGroup (K : Type) [Field K] : PSISuperCluster K :=
  { self := sampleHeVCluster K 1 1 ReactantType.PSISuper 2 3 4 5, nTot := 4,
    numAtom := fun axis => if axis = 0 then 5 / 2 else if axis = 3 then 9 / 2 else 0,
    sectionWidth := fun axis => if axis = 0 then 2 else if axis = 3 then 2 else 1,
    dispersion := fun axis => if axis = 0 then 1 / 2 else if axis = 3 then 1 / 2 else 1,
    reactionRadius := 0, formationEnergy := 0, diffusionFactor := 0 }

/-- The production reaction `sampleHeVGroup + He_1 → product`, rate 1. -/
def sampleHeVCombination (K : Type) [Field K] : ProductionReaction K :=
  { first := sampleHeVCluster K 1 1 ReactantType.PSISuper 2 3 4 5,
    second := sampleHeVCluster K 3 11 ReactantType.He 1 1 0 0,
    kConstant := fun _ => 1 }

/-- The product group of `sampleHeVCombination`: helium 3 or 4, 4 or 5 vacancies. -/
def sampleHeVProduct (K : Type) [Field K] : PSICluster K :=
  sampleHeVCluster K 5 21 ReactantType.PSISuper 3 4 4 5

/-- The `indexList` of a network that tracks helium and vacancies (`psDim = 3`):
position 1 is the helium axis (`indexList[1] = 1`), position 2 the vacancy axis
(`indexList[2] = 4`). -/
def heVIndexList (i : Nat) : Int :=
  if i = 1 then 1 else if i = 2 then 4 else 0

/-- The section widths of `sampleHeVGroup` as natural numbers: 2 on the helium and vacancy
axes, 1 on the other two. -/
def sampleHeVWidths (i : Nat) : Nat :=
  if i = 0 then 2 else if i = 3 then 2 else 1

/-- An options map with the single key `"dimensions"`, whose handler stores the length of
its argument and succeeds when the argument is not empty. -/
def sampleOptionsMap : OptionsMap Nat :=
  fun key =>
    if key = "dimensions" then
      some (some (fun opts arg => ({ opts with settings := arg.length }, decide (arg ≠ ""))))
    else none

/-! ## Loop lemmas -/

theorem forLoop_of_le {σ : Type} (lo hi : Nat) (h : hi ≤ lo) (body : Nat → σ → σ) (init : σ) :
    forLoop lo hi body init = init := by
  simp [forLoop, Nat.sub_eq_zero_of_le h]

theorem forLoop_succ {σ : Type} (lo hi : Nat) (h : lo ≤ hi) (body : Nat → σ → σ) (init : σ) :
    forLoop lo (hi + 1) body init = body hi (forLoop lo hi body init) := by
  unfold forLoop
  have e : hi + 1 - lo = (hi - lo) + 1 := by omega
  rw [e, List.range'_concat, List.foldl_append]
  simp
  congr 1
  omega

/-- A loop whose body adds `F i x` to every cell `x` adds the sum of the `F i x`. -/
theorem forLoop_add_apply {ι : Type} (lo hi : Nat) (body : Nat → (ι → K) → (ι → K))
    (F : Nat → ι → K) (hbody : ∀ i s x, body i s x = s x + F i x) (init : ι → K) (x : ι) :
    forLoop lo hi body init x = init x + ∑ i ∈ Finset.Ico lo hi, F i x := by
  induction hi with
  | zero => simp [forLoop_of_le]
  | succ n ih =>
    by_cases h : lo ≤ n
    · rw [forLoop_succ lo n h, hbody, ih, Finset.sum_Ico_succ_top h, add_assoc]
    · have h1 : n + 1 ≤ lo := by omega
      rw [forLoop_of_le lo (n + 1) h1, Finset.Ico_eq_empty_of_le h1]
      simp

theorem forLoop_comm_map {σ τ : Type} (f : σ → τ) (lo hi : Nat) (body : Nat → σ → σ)
    (body2 : Nat → τ → τ) (h : ∀ i s, f (body i s) = body2 i (f s)) (init : σ) :
    f (forLoop lo hi body init) = forLoop lo hi body2 (f init) := by
  induction hi with
  | zero => simp [forLoop_of_le]
  | succ n ih =>
    by_cases hn : lo ≤ n
    · rw [forLoop_succ lo n hn, forLoop_succ lo n hn, h, ih]
    · have h1 : n + 1 ≤ lo := by omega
      rw [forLoop_of_le lo (n + 1) h1, forLoop_of_le lo (n + 1) h1]

/-- A loop whose `i`-th iteration assigns cell `i`. -/
theorem forLoop_set_apply (lo hi : Nat) (g : Nat → K) (init : Nat → K) (x : Nat) :
    forLoop lo hi (fun i l => Function.update l i (g i)) init x
      = if lo ≤ x ∧ x < hi then g x else init x := by
  induction hi with
  | zero => simp [forLoop_of_le]
  | succ n ih =>
    by_cases hn : lo ≤ n
    · rw [forLoop_succ lo n hn]
      by_cases hx : x = n
      · subst hx
        simp [hn]
      · rw [Function.update_noteq hx, ih]
        have : (lo ≤ x ∧ x < n + 1) ↔ (lo ≤ x ∧ x < n) := by omega
        simp only [this]
    · have h1 : n + 1 ≤ lo := by omega
      rw [forLoop_of_le lo (n + 1) h1]
      have : ¬ (lo ≤ x ∧ x < n + 1) := by omega
      simp [this]

theorem addAt_apply {ι : Type} [DecidableEq ι] (a : ι → K) (i : ι) (v : K) (x : ι) :
    addAt a i v x = a x + if x = i then v else 0 := by
  unfold addAt
  by_cases h : x = i
  · subst h
    simp
  · simp [Function.update_noteq h, h]

theorem subAt_apply {ι : Type} [DecidableEq ι] (a : ι → K) (i : ι) (v : K) (x : ι) :
    subAt a i v x = a x + if x = i then -v else 0 := by
  unfold subAt
  by_cases h : x = i
  · subst h
    simp [sub_eq_add_neg]
  · simp [Function.update_noteq h, h]

theorem gatherMoments_apply (psDim : Nat) (indexList : Nat → Int) (c : PSICluster K)
    (concs : Int → K) (i : Nat) :
    gatherMoments psDim indexList c concs i
      = if i = 0 then c.getConcentration concs
        else if i < psDim then c.getMoment concs (indexList i - 1) else 0 := by
  unfold gatherMoments
  rw [forLoop_set_apply]
  by_cases h0 : i = 0
  · subst h0
    simp
  · have h1 : 1 ≤ i := Nat.one_le_iff_ne_zero.mpr h0
    by_cases h2 : i < psDim
    · simp [h0, h1, h2]
    · simp [h0, h2, Function.update_noteq h0]

theorem sum_Ico_zero_ite_eq (n x : Nat) (G : Nat → K) :
    (∑ k ∈ Finset.Ico 0 n, if x = k then G k else 0) = if x < n then G x else 0 := by
  rw [Finset.sum_ite_eq]
  simp

theorem productionSum_apply (psDim : Nat) (coefs : Nat → Nat → Nat → K) (lA lB : Nat → K)
    (k : Nat) :
    productionSum psDim coefs lA lB k
      = if k < psDim then
          ∑ j ∈ Finset.range psDim, ∑ i ∈ Finset.range psDim, coefs j i k * lA j * lB i
        else 0 := by
  unfold productionSum
  rw [forLoop_add_apply 0 psDim _
    (fun k x => if x = k then
      ∑ j ∈ Finset.range psDim, ∑ i ∈ Finset.range psDim, coefs j i k * lA j * lB i else 0)]
  · rw [sum_Ico_zero_ite_eq]
    simp
  · intro k s x
    rw [forLoop_add_apply 0 psDim _
      (fun j x => if x = k then ∑ i ∈ Finset.range psDim, coefs j i k * lA j * lB i else 0)]
    · by_cases h : x = k <;> simp [h, Nat.Ico_zero_eq_range]
    · intro j s x
      rw [forLoop_add_apply 0 psDim _ (fun i x => if x = k then coefs j i k * lA j * lB i else 0)]
      · by_cases h : x = k <;> simp [h, Nat.Ico_zero_eq_range]
      · intro i s x
        rw [addAt_apply]

theorem combinationSum_apply (psDim : Nat) (coefs : Nat → Nat → Nat → K) (lA lB : Nat → K)
    (k : Nat) :
    combinationSum psDim coefs lA lB k
      = if k < psDim then
          ∑ j ∈ Finset.range psDim, ∑ i ∈ Finset.range psDim, coefs i j k * lA i * lB j
        else 0 := by
  unfold combinationSum
  rw [forLoop_add_apply 0 psDim _
    (fun k x => if x = k then
      ∑ j ∈ Finset.range psDim, ∑ i ∈ Finset.range psDim, coefs i j k * lA i * lB j else 0)]
  · rw [sum_Ico_zero_ite_eq]
    simp
  · intro k s x
    rw [forLoop_add_apply 0 psDim _
      (fun j x => if x = k then ∑ i ∈ Finset.range psDim, coefs i j k * lA i * lB j else 0)]
    · by_cases h : x = k <;> simp [h, Nat.Ico_zero_eq_range]
    · intro j s x
      rw [forLoop_add_apply 0 psDim _ (fun i x => if x = k then coefs i j k * lA i * lB j else 0)]
      · by_cases h : x = k <;> simp [h, Nat.Ico_zero_eq_range]
      · intro i s x
        rw [addAt_apply]

theorem dissociationSum_apply (psDim : Nat) (coefs : Nat → Nat → K) (lA : Nat → K) (j : Nat) :
    dissociationSum psDim coefs lA j
      = if j < psDim then ∑ i ∈ Finset.range psDim, coefs i j * lA i else 0 := by
  unfold dissociationSum
  rw [forLoop_add_apply 0 psDim _
    (fun j x => if x = j then ∑ i ∈ Finset.range psDim, coefs i j * lA i else 0)]
  · rw [sum_Ico_zero_ite_eq]
    simp
  · intro j s x
    rw [forLoop_add_apply 0 psDim _ (fun i x => if x = j then coefs i j * lA i else 0)]
    · by_cases h : x = j <;> simp [h, Nat.Ico_zero_eq_range]
    · intro i s x
      rw [addAt_apply]

/-- The moment-flux loop leaves the scalar flux alone. -/
theorem momentLoop_flux (lo hi : Nat) (upd : Nat → (Int → K) → (Int → K)) (fl : Flux K) :
    (forLoop lo hi (fun i (superFlux : Flux K) =>
        { superFlux with momentFlux := upd i superFlux.momentFlux }) fl).flux = fl.flux := by
  induction hi with
  | zero => simp [forLoop_of_le]
  | succ n ih =>
    by_cases hn : lo ≤ n
    · rw [forLoop_succ lo n hn]
      exact ih
    · rw [forLoop_of_le lo (n + 1) (by omega)]

/-- The moment-flux loop acts on the moment array as the loop of its updates. -/
theorem momentLoop_momentFlux (lo hi : Nat) (upd : Nat → (Int → K) → (Int → K)) (fl : Flux K) :
    (forLoop lo hi (fun i (superFlux : Flux K) =>
        { superFlux with momentFlux := upd i superFlux.momentFlux }) fl).momentFlux
      = forLoop lo hi upd fl.momentFlux :=
  forLoop_comm_map Flux.momentFlux lo hi _ upd (fun _ _ => rfl) fl

/-- Folding a body that adds `f p` to the scalar flux adds the sum of the `f p`. -/
theorem forEach_flux {α : Type} (l : List α) (body : Flux K → α → Flux K) (f : α → K)
    (h : ∀ fl p, (body fl p).flux = fl.flux + f p) (fl : Flux K) :
    (forEach l body fl).flux = fl.flux + (l.map f).sum := by
  unfold forEach
  induction l generalizing fl with
  | nil => simp
  | cons p l ih => simp only [List.foldl_cons, List.map_cons, List.sum_cons, ih, h, add_assoc]

/-- Folding a body that adds `g p a` to moment-flux cell `a` adds the sum of the `g p a`. -/
theorem forEach_momentFlux {α : Type} (l : List α) (body : Flux K → α → Flux K)
    (g : α → Int → K) (h : ∀ fl p a, (body fl p).momentFlux a = fl.momentFlux a + g p a)
    (fl : Flux K) (a : Int) :
    (forEach l body fl).momentFlux a = fl.momentFlux a + (l.map (fun p => g p a)).sum := by
  unfold forEach
  induction l generalizing fl with
  | nil => simp
  | cons p l ih => simp only [List.foldl_cons, List.map_cons, List.sum_cons, ih, h, add_assoc]

/-- The loop `momentFlux[indexList[i]-1] += v i` for `1 ≤ i < psDim`. -/
theorem momentLoop_add (psDim : Nat) (indexList : Nat → Int) (v : Nat → K) (fl : Flux K)
    (a : Int) :
    (forLoop 1 psDim (fun i (superFlux : Flux K) =>
        { superFlux with
          momentFlux := addAt superFlux.momentFlux (indexList i - 1) (v i) }) fl).momentFlux a
      = fl.momentFlux a + ∑ i ∈ (Finset.Ico 1 psDim).filter (fun i => indexList i - 1 = a), v i := by
  rw [momentLoop_momentFlux 1 psDim (fun i m => addAt m (indexList i - 1) (v i)),
    forLoop_add_apply 1 psDim _ (fun i x => if x = indexList i - 1 then v i else 0)
      (fun i s x => addAt_apply s _ _ x), Finset.sum_filter]
  congr 1
  apply Finset.sum_congr rfl
  intro i _
  by_cases h : a = indexList i - 1
  · simp [h]
  · have h2 : ¬ indexList i - 1 = a := fun e => h e.symm
    simp [h, h2]

/-- The loop `momentFlux[indexList[i]-1] -= v i` for `1 ≤ i < psDim`. -/
theorem momentLoop_sub (psDim : Nat) (indexList : Nat → Int) (v : Nat → K) (fl : Flux K)
    (a : Int) :
    (forLoop 1 psDim (fun i (superFlux : Flux K) =>
        { superFlux with
          momentFlux := subAt superFlux.momentFlux (indexList i - 1) (v i) }) fl).momentFlux a
      = fl.momentFlux a - ∑ i ∈ (Finset.Ico 1 psDim).filter (fun i => indexList i - 1 = a), v i := by
  rw [momentLoop_momentFlux 1 psDim (fun i m => subAt m (indexList i - 1) (v i)),
    forLoop_add_apply 1 psDim _ (fun i x => if x = indexList i - 1 then -v i else 0)
      (fun i s x => subAt_apply s _ _ x), Finset.sum_filter, sub_eq_add_neg,
    ← Finset.sum_neg_distrib]
  congr 1
  apply Finset.sum_congr rfl
  intro i _
  by_cases h : a = indexList i - 1
  · simp [h]
  · have h2 : ¬ indexList i - 1 = a := fun e => h e.symm
    simp [h, h2]

theorem getProductionFluxBody_flux (psDim : Nat) (indexList : Nat → Int)
    (s : PSISuperCluster K) (concs : Int → K) (xi : Nat) (fl : Flux K) (p : ProductionPair K) :
    (getProductionFluxBody psDim indexList s concs xi fl p).flux
      = fl.flux + p.reaction.kConstant xi / (s.nTot : K)
          * productionSum psDim p.coefs (gatherMoments psDim indexList p.first concs)
              (gatherMoments psDim indexList p.second concs) 0 := by
  unfold getProductionFluxBody
  exact momentLoop_flux 1 psDim (fun i m => addAt m (indexList i - 1) _) _

theorem getProductionFluxBody_momentFlux (psDim : Nat) (indexList : Nat → Int)
    (s : PSISuperCluster K) (concs : Int → K) (xi : Nat) (fl : Flux K) (p : ProductionPair K)
    (a : Int) :
    (getProductionFluxBody psDim indexList s concs xi fl p).momentFlux a
      = fl.momentFlux a + ∑ i ∈ (Finset.Ico 1 psDim).filter (fun i => indexList i - 1 = a),
          p.reaction.kConstant xi / (s.nTot : K)
            * productionSum psDim p.coefs (gatherMoments psDim indexList p.first concs)
                (gatherMoments psDim indexList p.second concs) i := by
  unfold getProductionFluxBody
  exact momentLoop_add psDim indexList _ _ a

theorem getCombinationFluxBody_flux (psDim : Nat) (indexList : Nat → Int)
    (s : PSISuperCluster K) (concs : Int → K) (xi : Nat) (fl : Flux K) (p : CombiningCluster K) :
    (getCombinationFluxBody psDim indexList s concs xi fl p).flux
      = fl.flux + p.reaction.kConstant xi / (s.nTot : K)
          * combinationSum psDim p.coefs (gatherMoments psDim indexList s.self concs)
              (gatherMoments psDim indexList p.first concs) 0 := by
  unfold getCombinationFluxBody
  exact momentLoop_flux 1 psDim (fun i m => subAt m (indexList i - 1) _) _

theorem getCombinationFluxBody_momentFlux (psDim : Nat) (indexList : Nat → Int)
    (s : PSISuperCluster K) (concs : Int → K) (xi : Nat) (fl : Flux K) (p : CombiningCluster K)
    (a : Int) :
    (getCombinationFluxBody psDim indexList s concs xi fl p).momentFlux a
      = fl.momentFlux a - ∑ i ∈ (Finset.Ico 1 psDim).filter (fun i => indexList i - 1 = a),
          p.reaction.kConstant xi / (s.nTot : K)
            * combinationSum psDim p.coefs (gatherMoments psDim indexList s.self concs)
                (gatherMoments psDim indexList p.first concs) i := by
  unfold getCombinationFluxBody
  exact momentLoop_sub psDim indexList _ _ a

theorem getDissociationFluxBody_flux (psDim : Nat) (indexList : Nat → Int)
    (s : PSISuperCluster K) (concs : Int → K) (xi : Nat) (fl : Flux K) (p : DissociationPair K) :
    (getDissociationFluxBody psDim indexList s concs xi fl p).flux
      = fl.flux + p.reaction.kConstant xi / (s.nTot : K)
          * dissociationSum psDim p.coefs (gatherMoments psDim indexList p.first concs) 0 := by
  unfold getDissociationFluxBody
  exact momentLoop_flux 1 psDim (fun i m => addAt m (indexList i - 1) _) _

theorem getDissociationFluxBody_momentFlux (psDim : Nat) (indexList : Nat → Int)
    (s : PSISuperCluster K) (concs : Int → K) (xi : Nat) (fl : Flux K) (p : DissociationPair K)
    (a : Int) :
    (getDissociationFluxBody psDim indexList s concs xi fl p).momentFlux a
      = fl.momentFlux a + ∑ i ∈ (Finset.Ico 1 psDim).filter (fun i => indexList i - 1 = a),
          p.reaction.kConstant xi / (s.nTot : K)
            * dissociationSum psDim p.coefs (gatherMoments psDim indexList p.first concs) i := by
  unfold getDissociationFluxBody
  exact momentLoop_add psDim indexList _ _ a

theorem getEmissionFluxBody_flux (psDim : Nat) (indexList : Nat → Int)
    (s : PSISuperCluster K) (concs : Int → K) (xi : Nat) (fl : Flux K) (p : DissociationPair K) :
    (getEmissionFluxBody psDim indexList s concs xi fl p).flux
      = fl.flux + p.reaction.kConstant xi / (s.nTot : K)
          * dissociationSum psDim p.coefs (gatherMoments psDim indexList s.self concs) 0 := by
  unfold getEmissionFluxBody
  exact momentLoop_flux 1 psDim (fun i m => subAt m (indexList i - 1) _) _

theorem getEmissionFluxBody_momentFlux (psDim : Nat) (indexList : Nat → Int)
    (s : PSISuperCluster K) (concs : Int → K) (xi : Nat) (fl : Flux K) (p : DissociationPair K)
    (a : Int) :
    (getEmissionFluxBody psDim indexList s concs xi fl p).momentFlux a
      = fl.momentFlux a - ∑ i ∈ (Finset.Ico 1 psDim).filter (fun i => indexList i - 1 = a),
          p.reaction.kConstant xi / (s.nTot : K)
            * dissociationSum psDim p.coefs (gatherMoments psDim indexList s.self concs) i := by
  unfold getEmissionFluxBody
  exact momentLoop_sub psDim indexList _ _ a

/-- Folding a body that subtracts `g p a` from moment-flux cell `a`. -/
theorem forEach_momentFlux_sub {α : Type} (l : List α) (body : Flux K → α → Flux K)
    (g : α → Int → K) (h : ∀ fl p a, (body fl p).momentFlux a = fl.momentFlux a - g p a)
    (fl : Flux K) (a : Int) :
    (forEach l body fl).momentFlux a = fl.momentFlux a - (l.map (fun p => g p a)).sum := by
  unfold forEach
  induction l generalizing fl with
  | nil => simp
  | cons p l ih =>
    simp only [List.foldl_cons, List.map_cons, List.sum_cons, ih, h]
    ring

/-- The production contraction on gathered operands, in closed form. -/
theorem productionSum_gather (psDim : Nat) (indexList : Nat → Int)
    (coefs : Nat → Nat → Nat → K) (A B : PSICluster K) (concs : Int → K) (k : Nat)
    (hk : k < psDim ∨ k = 0) :
    productionSum psDim coefs (gatherMoments psDim indexList A concs)
        (gatherMoments psDim indexList B concs) k
      = ∑ j ∈ Finset.range psDim, ∑ i ∈ Finset.range psDim,
          coefs j i k
            * (if j = 0 then A.getConcentration concs else A.getMoment concs (indexList j - 1))
            * (if i = 0 then B.getConcentration concs else B.getMoment concs (indexList i - 1)) := by
  rw [productionSum_apply]
  by_cases h : k < psDim
  · rw [if_pos h]
    apply Finset.sum_congr rfl
    intro j hj
    apply Finset.sum_congr rfl
    intro i hi
    rw [gatherMoments_apply, gatherMoments_apply]
    simp [Finset.mem_range.mp hj, Finset.mem_range.mp hi]
  · have h0 : psDim = 0 := by omega
    subst h0
    simp

/-- The combination contraction on gathered operands, in closed form. -/
theorem combinationSum_gather (psDim : Nat) (indexList : Nat → Int)
    (coefs : Nat → Nat → Nat → K) (A B : PSICluster K) (concs : Int → K) (k : Nat)
    (hk : k < psDim ∨ k = 0) :
    combinationSum psDim coefs (gatherMoments psDim indexList A concs)
        (gatherMoments psDim indexList B concs) k
      = ∑ j ∈ Finset.range psDim, ∑ i ∈ Finset.range psDim,
          coefs i j k
            * (if i = 0 then A.getConcentration concs else A.getMoment concs (indexList i - 1))
            * (if j = 0 then B.getConcentration concs else B.getMoment concs (indexList j - 1)) := by
  rw [combinationSum_apply]
  by_cases h : k < psDim
  · rw [if_pos h]
    apply Finset.sum_congr rfl
    intro j hj
    apply Finset.sum_congr rfl
    intro i hi
    rw [gatherMoments_apply, gatherMoments_apply]
    simp [Finset.mem_range.mp hj, Finset.mem_range.mp hi]
  · have h0 : psDim = 0 := by omega
    subst h0
    simp

/-- The dissociation / emission contraction on a gathered operand, in closed form. -/
theorem dissociationSum_gather (psDim : Nat) (indexList : Nat → Int)
    (coefs : Nat → Nat → K) (A : PSICluster K) (concs : Int → K) (j : Nat)
    (hj : j < psDim ∨ j = 0) :
    dissociationSum psDim coefs (gatherMoments psDim indexList A concs) j
      = ∑ i ∈ Finset.range psDim,
          coefs i j
            * (if i = 0 then A.getConcentration concs
                else A.getMoment concs (indexList i - 1)) := by
  rw [dissociationSum_apply]
  by_cases h : j < psDim
  · rw [if_pos h]
    apply Finset.sum_congr rfl
    intro i hi
    rw [gatherMoments_apply]
    simp [Finset.mem_range.mp hi]
  · have h0 : psDim = 0 := by omega
    subst h0
    simp

/-! ## Closed forms of the four flux evaluators -/

theorem getProductionFlux_flux (psDim : Nat) (indexList : Nat → Int) (s : PSISuperCluster K)
    (concs : Int → K) (xi : Nat) (flux : Flux K) :
    (getProductionFlux psDim indexList s concs xi flux).flux
      = flux.flux + (s.effReactingList.map (fun p =>
          p.reaction.kConstant xi / (s.nTot : K) * (∑ j ∈ Finset.range psDim, ∑ i ∈ Finset.range psDim,
              p.coefs j i 0
                * (if j = 0 then p.first.getConcentration concs else p.first.getMoment concs (indexList j - 1))
                * (if i = 0 then p.second.getConcentration concs else p.second.getMoment concs (indexList i - 1))))).sum := by
  unfold getProductionFlux
  rw [forEach_flux _ _ _ (getProductionFluxBody_flux psDim indexList s concs xi)]
  congr 1
  apply congrArg
  apply List.map_congr_left
  intro p _
  rw [productionSum_gather psDim indexList p.coefs p.first p.second concs 0 (Or.inr rfl)]

theorem getProductionFlux_momentFlux (psDim : Nat) (indexList : Nat → Int) (s : PSISuperCluster K)
    (concs : Int → K) (xi : Nat) (flux : Flux K) (a : Int) :
    (getProductionFlux psDim indexList s concs xi flux).momentFlux a
      = flux.momentFlux a + (s.effReactingList.map (fun p =>
          ∑ k ∈ (Finset.Ico 1 psDim).filter (fun k => indexList k - 1 = a),
            p.reaction.kConstant xi / (s.nTot : K) * (∑ j ∈ Finset.range psDim, ∑ i ∈ Finset.range psDim,
              p.coefs j i k
                * (if j = 0 then p.first.getConcentration concs else p.first.getMoment concs (indexList j - 1))
                * (if i = 0 then p.second.getConcentration concs else p.second.getMoment concs (indexList i - 1))))).sum := by
  unfold getProductionFlux
  rw [forEach_momentFlux _ _ _ (getProductionFluxBody_momentFlux psDim indexList s concs xi)]
  congr 1
  apply congrArg
  apply List.map_congr_left
  intro p _
  apply Finset.sum_congr rfl
  intro k hk
  have hk2 : k < psDim := (Finset.mem_Ico.mp (Finset.mem_filter.mp hk).1).2
  rw [productionSum_gather psDim indexList p.coefs p.first p.second concs k (Or.inl hk2)]

theorem getCombinationFlux_flux (psDim : Nat) (indexList : Nat → Int) (s : PSISuperCluster K)
    (concs : Int → K) (xi : Nat) (flux : Flux K) :
    (getCombinationFlux psDim indexList s concs xi flux).flux
      = flux.flux + (s.effCombiningList.map (fun p =>
          p.reaction.kConstant xi / (s.nTot : K) * (∑ j ∈ Finset.range psDim, ∑ i ∈ Finset.range psDim,
              p.coefs i j 0
                * (if i = 0 then s.self.getConcentration concs else s.self.getMoment concs (indexList i - 1))
                * (if j = 0 then p.first.getConcentration concs else p.first.getMoment concs (indexList j - 1))))).sum := by
  unfold getCombinationFlux
  rw [forEach_flux _ _ _ (getCombinationFluxBody_flux psDim indexList s concs xi)]
  congr 1
  apply congrArg
  apply List.map_congr_left
  intro p _
  rw [combinationSum_gather psDim indexList p.coefs s.self p.first concs 0 (Or.inr rfl)]

theorem getCombinationFlux_momentFlux (psDim : Nat) (indexList : Nat → Int) (s : PSISuperCluster K)
    (concs : Int → K) (xi : Nat) (flux : Flux K) (a : Int) :
    (getCombinationFlux psDim indexList s concs xi flux).momentFlux a
      = flux.momentFlux a - (s.effCombiningList.map (fun p =>
          ∑ k ∈ (Finset.Ico 1 psDim).filter (fun k => indexList k - 1 = a),
            p.reaction.kConstant xi / (s.nTot : K) * (∑ j ∈ Finset.range psDim, ∑ i ∈ Finset.range psDim,
              p.coefs i j k
                * (if i = 0 then s.self.getConcentration concs else s.self.getMoment concs (indexList i - 1))
                * (if j = 0 then p.first.getConcentration concs else p.first.getMoment concs (indexList j - 1))))).sum := by
  unfold getCombinationFlux
  rw [forEach_momentFlux_sub _ _ _ (getCombinationFluxBody_momentFlux psDim indexList s concs xi)]
  congr 1
  apply congrArg
  apply List.map_congr_left
  intro p _
  apply Finset.sum_congr rfl
  intro k hk
  have hk2 : k < psDim := (Finset.mem_Ico.mp (Finset.mem_filter.mp hk).1).2
  rw [combinationSum_gather psDim indexList p.coefs s.self p.first concs k (Or.inl hk2)]

theorem getDissociationFlux_flux (psDim : Nat) (indexList : Nat → Int) (s : PSISuperCluster K)
    (concs : Int → K) (xi : Nat) (flux : Flux K) :
    (getDissociationFlux psDim indexList s concs xi flux).flux
      = flux.flux + (s.effDissociatingList.map (fun p =>
          p.reaction.kConstant xi / (s.nTot : K) * (∑ i ∈ Finset.range psDim,
              p.coefs i 0
                * (if i = 0 then p.first.getConcentration concs else p.first.getMoment concs (indexList i - 1))))).sum := by
  unfold getDissociationFlux
  rw [forEach_flux _ _ _ (getDissociationFluxBody_flux psDim indexList s concs xi)]
  congr 1
  apply congrArg
  apply List.map_congr_left
  intro p _
  rw [dissociationSum_gather psDim indexList p.coefs p.first concs 0 (Or.inr rfl)]

theorem getDissociationFlux_momentFlux (psDim : Nat) (indexList : Nat → Int) (s : PSISuperCluster K)
    (concs : Int → K) (xi : Nat) (flux : Flux K) (a : Int) :
    (getDissociationFlux psDim indexList s concs xi flux).momentFlux a
      = flux.momentFlux a + (s.effDissociatingList.map (fun p =>
          ∑ k ∈ (Finset.Ico 1 psDim).filter (fun k => indexList k - 1 = a),
            p.reaction.kConstant xi / (s.nTot : K) * (∑ i ∈ Finset.range psDim,
              p.coefs i k
                * (if i = 0 then p.first.getConcentration concs else p.first.getMoment concs (indexList i - 1))))).sum := by
  unfold getDissociationFlux
  rw [forEach_momentFlux _ _ _ (getDissociationFluxBody_momentFlux psDim indexList s concs xi)]
  congr 1
  apply congrArg
  apply List.map_congr_left
  intro p _
  apply Finset.sum_congr rfl
  intro k hk
  have hk2 : k < psDim := (Finset.mem_Ico.mp (Finset.mem_filter.mp hk).1).2
  rw [dissociationSum_gather psDim indexList p.coefs p.first concs k (Or.inl hk2)]

theorem getEmissionFlux_flux (psDim : Nat) (indexList : Nat → Int) (s : PSISuperCluster K)
    (concs : Int → K) (xi : Nat) (flux : Flux K) :
    (getEmissionFlux psDim indexList s concs xi flux).flux
      = flux.flux + (s.effEmissionList.map (fun p =>
          p.reaction.kConstant xi / (s.nTot : K) * (∑ i ∈ Finset.range psDim,
              p.coefs i 0
                * (if i = 0 then s.self.getConcentration concs else s.self.getMoment concs (indexList i - 1))))).sum := by
  unfold getEmissionFlux
  rw [forEach_flux _ _ _ (getEmissionFluxBody_flux psDim indexList s concs xi)]
  congr 1
  apply congrArg
  apply List.map_congr_left
  intro p _
  rw [dissociationSum_gather psDim indexList p.coefs s.self concs 0 (Or.inr rfl)]

theorem getEmissionFlux_momentFlux (psDim : Nat) (indexList : Nat → Int) (s : PSISuperCluster K)
    (concs : Int → K) (xi : Nat) (flux : Flux K) (a : Int) :
    (getEmissionFlux psDim indexList s concs xi flux).momentFlux a
      = flux.momentFlux a - (s.effEmissionList.map (fun p =>
          ∑ k ∈ (Finset.Ico 1 psDim).filter (fun k => indexList k - 1 = a),
            p.reaction.kConstant xi / (s.nTot : K) * (∑ i ∈ Finset.range psDim,
              p.coefs i k
                * (if i = 0 then s.self.getConcentration concs else s.self.getMoment concs (indexList i - 1))))).sum := by
  unfold getEmissionFlux
  rw [forEach_momentFlux_sub _ _ _ (getEmissionFluxBody_momentFlux psDim indexList s concs xi)]
  congr 1
  apply congrArg
  apply List.map_congr_left
  intro p _
  apply Finset.sum_congr rfl
  intro k hk
  have hk2 : k < psDim := (Finset.mem_Ico.mp (Finset.mem_filter.mp hk).1).2
  rw [dissociationSum_gather psDim indexList p.coefs s.self concs k (Or.inl hk2)]

/-! ## The flux evaluators (claims C6 to C9) -/

/-- C6: for every grid index and concentration vector, `getProductionFlux` adds to
the scalar flux, summed over the reacting entries, `(kConstant[xi]/nTot) * sum[0]`,
and to `momentFlux[indexList[k]-1]`, for `1 ≤ k < psDim`, `(kConstant[xi]/nTot) * sum[k]`,
where `sum[k]` is the sum over `j, i < psDim` of `coefs[j][i][k] * lA[j] * lB[i]` and
`lA`, `lB` hold the first and second operand's concentration (index 0) and moments along
`indexList`; no other cell of the result changes. -/
theorem getProductionFlux_adds (psDim : Nat) (indexList : Nat → Int) (s : PSISuperCluster K)
    (concs : Int → K) (xi : Nat) (flux : Flux K) :
    (getProductionFlux psDim indexList s concs xi flux).flux
        = flux.flux + (s.effReactingList.map (fun p =>
            p.reaction.kConstant xi / (s.nTot : K) *
              (∑ j ∈ Finset.range psDim, ∑ i ∈ Finset.range psDim,
                p.coefs j i 0
                  * (if j = 0 then p.first.getConcentration concs else p.first.getMoment concs (indexList j - 1))
                  * (if i = 0 then p.second.getConcentration concs else p.second.getMoment concs (indexList i - 1))))).sum
    ∧ ∀ a : Int,
      (getProductionFlux psDim indexList s concs xi flux).momentFlux a
        = flux.momentFlux a + (s.effReactingList.map (fun p =>
            ∑ k ∈ (Finset.Ico 1 psDim).filter (fun k => indexList k - 1 = a),
              p.reaction.kConstant xi / (s.nTot : K) *
                (∑ j ∈ Finset.range psDim, ∑ i ∈ Finset.range psDim,
                  p.coefs j i k
                    * (if j = 0 then p.first.getConcentration concs else p.first.getMoment concs (indexList j - 1))
                    * (if i = 0 then p.second.getConcentration concs else p.second.getMoment concs (indexList i - 1))))).sum :=
  ⟨getProductionFlux_flux psDim indexList s concs xi flux,
    getProductionFlux_momentFlux psDim indexList s concs xi flux⟩

/-- C7 (as the code behaves): for every grid index and concentration vector,
`getCombinationFlux` ADDS `(kConstant[xi]/nTot) * sum[0]` to the scalar flux for each
combining entry (the scalar accumulates the magnitude of the consumption) and SUBTRACTS
`(kConstant[xi]/nTot) * sum[k]` from `momentFlux[indexList[k]-1]` for `1 ≤ k < psDim`,
where `sum[k]` is the sum over `i, j < psDim` of `coefs[i][j][k] * lA[i] * lB[j]`, `lA`
being this cluster's own concentration and moments and `lB` the partner's. -/
theorem getCombinationFlux_adds_scalar_subtracts_moments (psDim : Nat) (indexList : Nat → Int)
    (s : PSISuperCluster K) (concs : Int → K) (xi : Nat) (flux : Flux K) :
    (getCombinationFlux psDim indexList s concs xi flux).flux
        = flux.flux + (s.effCombiningList.map (fun p =>
            p.reaction.kConstant xi / (s.nTot : K) *
              (∑ j ∈ Finset.range psDim, ∑ i ∈ Finset.range psDim,
                p.coefs i j 0
                  * (if i = 0 then s.self.getConcentration concs else s.self.getMoment concs (indexList i - 1))
                  * (if j = 0 then p.first.getConcentration concs else p.first.getMoment concs (indexList j - 1))))).sum
    ∧ ∀ a : Int,
      (getCombinationFlux psDim indexList s concs xi flux).momentFlux a
        = flux.momentFlux a - (s.effCombiningList.map (fun p =>
            ∑ k ∈ (Finset.Ico 1 psDim).filter (fun k => indexList k - 1 = a),
              p.reaction.kConstant xi / (s.nTot : K) *
                (∑ j ∈ Finset.range psDim, ∑ i ∈ Finset.range psDim,
                  p.coefs i j k
                    * (if i = 0 then s.self.getConcentration concs else s.self.getMoment concs (indexList i - 1))
                    * (if j = 0 then p.first.getConcentration concs else p.first.getMoment concs (indexList j - 1))))).sum :=
  ⟨getCombinationFlux_flux psDim indexList s concs xi flux,
    getCombinationFlux_momentFlux psDim indexList s concs xi flux⟩

/-- C7, counterexample: with `psDim = 1`, one combining entry of coefficient 1, rate 1,
`nTot = 2` and all concentrations 1, the scalar flux goes from 0 to `1/2`; subtracting
`(kConstant[xi]/nTot) * sum[0] = 1/2` would have given `-1/2`. -/
theorem getCombinationFlux_scalar_not_subtracted :
    (getCombinationFlux 1 (fun i => (i : Int)) (sampleCombiningState ℚ) (fun _ => 1) 0
        (zeroFlux ℚ)).flux = 1 / 2
    ∧ (getCombinationFlux 1 (fun i => (i : Int)) (sampleCombiningState ℚ) (fun _ => 1) 0
        (zeroFlux ℚ)).flux ≠ (zeroFlux ℚ).flux - 1 / 2 * (1 * 1 * 1) := by
  rw [getCombinationFlux_flux]
  simp [sampleCombiningState, sampleSuper, sampleCombination, sampleCluster, zeroFlux]
  norm_num

/-- C8 (as the code behaves): for every grid index and concentration vector,
`getEmissionFlux` ADDS `(kConstant[xi]/nTot) * sum[0]` to the scalar flux for each
emission entry and SUBTRACTS `(kConstant[xi]/nTot) * sum[k]` from
`momentFlux[indexList[k]-1]` for `1 ≤ k < psDim`, where `sum[k]` is the sum over
`i < psDim` of `coefs[i][k] * lA[i]` and `lA` is this cluster's own concentration and
moments only. -/
theorem getEmissionFlux_adds_scalar_subtracts_moments (psDim : Nat) (indexList : Nat → Int)
    (s : PSISuperCluster K) (concs : Int → K) (xi : Nat) (flux : Flux K) :
    (getEmissionFlux psDim indexList s concs xi flux).flux
        = flux.flux + (s.effEmissionList.map (fun p =>
            p.reaction.kConstant xi / (s.nTot : K) *
              (∑ i ∈ Finset.range psDim, p.coefs i 0 * (if i = 0 then s.self.getConcentration concs else s.self.getMoment concs (indexList i - 1))))).sum
    ∧ ∀ a : Int,
      (getEmissionFlux psDim indexList s concs xi flux).momentFlux a
        = flux.momentFlux a - (s.effEmissionList.map (fun p =>
            ∑ k ∈ (Finset.Ico 1 psDim).filter (fun k => indexList k - 1 = a),
              p.reaction.kConstant xi / (s.nTot : K) *
                (∑ i ∈ Finset.range psDim, p.coefs i k * (if i = 0 then s.self.getConcentration concs else s.self.getMoment concs (indexList i - 1))))).sum :=
  ⟨getEmissionFlux_flux psDim indexList s concs xi flux,
    getEmissionFlux_momentFlux psDim indexList s concs xi flux⟩

/-- C8, counterexample: with `psDim = 1`, one emission entry of coefficient 1, rate 1,
`nTot = 2` and all concentrations 1, the scalar flux goes from 0 to `1/2`; subtracting
`(kConstant[xi]/nTot) * sum[0] = 1/2` would have given `-1/2`. -/
theorem getEmissionFlux_scalar_not_subtracted :
    (getEmissionFlux 1 (fun i => (i : Int)) (sampleEmittingState ℚ) (fun _ => 1) 0
        (zeroFlux ℚ)).flux = 1 / 2
    ∧ (getEmissionFlux 1 (fun i => (i : Int)) (sampleEmittingState ℚ) (fun _ => 1) 0
        (zeroFlux ℚ)).flux ≠ (zeroFlux ℚ).flux - 1 / 2 * (1 * 1) := by
  rw [getEmissionFlux_flux]
  simp [sampleEmittingState, sampleSuper, sampleEmission, sampleCluster, zeroFlux]
  norm_num

theorem Flux.eq_of_fields (x y : Flux K) (h1 : x.flux = y.flux)
    (h2 : ∀ a, x.momentFlux a = y.momentFlux a) : x = y := by
  cases x
  cases y
  simp only [Flux.mk.injEq]
  exact ⟨h1, funext h2⟩

/-- The dissociation flux reads the concentration vector only through the state of the
dissociating parents. -/
theorem getDissociationFlux_congr (psDim : Nat) (indexList : Nat → Int)
    (s : PSISuperCluster K) (concs concs2 : Int → K) (xi : Nat) (flux : Flux K)
    (h : ∀ p ∈ s.effDissociatingList,
      p.first.getConcentration concs2 = p.first.getConcentration concs
      ∧ ∀ i, 1 ≤ i → i < psDim →
          p.first.getMoment concs2 (indexList i - 1) = p.first.getMoment concs (indexList i - 1)) :
    getDissociationFlux psDim indexList s concs2 xi flux
      = getDissociationFlux psDim indexList s concs xi flux := by
  have key : ∀ p ∈ s.effDissociatingList, ∀ k : Nat,
      (∑ i ∈ Finset.range psDim, p.coefs i k * (if i = 0 then p.first.getConcentration concs2 else p.first.getMoment concs2 (indexList i - 1)))
        = ∑ i ∈ Finset.range psDim, p.coefs i k * (if i = 0 then p.first.getConcentration concs else p.first.getMoment concs (indexList i - 1)) := by
    intro p hp k
    apply Finset.sum_congr rfl
    intro i hi
    by_cases h0 : i = 0
    · simp [h0, (h p hp).1]
    · simp [h0, (h p hp).2 i (Nat.one_le_iff_ne_zero.mpr h0) (Finset.mem_range.mp hi)]
  apply Flux.eq_of_fields
  · rw [getDissociationFlux_flux, getDissociationFlux_flux]
    congr 1
    apply congrArg
    apply List.map_congr_left
    intro p hp
    rw [key p hp 0]
  · intro a
    rw [getDissociationFlux_momentFlux, getDissociationFlux_momentFlux]
    congr 1
    apply congrArg
    apply List.map_congr_left
    intro p hp
    apply Finset.sum_congr rfl
    intro k _
    rw [key p hp k]

/-- C9: for every grid index and concentration vector, `getDissociationFlux` adds, for
each dissociating entry, `(kConstant[xi]/nTot) * sum[0]` to the scalar flux and
`(kConstant[xi]/nTot) * sum[k]` to `momentFlux[indexList[k]-1]` for `1 ≤ k < psDim`,
where `sum[k]` is the sum over `i < psDim` of `coefs[i][k] * lA[i]` and `lA` is the
concentration and moments of the dissociating parent (the entry's first cluster); the
result is the same for any two concentration vectors on which the parents' concentration
and tracked moments agree, whatever this cluster's own or the partner's values are. -/
theorem getDissociationFlux_adds (psDim : Nat) (indexList : Nat → Int)
    (s : PSISuperCluster K) (concs : Int → K) (xi : Nat) (flux : Flux K) :
    (getDissociationFlux psDim indexList s concs xi flux).flux
        = flux.flux + (s.effDissociatingList.map (fun p =>
            p.reaction.kConstant xi / (s.nTot : K) *
              (∑ i ∈ Finset.range psDim, p.coefs i 0 * (if i = 0 then p.first.getConcentration concs else p.first.getMoment concs (indexList i - 1))))).sum
    ∧ (∀ a : Int,
      (getDissociationFlux psDim indexList s concs xi flux).momentFlux a
        = flux.momentFlux a + (s.effDissociatingList.map (fun p =>
            ∑ k ∈ (Finset.Ico 1 psDim).filter (fun k => indexList k - 1 = a),
              p.reaction.kConstant xi / (s.nTot : K) *
                (∑ i ∈ Finset.range psDim, p.coefs i k * (if i = 0 then p.first.getConcentration concs else p.first.getMoment concs (indexList i - 1))))).sum)
    ∧ ∀ concs2 : Int → K,
        (∀ p ∈ s.effDissociatingList,
          p.first.getConcentration concs2 = p.first.getConcentration concs
          ∧ ∀ i, 1 ≤ i → i < psDim →
              p.first.getMoment concs2 (indexList i - 1)
                = p.first.getMoment concs (indexList i - 1)) →
        getDissociationFlux psDim indexList s concs2 xi flux
          = getDissociationFlux psDim indexList s concs xi flux :=
  ⟨getDissociationFlux_flux psDim indexList s concs xi flux,
    getDissociationFlux_momentFlux psDim indexList s concs xi flux,
    fun concs2 h => getDissociationFlux_congr psDim indexList s concs concs2 xi flux h⟩

/-! ## The zeroth-order fast path (claim C3) -/

theorem useZerothMomentSpecializations_eq (s : PSISuperCluster K) :
    useZerothMomentSpecializations s
      = { s with
          effReactingList0 := s.effReactingList0 ++ s.effReactingList.map ProductionPair0.ofPair
          effCombiningList0 :=
            s.effCombiningList0 ++ s.effCombiningList.map CombiningCluster0.ofCluster
          effDissociatingList0 :=
            s.effDissociatingList0 ++ s.effDissociatingList.map DissociationPair0.ofPair
          effEmissionList0 :=
            s.effEmissionList0 ++ s.effEmissionList.map DissociationPair0.ofPair } := by
  have h1 : ∀ (l : List (ProductionPair K)) (t : PSISuperCluster K),
      forEach l (fun (s : PSISuperCluster K) currPair =>
        { s with effReactingList0 := s.effReactingList0 ++ [ProductionPair0.ofPair currPair] }) t
        = { t with effReactingList0 := t.effReactingList0 ++ l.map ProductionPair0.ofPair } := by
    intro l
    induction l with
    | nil => intro t; simp [forEach]
    | cons p l ih => intro t; simp only [forEach, List.foldl_cons] at ih ⊢; rw [ih]; simp
  have h2 : ∀ (l : List (CombiningCluster K)) (t : PSISuperCluster K),
      forEach l (fun (s : PSISuperCluster K) currCluster =>
        { s with
          effCombiningList0 := s.effCombiningList0 ++ [CombiningCluster0.ofCluster currCluster] }) t
        = { t with effCombiningList0 := t.effCombiningList0 ++ l.map CombiningCluster0.ofCluster } := by
    intro l
    induction l with
    | nil => intro t; simp [forEach]
    | cons p l ih => intro t; simp only [forEach, List.foldl_cons] at ih ⊢; rw [ih]; simp
  have h3 : ∀ (l : List (DissociationPair K)) (t : PSISuperCluster K),
      forEach l (fun (s : PSISuperCluster K) currPair =>
        { s with
          effDissociatingList0 := s.effDissociatingList0 ++ [DissociationPair0.ofPair currPair] }) t
        = { t with
            effDissociatingList0 := t.effDissociatingList0 ++ l.map DissociationPair0.ofPair } := by
    intro l
    induction l with
    | nil => intro t; simp [forEach]
    | cons p l ih => intro t; simp only [forEach, List.foldl_cons] at ih ⊢; rw [ih]; simp
  have h4 : ∀ (l : List (DissociationPair K)) (t : PSISuperCluster K),
      forEach l (fun (s : PSISuperCluster K) currPair =>
        { s with effEmissionList0 := s.effEmissionList0 ++ [DissociationPair0.ofPair currPair] }) t
        = { t with effEmissionList0 := t.effEmissionList0 ++ l.map DissociationPair0.ofPair } := by
    intro l
    induction l with
    | nil => intro t; simp [forEach]
    | cons p l ih => intro t; simp only [forEach, List.foldl_cons] at ih ⊢; rw [ih]; simp
  unfold useZerothMomentSpecializations
  simp only [h1, h2, h3, h4]

theorem getProductionFluxBody_one (indexList : Nat → Int) (s : PSISuperCluster K)
    (concs : Int → K) (xi : Nat) (fl : Flux K) (p : ProductionPair K) :
    getProductionFluxBody 1 indexList s concs xi fl p
      = { fl with flux := fl.flux + p.reaction.kConstant xi / (s.nTot : K)
            * (p.coefs 0 0 0 * p.first.getConcentration concs
                * p.second.getConcentration concs) } := by
  unfold getProductionFluxBody
  simp only [forLoop_of_le 1 1 (le_refl 1)]
  rw [productionSum_gather 1 indexList p.coefs p.first p.second concs 0 (Or.inr rfl)]
  simp

theorem getCombinationFluxBody_one (indexList : Nat → Int) (s : PSISuperCluster K)
    (concs : Int → K) (xi : Nat) (fl : Flux K) (p : CombiningCluster K) :
    getCombinationFluxBody 1 indexList s concs xi fl p
      = { fl with flux := fl.flux + p.reaction.kConstant xi / (s.nTot : K)
            * (p.coefs 0 0 0 * s.self.getConcentration concs
                * p.first.getConcentration concs) } := by
  unfold getCombinationFluxBody
  simp only [forLoop_of_le 1 1 (le_refl 1)]
  rw [combinationSum_gather 1 indexList p.coefs s.self p.first concs 0 (Or.inr rfl)]
  simp

theorem getDissociationFluxBody_one (indexList : Nat → Int) (s : PSISuperCluster K)
    (concs : Int → K) (xi : Nat) (fl : Flux K) (p : DissociationPair K) :
    getDissociationFluxBody 1 indexList s concs xi fl p
      = { fl with flux := fl.flux + p.reaction.kConstant xi / (s.nTot : K)
            * (p.coefs 0 0 * p.first.getConcentration concs) } := by
  unfold getDissociationFluxBody
  simp only [forLoop_of_le 1 1 (le_refl 1)]
  rw [dissociationSum_gather 1 indexList p.coefs p.first concs 0 (Or.inr rfl)]
  simp

theorem getEmissionFluxBody_one (indexList : Nat → Int) (s : PSISuperCluster K)
    (concs : Int → K) (xi : Nat) (fl : Flux K) (p : DissociationPair K) :
    getEmissionFluxBody 1 indexList s concs xi fl p
      = { fl with flux := fl.flux + p.reaction.kConstant xi / (s.nTot : K)
            * (p.coefs 0 0 * s.self.getConcentration concs) } := by
  unfold getEmissionFluxBody
  simp only [forLoop_of_le 1 1 (le_refl 1)]
  rw [dissociationSum_gather 1 indexList p.coefs s.self concs 0 (Or.inr rfl)]
  simp

/-- Folding over a mapped list is folding the composed body. -/
theorem forEach_map {α β σ : Type} (f : α → β) (l : List α) (body : σ → β → σ) (init : σ) :
    forEach (l.map f) body init = forEach l (fun st x => body st (f x)) init := by
  unfold forEach
  rw [List.foldl_map]

theorem forEach_congr {α σ : Type} (l : List α) (body1 body2 : σ → α → σ)
    (h : ∀ st x, body1 st x = body2 st x) (init : σ) :
    forEach l body1 init = forEach l body2 init := by
  have : body1 = body2 := funext fun st => funext fun x => h st x
  rw [this]

/-- C3: when `psDim == 1` and the reduced lists were built, from empty, by one call of
`useZerothMomentSpecializations`, then for every grid index, concentration vector and
incoming flux result, `computeProdFlux0`, `computeCombFlux0`, `computeDissFlux0` and
`computeEmitFlux0` leave the same flux result (scalar flux and moment fluxes) as
`getProductionFlux`, `getCombinationFlux`, `getDissociationFlux` and `getEmissionFlux`. -/
theorem zerothMoment_flux_eq (indexList : Nat → Int) (s : PSISuperCluster K)
    (concs : Int → K) (xi : Nat) (flux : Flux K)
    (hR : s.effReactingList0 = []) (hC : s.effCombiningList0 = [])
    (hD : s.effDissociatingList0 = []) (hE : s.effEmissionList0 = []) :
    computeProdFlux0 (useZerothMomentSpecializations s) concs xi flux
        = getProductionFlux 1 indexList (useZerothMomentSpecializations s) concs xi flux
    ∧ computeCombFlux0 (useZerothMomentSpecializations s) concs xi flux
        = getCombinationFlux 1 indexList (useZerothMomentSpecializations s) concs xi flux
    ∧ computeDissFlux0 (useZerothMomentSpecializations s) concs xi flux
        = getDissociationFlux 1 indexList (useZerothMomentSpecializations s) concs xi flux
    ∧ computeEmitFlux0 (useZerothMomentSpecializations s) concs xi flux
        = getEmissionFlux 1 indexList (useZerothMomentSpecializations s) concs xi flux := by
  rw [useZerothMomentSpecializations_eq, hR, hC, hD, hE]
  refine ⟨?_, ?_, ?_, ?_⟩
  · unfold computeProdFlux0 getProductionFlux
    simp only [List.nil_append]
    rw [forEach_map]
    apply forEach_congr
    intro st p
    rw [getProductionFluxBody_one]
    rfl
  · unfold computeCombFlux0 getCombinationFlux
    simp only [List.nil_append]
    rw [forEach_map]
    apply forEach_congr
    intro st p
    rw [getCombinationFluxBody_one]
    rfl
  · unfold computeDissFlux0 getDissociationFlux
    simp only [List.nil_append]
    rw [forEach_map]
    apply forEach_congr
    intro st p
    rw [getDissociationFluxBody_one]
    rfl
  · unfold computeEmitFlux0 getEmissionFlux
    simp only [List.nil_append]
    rw [forEach_map]
    apply forEach_congr
    intro st p
    rw [getEmissionFluxBody_one]
    rfl

/-- C3, witness: the sample network with one entry per list and empty reduced lists. -/
theorem zerothMoment_flux_eq_witness :
    computeProdFlux0 (useZerothMomentSpecializations (sampleNetworkState ℚ)) (fun _ => 1) 0
        (zeroFlux ℚ)
      = getProductionFlux 1 (fun i => (i : Int))
          (useZerothMomentSpecializations (sampleNetworkState ℚ)) (fun _ => 1) 0 (zeroFlux ℚ)
    ∧ computeCombFlux0 (useZerothMomentSpecializations (sampleNetworkState ℚ)) (fun _ => 1) 0
        (zeroFlux ℚ)
      = getCombinationFlux 1 (fun i => (i : Int))
          (useZerothMomentSpecializations (sampleNetworkState ℚ)) (fun _ => 1) 0 (zeroFlux ℚ)
    ∧ computeDissFlux0 (useZerothMomentSpecializations (sampleNetworkState ℚ)) (fun _ => 1) 0
        (zeroFlux ℚ)
      = getDissociationFlux 1 (fun i => (i : Int))
          (useZerothMomentSpecializations (sampleNetworkState ℚ)) (fun _ => 1) 0 (zeroFlux ℚ)
    ∧ computeEmitFlux0 (useZerothMomentSpecializations (sampleNetworkState ℚ)) (fun _ => 1) 0
        (zeroFlux ℚ)
      = getEmissionFlux 1 (fun i => (i : Int))
          (useZerothMomentSpecializations (sampleNetworkState ℚ)) (fun _ => 1) 0 (zeroFlux ℚ) :=
  zerothMoment_flux_eq (fun i => (i : Int)) (sampleNetworkState ℚ) (fun _ => 1) 0 (zeroFlux ℚ)
    rfl rfl rfl rfl

/-! ## The list builders never record an entry in their lookup map (claims C1, C2) -/

/-- C1, the code at the failing input: on the freshly constructed sample super-cluster,
two calls of each builder with the same reaction return positions 0 and then 1 and leave
two entries in the list. -/
theorem addToEff_twice_creates_two_entries :
    ((addToEffReactingList (sampleSuper ℚ) (sampleProduction ℚ)).bind (fun r1 =>
        (addToEffReactingList r1.1 (sampleProduction ℚ)).map (fun r2 =>
          (r1.2, r2.2, r2.1.effReactingList.length)))) = some (0, 1, 2)
    ∧ ((addToEffCombiningList (sampleSuper ℚ) (sampleCombination ℚ)).bind (fun r1 =>
        (addToEffCombiningList r1.1 (sampleCombination ℚ)).map (fun r2 =>
          (r1.2, r2.2, r2.1.effCombiningList.length)))) = some (0, 1, 2)
    ∧ ((addToEffDissociatingList (sampleSuper ℚ) (sampleDissociation ℚ)).bind (fun r1 =>
        (addToEffDissociatingList r1.1 (sampleDissociation ℚ)).map (fun r2 =>
          (r1.2, r2.2, r2.1.effDissociatingList.length)))) = some (0, 1, 2)
    ∧ ((addToEffEmissionList (sampleSuper ℚ) (sampleEmission ℚ)).bind (fun r1 =>
        (addToEffEmissionList r1.1 (sampleEmission ℚ)).map (fun r2 =>
          (r1.2, r2.2, r2.1.effEmissionList.length)))) = some (0, 1, 2) :=
  ⟨rfl, rfl, rfl, rfl⟩

theorem addToEffReactingList_of_map_nil (s : PSISuperCluster K) (reaction : ProductionReaction K)
    (h : s.effReactingListMap = []) :
    addToEffReactingList s reaction
      = some ({ s with
          effReactingList := s.effReactingList
            ++ [ProductionPair.create reaction reaction.first reaction.second] },
          s.effReactingList.length) := by
  unfold addToEffReactingList
  simp [h, List.lookup]

theorem addToEffCombiningList_of_map_nil (s : PSISuperCluster K) (reaction : ProductionReaction K)
    (h : s.effCombiningListMap = []) :
    addToEffCombiningList s reaction
      = some ({ s with
          effCombiningList := s.effCombiningList
            ++ [CombiningCluster.create reaction (findOtherClusterProd s reaction)] },
          s.effCombiningList.length) := by
  unfold addToEffCombiningList
  simp [h, List.lookup]

theorem addToEffDissociatingList_of_map_nil (s : PSISuperCluster K)
    (reaction : DissociationReaction K) (h : s.effDissociatingListMap = []) :
    addToEffDissociatingList s reaction
      = some ({ s with
          effDissociatingList := s.effDissociatingList
            ++ [DissociationPair.create reaction reaction.dissociating
                  (findOtherClusterDiss s reaction)] },
          s.effDissociatingList.length) := by
  unfold addToEffDissociatingList
  simp [h, List.lookup]

theorem addToEffEmissionList_of_map_nil (s : PSISuperCluster K)
    (reaction : DissociationReaction K) (h : s.effEmissionListMap = []) :
    addToEffEmissionList s reaction
      = some ({ s with
          effEmissionList := s.effEmissionList
            ++ [DissociationPair.create reaction reaction.first reaction.second] },
          s.effEmissionList.length) := by
  unfold addToEffEmissionList
  simp [h, List.lookup]

/-- C2, the code at the failing input: on the freshly constructed sample super-cluster
with `psDim = 2`, `resultFrom(reaction, c1)` followed by `resultFrom(reaction, c2)` for
the same reaction, with `c1[n] = n + 1` and `c2[n] = 10 (n + 1)`, leaves two reacting
entries; at cell `[1][0][1]` (flat index 5) the first holds `c1[5] = 6` and the second
`c2[5] = 60`, and no entry holds the sum 66. -/
theorem resultFromCoef_twice_keeps_two_entries :
    ((resultFromCoef 2 (sampleSuper ℚ) (sampleProduction ℚ) (fun n => (n : ℚ) + 1)).bind
        (fun s1 => resultFromCoef 2 s1 (sampleProduction ℚ) (fun n => 10 * ((n : ℚ) + 1)))).map
      (fun s2 => s2.effReactingList.map (fun p => p.coefs 1 0 1)) = some [6, 60] := by
  rw [resultFromCoef, addToEffReactingList_of_map_nil _ _ rfl]
  simp only [Option.bind]
  rw [resultFromCoef, addToEffReactingList_of_map_nil _ _ rfl]
  simp [modifyAt, sampleSuper, ProductionPair.create, addFlatCoefs3, forLoop, List.range',
    addAt3, addAt2, addAt, Function.update]
  norm_num

/-! ## Overlap widths (claim C10) -/

theorem resultFromOverlap_axis (prodPair : ProductionPair K) (product : PSICluster K) (a : Nat) (ha : a < 4) :
    (resultFromOverlap prodPair product).lo a = product.boundsBegin a
    ∧ (resultFromOverlap prodPair product).hi a = product.boundsEnd a - 1
    ∧ (resultFromOverlap prodPair product).width a
      = min ((resultFromOverlap prodPair product).hi a) ((resultFromOverlap prodPair product).r1Hi a + (resultFromOverlap prodPair product).singleComp a)
        - max ((resultFromOverlap prodPair product).lo a) ((resultFromOverlap prodPair product).r1Lo a + (resultFromOverlap prodPair product).singleComp a) + 1 := by
  unfold resultFromOverlap
  simp only [forLoop, List.range', List.foldl, OverlapRegion.finishAxis, OverlapRegion.init]
  by_cases h1 : prodPair.first.type = ReactantType.PSISuper <;>
  by_cases h2 : prodPair.second.type = ReactantType.PSISuper <;>
  interval_cases a <;> simp [Function.update, h1, h2]

theorem participateInProductionOverlap_axis (s : PSISuperCluster K) (reaction : ProductionReaction K)
    (product : PSICluster K) (a : Nat) (ha : a < 4) :
    (participateInProductionOverlap s reaction product).lo a = product.boundsBegin a
    ∧ (participateInProductionOverlap s reaction product).hi a = product.boundsEnd a - 1
    ∧ (participateInProductionOverlap s reaction product).width a
      = min ((participateInProductionOverlap s reaction product).hi a) ((participateInProductionOverlap s reaction product).r1Hi a + (participateInProductionOverlap s reaction product).singleComp a)
        - max ((participateInProductionOverlap s reaction product).lo a) ((participateInProductionOverlap s reaction product).r1Lo a + (participateInProductionOverlap s reaction product).singleComp a) + 1 := by
  unfold participateInProductionOverlap
  simp only [forLoop, List.range', List.foldl, OverlapRegion.finishAxis, OverlapRegion.init]
  interval_cases a <;> simp [Function.update]

theorem participateInDissociationOverlap_axis (s : PSISuperCluster K) (reaction : DissociationReaction K)
    (product : PSICluster K) (a : Nat) (ha : a < 4) :
    (participateInDissociationOverlap s reaction product).lo a = product.boundsBegin a
    ∧ (participateInDissociationOverlap s reaction product).hi a = product.boundsEnd a - 1
    ∧ (participateInDissociationOverlap s reaction product).width a
      = min ((participateInDissociationOverlap s reaction product).hi a) ((participateInDissociationOverlap s reaction product).r1Hi a + (participateInDissociationOverlap s reaction product).singleComp a)
        - max ((participateInDissociationOverlap s reaction product).lo a) ((participateInDissociationOverlap s reaction product).r1Lo a + (participateInDissociationOverlap s reaction product).singleComp a) + 1 := by
  unfold participateInDissociationOverlap
  simp only [forLoop, List.range', List.foldl, OverlapRegion.finishAxis, OverlapRegion.init]
  interval_cases a <;> simp [Function.update]

theorem emitFromOverlap_axis (dissPair : DissociationPair K) (product : PSICluster K) (a : Nat) (ha : a < 4) :
    (emitFromOverlap dissPair product).lo a = product.boundsBegin a
    ∧ (emitFromOverlap dissPair product).hi a = product.boundsEnd a - 1
    ∧ (emitFromOverlap dissPair product).width a
      = min ((emitFromOverlap dissPair product).hi a) ((emitFromOverlap dissPair product).r1Hi a + (emitFromOverlap dissPair product).singleComp a)
        - max ((emitFromOverlap dissPair product).lo a) ((emitFromOverlap dissPair product).r1Lo a + (emitFromOverlap dissPair product).singleComp a) + 1 := by
  unfold emitFromOverlap
  simp only [forLoop, List.range', List.foldl, OverlapRegion.finishAxis, OverlapRegion.init]
  by_cases h1 : dissPair.first.type = ReactantType.PSISuper <;>
  by_cases h2 : dissPair.second.type = ReactantType.PSISuper <;>
  interval_cases a <;> simp [Function.update, h1, h2]

/-- C10, counterexample: all bound ranges are valid (`lo ≤ hi`), the sample super-cluster
has bounds `0..1`, the other operand is the single composition 0 and the product has
bounds `10..12`; `participateIn(ProductionReaction&, IReactant&)` computes the width
`min(12, 1) - max(10, 0) + 1 = -8` on axis 0 and multiplies it into `nOverlap`, which
ends as `(-8)^4 = 4096`. -/
theorem overlapWidth_negative :
    (sampleSuper ℚ).self.boundsBegin 0 ≤ (sampleSuper ℚ).self.boundsEnd 0 - 1
    ∧ (sampleCluster ℚ 5 21 ReactantType.PSISuper 10 12).boundsBegin 0
        ≤ (sampleCluster ℚ 5 21 ReactantType.PSISuper 10 12).boundsEnd 0 - 1
    ∧ (participateInProductionOverlap (sampleSuper ℚ) (sampleCombination ℚ)
        (sampleCluster ℚ 5 21 ReactantType.PSISuper 10 12)).width 0 = -8
    ∧ (participateInProductionOverlap (sampleSuper ℚ) (sampleCombination ℚ)
        (sampleCluster ℚ 5 21 ReactantType.PSISuper 10 12)).width 0 < 0
    ∧ (participateInProductionOverlap (sampleSuper ℚ) (sampleCombination ℚ)
        (sampleCluster ℚ 5 21 ReactantType.PSISuper 10 12)).nOverlap = 4096 := by
  refine ⟨by decide, by decide, by decide, by decide, by decide⟩

/-! ## Jacobian assembly: closed forms -/

theorem forLoopM_eq_some {σ : Type} (lo hi : Nat) (body : Nat → σ → Option σ)
    (body2 : Nat → σ → σ) (h : ∀ i, lo ≤ i → i < hi → ∀ st, body i st = some (body2 i st))
    (init : σ) : forLoopM lo hi body init = some (forLoop lo hi body2 init) := by
  induction hi with
  | zero => simp [forLoopM, forLoop]
  | succ n ih =>
    by_cases hn : lo ≤ n
    · have ih2 := ih (fun i h1 h2 st => h i h1 (by omega) st)
      rw [forLoop_succ lo n hn]
      unfold forLoopM at ih2 ⊢
      have e : n + 1 - lo = (n - lo) + 1 := by omega
      rw [e, List.range'_concat, List.foldlM_append, ih2]
      simp only [Option.bind_eq_bind, Option.some_bind, List.foldlM_cons, List.foldlM_nil,
        Option.pure_def, Option.bind_some]
      have e2 : lo + 1 * (n - lo) = n := by omega
      rw [e2]
      exact h n hn (by omega) _
    · have h1 : n + 1 ≤ lo := by omega
      rw [forLoop_of_le lo (n + 1) h1]
      simp [forLoopM, Nat.sub_eq_zero_of_le h1]

/-- A loop whose body adds `F i` to an observed cell adds the sum of the `F i`. -/
theorem forLoop_add_read {σ : Type} (read : σ → K) (lo hi : Nat) (body : Nat → σ → σ)
    (F : Nat → K) (h : ∀ i st, read (body i st) = read st + F i) (init : σ) :
    read (forLoop lo hi body init) = read init + ∑ i ∈ Finset.Ico lo hi, F i := by
  induction hi with
  | zero => simp [forLoop_of_le]
  | succ n ih =>
    by_cases hn : lo ≤ n
    · rw [forLoop_succ lo n hn, h, ih, Finset.sum_Ico_succ_top hn, add_assoc]
    · have h1 : n + 1 ≤ lo := by omega
      rw [forLoop_of_le lo (n + 1) h1, Finset.Ico_eq_empty_of_le h1]
      simp

theorem addAt3_apply (a : Nat → Nat → Nat → K) (i j k : Nat) (v : K) (x y z : Nat) :
    addAt3 a i j k v x y z = a x y z + if x = i ∧ y = j ∧ z = k then v else 0 := by
  unfold addAt3 addAt2
  by_cases hx : x = i
  · subst hx
    by_cases hy : y = j
    · subst hy
      simp [addAt_apply]
    · simp [Function.update_noteq hy, hy]
  · simp [Function.update_noteq hx, hx]

theorem addPartial_apply (partials : Nat → Int → K) (i : Nat) (idx : Int) (v : K)
    (x : Nat) (y : Int) :
    addPartial partials i idx v x y
      = partials x y + if x = i ∧ y = idx then v else 0 := by
  unfold addPartial
  by_cases hx : x = i
  · subst hx
    by_cases hy : y = idx <;> simp [addAt_apply, hy]
  · simp [Function.update_noteq hx, hx]

theorem subPartial_eq_addPartial (partials : Nat → Int → K) (i : Nat) (idx : Int) (v : K) :
    subPartial partials i idx v = addPartial partials i idx (-v) := by
  unfold subPartial addPartial subAt addAt
  rw [sub_eq_add_neg]

theorem productionPartialSums_apply (psDim : Nat) (coefs : Nat → Nat → Nat → K)
    (lA lB : Nat → K) (k j : Nat) (hk : k < psDim) (hj : j < psDim) :
    productionPartialSums psDim coefs lA lB k j 0
        = ∑ i ∈ Finset.range psDim, coefs j i k * lB i
    ∧ productionPartialSums psDim coefs lA lB k j 1
        = ∑ i ∈ Finset.range psDim, coefs i j k * lA i := by
  have main : ∀ c : Nat, productionPartialSums psDim coefs lA lB k j c
      = ∑ k2 ∈ Finset.Ico 0 psDim, ∑ j2 ∈ Finset.Ico 0 psDim, ∑ i ∈ Finset.Ico 0 psDim,
          ((if k = k2 ∧ j = j2 ∧ c = 0 then coefs j2 i k2 * lB i else 0)
            + (if k = k2 ∧ j = j2 ∧ c = 1 then coefs i j2 k2 * lA i else 0)) := by
    intro c
    have inner : ∀ k2 j2 i (st : Nat → Nat → Nat → K),
        (fun (t : Nat → Nat → Nat → K) => t k j c)
            (addAt3 (addAt3 st k2 j2 0 (coefs j2 i k2 * lB i)) k2 j2 1 (coefs i j2 k2 * lA i))
          = (fun (t : Nat → Nat → Nat → K) => t k j c) st
            + ((if k = k2 ∧ j = j2 ∧ c = 0 then coefs j2 i k2 * lB i else 0)
              + (if k = k2 ∧ j = j2 ∧ c = 1 then coefs i j2 k2 * lA i else 0)) := by
      intro k2 j2 i st
      simp only [addAt3_apply, add_assoc]
    have mid := fun k2 j2 (st : Nat → Nat → Nat → K) =>
      forLoop_add_read (fun (t : Nat → Nat → Nat → K) => t k j c) 0 psDim _ _ (inner k2 j2) st
    have outer := fun k2 (st : Nat → Nat → Nat → K) =>
      forLoop_add_read (fun (t : Nat → Nat → Nat → K) => t k j c) 0 psDim _ _ (mid k2) st
    have top := forLoop_add_read (fun (t : Nat → Nat → Nat → K) => t k j c) 0 psDim _ _ outer
      (fun _ _ _ => 0)
    unfold productionPartialSums
    simp only [zero_add] at top
    exact top
  constructor
  · rw [main 0, Finset.sum_eq_single k, Finset.sum_eq_single j]
    · simp [Nat.Ico_zero_eq_range]
    · intro b _ hb
      have : ¬ j = b := fun e => hb e.symm
      simp [this]
    · intro h
      exact absurd (Finset.mem_Ico.mpr ⟨Nat.zero_le _, hj⟩) h
    · intro b _ hb
      have : ¬ k = b := fun e => hb e.symm
      simp [this]
    · intro h
      exact absurd (Finset.mem_Ico.mpr ⟨Nat.zero_le _, hk⟩) h
  · rw [main 1, Finset.sum_eq_single k, Finset.sum_eq_single j]
    · simp [Nat.Ico_zero_eq_range]
    · intro b _ hb
      have : ¬ j = b := fun e => hb e.symm
      simp [this]
    · intro h
      exact absurd (Finset.mem_Ico.mpr ⟨Nat.zero_le _, hj⟩) h
    · intro b _ hb
      have : ¬ k = b := fun e => hb e.symm
      simp [this]
    · intro h
      exact absurd (Finset.mem_Ico.mpr ⟨Nat.zero_le _, hk⟩) h

theorem combinationPartialSums_apply (psDim : Nat) (coefs : Nat → Nat → Nat → K)
    (lA lB : Nat → K) (k j : Nat) (hk : k < psDim) (hj : j < psDim) :
    combinationPartialSums psDim coefs lA lB k j 0
        = ∑ i ∈ Finset.range psDim, coefs i j k * lA i
    ∧ combinationPartialSums psDim coefs lA lB k j 1
        = ∑ i ∈ Finset.range psDim, coefs j i k * lB i := by
  have main : ∀ c : Nat, combinationPartialSums psDim coefs lA lB k j c
      = ∑ k2 ∈ Finset.Ico 0 psDim, ∑ j2 ∈ Finset.Ico 0 psDim, ∑ i ∈ Finset.Ico 0 psDim,
          ((if k = k2 ∧ j = j2 ∧ c = 0 then coefs i j2 k2 * lA i else 0)
            + (if k = k2 ∧ j = j2 ∧ c = 1 then coefs j2 i k2 * lB i else 0)) := by
    intro c
    have inner : ∀ k2 j2 i (st : Nat → Nat → Nat → K),
        (fun (t : Nat → Nat → Nat → K) => t k j c)
            (addAt3 (addAt3 st k2 j2 0 (coefs i j2 k2 * lA i)) k2 j2 1 (coefs j2 i k2 * lB i))
          = (fun (t : Nat → Nat → Nat → K) => t k j c) st
            + ((if k = k2 ∧ j = j2 ∧ c = 0 then coefs i j2 k2 * lA i else 0)
              + (if k = k2 ∧ j = j2 ∧ c = 1 then coefs j2 i k2 * lB i else 0)) := by
      intro k2 j2 i st
      simp only [addAt3_apply, add_assoc]
    have mid := fun k2 j2 (st : Nat → Nat → Nat → K) =>
      forLoop_add_read (fun (t : Nat → Nat → Nat → K) => t k j c) 0 psDim _ _ (inner k2 j2) st
    have outer := fun k2 (st : Nat → Nat → Nat → K) =>
      forLoop_add_read (fun (t : Nat → Nat → Nat → K) => t k j c) 0 psDim _ _ (mid k2) st
    have top := forLoop_add_read (fun (t : Nat → Nat → Nat → K) => t k j c) 0 psDim _ _ outer
      (fun _ _ _ => 0)
    unfold combinationPartialSums
    simp only [zero_add] at top
    exact top
  constructor
  · rw [main 0, Finset.sum_eq_single k, Finset.sum_eq_single j]
    · simp [Nat.Ico_zero_eq_range]
    · intro b _ hb
      have : ¬ j = b := fun e => hb e.symm
      simp [this]
    · intro h
      exact absurd (Finset.mem_Ico.mpr ⟨Nat.zero_le _, hj⟩) h
    · intro b _ hb
      have : ¬ k = b := fun e => hb e.symm
      simp [this]
    · intro h
      exact absurd (Finset.mem_Ico.mpr ⟨Nat.zero_le _, hk⟩) h
  · rw [main 1, Finset.sum_eq_single k, Finset.sum_eq_single j]
    · simp [Nat.Ico_zero_eq_range]
    · intro b _ hb
      have : ¬ j = b := fun e => hb e.symm
      simp [this]
    · intro h
      exact absurd (Finset.mem_Ico.mpr ⟨Nat.zero_le _, hj⟩) h
    · intro b _ hb
      have : ¬ k = b := fun e => hb e.symm
      simp [this]
    · intro h
      exact absurd (Finset.mem_Ico.mpr ⟨Nat.zero_le _, hk⟩) h

/-- The two nested loops of the production and combination Jacobian bodies, in closed
form: every lookup succeeds and cell `(x, y)` receives the listed amounts. -/
theorem twoSlotLoops_apply (psDim : Nat) (partialsIdxMap : Nat → Int → Option Int)
    (idxA idxB slotA slotB : Nat → Int)
    (hA : ∀ j, j < psDim → partialsIdxMap j (idxA j) = some (slotA j))
    (hB : ∀ j, j < psDim → partialsIdxMap j (idxB j) = some (slotB j))
    (v0 v1 : Nat → Nat → K) (partials : Nat → Int → K) :
    ∃ partials2 : Nat → Int → K,
      forLoopM 0 psDim (fun j partials =>
        match partialsIdxMap j (idxA j), partialsIdxMap j (idxB j) with
        | some partialsIdxA, some partialsIdxB =>
          some (forLoop 0 psDim (fun i partials =>
            addPartial (addPartial partials i partialsIdxA (v0 i j)) i partialsIdxB (v1 i j))
              partials)
        | _, _ => none) partials = some partials2
      ∧ ∀ x y, partials2 x y = partials x y
          + ∑ j ∈ Finset.range psDim, ∑ i ∈ Finset.range psDim,
              ((if x = i ∧ y = slotA j then v0 i j else 0)
                + (if x = i ∧ y = slotB j then v1 i j else 0)) := by
  refine ⟨_, forLoopM_eq_some 0 psDim _ (fun j partials =>
      forLoop 0 psDim (fun i partials =>
        addPartial (addPartial partials i (slotA j) (v0 i j)) i (slotB j) (v1 i j)) partials)
      ?_ partials, ?_⟩
  · intro j _ hj st
    simp only [hA j hj, hB j hj]
  · intro x y
    have inner : ∀ j i (st : Nat → Int → K),
        (fun (t : Nat → Int → K) => t x y)
            (addPartial (addPartial st i (slotA j) (v0 i j)) i (slotB j) (v1 i j))
          = (fun (t : Nat → Int → K) => t x y) st
            + ((if x = i ∧ y = slotA j then v0 i j else 0)
              + (if x = i ∧ y = slotB j then v1 i j else 0)) := by
      intro j i st
      simp only [addPartial_apply, add_assoc]
    have mid := fun j (st : Nat → Int → K) =>
      forLoop_add_read (fun (t : Nat → Int → K) => t x y) 0 psDim _ _ (inner j) st
    have top := forLoop_add_read (fun (t : Nat → Int → K) => t x y) 0 psDim _ _ mid partials
    simp only [Nat.Ico_zero_eq_range] at top
    exact top

/-- With pairwise distinct slots, the cell of row `k` at the first slot of position `j0`
receives `v0 k j0`, and the cell at the second slot receives `v1 k j0`. -/
theorem twoSlot_amount (psDim : Nat) (slotA slotB : Nat → Int) (v0 v1 : Nat → Nat → K)
    (k j0 : Nat) (hk : k < psDim) (hj0 : j0 < psDim)
    (hslot : ∀ i, i < psDim → ∀ i2, i2 < psDim →
      (slotA i = slotA i2 → i = i2) ∧ (slotB i = slotB i2 → i = i2) ∧ slotA i ≠ slotB i2) :
    (∑ j ∈ Finset.range psDim, ∑ i ∈ Finset.range psDim,
        ((if k = i ∧ slotA j0 = slotA j then v0 i j else 0)
          + (if k = i ∧ slotA j0 = slotB j then v1 i j else 0))) = v0 k j0
    ∧ (∑ j ∈ Finset.range psDim, ∑ i ∈ Finset.range psDim,
        ((if k = i ∧ slotB j0 = slotA j then v0 i j else 0)
          + (if k = i ∧ slotB j0 = slotB j then v1 i j else 0))) = v1 k j0 := by
  constructor
  · rw [Finset.sum_eq_single j0, Finset.sum_eq_single k]
    · have h := (hslot j0 hj0 j0 hj0).2.2
      simp [h]
    · intro i _ hi
      have : ¬ k = i := fun e => hi e.symm
      simp [this]
    · intro h
      exact absurd (Finset.mem_range.mpr hk) h
    · intro j hj hne
      apply Finset.sum_eq_zero
      intro i _
      have h1 : ¬ slotA j0 = slotA j := fun e =>
        hne ((hslot j0 hj0 j (Finset.mem_range.mp hj)).1 e).symm
      have h2 : ¬ slotA j0 = slotB j := (hslot j0 hj0 j (Finset.mem_range.mp hj)).2.2
      simp [h1, h2]
    · intro h
      exact absurd (Finset.mem_range.mpr hj0) h
  · rw [Finset.sum_eq_single j0, Finset.sum_eq_single k]
    · have h : ¬ slotB j0 = slotA j0 := fun e => (hslot j0 hj0 j0 hj0).2.2 e.symm
      simp [h]
    · intro i _ hi
      have : ¬ k = i := fun e => hi e.symm
      simp [this]
    · intro h
      exact absurd (Finset.mem_range.mpr hk) h
    · intro j hj hne
      apply Finset.sum_eq_zero
      intro i _
      have h1 : ¬ slotB j0 = slotB j := fun e =>
        hne ((hslot j0 hj0 j (Finset.mem_range.mp hj)).2.1 e).symm
      have h2 : ¬ slotB j0 = slotA j := fun e =>
        (hslot j (Finset.mem_range.mp hj) j0 hj0).2.2 e.symm
      simp [h1, h2]
    · intro h
      exact absurd (Finset.mem_range.mpr hj0) h

/-- The production Jacobian body in closed form: with every needed key in the maps and
pairwise distinct slots, the body succeeds and adds to row `k`, at the slot of the first
operand's `j`-th variable, `value * Σ_i coefs[j][i][k] * lB[i]`, and at the slot of the
second operand's, `value * Σ_i coefs[i][j][k] * lA[i]`. -/
theorem computeProductionPartialDerivativesBody_amount (psDim : Nat) (indexList : Nat → Int)
    (s : PSISuperCluster K) (concs : Int → K) (xi : Nat)
    (partialsIdxMap : Nat → Int → Option Int) (partials : Nat → Int → K)
    (p : ProductionPair K) (slotA slotB : Nat → Int) (k j : Nat)
    (hk : k < psDim) (hj : j < psDim)
    (hmapA : ∀ i, i < psDim →
      partialsIdxMap i (stateIndex indexList p.first i) = some (slotA i))
    (hmapB : ∀ i, i < psDim →
      partialsIdxMap i (stateIndex indexList p.second i) = some (slotB i))
    (hslot : ∀ i, i < psDim → ∀ i2, i2 < psDim →
      (slotA i = slotA i2 → i = i2) ∧ (slotB i = slotB i2 → i = i2) ∧ slotA i ≠ slotB i2) :
    ∃ partials2 : Nat → Int → K,
      computeProductionPartialDerivativesBody psDim indexList s concs xi partialsIdxMap
          partials p = some partials2
      ∧ partials2 k (slotA j) - partials k (slotA j)
          = p.reaction.kConstant xi / (s.nTot : K)
            * ∑ i ∈ Finset.range psDim,
                p.coefs j i k * gatherMoments psDim indexList p.second concs i
      ∧ partials2 k (slotB j) - partials k (slotB j)
          = p.reaction.kConstant xi / (s.nTot : K)
            * ∑ i ∈ Finset.range psDim,
                p.coefs i j k * gatherMoments psDim indexList p.first concs i := by
  obtain ⟨p2, h1, h2⟩ := twoSlotLoops_apply psDim partialsIdxMap
    (stateIndex indexList p.first) (stateIndex indexList p.second) slotA slotB hmapA hmapB
    (fun i j => p.reaction.kConstant xi / (s.nTot : K)
      * productionPartialSums psDim p.coefs (gatherMoments psDim indexList p.first concs)
          (gatherMoments psDim indexList p.second concs) i j 0)
    (fun i j => p.reaction.kConstant xi / (s.nTot : K)
      * productionPartialSums psDim p.coefs (gatherMoments psDim indexList p.first concs)
          (gatherMoments psDim indexList p.second concs) i j 1) partials
  refine ⟨p2, h1, ?_, ?_⟩
  · rw [h2, (twoSlot_amount psDim slotA slotB _ _ k j hk hj hslot).1,
      (productionPartialSums_apply psDim p.coefs _ _ k j hk hj).1]
    ring
  · rw [h2, (twoSlot_amount psDim slotA slotB _ _ k j hk hj hslot).2,
      (productionPartialSums_apply psDim p.coefs _ _ k j hk hj).2]
    ring

/-! ## Flux components as functions of one state variable -/

theorem gatherMoments_of_readsOwnState (psDim : Nat) (indexList : Nat → Int) (c : PSICluster K)
    (h : ReadsOwnState c) (concs : Int → K) (i : Nat) (hi : i < psDim) :
    gatherMoments psDim indexList c concs i = concs (stateIndex indexList c i) := by
  rw [gatherMoments_apply]
  unfold stateIndex
  by_cases h0 : i = 0
  · simp [h0, (h concs).1]
  · simp [h0, hi, (h concs).2]

/-- Changing one entry of a vector changes a weighted sum by the change times the weight. -/
theorem sum_mul_of_update (n j0 : Nat) (hj0 : j0 < n) (l l2 G : Nat → K)
    (hne : ∀ j, j < n → j ≠ j0 → l2 j = l j) :
    (∑ j ∈ Finset.range n, l2 j * G j)
      = (∑ j ∈ Finset.range n, l j * G j) + (l2 j0 - l j0) * G j0 := by
  have h : (∑ j ∈ Finset.range n, (l2 j - l j) * G j) = (l2 j0 - l j0) * G j0 := by
    rw [Finset.sum_eq_single j0]
    · intro j hj hjne
      rw [hne j (Finset.mem_range.mp hj) hjne]
      ring
    · intro h
      exact absurd (Finset.mem_range.mpr hj0) h
  rw [← h, ← Finset.sum_add_distrib]
  apply Finset.sum_congr rfl
  intro j _
  ring

/-- With `indexList` injective on the tracked positions, the only position filed under
the moment-flux cell of position `k` is `k` itself. -/
theorem filter_indexList_eq_singleton (psDim : Nat) (indexList : Nat → Int) (k : Nat)
    (hk1 : 1 ≤ k) (hk : k < psDim)
    (hidx : ∀ i, 1 ≤ i → i < psDim → ∀ i2, 1 ≤ i2 → i2 < psDim →
      indexList i = indexList i2 → i = i2) :
    (Finset.Ico 1 psDim).filter (fun k2 => indexList k2 - 1 = indexList k - 1) = {k} := by
  ext x
  simp only [Finset.mem_filter, Finset.mem_Ico, Finset.mem_singleton]
  constructor
  · rintro ⟨⟨h1, h2⟩, h3⟩
    exact hidx x h1 h2 k hk1 hk (by linarith)
  · intro h
    subst h
    exact ⟨⟨hk1, hk⟩, rfl⟩

/-- Component `k` of the result of one step of `getProductionFlux`. -/
theorem getProductionFluxBody_component (psDim : Nat) (indexList : Nat → Int)
    (s : PSISuperCluster K) (concs : Int → K) (xi : Nat) (fl : Flux K) (p : ProductionPair K)
    (k : Nat) (hk : k < psDim)
    (hidx : ∀ i, 1 ≤ i → i < psDim → ∀ i2, 1 ≤ i2 → i2 < psDim →
      indexList i = indexList i2 → i = i2) :
    (if k = 0 then (getProductionFluxBody psDim indexList s concs xi fl p).flux
      else (getProductionFluxBody psDim indexList s concs xi fl p).momentFlux (indexList k - 1))
      = (if k = 0 then fl.flux else fl.momentFlux (indexList k - 1))
        + p.reaction.kConstant xi / (s.nTot : K)
          * ∑ j ∈ Finset.range psDim, ∑ i ∈ Finset.range psDim,
              p.coefs j i k * gatherMoments psDim indexList p.first concs j
                * gatherMoments psDim indexList p.second concs i := by
  by_cases h0 : k = 0
  · subst h0
    simp only [if_true]
    rw [getProductionFluxBody_flux, productionSum_apply, if_pos hk]
  · simp only [h0, if_false]
    rw [getProductionFluxBody_momentFlux,
      filter_indexList_eq_singleton psDim indexList k (Nat.one_le_iff_ne_zero.mpr h0) hk hidx,
      Finset.sum_singleton, productionSum_apply, if_pos hk]

/-- Component `k` of the result of one step of `getCombinationFlux`: the scalar flux
receives `+ value * sum[0]`, a moment flux `- value * sum[k]`. -/
theorem getCombinationFluxBody_component (psDim : Nat) (indexList : Nat → Int)
    (s : PSISuperCluster K) (concs : Int → K) (xi : Nat) (fl : Flux K) (p : CombiningCluster K)
    (k : Nat) (hk : k < psDim)
    (hidx : ∀ i, 1 ≤ i → i < psDim → ∀ i2, 1 ≤ i2 → i2 < psDim →
      indexList i = indexList i2 → i = i2) :
    (if k = 0 then -(getCombinationFluxBody psDim indexList s concs xi fl p).flux
      else (getCombinationFluxBody psDim indexList s concs xi fl p).momentFlux (indexList k - 1))
      = (if k = 0 then -fl.flux else fl.momentFlux (indexList k - 1))
        - p.reaction.kConstant xi / (s.nTot : K)
          * ∑ j ∈ Finset.range psDim, ∑ i ∈ Finset.range psDim,
              p.coefs i j k * gatherMoments psDim indexList s.self concs i
                * gatherMoments psDim indexList p.first concs j := by
  by_cases h0 : k = 0
  · subst h0
    simp only [if_true]
    rw [getCombinationFluxBody_flux, combinationSum_apply, if_pos hk]
    ring
  · simp only [h0, if_false]
    rw [getCombinationFluxBody_momentFlux,
      filter_indexList_eq_singleton psDim indexList k (Nat.one_le_iff_ne_zero.mpr h0) hk hidx,
      Finset.sum_singleton, combinationSum_apply, if_pos hk]

/-- Component `k` of the result of one step of `getEmissionFlux`: the scalar flux
receives `+ value * sum[0]`, a moment flux `- value * sum[k]`. -/
theorem getEmissionFluxBody_component (psDim : Nat) (indexList : Nat → Int)
    (s : PSISuperCluster K) (concs : Int → K) (xi : Nat) (fl : Flux K) (p : DissociationPair K)
    (k : Nat) (hk : k < psDim)
    (hidx : ∀ i, 1 ≤ i → i < psDim → ∀ i2, 1 ≤ i2 → i2 < psDim →
      indexList i = indexList i2 → i = i2) :
    (if k = 0 then -(getEmissionFluxBody psDim indexList s concs xi fl p).flux
      else (getEmissionFluxBody psDim indexList s concs xi fl p).momentFlux (indexList k - 1))
      = (if k = 0 then -fl.flux else fl.momentFlux (indexList k - 1))
        - p.reaction.kConstant xi / (s.nTot : K)
          * ∑ i ∈ Finset.range psDim,
              p.coefs i k * gatherMoments psDim indexList s.self concs i := by
  by_cases h0 : k = 0
  · subst h0
    simp only [if_true]
    rw [getEmissionFluxBody_flux, dissociationSum_apply, if_pos hk]
    ring
  · simp only [h0, if_false]
    rw [getEmissionFluxBody_momentFlux,
      filter_indexList_eq_singleton psDim indexList k (Nat.one_le_iff_ne_zero.mpr h0) hk hidx,
      Finset.sum_singleton, dissociationSum_apply, if_pos hk]

/-- Distinct tracked positions are mapped to distinct axes as soon as one cluster keeps
its state variables under distinct indices. -/
theorem indexList_injective_of_stateIndex (psDim : Nat) (indexList : Nat → Int)
    (c : PSICluster K)
    (h : ∀ i, i < psDim → ∀ i2, i2 < psDim →
      stateIndex indexList c i = stateIndex indexList c i2 → i = i2) :
    ∀ i, 1 ≤ i → i < psDim → ∀ i2, 1 ≤ i2 → i2 < psDim →
      indexList i = indexList i2 → i = i2 := by
  intro i h1 h2 i2 h3 h4 e
  apply h i h2 i2 h4
  unfold stateIndex
  have a : i ≠ 0 := by omega
  have b : i2 ≠ 0 := by omega
  simp [a, b, e]

/-- A function that is affine in its argument has the slope as derivative. -/
theorem hasDerivAt_of_affine (f : ℝ → ℝ) (x c : ℝ) (h : ∀ t, f t = f x + (t - x) * c) :
    HasDerivAt f c x := by
  have e : f = fun t => f x + (t - x) * c := funext h
  rw [e]
  have d := (((hasDerivAt_id x).sub_const x).mul_const c).const_add (f x)
  simpa using d

/-- One step of `getProductionFlux` is affine in each operand state variable, with the
slopes that the Jacobian code files. -/
theorem getProductionFluxBody_affine (psDim : Nat) (indexList : Nat → Int)
    (s : PSISuperCluster K) (concs : Int → K) (xi : Nat) (fl : Flux K) (p : ProductionPair K)
    (k j0 : Nat) (hk : k < psDim) (hj0 : j0 < psDim)
    (hA : ReadsOwnState p.first) (hB : ReadsOwnState p.second)
    (hvar : ∀ i, i < psDim → ∀ i2, i2 < psDim →
      (stateIndex indexList p.first i = stateIndex indexList p.first i2 → i = i2)
      ∧ (stateIndex indexList p.second i = stateIndex indexList p.second i2 → i = i2)
      ∧ stateIndex indexList p.first i ≠ stateIndex indexList p.second i2) (t : K) :
    ((if k = 0 then
        (getProductionFluxBody psDim indexList s
          (Function.update concs (stateIndex indexList p.first j0) t) xi fl p).flux
      else
        (getProductionFluxBody psDim indexList s
          (Function.update concs (stateIndex indexList p.first j0) t) xi fl p).momentFlux
            (indexList k - 1))
      = (if k = 0 then (getProductionFluxBody psDim indexList s concs xi fl p).flux
          else (getProductionFluxBody psDim indexList s concs xi fl p).momentFlux
            (indexList k - 1))
        + (t - concs (stateIndex indexList p.first j0))
          * (p.reaction.kConstant xi / (s.nTot : K)
            * ∑ i ∈ Finset.range psDim,
                p.coefs j0 i k * gatherMoments psDim indexList p.second concs i))
    ∧ ((if k = 0 then
        (getProductionFluxBody psDim indexList s
          (Function.update concs (stateIndex indexList p.second j0) t) xi fl p).flux
      else
        (getProductionFluxBody psDim indexList s
          (Function.update concs (stateIndex indexList p.second j0) t) xi fl p).momentFlux
            (indexList k - 1))
      = (if k = 0 then (getProductionFluxBody psDim indexList s concs xi fl p).flux
          else (getProductionFluxBody psDim indexList s concs xi fl p).momentFlux
            (indexList k - 1))
        + (t - concs (stateIndex indexList p.second j0))
          * (p.reaction.kConstant xi / (s.nTot : K)
            * ∑ i ∈ Finset.range psDim,
                p.coefs i j0 k * gatherMoments psDim indexList p.first concs i)) := by
  have hidx := indexList_injective_of_stateIndex psDim indexList p.first
    (fun i hi i2 hi2 => (hvar i hi i2 hi2).1)
  constructor
  · rw [getProductionFluxBody_component psDim indexList s _ xi fl p k hk hidx,
      getProductionFluxBody_component psDim indexList s concs xi fl p k hk hidx]
    have hB2 : ∀ i, i < psDim →
        gatherMoments psDim indexList p.second
            (Function.update concs (stateIndex indexList p.first j0) t) i
          = gatherMoments psDim indexList p.second concs i := by
      intro i hi
      rw [gatherMoments_of_readsOwnState psDim indexList p.second hB _ i hi,
        gatherMoments_of_readsOwnState psDim indexList p.second hB _ i hi,
        Function.update_noteq (fun e => (hvar j0 hj0 i hi).2.2 e.symm)]
    have hA2 : ∀ j, j < psDim → j ≠ j0 →
        gatherMoments psDim indexList p.first
            (Function.update concs (stateIndex indexList p.first j0) t) j
          = gatherMoments psDim indexList p.first concs j := by
      intro j hj hne
      rw [gatherMoments_of_readsOwnState psDim indexList p.first hA _ j hj,
        gatherMoments_of_readsOwnState psDim indexList p.first hA _ j hj,
        Function.update_noteq (fun e => hne ((hvar j hj j0 hj0).1 e))]
    have hA3 : gatherMoments psDim indexList p.first
            (Function.update concs (stateIndex indexList p.first j0) t) j0 = t := by
      rw [gatherMoments_of_readsOwnState psDim indexList p.first hA _ j0 hj0,
        Function.update_same]
    have hA4 : gatherMoments psDim indexList p.first concs j0
        = concs (stateIndex indexList p.first j0) :=
      gatherMoments_of_readsOwnState psDim indexList p.first hA _ j0 hj0
    have e1 : (∑ j ∈ Finset.range psDim, ∑ i ∈ Finset.range psDim,
          p.coefs j i k
            * gatherMoments psDim indexList p.first
                (Function.update concs (stateIndex indexList p.first j0) t) j
            * gatherMoments psDim indexList p.second
                (Function.update concs (stateIndex indexList p.first j0) t) i)
        = ∑ j ∈ Finset.range psDim,
            gatherMoments psDim indexList p.first
                (Function.update concs (stateIndex indexList p.first j0) t) j
              * ∑ i ∈ Finset.range psDim,
                  p.coefs j i k * gatherMoments psDim indexList p.second concs i := by
      apply Finset.sum_congr rfl
      intro j _
      rw [Finset.mul_sum]
      apply Finset.sum_congr rfl
      intro i hi
      rw [hB2 i (Finset.mem_range.mp hi)]
      ring
    have e2 : (∑ j ∈ Finset.range psDim, ∑ i ∈ Finset.range psDim,
          p.coefs j i k * gatherMoments psDim indexList p.first concs j
            * gatherMoments psDim indexList p.second concs i)
        = ∑ j ∈ Finset.range psDim,
            gatherMoments psDim indexList p.first concs j
              * ∑ i ∈ Finset.range psDim,
                  p.coefs j i k * gatherMoments psDim indexList p.second concs i := by
      apply Finset.sum_congr rfl
      intro j _
      rw [Finset.mul_sum]
      apply Finset.sum_congr rfl
      intro i _
      ring
    rw [e1, e2, sum_mul_of_update psDim j0 hj0
      (gatherMoments psDim indexList p.first concs) _ _ hA2, hA3, hA4]
    ring
  · rw [getProductionFluxBody_component psDim indexList s _ xi fl p k hk hidx,
      getProductionFluxBody_component psDim indexList s concs xi fl p k hk hidx]
    have hA2 : ∀ i, i < psDim →
        gatherMoments psDim indexList p.first
            (Function.update concs (stateIndex indexList p.second j0) t) i
          = gatherMoments psDim indexList p.first concs i := by
      intro i hi
      rw [gatherMoments_of_readsOwnState psDim indexList p.first hA _ i hi,
        gatherMoments_of_readsOwnState psDim indexList p.first hA _ i hi,
        Function.update_noteq (hvar i hi j0 hj0).2.2]
    have hB2 : ∀ j, j < psDim → j ≠ j0 →
        gatherMoments psDim indexList p.second
            (Function.update concs (stateIndex indexList p.second j0) t) j
          = gatherMoments psDim indexList p.second concs j := by
      intro j hj hne
      rw [gatherMoments_of_readsOwnState psDim indexList p.second hB _ j hj,
        gatherMoments_of_readsOwnState psDim indexList p.second hB _ j hj,
        Function.update_noteq (fun e => hne ((hvar j hj j0 hj0).2.1 e))]
    have hB3 : gatherMoments psDim indexList p.second
            (Function.update concs (stateIndex indexList p.second j0) t) j0 = t := by
      rw [gatherMoments_of_readsOwnState psDim indexList p.second hB _ j0 hj0,
        Function.update_same]
    have hB4 : gatherMoments psDim indexList p.second concs j0
        = concs (stateIndex indexList p.second j0) :=
      gatherMoments_of_readsOwnState psDim indexList p.second hB _ j0 hj0
    have e1 : (∑ j ∈ Finset.range psDim, ∑ i ∈ Finset.range psDim,
          p.coefs j i k
            * gatherMoments psDim indexList p.first
                (Function.update concs (stateIndex indexList p.second j0) t) j
            * gatherMoments psDim indexList p.second
                (Function.update concs (stateIndex indexList p.second j0) t) i)
        = ∑ i ∈ Finset.range psDim,
            gatherMoments psDim indexList p.second
                (Function.update concs (stateIndex indexList p.second j0) t) i
              * ∑ j ∈ Finset.range psDim,
                  p.coefs j i k * gatherMoments psDim indexList p.first concs j := by
      rw [Finset.sum_comm]
      apply Finset.sum_congr rfl
      intro i _
      rw [Finset.mul_sum]
      apply Finset.sum_congr rfl
      intro j hj
      rw [hA2 j (Finset.mem_range.mp hj)]
      ring
    have e2 : (∑ j ∈ Finset.range psDim, ∑ i ∈ Finset.range psDim,
          p.coefs j i k * gatherMoments psDim indexList p.first concs j
            * gatherMoments psDim indexList p.second concs i)
        = ∑ i ∈ Finset.range psDim,
            gatherMoments psDim indexList p.second concs i
              * ∑ j ∈ Finset.range psDim,
                  p.coefs j i k * gatherMoments psDim indexList p.first concs j := by
      rw [Finset.sum_comm]
      apply Finset.sum_congr rfl
      intro i _
      rw [Finset.mul_sum]
      apply Finset.sum_congr rfl
      intro j _
      ring
    rw [e1, e2, sum_mul_of_update psDim j0 hj0
      (gatherMoments psDim indexList p.second concs) _ _ hB2, hB3, hB4]
    ring

/-! ## Jacobian consistency of the combination and emission terms (claim C5) -/

/-- The combination Jacobian body in closed form: with every needed key in the maps and
pairwise distinct slots, the body succeeds and subtracts from row `k`, at the slot of the
partner's `j`-th variable, `value * Σ_i coefs[i][j][k] * lA[i]`, and at the slot of this
cluster's own `j`-th variable, `value * Σ_i coefs[j][i][k] * lB[i]`. -/
theorem computeCombinationPartialDerivativesBody_amount (psDim : Nat) (indexList : Nat → Int)
    (s : PSISuperCluster K) (concs : Int → K) (xi : Nat)
    (partialsIdxMap : Nat → Int → Option Int) (partials : Nat → Int → K)
    (p : CombiningCluster K) (slotP slotS : Nat → Int) (k j : Nat)
    (hk : k < psDim) (hj : j < psDim)
    (hmapP : ∀ i, i < psDim →
      partialsIdxMap i (stateIndex indexList p.first i) = some (slotP i))
    (hmapS : ∀ i, i < psDim →
      partialsIdxMap i (stateIndex indexList s.self i) = some (slotS i))
    (hslot : ∀ i, i < psDim → ∀ i2, i2 < psDim →
      (slotP i = slotP i2 → i = i2) ∧ (slotS i = slotS i2 → i = i2) ∧ slotP i ≠ slotS i2) :
    ∃ partials2 : Nat → Int → K,
      computeCombinationPartialDerivativesBody psDim indexList s concs xi partialsIdxMap
          partials p = some partials2
      ∧ partials2 k (slotP j) - partials k (slotP j)
          = -(p.reaction.kConstant xi / (s.nTot : K)
            * ∑ i ∈ Finset.range psDim,
                p.coefs i j k * gatherMoments psDim indexList s.self concs i)
      ∧ partials2 k (slotS j) - partials k (slotS j)
          = -(p.reaction.kConstant xi / (s.nTot : K)
            * ∑ i ∈ Finset.range psDim,
                p.coefs j i k * gatherMoments psDim indexList p.first concs i) := by
  obtain ⟨p2, h1, h2⟩ := twoSlotLoops_apply psDim partialsIdxMap
    (stateIndex indexList p.first) (stateIndex indexList s.self) slotP slotS hmapP hmapS
    (fun i j => -(p.reaction.kConstant xi / (s.nTot : K)
      * combinationPartialSums psDim p.coefs (gatherMoments psDim indexList s.self concs)
          (gatherMoments psDim indexList p.first concs) i j 0))
    (fun i j => -(p.reaction.kConstant xi / (s.nTot : K)
      * combinationPartialSums psDim p.coefs (gatherMoments psDim indexList s.self concs)
          (gatherMoments psDim indexList p.first concs) i j 1)) partials
  refine ⟨p2, ?_, ?_, ?_⟩
  · unfold computeCombinationPartialDerivativesBody
    simp only [subPartial_eq_addPartial]
    exact h1
  · rw [h2, (twoSlot_amount psDim slotP slotS _ _ k j hk hj hslot).1,
      (combinationPartialSums_apply psDim p.coefs _ _ k j hk hj).1]
    ring
  · rw [h2, (twoSlot_amount psDim slotP slotS _ _ k j hk hj hslot).2,
      (combinationPartialSums_apply psDim p.coefs _ _ k j hk hj).2]
    ring

/-- The nested loops of the dissociation and emission Jacobian bodies, in closed form. -/
theorem oneSlotLoops_apply (psDim : Nat) (partialsIdxMap : Nat → Int → Option Int)
    (idx slot : Nat → Int)
    (hmap : ∀ j, j < psDim → partialsIdxMap j (idx j) = some (slot j))
    (v : Nat → Nat → K) (partials : Nat → Int → K) :
    ∃ partials2 : Nat → Int → K,
      forLoopM 0 psDim (fun j partials =>
        match partialsIdxMap j (idx j) with
        | some partialsIdx =>
          some (forLoop 0 psDim (fun i partials =>
            addPartial partials i partialsIdx (v i j)) partials)
        | none => none) partials = some partials2
      ∧ ∀ x y, partials2 x y = partials x y
          + ∑ j ∈ Finset.range psDim, ∑ i ∈ Finset.range psDim,
              (if x = i ∧ y = slot j then v i j else 0) := by
  refine ⟨_, forLoopM_eq_some 0 psDim _ (fun j partials =>
      forLoop 0 psDim (fun i partials => addPartial partials i (slot j) (v i j)) partials)
      ?_ partials, ?_⟩
  · intro j _ hj st
    simp only [hmap j hj]
  · intro x y
    have inner : ∀ j i (st : Nat → Int → K),
        (fun (t : Nat → Int → K) => t x y) (addPartial st i (slot j) (v i j))
          = (fun (t : Nat → Int → K) => t x y) st
            + (if x = i ∧ y = slot j then v i j else 0) := by
      intro j i st
      simp only [addPartial_apply]
    have mid := fun j (st : Nat → Int → K) =>
      forLoop_add_read (fun (t : Nat → Int → K) => t x y) 0 psDim _ _ (inner j) st
    have top := forLoop_add_read (fun (t : Nat → Int → K) => t x y) 0 psDim _ _ mid partials
    simp only [Nat.Ico_zero_eq_range] at top
    exact top

theorem oneSlot_amount (psDim : Nat) (slot : Nat → Int) (v : Nat → Nat → K)
    (k j0 : Nat) (hk : k < psDim) (hj0 : j0 < psDim)
    (hslot : ∀ i, i < psDim → ∀ i2, i2 < psDim → slot i = slot i2 → i = i2) :
    (∑ j ∈ Finset.range psDim, ∑ i ∈ Finset.range psDim,
        (if k = i ∧ slot j0 = slot j then v i j else 0)) = v k j0 := by
  rw [Finset.sum_eq_single j0, Finset.sum_eq_single k]
  · simp
  · intro i _ hi
    have : ¬ k = i := fun e => hi e.symm
    simp [this]
  · intro h
    exact absurd (Finset.mem_range.mpr hk) h
  · intro j hj hne
    apply Finset.sum_eq_zero
    intro i _
    have h1 : ¬ slot j0 = slot j := fun e =>
      hne (hslot j0 hj0 j (Finset.mem_range.mp hj) e).symm
    simp [h1]
  · intro h
    exact absurd (Finset.mem_range.mpr hj0) h

/-- The emission Jacobian body in closed form: it subtracts `value * coefs[j][k]` from
row `k` at the slot of this cluster's own `j`-th variable. -/
theorem computeEmissionPartialDerivativesBody_amount (psDim : Nat) (indexList : Nat → Int)
    (s : PSISuperCluster K) (xi : Nat)
    (partialsIdxMap : Nat → Int → Option Int) (partials : Nat → Int → K)
    (p : DissociationPair K) (slotS : Nat → Int) (k j : Nat)
    (hk : k < psDim) (hj : j < psDim)
    (hmapS : ∀ i, i < psDim →
      partialsIdxMap i (stateIndex indexList s.self i) = some (slotS i))
    (hslot : ∀ i, i < psDim → ∀ i2, i2 < psDim → slotS i = slotS i2 → i = i2) :
    ∃ partials2 : Nat → Int → K,
      computeEmissionPartialDerivativesBody psDim indexList s xi partialsIdxMap partials p
        = some partials2
      ∧ partials2 k (slotS j) - partials k (slotS j)
          = -(p.reaction.kConstant xi / (s.nTot : K) * p.coefs j k) := by
  obtain ⟨p2, h1, h2⟩ := oneSlotLoops_apply psDim partialsIdxMap
    (stateIndex indexList s.self) slotS hmapS
    (fun i j => -(p.reaction.kConstant xi / (s.nTot : K) * p.coefs j i)) partials
  refine ⟨p2, ?_, ?_⟩
  · unfold computeEmissionPartialDerivativesBody
    simp only [subPartial_eq_addPartial]
    exact h1
  · rw [h2, oneSlot_amount psDim slotS _ k j hk hj hslot]
    ring

/-- The dissociation Jacobian body in closed form: it adds `value * coefs[j][k]` to row
`k` at the slot of the dissociating parent's `j`-th variable. -/
theorem computeDissociationPartialDerivativesBody_amount (psDim : Nat)
    (indexList : Nat → Int) (s : PSISuperCluster K) (xi : Nat)
    (partialsIdxMap : Nat → Int → Option Int) (partials : Nat → Int → K)
    (p : DissociationPair K) (slotP : Nat → Int) (k j : Nat)
    (hk : k < psDim) (hj : j < psDim)
    (hmapP : ∀ i, i < psDim →
      partialsIdxMap i (stateIndex indexList p.first i) = some (slotP i))
    (hslot : ∀ i, i < psDim → ∀ i2, i2 < psDim → slotP i = slotP i2 → i = i2) :
    ∃ partials2 : Nat → Int → K,
      computeDissociationPartialDerivativesBody psDim indexList s xi partialsIdxMap partials p
        = some partials2
      ∧ partials2 k (slotP j) - partials k (slotP j)
          = p.reaction.kConstant xi / (s.nTot : K) * p.coefs j k := by
  obtain ⟨p2, h1, h2⟩ := oneSlotLoops_apply psDim partialsIdxMap
    (stateIndex indexList p.first) slotP hmapP
    (fun i j => p.reaction.kConstant xi / (s.nTot : K) * p.coefs j i) partials
  refine ⟨p2, h1, ?_⟩
  rw [h2, oneSlot_amount psDim slotP _ k j hk hj hslot]
  ring

/-- Changing entry `j0` of the first vector of a bilinear form. -/
theorem bilinear_update_first (n j0 : Nat) (hj0 : j0 < n) (c : Nat → Nat → K)
    (a a2 b b2 : Nat → K) (hb : ∀ i, i < n → b2 i = b i)
    (ha : ∀ j, j < n → j ≠ j0 → a2 j = a j) :
    (∑ j ∈ Finset.range n, ∑ i ∈ Finset.range n, c j i * a2 j * b2 i)
      = (∑ j ∈ Finset.range n, ∑ i ∈ Finset.range n, c j i * a j * b i)
        + (a2 j0 - a j0) * ∑ i ∈ Finset.range n, c j0 i * b i := by
  have e1 : (∑ j ∈ Finset.range n, ∑ i ∈ Finset.range n, c j i * a2 j * b2 i)
      = ∑ j ∈ Finset.range n, a2 j * ∑ i ∈ Finset.range n, c j i * b i := by
    apply Finset.sum_congr rfl
    intro j _
    rw [Finset.mul_sum]
    apply Finset.sum_congr rfl
    intro i hi
    rw [hb i (Finset.mem_range.mp hi)]
    ring
  have e2 : (∑ j ∈ Finset.range n, ∑ i ∈ Finset.range n, c j i * a j * b i)
      = ∑ j ∈ Finset.range n, a j * ∑ i ∈ Finset.range n, c j i * b i := by
    apply Finset.sum_congr rfl
    intro j _
    rw [Finset.mul_sum]
    apply Finset.sum_congr rfl
    intro i _
    ring
  rw [e1, e2, sum_mul_of_update n j0 hj0 a a2 _ ha]

/-- Changing entry `i0` of the second vector of a bilinear form. -/
theorem bilinear_update_second (n i0 : Nat) (hi0 : i0 < n) (c : Nat → Nat → K)
    (a a2 b b2 : Nat → K) (ha : ∀ j, j < n → a2 j = a j)
    (hb : ∀ i, i < n → i ≠ i0 → b2 i = b i) :
    (∑ j ∈ Finset.range n, ∑ i ∈ Finset.range n, c j i * a2 j * b2 i)
      = (∑ j ∈ Finset.range n, ∑ i ∈ Finset.range n, c j i * a j * b i)
        + (b2 i0 - b i0) * ∑ j ∈ Finset.range n, c j i0 * a j := by
  have h := bilinear_update_first n i0 hi0 (fun i j => c j i) b b2 a a2 ha hb
  have e1 : (∑ j ∈ Finset.range n, ∑ i ∈ Finset.range n, c j i * a2 j * b2 i)
      = ∑ i ∈ Finset.range n, ∑ j ∈ Finset.range n, c j i * b2 i * a2 j := by
    rw [Finset.sum_comm]
    apply Finset.sum_congr rfl
    intro i _
    apply Finset.sum_congr rfl
    intro j _
    ring
  have e2 : (∑ j ∈ Finset.range n, ∑ i ∈ Finset.range n, c j i * a j * b i)
      = ∑ i ∈ Finset.range n, ∑ j ∈ Finset.range n, c j i * b i * a j := by
    rw [Finset.sum_comm]
    apply Finset.sum_congr rfl
    intro i _
    apply Finset.sum_congr rfl
    intro j _
    ring
  rw [e1, e2]
  exact h

/-- Gathered state after one state variable of the same cluster was changed. -/
theorem gatherMoments_update_self (psDim : Nat) (indexList : Nat → Int) (c : PSICluster K)
    (h : ReadsOwnState c) (concs : Int → K) (j0 : Nat) (hj0 : j0 < psDim) (t : K)
    (hinj : ∀ i, i < psDim → ∀ i2, i2 < psDim →
      stateIndex indexList c i = stateIndex indexList c i2 → i = i2) :
    gatherMoments psDim indexList c (Function.update concs (stateIndex indexList c j0) t) j0 = t
    ∧ gatherMoments psDim indexList c concs j0 = concs (stateIndex indexList c j0)
    ∧ ∀ j, j < psDim → j ≠ j0 →
        gatherMoments psDim indexList c (Function.update concs (stateIndex indexList c j0) t) j
          = gatherMoments psDim indexList c concs j := by
  refine ⟨?_, gatherMoments_of_readsOwnState psDim indexList c h _ j0 hj0, ?_⟩
  · rw [gatherMoments_of_readsOwnState psDim indexList c h _ j0 hj0, Function.update_same]
  · intro j hj hne
    rw [gatherMoments_of_readsOwnState psDim indexList c h _ j hj,
      gatherMoments_of_readsOwnState psDim indexList c h _ j hj,
      Function.update_noteq (fun e => hne (hinj j hj j0 hj0 e))]

/-- Gathered state after a state variable kept under another index was changed. -/
theorem gatherMoments_update_other (psDim : Nat) (indexList : Nat → Int) (c : PSICluster K)
    (h : ReadsOwnState c) (concs : Int → K) (v : Int) (t : K)
    (hne : ∀ i, i < psDim → stateIndex indexList c i ≠ v) :
    ∀ i, i < psDim →
      gatherMoments psDim indexList c (Function.update concs v t) i
        = gatherMoments psDim indexList c concs i := by
  intro i hi
  rw [gatherMoments_of_readsOwnState psDim indexList c h _ i hi,
    gatherMoments_of_readsOwnState psDim indexList c h _ i hi,
    Function.update_noteq (hne i hi)]

/-- One step of `getCombinationFlux`, with the scalar flux negated, is affine in each
state variable of the partner and of this cluster, with the slopes that the Jacobian
code files. -/
theorem getCombinationFluxBody_affine (psDim : Nat) (indexList : Nat → Int)
    (s : PSISuperCluster K) (concs : Int → K) (xi : Nat) (fl : Flux K) (p : CombiningCluster K)
    (k j0 : Nat) (hk : k < psDim) (hj0 : j0 < psDim)
    (hP : ReadsOwnState p.first) (hS : ReadsOwnState s.self)
    (hvar : ∀ i, i < psDim → ∀ i2, i2 < psDim →
      (stateIndex indexList p.first i = stateIndex indexList p.first i2 → i = i2)
      ∧ (stateIndex indexList s.self i = stateIndex indexList s.self i2 → i = i2)
      ∧ stateIndex indexList p.first i ≠ stateIndex indexList s.self i2) (t : K) :
    ((if k = 0 then
        -(getCombinationFluxBody psDim indexList s
          (Function.update concs (stateIndex indexList p.first j0) t) xi fl p).flux
      else
        (getCombinationFluxBody psDim indexList s
          (Function.update concs (stateIndex indexList p.first j0) t) xi fl p).momentFlux
            (indexList k - 1))
      = (if k = 0 then -(getCombinationFluxBody psDim indexList s concs xi fl p).flux
          else (getCombinationFluxBody psDim indexList s concs xi fl p).momentFlux
            (indexList k - 1))
        + (t - concs (stateIndex indexList p.first j0))
          * -(p.reaction.kConstant xi / (s.nTot : K)
            * ∑ i ∈ Finset.range psDim,
                p.coefs i j0 k * gatherMoments psDim indexList s.self concs i))
    ∧ ((if k = 0 then
        -(getCombinationFluxBody psDim indexList s
          (Function.update concs (stateIndex indexList s.self j0) t) xi fl p).flux
      else
        (getCombinationFluxBody psDim indexList s
          (Function.update concs (stateIndex indexList s.self j0) t) xi fl p).momentFlux
            (indexList k - 1))
      = (if k = 0 then -(getCombinationFluxBody psDim indexList s concs xi fl p).flux
          else (getCombinationFluxBody psDim indexList s concs xi fl p).momentFlux
            (indexList k - 1))
        + (t - concs (stateIndex indexList s.self j0))
          * -(p.reaction.kConstant xi / (s.nTot : K)
            * ∑ i ∈ Finset.range psDim,
                p.coefs j0 i k * gatherMoments psDim indexList p.first concs i)) := by
  have hidx := indexList_injective_of_stateIndex psDim indexList p.first
    (fun i hi i2 hi2 => (hvar i hi i2 hi2).1)
  constructor
  · obtain ⟨g1, g2, g3⟩ := gatherMoments_update_self psDim indexList p.first hP concs j0 hj0 t
      (fun i hi i2 hi2 => (hvar i hi i2 hi2).1)
    have g4 := gatherMoments_update_other psDim indexList s.self hS concs
      (stateIndex indexList p.first j0) t (fun i hi e => (hvar j0 hj0 i hi).2.2 e.symm)
    rw [getCombinationFluxBody_component psDim indexList s _ xi fl p k hk hidx,
      getCombinationFluxBody_component psDim indexList s concs xi fl p k hk hidx]
    have e : ∀ (a b : Nat → K),
        (∑ j ∈ Finset.range psDim, ∑ i ∈ Finset.range psDim, p.coefs i j k * a i * b j)
          = ∑ j ∈ Finset.range psDim, ∑ i ∈ Finset.range psDim,
              (fun j i => p.coefs i j k) j i * b j * a i := by
      intro a b
      apply Finset.sum_congr rfl
      intro j _
      apply Finset.sum_congr rfl
      intro i _
      ring
    rw [e, e, bilinear_update_first psDim j0 hj0 (fun j i => p.coefs i j k)
        (fun j => gatherMoments psDim indexList p.first concs j) _
        (fun i => gatherMoments psDim indexList s.self concs i) _ g4 g3]
    simp only [g1, g2]
    ring
  · obtain ⟨g1, g2, g3⟩ := gatherMoments_update_self psDim indexList s.self hS concs j0 hj0 t
      (fun i hi i2 hi2 => (hvar i hi i2 hi2).2.1)
    have g4 := gatherMoments_update_other psDim indexList p.first hP concs
      (stateIndex indexList s.self j0) t (fun i hi => (hvar i hi j0 hj0).2.2)
    rw [getCombinationFluxBody_component psDim indexList s _ xi fl p k hk hidx,
      getCombinationFluxBody_component psDim indexList s concs xi fl p k hk hidx]
    have e : ∀ (a b : Nat → K),
        (∑ j ∈ Finset.range psDim, ∑ i ∈ Finset.range psDim, p.coefs i j k * a i * b j)
          = ∑ j ∈ Finset.range psDim, ∑ i ∈ Finset.range psDim,
              (fun j i => p.coefs i j k) j i * b j * a i := by
      intro a b
      apply Finset.sum_congr rfl
      intro j _
      apply Finset.sum_congr rfl
      intro i _
      ring
    rw [e, e, bilinear_update_second psDim j0 hj0 (fun j i => p.coefs i j k)
        (fun j => gatherMoments psDim indexList p.first concs j) _
        (fun i => gatherMoments psDim indexList s.self concs i) _ g4 g3]
    simp only [g1, g2]
    ring

/-- One step of `getEmissionFlux`, with the scalar flux negated, is affine in each of
this cluster's state variables, with the slope that the Jacobian code files. -/
theorem getEmissionFluxBody_affine (psDim : Nat) (indexList : Nat → Int)
    (s : PSISuperCluster K) (concs : Int → K) (xi : Nat) (fl : Flux K) (p : DissociationPair K)
    (k j0 : Nat) (hk : k < psDim) (hj0 : j0 < psDim) (hS : ReadsOwnState s.self)
    (hvar : ∀ i, i < psDim → ∀ i2, i2 < psDim →
      stateIndex indexList s.self i = stateIndex indexList s.self i2 → i = i2) (t : K) :
    (if k = 0 then
        -(getEmissionFluxBody psDim indexList s
          (Function.update concs (stateIndex indexList s.self j0) t) xi fl p).flux
      else
        (getEmissionFluxBody psDim indexList s
          (Function.update concs (stateIndex indexList s.self j0) t) xi fl p).momentFlux
            (indexList k - 1))
      = (if k = 0 then -(getEmissionFluxBody psDim indexList s concs xi fl p).flux
          else (getEmissionFluxBody psDim indexList s concs xi fl p).momentFlux
            (indexList k - 1))
        + (t - concs (stateIndex indexList s.self j0))
          * -(p.reaction.kConstant xi / (s.nTot : K) * p.coefs j0 k) := by
  have hidx := indexList_injective_of_stateIndex psDim indexList s.self hvar
  obtain ⟨g1, g2, g3⟩ := gatherMoments_update_self psDim indexList s.self hS concs j0 hj0 t hvar
  rw [getEmissionFluxBody_component psDim indexList s _ xi fl p k hk hidx,
    getEmissionFluxBody_component psDim indexList s concs xi fl p k hk hidx]
  have e : ∀ (a : Nat → K),
      (∑ i ∈ Finset.range psDim, p.coefs i k * a i)
        = ∑ i ∈ Finset.range psDim, a i * (fun i => p.coefs i k) i := by
    intro a
    apply Finset.sum_congr rfl
    intro i _
    ring
  rw [e, e, sum_mul_of_update psDim j0 hj0
    (gatherMoments psDim indexList s.self concs) _ _ g3, g1, g2]
  ring

/-- The scalar flux left by one step of `getCombinationFlux` has, with respect to this
cluster's own `j0`-th state variable, the derivative `+ value * Σ_i coefs[j0][i][0] * lB[i]`. -/
theorem getCombinationFluxBody_flux_hasDerivAt (psDim : Nat) (indexList : Nat → Int)
    (s : PSISuperCluster ℝ) (concs : Int → ℝ) (xi : Nat) (fl : Flux ℝ)
    (p : CombiningCluster ℝ) (j0 : Nat) (hj0 : j0 < psDim)
    (hP : ReadsOwnState p.first) (hS : ReadsOwnState s.self)
    (hvar : ∀ i, i < psDim → ∀ i2, i2 < psDim →
      (stateIndex indexList p.first i = stateIndex indexList p.first i2 → i = i2)
      ∧ (stateIndex indexList s.self i = stateIndex indexList s.self i2 → i = i2)
      ∧ stateIndex indexList p.first i ≠ stateIndex indexList s.self i2) :
    HasDerivAt
      (fun t => (getCombinationFluxBody psDim indexList s
        (Function.update concs (stateIndex indexList s.self j0) t) xi fl p).flux)
      (p.reaction.kConstant xi / (s.nTot : ℝ)
        * ∑ i ∈ Finset.range psDim,
            p.coefs j0 i 0 * gatherMoments psDim indexList p.first concs i)
      (concs (stateIndex indexList s.self j0)) := by
  apply hasDerivAt_of_affine
  intro t
  simp only [Function.update_eq_self]
  have h := (getCombinationFluxBody_affine psDim indexList s concs xi fl p 0 j0
    (by omega) hj0 hP hS hvar t).2
  simp only [if_true] at h
  linarith

/-! ## Construction and dispersion (claims C11, C12) -/

/-- A property of the threaded variables that every step preserves holds at the end. -/
theorem forEach_invariant {α σ : Type} (P : σ → Prop) (l : List α) (body : σ → α → σ)
    (h : ∀ st x, P st → P (body st x)) (init : σ) (h0 : P init) : P (forEach l body init) := by
  unfold forEach
  induction l generalizing init with
  | nil => exact h0
  | cons p l ih => exact ih (body init p) (h init p h0)

/-- Folding a body that adds `F x` to an observed cell adds the sum of the `F x`. -/
theorem forEach_add_read {α σ : Type} (read : σ → K) (l : List α) (body : σ → α → σ)
    (F : α → K) (h : ∀ st x, read (body st x) = read st + F x) (init : σ) :
    read (forEach l body init) = read init + (l.map F).sum := by
  unfold forEach
  induction l generalizing init with
  | nil => simp
  | cons p l ih => simp only [List.foldl_cons, List.map_cons, List.sum_cons, ih, h, add_assoc]

theorem setHeVVectorSums_fields (memberRadius : Int → K) (s : PSISuperCluster K) :
    (setHeVVectorSums memberRadius s).1.nTot = s.nTot
    ∧ (setHeVVectorSums memberRadius s).1.numAtom = s.numAtom
    ∧ (setHeVVectorSums memberRadius s).1.sectionWidth = s.sectionWidth
    ∧ (setHeVVectorSums memberRadius s).1.dispersion = s.dispersion
    ∧ (setHeVVectorSums memberRadius s).1.heVList = s.heVList := by
  unfold setHeVVectorSums
  apply forEach_invariant (fun (st : PSISuperCluster K × (Nat → K)) =>
    st.1.nTot = s.nTot ∧ st.1.numAtom = s.numAtom ∧ st.1.sectionWidth = s.sectionWidth
    ∧ st.1.dispersion = s.dispersion ∧ st.1.heVList = s.heVList)
  · intro st x h
    exact h
  · exact ⟨rfl, rfl, rfl, rfl, rfl⟩

theorem setHeVVectorSums_nSquare (memberRadius : Int → K) (s : PSISuperCluster K) :
    (setHeVVectorSums memberRadius s).2 0
        = (s.heVList.map (fun pair => ((pair.1 * pair.1 : Int) : K))).sum
    ∧ (setHeVVectorSums memberRadius s).2 1
        = (s.heVList.map (fun pair => ((pair.2.1 * pair.2.1 : Int) : K))).sum
    ∧ (setHeVVectorSums memberRadius s).2 2
        = (s.heVList.map (fun pair => ((pair.2.2.1 * pair.2.2.1 : Int) : K))).sum
    ∧ (setHeVVectorSums memberRadius s).2 3
        = (s.heVList.map (fun pair => ((pair.2.2.2 * pair.2.2.2 : Int) : K))).sum := by
  unfold setHeVVectorSums
  refine ⟨?_, ?_, ?_, ?_⟩
  · rw [forEach_add_read (fun (st : PSISuperCluster K × (Nat → K)) => st.2 0) _ _
      (fun pair => ((pair.1 * pair.1 : Int) : K))]
    · simp
    · intro st x
      simp [addAt_apply]
  · rw [forEach_add_read (fun (st : PSISuperCluster K × (Nat → K)) => st.2 1) _ _
      (fun pair => ((pair.2.1 * pair.2.1 : Int) : K))]
    · simp
    · intro st x
      simp [addAt_apply]
  · rw [forEach_add_read (fun (st : PSISuperCluster K × (Nat → K)) => st.2 2) _ _
      (fun pair => ((pair.2.2.1 * pair.2.2.1 : Int) : K))]
    · simp
    · intro st x
      simp [addAt_apply]
  · rw [forEach_add_read (fun (st : PSISuperCluster K × (Nat → K)) => st.2 3) _ _
      (fun pair => ((pair.2.2.2 * pair.2.2.2 : Int) : K))]
    · simp
    · intro st x
      simp [addAt_apply]

/-- The second loop of `setHeVVector`, run over the first `n` axes: only `dispersion`
changes, and on each visited axis it holds the value prescribed by the formula. -/
theorem dispersionLoop_spec (nSquare : Nat → K) (s1 : PSISuperCluster K) (n : Nat) :
    (forLoop 0 n (fun i (s : PSISuperCluster K) =>
        if s.sectionWidth (i : Int) = 1 then
          { s with dispersion := Function.update s.dispersion (i : Int) 1 }
        else
          let d : K := 2 * (nSquare i - s.numAtom (i : Int) * (s.nTot : K) * s.numAtom (i : Int))
            / ((s.nTot * (s.sectionWidth (i : Int) - 1) : Int) : K)
          { s with dispersion := Function.update s.dispersion (i : Int) d }) s1).sectionWidth = s1.sectionWidth
    ∧ (forLoop 0 n (fun i (s : PSISuperCluster K) =>
        if s.sectionWidth (i : Int) = 1 then
          { s with dispersion := Function.update s.dispersion (i : Int) 1 }
        else
          let d : K := 2 * (nSquare i - s.numAtom (i : Int) * (s.nTot : K) * s.numAtom (i : Int))
            / ((s.nTot * (s.sectionWidth (i : Int) - 1) : Int) : K)
          { s with dispersion := Function.update s.dispersion (i : Int) d }) s1).numAtom = s1.numAtom
    ∧ (forLoop 0 n (fun i (s : PSISuperCluster K) =>
        if s.sectionWidth (i : Int) = 1 then
          { s with dispersion := Function.update s.dispersion (i : Int) 1 }
        else
          let d : K := 2 * (nSquare i - s.numAtom (i : Int) * (s.nTot : K) * s.numAtom (i : Int))
            / ((s.nTot * (s.sectionWidth (i : Int) - 1) : Int) : K)
          { s with dispersion := Function.update s.dispersion (i : Int) d }) s1).nTot = s1.nTot
    ∧ (forLoop 0 n (fun i (s : PSISuperCluster K) =>
        if s.sectionWidth (i : Int) = 1 then
          { s with dispersion := Function.update s.dispersion (i : Int) 1 }
        else
          let d : K := 2 * (nSquare i - s.numAtom (i : Int) * (s.nTot : K) * s.numAtom (i : Int))
            / ((s.nTot * (s.sectionWidth (i : Int) - 1) : Int) : K)
          { s with dispersion := Function.update s.dispersion (i : Int) d }) s1).heVList = s1.heVList
    ∧ (∀ i : Nat, i < n →
        (forLoop 0 n (fun i (s : PSISuperCluster K) =>
        if s.sectionWidth (i : Int) = 1 then
          { s with dispersion := Function.update s.dispersion (i : Int) 1 }
        else
          let d : K := 2 * (nSquare i - s.numAtom (i : Int) * (s.nTot : K) * s.numAtom (i : Int))
            / ((s.nTot * (s.sectionWidth (i : Int) - 1) : Int) : K)
          { s with dispersion := Function.update s.dispersion (i : Int) d }) s1).dispersion (i : Int)
          = if s1.sectionWidth (i : Int) = 1 then 1
            else 2 * (nSquare i - s1.numAtom (i : Int) * (s1.nTot : K) * s1.numAtom (i : Int))
              / ((s1.nTot * (s1.sectionWidth (i : Int) - 1) : Int) : K))
    ∧ (∀ x : Int, (∀ i : Nat, i < n → x ≠ (i : Int)) →
        (forLoop 0 n (fun i (s : PSISuperCluster K) =>
        if s.sectionWidth (i : Int) = 1 then
          { s with dispersion := Function.update s.dispersion (i : Int) 1 }
        else
          let d : K := 2 * (nSquare i - s.numAtom (i : Int) * (s.nTot : K) * s.numAtom (i : Int))
            / ((s.nTot * (s.sectionWidth (i : Int) - 1) : Int) : K)
          { s with dispersion := Function.update s.dispersion (i : Int) d }) s1).dispersion x = s1.dispersion x) := by
  induction n with
  | zero =>
    rw [forLoop_of_le 0 0 (le_refl 0)]
    exact ⟨rfl, rfl, rfl, rfl, fun i hi => absurd hi (Nat.not_lt_zero i), fun _ _ => rfl⟩
  | succ n ih =>
    rw [forLoop_succ 0 n (Nat.zero_le n)]
    obtain ⟨h1, h2, h3, h4, h5, h6⟩ := ih
    generalize forLoop 0 n (fun i (s : PSISuperCluster K) =>
        if s.sectionWidth (i : Int) = 1 then
          { s with dispersion := Function.update s.dispersion (i : Int) 1 }
        else
          let d : K := 2 * (nSquare i - s.numAtom (i : Int) * (s.nTot : K) * s.numAtom (i : Int))
            / ((s.nTot * (s.sectionWidth (i : Int) - 1) : Int) : K)
          { s with dispersion := Function.update s.dispersion (i : Int) d }) s1 = t at h1 h2 h3 h4 h5 h6
    by_cases hw : t.sectionWidth (n : Int) = 1
    · simp only [hw, if_true]
      refine ⟨h1, h2, h3, h4, ?_, ?_⟩
      · intro i hi
        by_cases e : i = n
        · subst e
          rw [Function.update_same, ← h1, hw, if_pos rfl]
        · have ne : (i : Int) ≠ (n : Int) := fun c => e (Int.ofNat_inj.mp c)
          rw [Function.update_noteq ne]
          exact h5 i (by omega)
      · intro x hx
        rw [Function.update_noteq (hx n (Nat.lt_succ_self n))]
        exact h6 x (fun i hi => hx i (by omega))
    · simp only [hw, if_false]
      refine ⟨h1, h2, h3, h4, ?_, ?_⟩
      · intro i hi
        by_cases e : i = n
        · subst e
          rw [Function.update_same, ← h1, if_neg hw, h2, h3]
        · have ne : (i : Int) ≠ (n : Int) := fun c => e (Int.ofNat_inj.mp c)
          rw [Function.update_noteq ne]
          exact h5 i (by omega)
      · intro x hx
        rw [Function.update_noteq (hx n (Nat.lt_succ_self n))]
        exact h6 x (fun i hi => hx i (by omega))

/-- `setHeVVector` stores the membership list and leaves `nTot`, the mean composition and
the section widths alone; on each of the four axes the dispersion is 1 for width 1 and
otherwise is given by the sums of squares accumulated over the list. -/
theorem setHeVVector_spec (memberRadius : Int → K) (s : PSISuperCluster K)
    (vec : List (Int × Int × Int × Int)) :
    (setHeVVector memberRadius s vec).heVList = vec
    ∧ (setHeVVector memberRadius s vec).nTot = s.nTot
    ∧ (setHeVVector memberRadius s vec).numAtom = s.numAtom
    ∧ (setHeVVector memberRadius s vec).sectionWidth = s.sectionWidth
    ∧ ∀ i : Nat, i < 4 →
        (setHeVVector memberRadius s vec).dispersion (i : Int)
          = if s.sectionWidth (i : Int) = 1 then 1
            else 2 * ((setHeVVectorSums memberRadius { s with heVList := vec }).2 i
                  - s.numAtom (i : Int) * (s.nTot : K) * s.numAtom (i : Int))
              / ((s.nTot * (s.sectionWidth (i : Int) - 1) : Int) : K) := by
  obtain ⟨f1, f2, f3, _, f5⟩ := setHeVVectorSums_fields memberRadius { s with heVList := vec }
  obtain ⟨h1, h2, h3, h4, h5, _⟩ := dispersionLoop_spec
    (setHeVVectorSums memberRadius { s with heVList := vec }).2
    (setHeVVectorSums memberRadius { s with heVList := vec }).1 4
  unfold setHeVVector
  refine ⟨?_, ?_, ?_, ?_, ?_⟩
  · exact h4.trans f5
  · exact h3.trans f1
  · exact h2.trans f2
  · exact h1.trans f3
  · intro i hi
    have := h5 i hi
    rw [f1, f2, f3] at this
    exact this

/-- C11: `setHeVVector` sets, on every axis, the dispersion to 1 when the section width
is 1 and otherwise to `2 (S - numAtom * nTot * numAtom) / (nTot (sectionWidth - 1))`,
where `S` is the sum over the membership list of the squared value on that axis (He, D,
T, V for axes 0 to 3); for `nTot = 3`, He values 2, 3, 4, `numAtom = 3` and
`sectionWidth = 3` the He dispersion is exactly `2/3`. -/
theorem setHeVVector_dispersion (memberRadius : Int → K) (s : PSISuperCluster K)
    (vec : List (Int × Int × Int × Int)) :
    (setHeVVector memberRadius s vec).dispersion 0
        = (if s.sectionWidth 0 = 1 then 1
          else 2 * ((vec.map (fun m => ((m.1 : Int) : K) * ((m.1 : Int) : K))).sum
                - s.numAtom 0 * (s.nTot : K) * s.numAtom 0)
            / ((s.nTot : K) * ((s.sectionWidth 0 : K) - 1)))
    ∧ (setHeVVector memberRadius s vec).dispersion 1
        = (if s.sectionWidth 1 = 1 then 1
          else 2 * ((vec.map (fun m => ((m.2.1 : Int) : K) * ((m.2.1 : Int) : K))).sum
                - s.numAtom 1 * (s.nTot : K) * s.numAtom 1)
            / ((s.nTot : K) * ((s.sectionWidth 1 : K) - 1)))
    ∧ (setHeVVector memberRadius s vec).dispersion 2
        = (if s.sectionWidth 2 = 1 then 1
          else 2 * ((vec.map (fun m => ((m.2.2.1 : Int) : K) * ((m.2.2.1 : Int) : K))).sum
                - s.numAtom 2 * (s.nTot : K) * s.numAtom 2)
            / ((s.nTot : K) * ((s.sectionWidth 2 : K) - 1)))
    ∧ (setHeVVector memberRadius s vec).dispersion 3
        = (if s.sectionWidth 3 = 1 then 1
          else 2 * ((vec.map (fun m => ((m.2.2.2 : Int) : K) * ((m.2.2.2 : Int) : K))).sum
                - s.numAtom 3 * (s.nTot : K) * s.numAtom 3)
            / ((s.nTot : K) * ((s.sectionWidth 3 : K) - 1)))
    ∧ (setHeVVector (fun _ => (0 : ℚ)) (sampleGroup ℚ)
        [(2, 0, 0, 1), (3, 0, 0, 1), (4, 0, 0, 1)]).dispersion 0 = 2 / 3 := by
  obtain ⟨_, _, _, _, h⟩ := setHeVVector_spec memberRadius s vec
  obtain ⟨n0, n1, n2, n3⟩ := setHeVVectorSums_nSquare memberRadius { s with heVList := vec }
  have h0 := h 0 (by decide)
  have h1 := h 1 (by decide)
  have h2 := h 2 (by decide)
  have h3 := h 3 (by decide)
  rw [n0] at h0
  rw [n1] at h1
  rw [n2] at h2
  rw [n3] at h3
  simp only [Nat.cast_zero, Nat.cast_one, Nat.cast_ofNat, Int.cast_mul, Int.cast_sub,
    Int.cast_one] at h0 h1 h2 h3
  refine ⟨h0, h1, h2, h3, ?_⟩
  obtain ⟨_, _, _, _, g⟩ := setHeVVector_spec (fun _ => (0 : ℚ)) (sampleGroup ℚ)
    [(2, 0, 0, 1), (3, 0, 0, 1), (4, 0, 0, 1)]
  obtain ⟨m0, _, _, _⟩ := setHeVVectorSums_nSquare (fun _ => (0 : ℚ))
    { sampleGroup ℚ with heVList := [(2, 0, 0, 1), (3, 0, 0, 1), (4, 0, 0, 1)] }
  have g0 := g 0 (by decide)
  rw [m0] at g0
  simp only [Nat.cast_zero] at g0
  rw [g0]
  simp [sampleGroup, sampleSuper]
  norm_num

theorem construct_sectionWidth_nTot {F : Type} [LinearOrderedField F] [FloorRing F]
    (init : PSISuperCluster F) (num : Nat → F) (nTot : Int) (width lower higher : Nat → Int) :
    (PSISuperCluster.construct init num nTot width lower higher).nTot = nTot
    ∧ (PSISuperCluster.construct init num nTot width lower higher).sectionWidth 0 = width 0
    ∧ (PSISuperCluster.construct init num nTot width lower higher).sectionWidth 1 = width 1
    ∧ (PSISuperCluster.construct init num nTot width lower higher).sectionWidth 2 = width 2
    ∧ (PSISuperCluster.construct init num nTot width lower higher).sectionWidth 3 = width 3
    ∧ (PSISuperCluster.construct init num nTot width lower higher).full
        = decide (mulInt (mulInt (mulInt (width 0) (width 1)) (width 2)) (width 3) = nTot) := by
  simp [PSISuperCluster.construct, forLoop, List.range', Function.update]

theorem wrapInt_of_range (x : Int) (h1 : -2147483648 ≤ x) (h2 : x < 2147483648) :
    wrapInt x = x := by
  unfold wrapInt
  rw [Int.emod_eq_of_lt (by omega) (by omega)]
  omega

theorem wrapInt_modEq (x : Int) : Int.ModEq 4294967296 (wrapInt x) x := by
  unfold wrapInt
  have h : Int.ModEq 4294967296 ((x + 2147483648) % 4294967296) (x + 2147483648) :=
    Int.mod_modEq _ _
  have h2 := Int.ModEq.sub_right 2147483648 h
  simpa using h2

theorem wrapInt_congr (x y : Int) (h : Int.ModEq 4294967296 x y) : wrapInt x = wrapInt y := by
  unfold wrapInt
  have h2 : (x + 2147483648) % 4294967296 = (y + 2147483648) % 4294967296 :=
    Int.ModEq.add_right 2147483648 h
  rw [h2]

/-- Three chained `int` products hold the exact product reduced once. -/
theorem mulInt_chain (a b c d : Int) :
    mulInt (mulInt (mulInt a b) c) d = wrapInt (a * b * c * d) := by
  unfold mulInt
  apply wrapInt_congr
  have h1 : Int.ModEq 4294967296 (wrapInt (a * b) * c) (a * b * c) :=
    Int.ModEq.mul_right c (wrapInt_modEq (a * b))
  have h2 : Int.ModEq 4294967296 (wrapInt (wrapInt (a * b) * c)) (a * b * c) :=
    (wrapInt_modEq _).trans h1
  exact Int.ModEq.mul_right d h2

/-- C12, amended: for every constructor input the constructed super-cluster has
`full == true` exactly when the `int` product `width[0] * width[1] * width[2] * width[3]`,
which is the exact product reduced modulo `2^32` into the range of `int`, equals `nTot`;
when the exact product lies in the range of `int` this is the exact product being `nTot`;
widths `{2, 3, 1, 1}` give `full == true` with `nTot = 6` and `full == false` with
`nTot = 5`. -/
theorem construct_full_iff {F : Type} [LinearOrderedField F] [FloorRing F]
    (init : PSISuperCluster F) (num : Nat → F) (nTot : Int) (width lower higher : Nat → Int) :
    ((PSISuperCluster.construct init num nTot width lower higher).full = true
        ↔ mulInt (mulInt (mulInt (width 0) (width 1)) (width 2)) (width 3) = nTot)
    ∧ ((PSISuperCluster.construct init num nTot width lower higher).full = true
        ↔ wrapInt (width 0 * width 1 * width 2 * width 3) = nTot)
    ∧ (-2147483648 ≤ width 0 * width 1 * width 2 * width 3
        → width 0 * width 1 * width 2 * width 3 < 2147483648
        → ((PSISuperCluster.construct init num nTot width lower higher).full = true
          ↔ width 0 * width 1 * width 2 * width 3 = nTot))
    ∧ (PSISuperCluster.construct (sampleSuper ℚ) (fun _ => 1) 6
        (fun i => if i = 0 then 2 else if i = 1 then 3 else 1) (fun _ => 0)
        (fun i => if i = 0 then 1 else if i = 1 then 2 else 0)).full = true
    ∧ (PSISuperCluster.construct (sampleSuper ℚ) (fun _ => 1) 5
        (fun i => if i = 0 then 2 else if i = 1 then 3 else 1) (fun _ => 0)
        (fun i => if i = 0 then 1 else if i = 1 then 2 else 0)).full = false := by
  have key : (PSISuperCluster.construct init num nTot width lower higher).full = true
      ↔ mulInt (mulInt (mulInt (width 0) (width 1)) (width 2)) (width 3) = nTot := by
    rw [(construct_sectionWidth_nTot init num nTot width lower higher).2.2.2.2.2]
    simp
  refine ⟨key, ?_, ?_, ?_, ?_⟩
  · rw [key, mulInt_chain]
  · intro h1 h2
    rw [key, mulInt_chain, wrapInt_of_range _ h1 h2]
  · rw [(construct_sectionWidth_nTot _ _ _ _ _ _).2.2.2.2.2]
    decide
  · rw [(construct_sectionWidth_nTot _ _ _ _ _ _).2.2.2.2.2]
    decide

/-- C12, counterexample to the claim read over the integers: with widths
`{65536, 65536, 1, 1}` and `nTot = 0` the exact product of the widths is `2^32`, not `nTot`,
yet the `int` product is 0 and the constructor sets `full` to `true`. -/
theorem construct_full_wraps :
    (PSISuperCluster.construct (sampleSuper ℚ) (fun _ => 1) 0
        (fun i => if i = 0 then 65536 else if i = 1 then 65536 else 1) (fun _ => 0)
        (fun i => if i = 0 then 65535 else if i = 1 then 65535 else 0)).full = true
    ∧ (65536 * 65536 * 1 * 1 : Int) ≠ 0 := by
  refine ⟨?_, by decide⟩
  rw [(construct_sectionWidth_nTot _ _ _ _ _ _).2.2.2.2.2]
  decide

/-! ## The list builders (claims C17, C18) -/

theorem MapConsistent_nil {α κ : Type} [BEq κ] (l : List α) (keyOf : α → κ) :
    MapConsistent ([] : List (κ × Nat)) l keyOf := by
  intro key pos h
  simp [List.lookup] at h

theorem addToEffReactingList_of_lookup_some (s : PSISuperCluster K) (reaction : ProductionReaction K) (pos : Nat)
    (hl : s.effReactingListMap.lookup ((reaction.first.addr, reaction.second.addr)) = some pos)
    (hpos : pos ≠ s.effReactingList.length) :
    addToEffReactingList s reaction = some (s, pos) := by
  unfold addToEffReactingList
  simp [hl, hpos]

theorem addToEffReactingList_of_lookup_none (s : PSISuperCluster K) (reaction : ProductionReaction K)
    (hl : s.effReactingListMap.lookup ((reaction.first.addr, reaction.second.addr)) = none) :
    addToEffReactingList s reaction
      = some ({ s with effReactingList := s.effReactingList ++ [ProductionPair.create reaction reaction.first reaction.second] },
          s.effReactingList.length) := by
  unfold addToEffReactingList
  simp [hl]

theorem addToEffReactingList_spec (s : PSISuperCluster K) (reaction : ProductionReaction K)
    (hmap : MapConsistent s.effReactingListMap s.effReactingList (fun e => ((e.first.addr, e.second.addr) : PairKey))) :
    ∃ r : PSISuperCluster K × Nat,
      addToEffReactingList s reaction = some r
      ∧ (∃ e, r.1.effReactingList[r.2]? = some e ∧ e.first.addr = reaction.first.addr ∧ e.second.addr = reaction.second.addr)
      ∧ (r.1.effReactingList = s.effReactingList ∨ r.1.effReactingList = s.effReactingList ++ [ProductionPair.create reaction reaction.first reaction.second])
      ∧ r.1.effReactingListMap = s.effReactingListMap
      ∧ MapConsistent r.1.effReactingListMap r.1.effReactingList (fun e => ((e.first.addr, e.second.addr) : PairKey)) := by
  cases hl : s.effReactingListMap.lookup ((reaction.first.addr, reaction.second.addr)) with
  | some pos =>
    obtain ⟨e, he, hk⟩ := hmap _ _ hl
    have hpos : pos < s.effReactingList.length := by
      rcases Nat.lt_or_ge pos s.effReactingList.length with h | h
      · exact h
      · rw [List.getElem?_eq_none h] at he
        exact absurd he (by simp)
    refine ⟨(s, pos), addToEffReactingList_of_lookup_some s reaction pos hl (Nat.ne_of_lt hpos),
      ⟨e, he, ?_⟩, Or.inl rfl, rfl, hmap⟩
    simpa [Prod.ext_iff] using hk
  | none =>
    refine ⟨_, addToEffReactingList_of_lookup_none s reaction hl,
      ⟨ProductionPair.create reaction reaction.first reaction.second, ?_, ?_⟩, Or.inr rfl, rfl, ?_⟩
    · simp
    · simp [ProductionPair.create]
    · intro key pos h
      obtain ⟨e, he, hk⟩ := hmap key pos h
      refine ⟨e, ?_, hk⟩
      have hpos : pos < s.effReactingList.length := by
        rcases Nat.lt_or_ge pos s.effReactingList.length with h2 | h2
        · exact h2
        · rw [List.getElem?_eq_none h2] at he
          exact absurd he (by simp)
      show (s.effReactingList ++ [ProductionPair.create reaction reaction.first reaction.second])[pos]? = some e
      rw [List.getElem?_append_left hpos]
      exact he

theorem addToEffCombiningList_of_lookup_some (s : PSISuperCluster K) (reaction : ProductionReaction K) (pos : Nat)
    (hl : s.effCombiningListMap.lookup ((findOtherClusterProd s reaction).addr) = some pos)
    (hpos : pos ≠ s.effCombiningList.length) :
    addToEffCombiningList s reaction = some (s, pos) := by
  unfold addToEffCombiningList
  simp [hl, hpos]

theorem addToEffCombiningList_of_lookup_none (s : PSISuperCluster K) (reaction : ProductionReaction K)
    (hl : s.effCombiningListMap.lookup ((findOtherClusterProd s reaction).addr) = none) :
    addToEffCombiningList s reaction
      = some ({ s with effCombiningList := s.effCombiningList ++ [CombiningCluster.create reaction (findOtherClusterProd s reaction)] },
          s.effCombiningList.length) := by
  unfold addToEffCombiningList
  simp [hl]

theorem addToEffCombiningList_spec (s : PSISuperCluster K) (reaction : ProductionReaction K)
    (hmap : MapConsistent s.effCombiningListMap s.effCombiningList (fun e => e.first.addr)) :
    ∃ r : PSISuperCluster K × Nat,
      addToEffCombiningList s reaction = some r
      ∧ (∃ e, r.1.effCombiningList[r.2]? = some e ∧ e.first.addr = (findOtherClusterProd s reaction).addr)
      ∧ (r.1.effCombiningList = s.effCombiningList ∨ r.1.effCombiningList = s.effCombiningList ++ [CombiningCluster.create reaction (findOtherClusterProd s reaction)])
      ∧ r.1.effCombiningListMap = s.effCombiningListMap
      ∧ MapConsistent r.1.effCombiningListMap r.1.effCombiningList (fun e => e.first.addr) := by
  cases hl : s.effCombiningListMap.lookup ((findOtherClusterProd s reaction).addr) with
  | some pos =>
    obtain ⟨e, he, hk⟩ := hmap _ _ hl
    have hpos : pos < s.effCombiningList.length := by
      rcases Nat.lt_or_ge pos s.effCombiningList.length with h | h
      · exact h
      · rw [List.getElem?_eq_none h] at he
        exact absurd he (by simp)
    refine ⟨(s, pos), addToEffCombiningList_of_lookup_some s reaction pos hl (Nat.ne_of_lt hpos),
      ⟨e, he, ?_⟩, Or.inl rfl, rfl, hmap⟩
    simpa [Prod.ext_iff] using hk
  | none =>
    refine ⟨_, addToEffCombiningList_of_lookup_none s reaction hl,
      ⟨CombiningCluster.create reaction (findOtherClusterProd s reaction), ?_, ?_⟩, Or.inr rfl, rfl, ?_⟩
    · simp
    · simp [CombiningCluster.create]
    · intro key pos h
      obtain ⟨e, he, hk⟩ := hmap key pos h
      refine ⟨e, ?_, hk⟩
      have hpos : pos < s.effCombiningList.length := by
        rcases Nat.lt_or_ge pos s.effCombiningList.length with h2 | h2
        · exact h2
        · rw [List.getElem?_eq_none h2] at he
          exact absurd he (by simp)
      show (s.effCombiningList ++ [CombiningCluster.create reaction (findOtherClusterProd s reaction)])[pos]? = some e
      rw [List.getElem?_append_left hpos]
      exact he

theorem addToEffDissociatingList_of_lookup_some (s : PSISuperCluster K) (reaction : DissociationReaction K) (pos : Nat)
    (hl : s.effDissociatingListMap.lookup ((reaction.dissociating.addr, (findOtherClusterDiss s reaction).addr)) = some pos)
    (hpos : pos ≠ s.effDissociatingList.length) :
    addToEffDissociatingList s reaction = some (s, pos) := by
  unfold addToEffDissociatingList
  simp [hl, hpos]

theorem addToEffDissociatingList_of_lookup_none (s : PSISuperCluster K) (reaction : DissociationReaction K)
    (hl : s.effDissociatingListMap.lookup ((reaction.dissociating.addr, (findOtherClusterDiss s reaction).addr)) = none) :
    addToEffDissociatingList s reaction
      = some ({ s with effDissociatingList := s.effDissociatingList ++ [DissociationPair.create reaction reaction.dissociating (findOtherClusterDiss s reaction)] },
          s.effDissociatingList.length) := by
  unfold addToEffDissociatingList
  simp [hl]

theorem addToEffDissociatingList_spec (s : PSISuperCluster K) (reaction : DissociationReaction K)
    (hmap : MapConsistent s.effDissociatingListMap s.effDissociatingList (fun e => ((e.first.addr, e.second.addr) : PairKey))) :
    ∃ r : PSISuperCluster K × Nat,
      addToEffDissociatingList s reaction = some r
      ∧ (∃ e, r.1.effDissociatingList[r.2]? = some e ∧ e.first.addr = reaction.dissociating.addr ∧ e.second.addr = (findOtherClusterDiss s reaction).addr)
      ∧ (r.1.effDissociatingList = s.effDissociatingList ∨ r.1.effDissociatingList = s.effDissociatingList ++ [DissociationPair.create reaction reaction.dissociating (findOtherClusterDiss s reaction)])
      ∧ r.1.effDissociatingListMap = s.effDissociatingListMap
      ∧ MapConsistent r.1.effDissociatingListMap r.1.effDissociatingList (fun e => ((e.first.addr, e.second.addr) : PairKey)) := by
  cases hl : s.effDissociatingListMap.lookup ((reaction.dissociating.addr, (findOtherClusterDiss s reaction).addr)) with
  | some pos =>
    obtain ⟨e, he, hk⟩ := hmap _ _ hl
    have hpos : pos < s.effDissociatingList.length := by
      rcases Nat.lt_or_ge pos s.effDissociatingList.length with h | h
      · exact h
      · rw [List.getElem?_eq_none h] at he
        exact absurd he (by simp)
    refine ⟨(s, pos), addToEffDissociatingList_of_lookup_some s reaction pos hl (Nat.ne_of_lt hpos),
      ⟨e, he, ?_⟩, Or.inl rfl, rfl, hmap⟩
    simpa [Prod.ext_iff] using hk
  | none =>
    refine ⟨_, addToEffDissociatingList_of_lookup_none s reaction hl,
      ⟨DissociationPair.create reaction reaction.dissociating (findOtherClusterDiss s reaction), ?_, ?_⟩, Or.inr rfl, rfl, ?_⟩
    · simp
    · simp [DissociationPair.create]
    · intro key pos h
      obtain ⟨e, he, hk⟩ := hmap key pos h
      refine ⟨e, ?_, hk⟩
      have hpos : pos < s.effDissociatingList.length := by
        rcases Nat.lt_or_ge pos s.effDissociatingList.length with h2 | h2
        · exact h2
        · rw [List.getElem?_eq_none h2] at he
          exact absurd he (by simp)
      show (s.effDissociatingList ++ [DissociationPair.create reaction reaction.dissociating (findOtherClusterDiss s reaction)])[pos]? = some e
      rw [List.getElem?_append_left hpos]
      exact he

theorem addToEffEmissionList_of_lookup_some (s : PSISuperCluster K) (reaction : DissociationReaction K) (pos : Nat)
    (hl : s.effEmissionListMap.lookup ((reaction.first.addr, reaction.second.addr)) = some pos)
    (hpos : pos ≠ s.effEmissionList.length) :
    addToEffEmissionList s reaction = some (s, pos) := by
  unfold addToEffEmissionList
  simp [hl, hpos]

theorem addToEffEmissionList_of_lookup_none (s : PSISuperCluster K) (reaction : DissociationReaction K)
    (hl : s.effEmissionListMap.lookup ((reaction.first.addr, reaction.second.addr)) = none) :
    addToEffEmissionList s reaction
      = some ({ s with effEmissionList := s.effEmissionList ++ [DissociationPair.create reaction reaction.first reaction.second] },
          s.effEmissionList.length) := by
  unfold addToEffEmissionList
  simp [hl]

theorem addToEffEmissionList_spec (s : PSISuperCluster K) (reaction : DissociationReaction K)
    (hmap : MapConsistent s.effEmissionListMap s.effEmissionList (fun e => ((e.first.addr, e.second.addr) : PairKey))) :
    ∃ r : PSISuperCluster K × Nat,
      addToEffEmissionList s reaction = some r
      ∧ (∃ e, r.1.effEmissionList[r.2]? = some e ∧ e.first.addr = reaction.first.addr ∧ e.second.addr = reaction.second.addr)
      ∧ (r.1.effEmissionList = s.effEmissionList ∨ r.1.effEmissionList = s.effEmissionList ++ [DissociationPair.create reaction reaction.first reaction.second])
      ∧ r.1.effEmissionListMap = s.effEmissionListMap
      ∧ MapConsistent r.1.effEmissionListMap r.1.effEmissionList (fun e => ((e.first.addr, e.second.addr) : PairKey)) := by
  cases hl : s.effEmissionListMap.lookup ((reaction.first.addr, reaction.second.addr)) with
  | some pos =>
    obtain ⟨e, he, hk⟩ := hmap _ _ hl
    have hpos : pos < s.effEmissionList.length := by
      rcases Nat.lt_or_ge pos s.effEmissionList.length with h | h
      · exact h
      · rw [List.getElem?_eq_none h] at he
        exact absurd he (by simp)
    refine ⟨(s, pos), addToEffEmissionList_of_lookup_some s reaction pos hl (Nat.ne_of_lt hpos),
      ⟨e, he, ?_⟩, Or.inl rfl, rfl, hmap⟩
    simpa [Prod.ext_iff] using hk
  | none =>
    refine ⟨_, addToEffEmissionList_of_lookup_none s reaction hl,
      ⟨DissociationPair.create reaction reaction.first reaction.second, ?_, ?_⟩, Or.inr rfl, rfl, ?_⟩
    · simp
    · simp [DissociationPair.create]
    · intro key pos h
      obtain ⟨e, he, hk⟩ := hmap key pos h
      refine ⟨e, ?_, hk⟩
      have hpos : pos < s.effEmissionList.length := by
        rcases Nat.lt_or_ge pos s.effEmissionList.length with h2 | h2
        · exact h2
        · rw [List.getElem?_eq_none h2] at he
          exact absurd he (by simp)
      show (s.effEmissionList ++ [DissociationPair.create reaction reaction.first reaction.second])[pos]? = some e
      rw [List.getElem?_append_left hpos]
      exact he

theorem getElem?_lt_length {α : Type} (l : List α) (pos : Nat) (e : α)
    (h : l[pos]? = some e) : pos < l.length := by
  rcases Nat.lt_or_ge pos l.length with h2 | h2
  · exact h2
  · rw [List.getElem?_eq_none h2] at h
    exact absurd h (by simp)

theorem prefix_of_eq_or_append {α : Type} (l l2 : List α) (x : α)
    (h : l2 = l ∨ l2 = l ++ [x]) : l <+: l2 ∧ l2.length ≤ l.length + 1 := by
  rcases h with h | h
  · rw [h]
    exact ⟨List.prefix_refl l, Nat.le_succ _⟩
  · rw [h]
    exact ⟨List.prefix_append l [x], by simp⟩

/-- C17: in a state whose lookup maps are consistent with the lists (as the empty maps of a
constructed cluster are), every builder returns a position inside its list, so the
assertion holds, and the entry there carries the reaction's key: first and second
operand for `addToEffReactingList` and `addToEffEmissionList`, the operand that is not
this cluster for `addToEffCombiningList`, the dissociating parent and the co-emitted
cluster for `addToEffDissociatingList`. -/
theorem builders_return_keyed_entry (s : PSISuperCluster K) (reaction : ProductionReaction K)
    (dissociation : DissociationReaction K)
    (hR : MapConsistent s.effReactingListMap s.effReactingList
      (fun e => ((e.first.addr, e.second.addr) : PairKey)))
    (hC : MapConsistent s.effCombiningListMap s.effCombiningList (fun e => e.first.addr))
    (hD : MapConsistent s.effDissociatingListMap s.effDissociatingList
      (fun e => ((e.first.addr, e.second.addr) : PairKey)))
    (hE : MapConsistent s.effEmissionListMap s.effEmissionList
      (fun e => ((e.first.addr, e.second.addr) : PairKey))) :
    (∃ r : PSISuperCluster K × Nat,
      addToEffReactingList s reaction = some r
      ∧ r.2 < r.1.effReactingList.length
      ∧ ∃ e, r.1.effReactingList[r.2]? = some e
          ∧ e.first.addr = reaction.first.addr ∧ e.second.addr = reaction.second.addr)
    ∧ (∃ r : PSISuperCluster K × Nat,
      addToEffCombiningList s reaction = some r
      ∧ r.2 < r.1.effCombiningList.length
      ∧ ∃ e, r.1.effCombiningList[r.2]? = some e
          ∧ e.first.addr = (findOtherClusterProd s reaction).addr)
    ∧ (∃ r : PSISuperCluster K × Nat,
      addToEffDissociatingList s dissociation = some r
      ∧ r.2 < r.1.effDissociatingList.length
      ∧ ∃ e, r.1.effDissociatingList[r.2]? = some e
          ∧ e.first.addr = dissociation.dissociating.addr
          ∧ e.second.addr = (findOtherClusterDiss s dissociation).addr)
    ∧ ∃ r : PSISuperCluster K × Nat,
      addToEffEmissionList s dissociation = some r
      ∧ r.2 < r.1.effEmissionList.length
      ∧ ∃ e, r.1.effEmissionList[r.2]? = some e
          ∧ e.first.addr = dissociation.first.addr ∧ e.second.addr = dissociation.second.addr := by
  obtain ⟨r1, a1, ⟨e1, b1, c1⟩, _⟩ := addToEffReactingList_spec s reaction hR
  obtain ⟨r2, a2, ⟨e2, b2, c2⟩, _⟩ := addToEffCombiningList_spec s reaction hC
  obtain ⟨r3, a3, ⟨e3, b3, c3⟩, _⟩ := addToEffDissociatingList_spec s dissociation hD
  obtain ⟨r4, a4, ⟨e4, b4, c4⟩, _⟩ := addToEffEmissionList_spec s dissociation hE
  exact ⟨⟨r1, a1, getElem?_lt_length _ _ _ b1, e1, b1, c1⟩,
    ⟨r2, a2, getElem?_lt_length _ _ _ b2, e2, b2, c2⟩,
    ⟨r3, a3, getElem?_lt_length _ _ _ b3, e3, b3, c3⟩,
    ⟨r4, a4, getElem?_lt_length _ _ _ b4, e4, b4, c4⟩⟩

/-- C17, witness: the four builders on the newly constructed sample super-cluster. -/
theorem builders_return_keyed_entry_witness :
    (∃ r : PSISuperCluster ℚ × Nat,
      addToEffReactingList (sampleSuper ℚ) (sampleProduction ℚ) = some r
      ∧ r.2 < r.1.effReactingList.length
      ∧ ∃ e, r.1.effReactingList[r.2]? = some e
          ∧ e.first.addr = (sampleProduction ℚ).first.addr ∧ e.second.addr = (sampleProduction ℚ).second.addr)
    ∧ (∃ r : PSISuperCluster ℚ × Nat,
      addToEffCombiningList (sampleSuper ℚ) (sampleProduction ℚ) = some r
      ∧ r.2 < r.1.effCombiningList.length
      ∧ ∃ e, r.1.effCombiningList[r.2]? = some e
          ∧ e.first.addr = (findOtherClusterProd (sampleSuper ℚ) (sampleProduction ℚ)).addr)
    ∧ (∃ r : PSISuperCluster ℚ × Nat,
      addToEffDissociatingList (sampleSuper ℚ) (sampleDissociation ℚ) = some r
      ∧ r.2 < r.1.effDissociatingList.length
      ∧ ∃ e, r.1.effDissociatingList[r.2]? = some e
          ∧ e.first.addr = (sampleDissociation ℚ).dissociating.addr
          ∧ e.second.addr = (findOtherClusterDiss (sampleSuper ℚ) (sampleDissociation ℚ)).addr)
    ∧ ∃ r : PSISuperCluster ℚ × Nat,
      addToEffEmissionList (sampleSuper ℚ) (sampleDissociation ℚ) = some r
      ∧ r.2 < r.1.effEmissionList.length
      ∧ ∃ e, r.1.effEmissionList[r.2]? = some e
          ∧ e.first.addr = (sampleDissociation ℚ).first.addr ∧ e.second.addr = (sampleDissociation ℚ).second.addr :=
  builders_return_keyed_entry (sampleSuper ℚ) (sampleProduction ℚ) (sampleDissociation ℚ)
    (MapConsistent_nil _ _) (MapConsistent_nil _ _) (MapConsistent_nil _ _)
    (MapConsistent_nil _ _)

/-- C18: in a state whose lookup maps are consistent with the lists, every builder call
succeeds and the effective list before the call is a prefix of the list after it, which
is at most one entry longer: existing entries keep their position, operands and
coefficients, and a new entry is placed at the end. -/
theorem builders_extend_list (s : PSISuperCluster K) (reaction : ProductionReaction K)
    (dissociation : DissociationReaction K)
    (hR : MapConsistent s.effReactingListMap s.effReactingList
      (fun e => ((e.first.addr, e.second.addr) : PairKey)))
    (hC : MapConsistent s.effCombiningListMap s.effCombiningList (fun e => e.first.addr))
    (hD : MapConsistent s.effDissociatingListMap s.effDissociatingList
      (fun e => ((e.first.addr, e.second.addr) : PairKey)))
    (hE : MapConsistent s.effEmissionListMap s.effEmissionList
      (fun e => ((e.first.addr, e.second.addr) : PairKey))) :
    (∃ r : PSISuperCluster K × Nat,
      addToEffReactingList s reaction = some r
      ∧ s.effReactingList <+: r.1.effReactingList
      ∧ r.1.effReactingList.length ≤ s.effReactingList.length + 1)
    ∧ (∃ r : PSISuperCluster K × Nat,
      addToEffCombiningList s reaction = some r
      ∧ s.effCombiningList <+: r.1.effCombiningList
      ∧ r.1.effCombiningList.length ≤ s.effCombiningList.length + 1)
    ∧ (∃ r : PSISuperCluster K × Nat,
      addToEffDissociatingList s dissociation = some r
      ∧ s.effDissociatingList <+: r.1.effDissociatingList
      ∧ r.1.effDissociatingList.length ≤ s.effDissociatingList.length + 1)
    ∧ ∃ r : PSISuperCluster K × Nat,
      addToEffEmissionList s dissociation = some r
      ∧ s.effEmissionList <+: r.1.effEmissionList
      ∧ r.1.effEmissionList.length ≤ s.effEmissionList.length + 1 := by
  obtain ⟨r1, a1, _, b1, _⟩ := addToEffReactingList_spec s reaction hR
  obtain ⟨r2, a2, _, b2, _⟩ := addToEffCombiningList_spec s reaction hC
  obtain ⟨r3, a3, _, b3, _⟩ := addToEffDissociatingList_spec s dissociation hD
  obtain ⟨r4, a4, _, b4, _⟩ := addToEffEmissionList_spec s dissociation hE
  exact ⟨⟨r1, a1, prefix_of_eq_or_append _ _ _ b1⟩, ⟨r2, a2, prefix_of_eq_or_append _ _ _ b2⟩,
    ⟨r3, a3, prefix_of_eq_or_append _ _ _ b3⟩, ⟨r4, a4, prefix_of_eq_or_append _ _ _ b4⟩⟩

/-- C18, witness: the four builders on the sample network with one entry per list. -/
theorem builders_extend_list_witness :
    (∃ r : PSISuperCluster ℚ × Nat,
      addToEffReactingList (sampleNetworkState ℚ) (sampleProduction ℚ) = some r
      ∧ (sampleNetworkState ℚ).effReactingList <+: r.1.effReactingList
      ∧ r.1.effReactingList.length ≤ (sampleNetworkState ℚ).effReactingList.length + 1)
    ∧ (∃ r : PSISuperCluster ℚ × Nat,
      addToEffCombiningList (sampleNetworkState ℚ) (sampleProduction ℚ) = some r
      ∧ (sampleNetworkState ℚ).effCombiningList <+: r.1.effCombiningList
      ∧ r.1.effCombiningList.length ≤ (sampleNetworkState ℚ).effCombiningList.length + 1)
    ∧ (∃ r : PSISuperCluster ℚ × Nat,
      addToEffDissociatingList (sampleNetworkState ℚ) (sampleDissociation ℚ) = some r
      ∧ (sampleNetworkState ℚ).effDissociatingList <+: r.1.effDissociatingList
      ∧ r.1.effDissociatingList.length ≤ (sampleNetworkState ℚ).effDissociatingList.length + 1)
    ∧ ∃ r : PSISuperCluster ℚ × Nat,
      addToEffEmissionList (sampleNetworkState ℚ) (sampleDissociation ℚ) = some r
      ∧ (sampleNetworkState ℚ).effEmissionList <+: r.1.effEmissionList
      ∧ r.1.effEmissionList.length ≤ (sampleNetworkState ℚ).effEmissionList.length + 1 :=
  builders_extend_list (sampleNetworkState ℚ) (sampleProduction ℚ) (sampleDissociation ℚ)
    (MapConsistent_nil _ _) (MapConsistent_nil _ _) (MapConsistent_nil _ _)
    (MapConsistent_nil _ _)

/-! ## Raw-mode updates (claim C16) -/

/-- A loop that threads a counter advancing by `d` per iteration. -/
theorem forLoop_counter {σ : Type} (m d : Nat) (g : Nat → σ → Nat → σ) (c : σ) (n0 : Nat) :
    forLoop 0 m (fun k (st : σ × Nat) => (g k st.1 st.2, st.2 + d)) (c, n0)
      = (forLoop 0 m (fun k c => g k c (n0 + k * d)) c, n0 + m * d) := by
  induction m with
  | zero => simp [forLoop_of_le]
  | succ m ih =>
    rw [forLoop_succ 0 m (Nat.zero_le m), forLoop_succ 0 m (Nat.zero_le m), ih]
    simp only [Prod.mk.injEq, true_and]
    ring

theorem addAt2_apply (a : Nat → Nat → K) (i j : Nat) (v : K) (x y : Nat) :
    addAt2 a i j v x y = a x y + if x = i ∧ y = j then v else 0 := by
  unfold addAt2
  by_cases hx : x = i
  · subst hx
    by_cases hy : y = j <;> simp [addAt_apply, hy]
  · simp [Function.update_noteq hx, hx]

/-- A triple loop that adds `v i j k` to cell `[i][j][k]`. -/
theorem tripleLoop_addAt3 (p : Nat) (v : Nat → Nat → Nat → K) (c : Nat → Nat → Nat → K)
    (x y z : Nat) :
    forLoop 0 p (fun i c =>
        forLoop 0 p (fun j c =>
          forLoop 0 p (fun k c => addAt3 c i j k (v i j k)) c) c) c x y z
      = c x y z + if x < p ∧ y < p ∧ z < p then v x y z else 0 := by
  have inner : ∀ i j k (st : Nat → Nat → Nat → K),
      (fun (t : Nat → Nat → Nat → K) => t x y z) (addAt3 st i j k (v i j k))
        = (fun (t : Nat → Nat → Nat → K) => t x y z) st
          + (if x = i ∧ y = j ∧ z = k then v i j k else 0) := by
    intro i j k st
    simp only [addAt3_apply]
  have mid := fun i j (st : Nat → Nat → Nat → K) =>
    forLoop_add_read (fun (t : Nat → Nat → Nat → K) => t x y z) 0 p _ _ (inner i j) st
  have outer := fun i (st : Nat → Nat → Nat → K) =>
    forLoop_add_read (fun (t : Nat → Nat → Nat → K) => t x y z) 0 p _ _ (mid i) st
  have top := forLoop_add_read (fun (t : Nat → Nat → Nat → K) => t x y z) 0 p _ _ outer c
  simp only [Nat.Ico_zero_eq_range] at top
  rw [top]
  congr 1
  by_cases hx : x < p
  · rw [Finset.sum_eq_single x]
    · by_cases hy : y < p
      · rw [Finset.sum_eq_single y]
        · by_cases hz : z < p
          · rw [Finset.sum_eq_single z]
            · simp [hx, hy, hz]
            · intro k _ hk
              have : ¬ z = k := fun e => hk e.symm
              simp [this]
            · intro h
              exact absurd (Finset.mem_range.mpr hz) h
          · rw [Finset.sum_eq_zero]
            · simp [hz]
            · intro k hk
              have : ¬ z = k := fun e => hz (e ▸ Finset.mem_range.mp hk)
              simp [this]
        · intro j _ hj
          have : ¬ y = j := fun e => hj e.symm
          simp [this]
        · intro h
          exact absurd (Finset.mem_range.mpr hy) h
      · rw [Finset.sum_eq_zero]
        · simp [hy]
        · intro j hj
          have : ¬ y = j := fun e => hy (e ▸ Finset.mem_range.mp hj)
          simp [this]
    · intro i _ hi
      have : ¬ x = i := fun e => hi e.symm
      simp [this]
    · intro h
      exact absurd (Finset.mem_range.mpr hx) h
  · rw [Finset.sum_eq_zero]
    · simp [hx]
    · intro i hi
      have : ¬ x = i := fun e => hx (e ▸ Finset.mem_range.mp hi)
      simp [this]

/-- A double loop that adds `v i j` to cell `[i][j]`. -/
theorem doubleLoop_addAt2 (p : Nat) (v : Nat → Nat → K) (c : Nat → Nat → K) (x y : Nat) :
    forLoop 0 p (fun i c => forLoop 0 p (fun j c => addAt2 c i j (v i j)) c) c x y
      = c x y + if x < p ∧ y < p then v x y else 0 := by
  have inner : ∀ i j (st : Nat → Nat → K),
      (fun (t : Nat → Nat → K) => t x y) (addAt2 st i j (v i j))
        = (fun (t : Nat → Nat → K) => t x y) st + (if x = i ∧ y = j then v i j else 0) := by
    intro i j st
    simp only [addAt2_apply]
  have mid := fun i (st : Nat → Nat → K) =>
    forLoop_add_read (fun (t : Nat → Nat → K) => t x y) 0 p _ _ (inner i) st
  have top := forLoop_add_read (fun (t : Nat → Nat → K) => t x y) 0 p _ _ mid c
  simp only [Nat.Ico_zero_eq_range] at top
  rw [top]
  congr 1
  by_cases hx : x < p
  · rw [Finset.sum_eq_single x]
    · by_cases hy : y < p
      · rw [Finset.sum_eq_single y]
        · simp [hx, hy]
        · intro j _ hj
          have : ¬ y = j := fun e => hj e.symm
          simp [this]
        · intro h
          exact absurd (Finset.mem_range.mpr hy) h
      · rw [Finset.sum_eq_zero]
        · simp [hy]
        · intro j hj
          have : ¬ y = j := fun e => hy (e ▸ Finset.mem_range.mp hj)
          simp [this]
    · intro i _ hi
      have : ¬ x = i := fun e => hi e.symm
      simp [this]
    · intro h
      exact absurd (Finset.mem_range.mpr hx) h
  · rw [Finset.sum_eq_zero]
    · simp [hx]
    · intro i hi
      have : ¬ x = i := fun e => hx (e ▸ Finset.mem_range.mp hi)
      simp [this]

/-- The raw-mode loops on a rank-3 tensor: the counter ends at `psDim^3` and cell
`[i][j][k]` receives `coef[(i * psDim + j) * psDim + k]`. -/
theorem addFlatCoefs3_spec (p : Nat) (coef : Nat → K) (c : Nat → Nat → Nat → K) :
    (addFlatCoefs3 p coef c).2 = p * p * p
    ∧ ∀ x y z, (addFlatCoefs3 p coef c).1 x y z
        = c x y z + if x < p ∧ y < p ∧ z < p then coef ((x * p + y) * p + z) else 0 := by
  have h3 : ∀ i j (st : (Nat → Nat → Nat → K) × Nat),
      forLoop 0 p (fun k (st : (Nat → Nat → Nat → K) × Nat) =>
          (addAt3 st.1 i j k (coef st.2), st.2 + 1)) st
        = (forLoop 0 p (fun k c => addAt3 c i j k (coef (st.2 + k * 1))) st.1, st.2 + p * 1) :=
    fun i j st => forLoop_counter p 1 (fun k c n => addAt3 c i j k (coef n)) st.1 st.2
  have h2 : ∀ i (st : (Nat → Nat → Nat → K) × Nat),
      forLoop 0 p (fun j (st : (Nat → Nat → Nat → K) × Nat) =>
          forLoop 0 p (fun k (st : (Nat → Nat → Nat → K) × Nat) =>
            (addAt3 st.1 i j k (coef st.2), st.2 + 1)) st) st
        = (forLoop 0 p (fun j c =>
            forLoop 0 p (fun k c => addAt3 c i j k (coef (st.2 + j * (p * 1) + k * 1))) c) st.1,
          st.2 + p * (p * 1)) := by
    intro i st
    simp only [h3]
    exact forLoop_counter p (p * 1)
      (fun j c n => forLoop 0 p (fun k c => addAt3 c i j k (coef (n + k * 1))) c) st.1 st.2
  have h1 : addFlatCoefs3 p coef c
      = (forLoop 0 p (fun i c =>
          forLoop 0 p (fun j c =>
            forLoop 0 p (fun k c =>
              addAt3 c i j k (coef (0 + i * (p * (p * 1)) + j * (p * 1) + k * 1))) c) c) c,
        0 + p * (p * (p * 1))) := by
    unfold addFlatCoefs3
    simp only [h2]
    exact forLoop_counter p (p * (p * 1))
      (fun i c n => forLoop 0 p (fun j c =>
        forLoop 0 p (fun k c => addAt3 c i j k (coef (n + j * (p * 1) + k * 1))) c) c) c 0
  rw [h1]
  refine ⟨by ring, ?_⟩
  intro x y z
  show forLoop 0 p _ c x y z = _
  rw [tripleLoop_addAt3 p (fun i j k => coef (0 + i * (p * (p * 1)) + j * (p * 1) + k * 1))]
  have e : 0 + x * (p * (p * 1)) + y * (p * 1) + z * 1 = (x * p + y) * p + z := by ring
  simp only [e]

/-- The raw-mode loops on a matrix: the counter ends at `psDim^2` and cell `[i][j]`
receives `coef[i * psDim + j]`. -/
theorem addFlatCoefs2_spec (p : Nat) (coef : Nat → K) (c : Nat → Nat → K) :
    (addFlatCoefs2 p coef c).2 = p * p
    ∧ ∀ x y, (addFlatCoefs2 p coef c).1 x y
        = c x y + if x < p ∧ y < p then coef (x * p + y) else 0 := by
  have h2 : ∀ i (st : (Nat → Nat → K) × Nat),
      forLoop 0 p (fun j (st : (Nat → Nat → K) × Nat) =>
          (addAt2 st.1 i j (coef st.2), st.2 + 1)) st
        = (forLoop 0 p (fun j c => addAt2 c i j (coef (st.2 + j * 1))) st.1, st.2 + p * 1) :=
    fun i st => forLoop_counter p 1 (fun j c n => addAt2 c i j (coef n)) st.1 st.2
  have h1 : addFlatCoefs2 p coef c
      = (forLoop 0 p (fun i c =>
          forLoop 0 p (fun j c => addAt2 c i j (coef (0 + i * (p * 1) + j * 1))) c) c,
        0 + p * (p * 1)) := by
    unfold addFlatCoefs2
    simp only [h2]
    exact forLoop_counter p (p * 1)
      (fun i c n => forLoop 0 p (fun j c => addAt2 c i j (coef (n + j * 1))) c) c 0
  rw [h1]
  refine ⟨by ring, ?_⟩
  intro x y
  show forLoop 0 p _ c x y = _
  rw [doubleLoop_addAt2 p (fun i j => coef (0 + i * (p * 1) + j * 1))]
  have e : 0 + x * (p * 1) + y * 1 = x * p + y := by ring
  simp only [e]

theorem resultFromCoef_eq (psDim : Nat) (s : PSISuperCluster K) (reaction : ProductionReaction K)
    (coef : Nat → K) :
    (resultFromCoef psDim s reaction coef
        = (addToEffReactingList s reaction).map (fun r =>
            { r.1 with
              effReactingList := modifyAt r.1.effReactingList r.2 (fun e =>
                { e with
                  coefs := fun i j k =>
                    e.coefs i j k
                      + if i < psDim ∧ j < psDim ∧ k < psDim then
                          coef ((i * psDim + j) * psDim + k)
                        else 0 }) })) := by
  unfold resultFromCoef
  cases addToEffReactingList s reaction with
  | none => rfl
  | some r =>
    obtain ⟨s1, pos⟩ := r
    simp only [Option.map_some']
    congr 3
    funext e
    congr 1
    funext i j k
    exact (addFlatCoefs3_spec psDim coef e.coefs).2 i j k

theorem participateInProductionCoef_eq (psDim : Nat) (s : PSISuperCluster K) (reaction : ProductionReaction K)
    (coef : Nat → K) :
    (participateInProductionCoef psDim s reaction coef
        = (addToEffCombiningList s reaction).map (fun r =>
            { r.1 with
              effCombiningList := modifyAt r.1.effCombiningList r.2 (fun e =>
                { e with
                  coefs := fun i j k =>
                    e.coefs i j k
                      + if i < psDim ∧ j < psDim ∧ k < psDim then
                          coef ((i * psDim + j) * psDim + k)
                        else 0 }) })) := by
  unfold participateInProductionCoef
  cases addToEffCombiningList s reaction with
  | none => rfl
  | some r =>
    obtain ⟨s1, pos⟩ := r
    simp only [Option.map_some']
    congr 3
    funext e
    congr 1
    funext i j k
    exact (addFlatCoefs3_spec psDim coef e.coefs).2 i j k

theorem participateInDissociationCoef_eq (psDim : Nat) (s : PSISuperCluster K) (reaction : DissociationReaction K)
    (coef : Nat → K) :
    (participateInDissociationCoef psDim s reaction coef
        = (addToEffDissociatingList s reaction).map (fun r =>
            { r.1 with
              effDissociatingList := modifyAt r.1.effDissociatingList r.2 (fun e =>
                { e with
                  coefs := fun i j =>
                    e.coefs i j
                      + if i < psDim ∧ j < psDim then coef (i * psDim + j) else 0 }) })) := by
  unfold participateInDissociationCoef
  cases addToEffDissociatingList s reaction with
  | none => rfl
  | some r =>
    obtain ⟨s1, pos⟩ := r
    simp only [Option.map_some']
    congr 3
    funext e
    congr 1
    funext i j
    exact (addFlatCoefs2_spec psDim coef e.coefs).2 i j

theorem emitFromCoef_eq (psDim : Nat) (s : PSISuperCluster K) (reaction : DissociationReaction K)
    (coef : Nat → K) :
    (emitFromCoef psDim s reaction coef
        = (addToEffEmissionList s reaction).map (fun r =>
            { r.1 with
              effEmissionList := modifyAt r.1.effEmissionList r.2 (fun e =>
                { e with
                  coefs := fun i j =>
                    e.coefs i j
                      + if i < psDim ∧ j < psDim then coef (i * psDim + j) else 0 }) })) := by
  unfold emitFromCoef
  cases addToEffEmissionList s reaction with
  | none => rfl
  | some r =>
    obtain ⟨s1, pos⟩ := r
    simp only [Option.map_some']
    congr 3
    funext e
    congr 1
    funext i j
    exact (addFlatCoefs2_spec psDim coef e.coefs).2 i j

theorem flatIndex3_lt (p i j k : Nat) (hi : i < p) (hj : j < p) (hk : k < p) :
    (i * p + j) * p + k < p * p * p := by
  have h1 : i * p + j + 1 ≤ p * p := by nlinarith
  nlinarith

theorem flatIndex2_lt (p i j : Nat) (hi : i < p) (hj : j < p) : i * p + j < p * p := by
  nlinarith

/-- C16: each raw-mode update is the builder call followed by an in-place update of the
returned entry and of nothing else; `resultFrom(reaction, coef)` and
`participateIn(ProductionReaction&, coef)` add `coef[(i*psDim + j)*psDim + k]` to
`coefs[i][j][k]`, and `participateIn(DissociationReaction&, coef)` and
`emitFrom(reaction, coef)` add `coef[i*psDim + j]` to `coefs[i][j]`, for all indices below
`psDim`, leaving every other cell alone; the read counter ends at `psDim^3` (respectively
`psDim^2`), and the result is the same for any two arrays that agree on these first
elements. -/
theorem rawMode_updates (psDim : Nat) (s : PSISuperCluster K) (reaction : ProductionReaction K)
    (dissociation : DissociationReaction K) (coef : Nat → K) :
    (resultFromCoef psDim s reaction coef
        = (addToEffReactingList s reaction).map (fun r =>
            { r.1 with
              effReactingList := modifyAt r.1.effReactingList r.2 (fun e =>
                { e with
                  coefs := fun i j k =>
                    e.coefs i j k
                      + if i < psDim ∧ j < psDim ∧ k < psDim then
                          coef ((i * psDim + j) * psDim + k)
                        else 0 }) }))
    ∧ (participateInProductionCoef psDim s reaction coef
        = (addToEffCombiningList s reaction).map (fun r =>
            { r.1 with
              effCombiningList := modifyAt r.1.effCombiningList r.2 (fun e =>
                { e with
                  coefs := fun i j k =>
                    e.coefs i j k
                      + if i < psDim ∧ j < psDim ∧ k < psDim then
                          coef ((i * psDim + j) * psDim + k)
                        else 0 }) }))
    ∧ (participateInDissociationCoef psDim s dissociation coef
        = (addToEffDissociatingList s dissociation).map (fun r =>
            { r.1 with
              effDissociatingList := modifyAt r.1.effDissociatingList r.2 (fun e =>
                { e with
                  coefs := fun i j =>
                    e.coefs i j
                      + if i < psDim ∧ j < psDim then coef (i * psDim + j) else 0 }) }))
    ∧ (emitFromCoef psDim s dissociation coef
        = (addToEffEmissionList s dissociation).map (fun r =>
            { r.1 with
              effEmissionList := modifyAt r.1.effEmissionList r.2 (fun e =>
                { e with
                  coefs := fun i j =>
                    e.coefs i j
                      + if i < psDim ∧ j < psDim then coef (i * psDim + j) else 0 }) }))
    ∧ (∀ c : Nat → Nat → Nat → K, (addFlatCoefs3 psDim coef c).2 = psDim * psDim * psDim)
    ∧ (∀ c : Nat → Nat → K, (addFlatCoefs2 psDim coef c).2 = psDim * psDim)
    ∧ (∀ coef2 : Nat → K, (∀ n, n < psDim * psDim * psDim → coef2 n = coef n) →
        resultFromCoef psDim s reaction coef2 = resultFromCoef psDim s reaction coef
        ∧ participateInProductionCoef psDim s reaction coef2
            = participateInProductionCoef psDim s reaction coef)
    ∧ ∀ coef2 : Nat → K, (∀ n, n < psDim * psDim → coef2 n = coef n) →
        participateInDissociationCoef psDim s dissociation coef2
            = participateInDissociationCoef psDim s dissociation coef
        ∧ emitFromCoef psDim s dissociation coef2 = emitFromCoef psDim s dissociation coef := by
  refine ⟨resultFromCoef_eq psDim s reaction coef,
    participateInProductionCoef_eq psDim s reaction coef,
    participateInDissociationCoef_eq psDim s dissociation coef,
    emitFromCoef_eq psDim s dissociation coef,
    fun c => (addFlatCoefs3_spec psDim coef c).1,
    fun c => (addFlatCoefs2_spec psDim coef c).1, ?_, ?_⟩
  · intro coef2 h
    have e : ∀ i j k : Nat,
        (if i < psDim ∧ j < psDim ∧ k < psDim then coef2 ((i * psDim + j) * psDim + k) else 0)
          = if i < psDim ∧ j < psDim ∧ k < psDim then coef ((i * psDim + j) * psDim + k)
            else 0 := by
      intro i j k
      by_cases c : i < psDim ∧ j < psDim ∧ k < psDim
      · rw [if_pos c, if_pos c, h _ (flatIndex3_lt psDim i j k c.1 c.2.1 c.2.2)]
      · rw [if_neg c, if_neg c]
    rw [resultFromCoef_eq, resultFromCoef_eq, participateInProductionCoef_eq,
      participateInProductionCoef_eq]
    simp only [e]
    exact ⟨trivial, trivial⟩
  · intro coef2 h
    have e : ∀ i j : Nat,
        (if i < psDim ∧ j < psDim then coef2 (i * psDim + j) else 0)
          = if i < psDim ∧ j < psDim then coef (i * psDim + j) else 0 := by
      intro i j
      by_cases c : i < psDim ∧ j < psDim
      · rw [if_pos c, if_pos c, h _ (flatIndex2_lt psDim i j c.1 c.2)]
      · rw [if_neg c, if_neg c]
    rw [participateInDissociationCoef_eq, participateInDissociationCoef_eq, emitFromCoef_eq,
      emitFromCoef_eq]
    simp only [e]
    exact ⟨trivial, trivial⟩

/-! ## Explicit per-member updates (claims C14, C15) -/

theorem sum_range_ite_eq (p x : Nat) (w : Nat → K) :
    (∑ i ∈ Finset.range p, if x = i then w i else 0) = if x < p then w x else 0 := by
  rw [Finset.sum_ite_eq]
  simp

theorem sum2_range_ite_eq (p x y : Nat) (w : Nat → Nat → K) :
    (∑ i ∈ Finset.range p, ∑ j ∈ Finset.range p, if x = i ∧ y = j then w i j else 0)
      = if x < p ∧ y < p then w x y else 0 := by
  have e : ∀ i, (∑ j ∈ Finset.range p, if x = i ∧ y = j then w i j else 0)
      = if x = i then (if y < p then w i y else 0) else 0 := by
    intro i
    by_cases h : x = i
    · simp only [h, true_and, if_true]
      exact sum_range_ite_eq p y (w i)
    · simp [h]
  simp only [e]
  rw [sum_range_ite_eq p x (fun i => if y < p then w i y else 0)]
  by_cases hx : x < p <;> by_cases hy : y < p <;> simp [hx, hy]

theorem sum3_range_ite_eq (p x y z : Nat) (w : Nat → Nat → Nat → K) :
    (∑ i ∈ Finset.range p, ∑ j ∈ Finset.range p, ∑ k ∈ Finset.range p,
        if x = i ∧ y = j ∧ z = k then w i j k else 0)
      = if x < p ∧ y < p ∧ z < p then w x y z else 0 := by
  have e : ∀ i, (∑ j ∈ Finset.range p, ∑ k ∈ Finset.range p,
        if x = i ∧ y = j ∧ z = k then w i j k else 0)
      = if x = i then (if y < p ∧ z < p then w i y z else 0) else 0 := by
    intro i
    by_cases h : x = i
    · simp only [h, true_and, if_true]
      exact sum2_range_ite_eq p y z (w i)
    · simp [h]
  simp only [e]
  rw [sum_range_ite_eq p x (fun i => if y < p ∧ z < p then w i y z else 0)]
  by_cases hx : x < p <;> simp [hx]

/-- The loops `for k, for j, for i: coefs[i][j][k] += v i j k` of the explicit production
update. -/
theorem tripleLoop_kji (p : Nat) (v : Nat → Nat → Nat → K) (c : Nat → Nat → Nat → K)
    (x y z : Nat) :
    forLoop 0 p (fun k c =>
        forLoop 0 p (fun j c =>
          forLoop 0 p (fun i c => addAt3 c i j k (v i j k)) c) c) c x y z
      = c x y z + if x < p ∧ y < p ∧ z < p then v x y z else 0 := by
  have inner : ∀ k j i (st : Nat → Nat → Nat → K),
      (fun (t : Nat → Nat → Nat → K) => t x y z) (addAt3 st i j k (v i j k))
        = (fun (t : Nat → Nat → Nat → K) => t x y z) st
          + (if z = k ∧ y = j ∧ x = i then v i j k else 0) := by
    intro k j i st
    simp only [addAt3_apply]
    congr 1
    by_cases h : x = i ∧ y = j ∧ z = k
    · rw [if_pos h, if_pos ⟨h.2.2, h.2.1, h.1⟩]
    · rw [if_neg h, if_neg (fun g => h ⟨g.2.2, g.2.1, g.1⟩)]
  have mid := fun k j (st : Nat → Nat → Nat → K) =>
    forLoop_add_read (fun (t : Nat → Nat → Nat → K) => t x y z) 0 p _ _ (inner k j) st
  have outer := fun k (st : Nat → Nat → Nat → K) =>
    forLoop_add_read (fun (t : Nat → Nat → Nat → K) => t x y z) 0 p _ _ (mid k) st
  have top := forLoop_add_read (fun (t : Nat → Nat → Nat → K) => t x y z) 0 p _ _ outer c
  simp only [Nat.Ico_zero_eq_range] at top
  rw [top, sum3_range_ite_eq p z y x (fun k j i => v i j k)]
  congr 1
  by_cases h : x < p ∧ y < p ∧ z < p
  · rw [if_pos h, if_pos ⟨h.2.2, h.2.1, h.1⟩]
  · rw [if_neg h, if_neg (fun g => h ⟨g.2.2, g.2.1, g.1⟩)]

/-- The loops `for j, for i: coefs[i][j] += v i j` of the explicit dissociation and
emission updates. -/
theorem doubleLoop_ji (p : Nat) (v : Nat → Nat → K) (c : Nat → Nat → K) (x y : Nat) :
    forLoop 0 p (fun j c => forLoop 0 p (fun i c => addAt2 c i j (v i j)) c) c x y
      = c x y + if x < p ∧ y < p then v x y else 0 := by
  have inner : ∀ j i (st : Nat → Nat → K),
      (fun (t : Nat → Nat → K) => t x y) (addAt2 st i j (v i j))
        = (fun (t : Nat → Nat → K) => t x y) st + (if y = j ∧ x = i then v i j else 0) := by
    intro j i st
    simp only [addAt2_apply]
    congr 1
    by_cases h : x = i ∧ y = j
    · rw [if_pos h, if_pos ⟨h.2, h.1⟩]
    · rw [if_neg h, if_neg (fun g => h ⟨g.2, g.1⟩)]
  have mid := fun j (st : Nat → Nat → K) =>
    forLoop_add_read (fun (t : Nat → Nat → K) => t x y) 0 p _ _ (inner j) st
  have top := forLoop_add_read (fun (t : Nat → Nat → K) => t x y) 0 p _ _ mid c
  simp only [Nat.Ico_zero_eq_range] at top
  rw [top, sum2_range_ite_eq p y x (fun j i => v i j)]
  congr 1
  by_cases h : x < p ∧ y < p
  · rw [if_pos h, if_pos ⟨h.2, h.1⟩]
  · rw [if_neg h, if_neg (fun g => h ⟨g.2, g.1⟩)]

/-- The loops `for k, for j: coefs[j][0][k] += v j k` of the explicit combining update. -/
theorem doubleLoop_j0k (p : Nat) (v : Nat → Nat → K) (c : Nat → Nat → Nat → K)
    (x y z : Nat) :
    forLoop 0 p (fun k c => forLoop 0 p (fun j c => addAt3 c j 0 k (v j k)) c) c x y z
      = c x y z + if x < p ∧ y = 0 ∧ z < p then v x z else 0 := by
  have inner : ∀ k j (st : Nat → Nat → Nat → K),
      (fun (t : Nat → Nat → Nat → K) => t x y z) (addAt3 st j 0 k (v j k))
        = (fun (t : Nat → Nat → Nat → K) => t x y z) st
          + (if z = k ∧ x = j then (if y = 0 then v j k else 0) else 0) := by
    intro k j st
    simp only [addAt3_apply]
    congr 1
    by_cases hx : x = j <;> by_cases hy : y = 0 <;> by_cases hz : z = k <;> simp [hx, hy, hz]
  have mid := fun k (st : Nat → Nat → Nat → K) =>
    forLoop_add_read (fun (t : Nat → Nat → Nat → K) => t x y z) 0 p _ _ (inner k) st
  have top := forLoop_add_read (fun (t : Nat → Nat → Nat → K) => t x y z) 0 p _ _ mid c
  simp only [Nat.Ico_zero_eq_range] at top
  rw [top, sum2_range_ite_eq p z x (fun k j => if y = 0 then v j k else 0)]
  congr 1
  by_cases hx : x < p <;> by_cases hy : y = 0 <;> by_cases hz : z < p <;> simp [hx, hy, hz]

theorem operandDistance_apply (psDim : Nat) (indexList : Nat → Int) (c : PSICluster K)
    (x : Int → Int) (i : Nat) :
    operandDistance psDim indexList c x i
      = if i = 0 then 1
        else if c.type = ReactantType.PSISuper ∧ i < psDim then
          c.getDistance (x (indexList i - 1)) (indexList i - 1)
        else 0 := by
  unfold operandDistance
  by_cases ht : c.type = ReactantType.PSISuper
  · simp only [ht, if_true, true_and]
    rw [forLoop_set_apply]
    by_cases h0 : i = 0
    · subst h0
      simp
    · have h1 : 1 ≤ i := Nat.one_le_iff_ne_zero.mpr h0
      by_cases h2 : i < psDim
      · simp [h0, h1, h2]
      · simp [h0, h2, Function.update_noteq h0]
  · simp only [ht, if_false, false_and]
    by_cases h0 : i = 0
    · subst h0
      simp
    · simp [h0, Function.update_noteq h0]

theorem ownDistance_apply (psDim : Nat) (indexList : Nat → Int) (c : PSICluster K)
    (x : Int → Int) (i : Nat) :
    ownDistance psDim indexList c x i
      = if i = 0 then 1
        else if i < psDim then c.getDistance (x (indexList i - 1)) (indexList i - 1)
        else 0 := by
  unfold ownDistance
  rw [forLoop_set_apply]
  by_cases h0 : i = 0
  · subst h0
    simp
  · have h1 : 1 ≤ i := Nat.one_le_iff_ne_zero.mpr h0
    by_cases h2 : i < psDim
    · simp [h0, h1, h2]
    · simp [h0, h2, Function.update_noteq h0]

theorem ownFactor_apply (psDim : Nat) (indexList : Nat → Int) (c : PSICluster K)
    (x : Int → Int) (i : Nat) :
    ownFactor psDim indexList c x i
      = if i = 0 then 1
        else if i < psDim then c.getFactor (x (indexList i - 1)) (indexList i - 1)
        else 0 := by
  unfold ownFactor
  rw [forLoop_set_apply]
  by_cases h0 : i = 0
  · subst h0
    simp
  · have h1 : 1 ≤ i := Nat.one_le_iff_ne_zero.mpr h0
    by_cases h2 : i < psDim
    · simp [h0, h1, h2]
    · simp [h0, h2, Function.update_noteq h0]

theorem modifyAt_append_length {α : Type} (l : List α) (x : α) (f : α → α) :
    modifyAt (l ++ [x]) l.length f = l ++ [f x] := by
  unfold modifyAt
  simp

theorem addToEffReactingList_self (s : PSISuperCluster K) (reaction : ProductionReaction K)
    (r : PSISuperCluster K × Nat) (h : addToEffReactingList s reaction = some r) :
    r.1.self = s.self := by
  unfold addToEffReactingList at h
  cases hl : s.effReactingListMap.lookup ((reaction.first.addr, reaction.second.addr)) with
  | some pos =>
    simp only [hl] at h
    split at h
    · cases h
      rfl
    · cases h
  | none =>
    simp only [hl] at h
    split at h
    · cases h
      rfl
    · cases h

theorem addToEffCombiningList_self (s : PSISuperCluster K) (reaction : ProductionReaction K)
    (r : PSISuperCluster K × Nat) (h : addToEffCombiningList s reaction = some r) :
    r.1.self = s.self := by
  unfold addToEffCombiningList at h
  cases hl : s.effCombiningListMap.lookup (findOtherClusterProd s reaction).addr with
  | some pos =>
    simp only [hl] at h
    split at h
    · cases h
      rfl
    · cases h
  | none =>
    simp only [hl] at h
    split at h
    · cases h
      rfl
    · cases h

theorem addToEffDissociatingList_self (s : PSISuperCluster K)
    (reaction : DissociationReaction K)
    (r : PSISuperCluster K × Nat) (h : addToEffDissociatingList s reaction = some r) :
    r.1.self = s.self := by
  unfold addToEffDissociatingList at h
  cases hl : s.effDissociatingListMap.lookup
      ((reaction.dissociating.addr, (findOtherClusterDiss s reaction).addr)) with
  | some pos =>
    simp only [hl] at h
    split at h
    · cases h
      rfl
    · cases h
  | none =>
    simp only [hl] at h
    split at h
    · cases h
      rfl
    · cases h

theorem addToEffEmissionList_self (s : PSISuperCluster K) (reaction : DissociationReaction K)
    (r : PSISuperCluster K × Nat) (h : addToEffEmissionList s reaction = some r) :
    r.1.self = s.self := by
  unfold addToEffEmissionList at h
  cases hl : s.effEmissionListMap.lookup ((reaction.first.addr, reaction.second.addr)) with
  | some pos =>
    simp only [hl] at h
    split at h
    · cases h
      rfl
    · cases h
  | none =>
    simp only [hl] at h
    split at h
    · cases h
      rfl
    · cases h

theorem resultFromEntry_coefs (psDim : Nat) (indexList : Nat → Int) (s : PSISuperCluster K)
    (a b : Int → Int) (prodPair : ProductionPair K) (i j k : Nat) :
    (resultFromEntry psDim indexList s a b prodPair).coefs i j k
      = prodPair.coefs i j k
        + if i < psDim ∧ j < psDim ∧ k < psDim then
            operandDistance psDim indexList prodPair.first b i
              * operandDistance psDim indexList prodPair.second b j
              * ownFactor psDim indexList s.self a k
          else 0 := by
  unfold resultFromEntry
  exact tripleLoop_kji psDim _ prodPair.coefs i j k

theorem participateInProductionEntry_coefs (psDim : Nat) (indexList : Nat → Int)
    (s : PSISuperCluster K) (a : Int → Int) (combCluster : CombiningCluster K) (i j k : Nat) :
    (participateInProductionEntry psDim indexList s a combCluster).coefs i j k
      = combCluster.coefs i j k
        + if i < psDim ∧ j = 0 ∧ k < psDim then
            ownDistance psDim indexList s.self a i * ownFactor psDim indexList s.self a k
          else 0 := by
  unfold participateInProductionEntry
  exact doubleLoop_j0k psDim _ combCluster.coefs i j k

theorem participateInDissociationEntry_coefs (psDim : Nat) (indexList : Nat → Int)
    (s : PSISuperCluster K) (reaction : DissociationReaction K) (a b : Int → Int)
    (dissPair : DissociationPair K) (i j : Nat) :
    (participateInDissociationEntry psDim indexList s reaction a b dissPair).coefs i j
      = dissPair.coefs i j
        + if i < psDim ∧ j < psDim then
            operandDistance psDim indexList reaction.dissociating a i
              * ownFactor psDim indexList s.self b j
          else 0 := by
  unfold participateInDissociationEntry
  exact doubleLoop_ji psDim _ dissPair.coefs i j

theorem emitFromEntry_coefs (psDim : Nat) (indexList : Nat → Int) (s : PSISuperCluster K)
    (a : Int → Int) (dissPair : DissociationPair K) (i j : Nat) :
    (emitFromEntry psDim indexList s a dissPair).coefs i j
      = dissPair.coefs i j
        + if i < psDim ∧ j < psDim then
            ownDistance psDim indexList s.self a i * ownFactor psDim indexList s.self a j
          else 0 := by
  unfold emitFromEntry
  exact doubleLoop_ji psDim _ dissPair.coefs i j

theorem resultFrom_eq_map (psDim : Nat) (indexList : Nat → Int) (s : PSISuperCluster K)
    (reaction : ProductionReaction K) (a b : Int → Int) :
    resultFrom psDim indexList s reaction a b
      = (addToEffReactingList s reaction).map (fun r =>
          { r.1 with
            effReactingList :=
              modifyAt r.1.effReactingList r.2 (resultFromEntry psDim indexList s a b) }) := by
  unfold resultFrom
  cases h : addToEffReactingList s reaction with
  | none => rfl
  | some r =>
    have hs : r.1.self = s.self := addToEffReactingList_self s reaction r h
    have e : resultFromEntry psDim indexList r.1 a b = resultFromEntry psDim indexList s a b := by
      funext prodPair
      unfold resultFromEntry
      rw [hs]
    simp only [Option.map, e]

theorem participateInProduction_eq_map (psDim : Nat) (indexList : Nat → Int)
    (s : PSISuperCluster K) (reaction : ProductionReaction K) (a : Int → Int) :
    participateInProduction psDim indexList s reaction a
      = (addToEffCombiningList s reaction).map (fun r =>
          { r.1 with
            effCombiningList :=
              modifyAt r.1.effCombiningList r.2
                (participateInProductionEntry psDim indexList s a) }) := by
  unfold participateInProduction
  cases h : addToEffCombiningList s reaction with
  | none => rfl
  | some r =>
    have hs : r.1.self = s.self := addToEffCombiningList_self s reaction r h
    have e : participateInProductionEntry psDim indexList r.1 a
        = participateInProductionEntry psDim indexList s a := by
      funext combCluster
      unfold participateInProductionEntry
      rw [hs]
    simp only [Option.map, e]

theorem participateInDissociation_eq_map (psDim : Nat) (indexList : Nat → Int)
    (s : PSISuperCluster K) (reaction : DissociationReaction K) (a b : Int → Int) :
    participateInDissociation psDim indexList s reaction a b
      = (addToEffDissociatingList s reaction).map (fun r =>
          { r.1 with
            effDissociatingList :=
              modifyAt r.1.effDissociatingList r.2
                (participateInDissociationEntry psDim indexList s reaction a b) }) := by
  unfold participateInDissociation
  cases h : addToEffDissociatingList s reaction with
  | none => rfl
  | some r =>
    have hs : r.1.self = s.self := addToEffDissociatingList_self s reaction r h
    have e : participateInDissociationEntry psDim indexList r.1 reaction a b
        = participateInDissociationEntry psDim indexList s reaction a b := by
      funext dissPair
      unfold participateInDissociationEntry
      rw [hs]
    simp only [Option.map, e]

theorem emitFrom_eq_map (psDim : Nat) (indexList : Nat → Int) (s : PSISuperCluster K)
    (reaction : DissociationReaction K) (a : Int → Int) :
    emitFrom psDim indexList s reaction a
      = (addToEffEmissionList s reaction).map (fun r =>
          { r.1 with
            effEmissionList :=
              modifyAt r.1.effEmissionList r.2 (emitFromEntry psDim indexList s a) }) := by
  unfold emitFrom
  cases h : addToEffEmissionList s reaction with
  | none => rfl
  | some r =>
    have hs : r.1.self = s.self := addToEffEmissionList_self s reaction r h
    have e : emitFromEntry psDim indexList r.1 a = emitFromEntry psDim indexList s a := by
      funext dissPair
      unfold emitFromEntry
      rw [hs]
    simp only [Option.map, e]

theorem resultFrom_of_map_nil (psDim : Nat) (indexList : Nat → Int) (s : PSISuperCluster K)
    (reaction : ProductionReaction K) (a b : Int → Int) (h : s.effReactingListMap = []) :
    resultFrom psDim indexList s reaction a b
      = some { s with
          effReactingList := s.effReactingList
            ++ [resultFromEntry psDim indexList s a b
                  (ProductionPair.create reaction reaction.first reaction.second)] } := by
  rw [resultFrom_eq_map, addToEffReactingList_of_map_nil s reaction h]
  simp only [Option.map, modifyAt_append_length]

theorem participateInProduction_of_map_nil (psDim : Nat) (indexList : Nat → Int)
    (s : PSISuperCluster K) (reaction : ProductionReaction K) (a : Int → Int)
    (h : s.effCombiningListMap = []) :
    participateInProduction psDim indexList s reaction a
      = some { s with
          effCombiningList := s.effCombiningList
            ++ [participateInProductionEntry psDim indexList s a
                  (CombiningCluster.create reaction (findOtherClusterProd s reaction))] } := by
  rw [participateInProduction_eq_map, addToEffCombiningList_of_map_nil s reaction h]
  simp only [Option.map, modifyAt_append_length]

theorem participateInDissociation_of_map_nil (psDim : Nat) (indexList : Nat → Int)
    (s : PSISuperCluster K) (reaction : DissociationReaction K) (a b : Int → Int)
    (h : s.effDissociatingListMap = []) :
    participateInDissociation psDim indexList s reaction a b
      = some { s with
          effDissociatingList := s.effDissociatingList
            ++ [participateInDissociationEntry psDim indexList s reaction a b
                  (DissociationPair.create reaction reaction.dissociating
                    (findOtherClusterDiss s reaction))] } := by
  rw [participateInDissociation_eq_map, addToEffDissociatingList_of_map_nil s reaction h]
  simp only [Option.map, modifyAt_append_length]

theorem emitFrom_of_map_nil (psDim : Nat) (indexList : Nat → Int) (s : PSISuperCluster K)
    (reaction : DissociationReaction K) (a : Int → Int) (h : s.effEmissionListMap = []) :
    emitFrom psDim indexList s reaction a
      = some { s with
          effEmissionList := s.effEmissionList
            ++ [emitFromEntry psDim indexList s a
                  (DissociationPair.create reaction reaction.first reaction.second)] } := by
  rw [emitFrom_eq_map, addToEffEmissionList_of_map_nil s reaction h]
  simp only [Option.map, modifyAt_append_length]

/-- C14: `resultFrom(reaction, a, b)` runs the builder and then updates the entry it
returned, and nothing else; on a cluster whose lookup map is empty, as construction leaves
it, that entry is the one appended for the reaction.  The update adds
`firstDistance[i] * secondDistance[j] * factor[k]` to `coefs[i][j][k]` for all
`i, j, k < psDim` and leaves every other coefficient and the operands of the entry alone.
Index 0 of each vector is 1; for `1 ≤ i < psDim` the distance of an operand is its
`getDistance(b[indexList[i]-1], indexList[i]-1)` when it is a super-cluster and 0
otherwise, and the factor is this cluster's `getFactor(a[indexList[k]-1], indexList[k]-1)`.
With `psDim ≥ 1`, `coefs[0][0][0]` grows by exactly 1; when neither operand is a
super-cluster only the coefficients `coefs[0][0][k]` change. -/
theorem resultFrom_explicit_update (psDim : Nat) (indexList : Nat → Int)
    (s : PSISuperCluster K) (reaction : ProductionReaction K) (a b : Int → Int) :
    (resultFrom psDim indexList s reaction a b
      = (addToEffReactingList s reaction).map (fun r =>
          { r.1 with
            effReactingList :=
              modifyAt r.1.effReactingList r.2 (resultFromEntry psDim indexList s a b) }))
    ∧ (s.effReactingListMap = [] →
        resultFrom psDim indexList s reaction a b
          = some { s with
              effReactingList := s.effReactingList
                ++ [resultFromEntry psDim indexList s a b
                      (ProductionPair.create reaction reaction.first reaction.second)] })
    ∧ (∀ prodPair : ProductionPair K,
        (resultFromEntry psDim indexList s a b prodPair).first = prodPair.first
        ∧ (resultFromEntry psDim indexList s a b prodPair).second = prodPair.second
        ∧ (∀ i j k, (resultFromEntry psDim indexList s a b prodPair).coefs i j k
            = prodPair.coefs i j k
              + if i < psDim ∧ j < psDim ∧ k < psDim then
                  operandDistance psDim indexList prodPair.first b i
                    * operandDistance psDim indexList prodPair.second b j
                    * ownFactor psDim indexList s.self a k
                else 0)
        ∧ (0 < psDim → (resultFromEntry psDim indexList s a b prodPair).coefs 0 0 0
            = prodPair.coefs 0 0 0 + 1)
        ∧ (prodPair.first.type ≠ ReactantType.PSISuper →
            prodPair.second.type ≠ ReactantType.PSISuper →
            ∀ i j k, ¬ (i = 0 ∧ j = 0) →
              (resultFromEntry psDim indexList s a b prodPair).coefs i j k
                = prodPair.coefs i j k))
    ∧ (∀ (c : PSICluster K) (x : Int → Int) (i : Nat),
        operandDistance psDim indexList c x i
          = if i = 0 then 1
            else if c.type = ReactantType.PSISuper ∧ i < psDim then
              c.getDistance (x (indexList i - 1)) (indexList i - 1)
            else 0)
    ∧ ∀ (x : Int → Int) (k : Nat),
        ownFactor psDim indexList s.self x k
          = if k = 0 then 1
            else if k < psDim then s.self.getFactor (x (indexList k - 1)) (indexList k - 1)
            else 0 := by
  refine ⟨resultFrom_eq_map psDim indexList s reaction a b,
    resultFrom_of_map_nil psDim indexList s reaction a b, ?_,
    fun c x i => operandDistance_apply psDim indexList c x i,
    fun x k => ownFactor_apply psDim indexList s.self x k⟩
  intro prodPair
  refine ⟨rfl, rfl, fun i j k => resultFromEntry_coefs psDim indexList s a b prodPair i j k,
    ?_, ?_⟩
  · intro hp
    rw [resultFromEntry_coefs, operandDistance_apply, operandDistance_apply, ownFactor_apply]
    simp [hp]
  · intro h1 h2 i j k hij
    rw [resultFromEntry_coefs, operandDistance_apply, operandDistance_apply]
    by_cases hi : i = 0
    · have hj : j ≠ 0 := fun g => hij ⟨hi, g⟩
      simp [h2, hj]
    · simp [h1, hi]

/-- C15: `participateIn(DissociationReaction&, a, b)` and `emitFrom(reaction, a)` run their
builder and then update the entry it returned, and nothing else; on a cluster whose lookup
map is empty that entry is the one appended for the reaction.  Both add
`distance[i] * factor[j]` to `coefs[i][j]` for all `i, j < psDim` and leave every other
coefficient alone, with `distance[0] = factor[0] = 1`.  For the dissociating entry the
distance is `getDistance` of `a` on the dissociating parent when it is a super-cluster
(0 otherwise) and the factor is `getFactor` of `b` on this cluster; for the emission entry
both are taken from `a` on this cluster.  With `psDim ≥ 1`, `coefs[0][0]` grows by
exactly 1 in both. -/
theorem dissociation_emission_explicit_update (psDim : Nat) (indexList : Nat → Int)
    (s : PSISuperCluster K) (reaction : DissociationReaction K) (a b : Int → Int) :
    (participateInDissociation psDim indexList s reaction a b
      = (addToEffDissociatingList s reaction).map (fun r =>
          { r.1 with
            effDissociatingList :=
              modifyAt r.1.effDissociatingList r.2
                (participateInDissociationEntry psDim indexList s reaction a b) }))
    ∧ (emitFrom psDim indexList s reaction a
      = (addToEffEmissionList s reaction).map (fun r =>
          { r.1 with
            effEmissionList :=
              modifyAt r.1.effEmissionList r.2 (emitFromEntry psDim indexList s a) }))
    ∧ (s.effDissociatingListMap = [] →
        participateInDissociation psDim indexList s reaction a b
          = some { s with
              effDissociatingList := s.effDissociatingList
                ++ [participateInDissociationEntry psDim indexList s reaction a b
                      (DissociationPair.create reaction reaction.dissociating
                        (findOtherClusterDiss s reaction))] })
    ∧ (s.effEmissionListMap = [] →
        emitFrom psDim indexList s reaction a
          = some { s with
              effEmissionList := s.effEmissionList
                ++ [emitFromEntry psDim indexList s a
                      (DissociationPair.create reaction reaction.first reaction.second)] })
    ∧ (∀ dissPair : DissociationPair K,
        (∀ i j, (participateInDissociationEntry psDim indexList s reaction a b dissPair).coefs i j
            = dissPair.coefs i j
              + if i < psDim ∧ j < psDim then
                  (if i = 0 then 1
                    else if reaction.dissociating.type = ReactantType.PSISuper then
                      reaction.dissociating.getDistance (a (indexList i - 1)) (indexList i - 1)
                    else 0)
                  * (if j = 0 then 1
                    else s.self.getFactor (b (indexList j - 1)) (indexList j - 1))
                else 0)
        ∧ (∀ i j, (emitFromEntry psDim indexList s a dissPair).coefs i j
            = dissPair.coefs i j
              + if i < psDim ∧ j < psDim then
                  (if i = 0 then 1
                    else s.self.getDistance (a (indexList i - 1)) (indexList i - 1))
                  * (if j = 0 then 1
                    else s.self.getFactor (a (indexList j - 1)) (indexList j - 1))
                else 0)
        ∧ (0 < psDim →
            (participateInDissociationEntry psDim indexList s reaction a b dissPair).coefs 0 0
              = dissPair.coefs 0 0 + 1
            ∧ (emitFromEntry psDim indexList s a dissPair).coefs 0 0 = dissPair.coefs 0 0 + 1))
    ∧ (∀ (c : PSICluster K) (x : Int → Int),
        operandDistance psDim indexList c x 0 = 1 ∧ ownDistance psDim indexList c x 0 = 1
        ∧ ownFactor psDim indexList c x 0 = 1) := by
  refine ⟨participateInDissociation_eq_map psDim indexList s reaction a b,
    emitFrom_eq_map psDim indexList s reaction a,
    participateInDissociation_of_map_nil psDim indexList s reaction a b,
    emitFrom_of_map_nil psDim indexList s reaction a, ?_, ?_⟩
  · intro dissPair
    refine ⟨?_, ?_, ?_⟩
    · intro i j
      rw [participateInDissociationEntry_coefs, operandDistance_apply, ownFactor_apply]
      by_cases hi : i < psDim <;> by_cases hj : j < psDim <;> simp [hi, hj]
    · intro i j
      rw [emitFromEntry_coefs, ownDistance_apply, ownFactor_apply]
      by_cases hi : i < psDim <;> by_cases hj : j < psDim <;> simp [hi, hj]
    · intro hp
      constructor
      · rw [participateInDissociationEntry_coefs, operandDistance_apply, ownFactor_apply]
        simp [hp]
      · rw [emitFromEntry_coefs, ownDistance_apply, ownFactor_apply]
        simp [hp]
  · intro c x
    refine ⟨?_, ?_, ?_⟩
    · rw [operandDistance_apply]
      simp
    · rw [ownDistance_apply]
      simp
    · rw [ownFactor_apply]
      simp

/-! ## Jacobian consistency of the dissociation terms (claim C20) -/

theorem getDissociationFluxBody_component (psDim : Nat) (indexList : Nat → Int)
    (s : PSISuperCluster K) (concs : Int → K) (xi : Nat) (fl : Flux K) (p : DissociationPair K)
    (k : Nat) (hk : k < psDim)
    (hidx : ∀ i, 1 ≤ i → i < psDim → ∀ i2, 1 ≤ i2 → i2 < psDim →
      indexList i = indexList i2 → i = i2) :
    (if k = 0 then (getDissociationFluxBody psDim indexList s concs xi fl p).flux
      else (getDissociationFluxBody psDim indexList s concs xi fl p).momentFlux
        (indexList k - 1))
      = (if k = 0 then fl.flux else fl.momentFlux (indexList k - 1))
        + p.reaction.kConstant xi / (s.nTot : K)
          * ∑ i ∈ Finset.range psDim,
              p.coefs i k * gatherMoments psDim indexList p.first concs i := by
  by_cases h0 : k = 0
  · subst h0
    simp only [if_true]
    rw [getDissociationFluxBody_flux, dissociationSum_apply, if_pos hk]
  · simp only [h0, if_false]
    rw [getDissociationFluxBody_momentFlux,
      filter_indexList_eq_singleton psDim indexList k (Nat.one_le_iff_ne_zero.mpr h0) hk hidx,
      Finset.sum_singleton, dissociationSum_apply, if_pos hk]

/-- One step of `getDissociationFlux` is affine in each state variable of the
dissociating parent, with the slope that the Jacobian code files. -/
theorem getDissociationFluxBody_affine (psDim : Nat) (indexList : Nat → Int)
    (s : PSISuperCluster K) (concs : Int → K) (xi : Nat) (fl : Flux K) (p : DissociationPair K)
    (k j0 : Nat) (hk : k < psDim) (hj0 : j0 < psDim) (hP : ReadsOwnState p.first)
    (hvar : ∀ i, i < psDim → ∀ i2, i2 < psDim →
      stateIndex indexList p.first i = stateIndex indexList p.first i2 → i = i2) (t : K) :
    (if k = 0 then
        (getDissociationFluxBody psDim indexList s
          (Function.update concs (stateIndex indexList p.first j0) t) xi fl p).flux
      else
        (getDissociationFluxBody psDim indexList s
          (Function.update concs (stateIndex indexList p.first j0) t) xi fl p).momentFlux
            (indexList k - 1))
      = (if k = 0 then (getDissociationFluxBody psDim indexList s concs xi fl p).flux
          else (getDissociationFluxBody psDim indexList s concs xi fl p).momentFlux
            (indexList k - 1))
        + (t - concs (stateIndex indexList p.first j0))
          * (p.reaction.kConstant xi / (s.nTot : K) * p.coefs j0 k) := by
  have hidx := indexList_injective_of_stateIndex psDim indexList p.first hvar
  obtain ⟨g1, g2, g3⟩ := gatherMoments_update_self psDim indexList p.first hP concs j0 hj0 t hvar
  rw [getDissociationFluxBody_component psDim indexList s _ xi fl p k hk hidx,
    getDissociationFluxBody_component psDim indexList s concs xi fl p k hk hidx]
  have e : ∀ (a : Nat → K),
      (∑ i ∈ Finset.range psDim, p.coefs i k * a i)
        = ∑ i ∈ Finset.range psDim, a i * (fun i => p.coefs i k) i := by
    intro a
    apply Finset.sum_congr rfl
    intro i _
    ring
  rw [e, e, sum_mul_of_update psDim j0 hj0
    (gatherMoments psDim indexList p.first concs) _ _ g3, g1, g2]
  ring

/-! ## Production against combination bookkeeping (claim C19) -/

theorem participateInProductionEntry_flux_term (psDim : Nat) (indexList : Nat → Int)
    (sA : PSISuperCluster K) (a : Int → Int) (R : ProductionReaction K) (other : PSICluster K)
    (LA LB : Nat → K) :
    (∑ j ∈ Finset.range psDim, ∑ i ∈ Finset.range psDim,
        (participateInProductionEntry psDim indexList sA a
          (CombiningCluster.create R other)).coefs i j 0 * LA i * LB j)
      = (∑ i ∈ Finset.range psDim, ownDistance psDim indexList sA.self a i * LA i) * LB 0 := by
  rcases Nat.eq_zero_or_pos psDim with h0 | hp
  · subst h0
    simp
  · rw [Finset.sum_eq_single 0]
    · rw [Finset.sum_mul]
      apply Finset.sum_congr rfl
      intro i hi
      have hi2 := Finset.mem_range.mp hi
      rw [participateInProductionEntry_coefs, ownFactor_apply]
      simp [hi2, hp, CombiningCluster.create]
    · intro j _ hj
      apply Finset.sum_eq_zero
      intro i _
      rw [participateInProductionEntry_coefs]
      simp [hj, CombiningCluster.create]
    · intro h
      exact absurd (Finset.mem_range.mpr hp) h

theorem resultFromEntry_flux_term (psDim : Nat) (indexList : Nat → Int)
    (sC : PSISuperCluster K) (a2 b : Int → Int) (R : ProductionReaction K)
    (L1 L2 : Nat → K) :
    (∑ j ∈ Finset.range psDim, ∑ i ∈ Finset.range psDim,
        (resultFromEntry psDim indexList sC a2 b
          (ProductionPair.create R R.first R.second)).coefs j i 0 * L1 j * L2 i)
      = (∑ j ∈ Finset.range psDim, operandDistance psDim indexList R.first b j * L1 j)
        * (∑ i ∈ Finset.range psDim, operandDistance psDim indexList R.second b i * L2 i) := by
  rcases Nat.eq_zero_or_pos psDim with h0 | hp
  · subst h0
    simp
  · rw [Finset.sum_mul_sum]
    apply Finset.sum_congr rfl
    intro j hj
    apply Finset.sum_congr rfl
    intro i hi
    have hj2 := Finset.mem_range.mp hj
    have hi2 := Finset.mem_range.mp hi
    rw [resultFromEntry_coefs, ownFactor_apply]
    simp only [ProductionPair.create, hj2, hi2, hp, and_self, if_true, zero_add, mul_one]
    ring

theorem operandDistance_sum_of_not_super (psDim : Nat) (indexList : Nat → Int)
    (c : PSICluster K) (x : Int → Int) (L : Nat → K) (hp : 0 < psDim)
    (h : c.type ≠ ReactantType.PSISuper) :
    (∑ i ∈ Finset.range psDim, operandDistance psDim indexList c x i * L i) = L 0 := by
  rw [Finset.sum_eq_single 0]
  · rw [operandDistance_apply]
    simp
  · intro i _ hi
    rw [operandDistance_apply]
    simp [hi, h]
  · intro h2
    exact absurd (Finset.mem_range.mpr hp) h2

theorem operandDistance_eq_ownDistance (psDim : Nat) (indexList : Nat → Int)
    (c : PSICluster K) (a b : Int → Int) (h : c.type = ReactantType.PSISuper)
    (hab : ∀ i, 1 ≤ i → i < psDim → b (indexList i - 1) = a (indexList i - 1)) (i : Nat) :
    operandDistance psDim indexList c b i = ownDistance psDim indexList c a i := by
  rw [operandDistance_apply, ownDistance_apply]
  by_cases h0 : i = 0
  · simp [h0]
  · by_cases h1 : i < psDim
    · simp [h0, h1, h, hab i (Nat.one_le_iff_ne_zero.mpr h0) h1]
    · simp [h0, h1]

/-- What one explicit `participateIn(reaction, a)` on a cluster with an empty lookup map
adds to the scalar flux of `getCombinationFlux`. -/
theorem combination_contribution (psDim : Nat) (indexList : Nat → Int)
    (sA : PSISuperCluster K) (a : Int → Int) (R : ProductionReaction K) (other : PSICluster K)
    (concs : Int → K) (xi : Nat) (fl : Flux K) :
    (getCombinationFlux psDim indexList
        { sA with
          effCombiningList := sA.effCombiningList
            ++ [participateInProductionEntry psDim indexList sA a
                  (CombiningCluster.create R other)] } concs xi fl).flux
      - (getCombinationFlux psDim indexList sA concs xi fl).flux
      = R.kConstant xi / (sA.nTot : K)
        * ((∑ i ∈ Finset.range psDim, ownDistance psDim indexList sA.self a i
              * (if i = 0 then sA.self.getConcentration concs
                  else sA.self.getMoment concs (indexList i - 1)))
            * other.getConcentration concs) := by
  rw [getCombinationFlux_flux, getCombinationFlux_flux]
  simp only [List.map_append, List.sum_append, List.map_cons, List.map_nil, List.sum_cons,
    List.sum_nil, add_zero]
  have e := participateInProductionEntry_flux_term psDim indexList sA a R other
    (fun i => if i = 0 then sA.self.getConcentration concs
      else sA.self.getMoment concs (indexList i - 1))
    (fun j => if j = 0 then other.getConcentration concs
      else other.getMoment concs (indexList j - 1))
  simp only [if_true] at e
  have e2 : (participateInProductionEntry psDim indexList sA a
      (CombiningCluster.create R other)).first = other := rfl
  have e3 : (participateInProductionEntry psDim indexList sA a
      (CombiningCluster.create R other)).reaction = R := rfl
  rw [e2, e3, e]
  ring

/-- What one explicit `resultFrom(reaction, a2, b)` on a cluster with an empty lookup map
adds to the scalar flux of `getProductionFlux`. -/
theorem production_contribution (psDim : Nat) (indexList : Nat → Int)
    (sC : PSISuperCluster K) (a2 b : Int → Int) (R : ProductionReaction K)
    (concs : Int → K) (xi : Nat) (fl : Flux K) :
    (getProductionFlux psDim indexList
        { sC with
          effReactingList := sC.effReactingList
            ++ [resultFromEntry psDim indexList sC a2 b
                  (ProductionPair.create R R.first R.second)] } concs xi fl).flux
      - (getProductionFlux psDim indexList sC concs xi fl).flux
      = R.kConstant xi / (sC.nTot : K)
        * ((∑ j ∈ Finset.range psDim, operandDistance psDim indexList R.first b j
              * (if j = 0 then R.first.getConcentration concs
                  else R.first.getMoment concs (indexList j - 1)))
          * (∑ i ∈ Finset.range psDim, operandDistance psDim indexList R.second b i
              * (if i = 0 then R.second.getConcentration concs
                  else R.second.getMoment concs (indexList i - 1)))) := by
  rw [getProductionFlux_flux, getProductionFlux_flux]
  simp only [List.map_append, List.sum_append, List.map_cons, List.map_nil, List.sum_cons,
    List.sum_nil, add_zero]
  have e := resultFromEntry_flux_term psDim indexList sC a2 b R
    (fun j => if j = 0 then R.first.getConcentration concs
      else R.first.getMoment concs (indexList j - 1))
    (fun i => if i = 0 then R.second.getConcentration concs
      else R.second.getMoment concs (indexList i - 1))
  have e1 : (resultFromEntry psDim indexList sC a2 b
      (ProductionPair.create R R.first R.second)).first = R.first := rfl
  have e2 : (resultFromEntry psDim indexList sC a2 b
      (ProductionPair.create R R.first R.second)).second = R.second := rfl
  have e3 : (resultFromEntry psDim indexList sC a2 b
      (ProductionPair.create R R.first R.second)).reaction = R := rfl
  rw [e1, e2, e3, e]
  ring

theorem participateInProductionEntry_fields (psDim : Nat) (indexList : Nat → Int)
    (s : PSISuperCluster K) (a : Int → Int) (c : CombiningCluster K) :
    (participateInProductionEntry psDim indexList s a c).first = c.first
    ∧ (participateInProductionEntry psDim indexList s a c).reaction = c.reaction :=
  ⟨rfl, rfl⟩

theorem resultFromEntry_fields (psDim : Nat) (indexList : Nat → Int)
    (s : PSISuperCluster K) (a b : Int → Int) (p : ProductionPair K) :
    (resultFromEntry psDim indexList s a b p).first = p.first
    ∧ (resultFromEntry psDim indexList s a b p).second = p.second
    ∧ (resultFromEntry psDim indexList s a b p).reaction = p.reaction :=
  ⟨rfl, rfl, rfl⟩

/-- C19 (as the code behaves): let `A` and `C` be super-clusters with empty lookup maps and
non-zero `nTot`, and `R` a production reaction in which `A` is one operand and the other
operand `B` is not a super-cluster.  Register `R` once on `A` with `participateIn(R, a)`
and once on `C` with `resultFrom(R, a2, b)`, where `b` and `a` give the same member of `A`
on the tracked axes.  Both registrations succeed and append one entry, and for every grid
index and concentration vector `nTot_A` times what the new entry adds to the scalar flux
of `A.getCombinationFlux` equals `nTot_C` times what the new entry adds to the scalar flux
of `C.getProductionFlux`: each evaluator divides by the `nTot` of its own cluster.  The
two contributions are equal when `nTot_A = nTot_C`. -/
theorem production_combination_flux_balance (psDim : Nat) (indexList : Nat → Int)
    (sA sC : PSISuperCluster K) (R : ProductionReaction K) (a a2 b : Int → Int)
    (concs : Int → K) (xi : Nat) (flA flC : Flux K)
    (hA : (R.first = sA.self ∧ R.second.type ≠ ReactantType.PSISuper)
      ∨ (R.second = sA.self ∧ R.first.addr ≠ sA.self.addr
          ∧ R.first.type ≠ ReactantType.PSISuper))
    (hAt : sA.self.type = ReactantType.PSISuper)
    (hab : ∀ i, 1 ≤ i → i < psDim → b (indexList i - 1) = a (indexList i - 1))
    (hAm : sA.effCombiningListMap = []) (hCm : sC.effReactingListMap = [])
    (hnA : (sA.nTot : K) ≠ 0) (hnC : (sC.nTot : K) ≠ 0) :
    participateInProduction psDim indexList sA R a
      = some { sA with
          effCombiningList := sA.effCombiningList
            ++ [participateInProductionEntry psDim indexList sA a
                  (CombiningCluster.create R (findOtherClusterProd sA R))] }
    ∧ resultFrom psDim indexList sC R a2 b
      = some { sC with
          effReactingList := sC.effReactingList
            ++ [resultFromEntry psDim indexList sC a2 b
                  (ProductionPair.create R R.first R.second)] }
    ∧ (sA.nTot : K)
        * ((getCombinationFlux psDim indexList
            { sA with
              effCombiningList := sA.effCombiningList
                ++ [participateInProductionEntry psDim indexList sA a
                      (CombiningCluster.create R (findOtherClusterProd sA R))] }
            concs xi flA).flux
          - (getCombinationFlux psDim indexList sA concs xi flA).flux)
      = (sC.nTot : K)
        * ((getProductionFlux psDim indexList
            { sC with
              effReactingList := sC.effReactingList
                ++ [resultFromEntry psDim indexList sC a2 b
                      (ProductionPair.create R R.first R.second)] }
            concs xi flC).flux
          - (getProductionFlux psDim indexList sC concs xi flC).flux)
    ∧ (sA.nTot = sC.nTot →
        (getCombinationFlux psDim indexList
            { sA with
              effCombiningList := sA.effCombiningList
                ++ [participateInProductionEntry psDim indexList sA a
                      (CombiningCluster.create R (findOtherClusterProd sA R))] }
            concs xi flA).flux
          - (getCombinationFlux psDim indexList sA concs xi flA).flux
        = (getProductionFlux psDim indexList
            { sC with
              effReactingList := sC.effReactingList
                ++ [resultFromEntry psDim indexList sC a2 b
                      (ProductionPair.create R R.first R.second)] }
            concs xi flC).flux
          - (getProductionFlux psDim indexList sC concs xi flC).flux) := by
  have key : (∑ i ∈ Finset.range psDim, ownDistance psDim indexList sA.self a i
              * (if i = 0 then sA.self.getConcentration concs
                  else sA.self.getMoment concs (indexList i - 1)))
            * (findOtherClusterProd sA R).getConcentration concs
      = (∑ j ∈ Finset.range psDim, operandDistance psDim indexList R.first b j
              * (if j = 0 then R.first.getConcentration concs
                  else R.first.getMoment concs (indexList j - 1)))
          * (∑ i ∈ Finset.range psDim, operandDistance psDim indexList R.second b i
              * (if i = 0 then R.second.getConcentration concs
                  else R.second.getMoment concs (indexList i - 1))) := by
    rcases Nat.eq_zero_or_pos psDim with h0 | hp
    · subst h0
      simp
    · rcases hA with ⟨h1, h2⟩ | ⟨h1, h2, h3⟩
      · have hother : findOtherClusterProd sA R = R.second := by
          unfold findOtherClusterProd
          rw [h1]
          simp
        rw [hother, operandDistance_sum_of_not_super psDim indexList R.second b _ hp h2, h1]
        simp only [if_true]
        congr 1
        apply Finset.sum_congr rfl
        intro i _
        rw [operandDistance_eq_ownDistance psDim indexList sA.self a b hAt hab i]
      · have hother : findOtherClusterProd sA R = R.first := by
          unfold findOtherClusterProd
          simp [h2]
        rw [hother, operandDistance_sum_of_not_super psDim indexList R.first b _ hp h3, h1]
        simp only [if_true]
        rw [mul_comm]
        congr 1
        apply Finset.sum_congr rfl
        intro i _
        rw [operandDistance_eq_ownDistance psDim indexList sA.self a b hAt hab i]
  have eA := combination_contribution psDim indexList sA a R (findOtherClusterProd sA R)
    concs xi flA
  have eC := production_contribution psDim indexList sC a2 b R concs xi flC
  refine ⟨participateInProduction_of_map_nil psDim indexList sA R a hAm,
    resultFrom_of_map_nil psDim indexList sC R a2 b hCm, ?_, ?_⟩
  · rw [eA, eC, key]
    field_simp
  · intro hn
    rw [eA, eC, key, hn]

/-- C19, witness: `psDim = 2` with position 1 tracking axis 0, the sample super-cluster
(`nTot = 2`) as first operand of the sample combination with a vacancy cluster, the sample
product super-cluster (`nTot = 3`), the member with value 1 on every axis, all
concentrations 1. -/
theorem production_combination_flux_balance_witness :
    participateInProduction 2 (fun i => (i : Int)) (sampleSuper ℚ) (sampleCombination ℚ)
        (fun _ => 1)
      = some { sampleSuper ℚ with
          effCombiningList := (sampleSuper ℚ).effCombiningList
            ++ [participateInProductionEntry 2 (fun i => (i : Int)) (sampleSuper ℚ) (fun _ => 1)
                  (CombiningCluster.create (sampleCombination ℚ)
                    (findOtherClusterProd (sampleSuper ℚ) (sampleCombination ℚ)))] }
    ∧ resultFrom 2 (fun i => (i : Int)) (sampleProductSuper ℚ) (sampleCombination ℚ)
        (fun _ => 2) (fun _ => 1)
      = some { sampleProductSuper ℚ with
          effReactingList := (sampleProductSuper ℚ).effReactingList
            ++ [resultFromEntry 2 (fun i => (i : Int)) (sampleProductSuper ℚ) (fun _ => 2)
                  (fun _ => 1)
                  (ProductionPair.create (sampleCombination ℚ) (sampleCombination ℚ).first
                    (sampleCombination ℚ).second)] }
    ∧ (((sampleSuper ℚ).nTot : Int) : ℚ)
        * ((getCombinationFlux 2 (fun i => (i : Int))
            { sampleSuper ℚ with
              effCombiningList := (sampleSuper ℚ).effCombiningList
                ++ [participateInProductionEntry 2 (fun i => (i : Int)) (sampleSuper ℚ)
                      (fun _ => 1)
                      (CombiningCluster.create (sampleCombination ℚ)
                        (findOtherClusterProd (sampleSuper ℚ) (sampleCombination ℚ)))] }
            (fun _ => 1) 0 (zeroFlux ℚ)).flux
          - (getCombinationFlux 2 (fun i => (i : Int)) (sampleSuper ℚ) (fun _ => 1) 0
              (zeroFlux ℚ)).flux)
      = (((sampleProductSuper ℚ).nTot : Int) : ℚ)
        * ((getProductionFlux 2 (fun i => (i : Int))
            { sampleProductSuper ℚ with
              effReactingList := (sampleProductSuper ℚ).effReactingList
                ++ [resultFromEntry 2 (fun i => (i : Int)) (sampleProductSuper ℚ) (fun _ => 2)
                      (fun _ => 1)
                      (ProductionPair.create (sampleCombination ℚ) (sampleCombination ℚ).first
                        (sampleCombination ℚ).second)] }
            (fun _ => 1) 0 (zeroFlux ℚ)).flux
          - (getProductionFlux 2 (fun i => (i : Int)) (sampleProductSuper ℚ) (fun _ => 1) 0
              (zeroFlux ℚ)).flux)
    ∧ ((sampleSuper ℚ).nTot = (sampleProductSuper ℚ).nTot →
        (getCombinationFlux 2 (fun i => (i : Int))
            { sampleSuper ℚ with
              effCombiningList := (sampleSuper ℚ).effCombiningList
                ++ [participateInProductionEntry 2 (fun i => (i : Int)) (sampleSuper ℚ)
                      (fun _ => 1)
                      (CombiningCluster.create (sampleCombination ℚ)
                        (findOtherClusterProd (sampleSuper ℚ) (sampleCombination ℚ)))] }
            (fun _ => 1) 0 (zeroFlux ℚ)).flux
          - (getCombinationFlux 2 (fun i => (i : Int)) (sampleSuper ℚ) (fun _ => 1) 0
              (zeroFlux ℚ)).flux
        = (getProductionFlux 2 (fun i => (i : Int))
            { sampleProductSuper ℚ with
              effReactingList := (sampleProductSuper ℚ).effReactingList
                ++ [resultFromEntry 2 (fun i => (i : Int)) (sampleProductSuper ℚ) (fun _ => 2)
                      (fun _ => 1)
                      (ProductionPair.create (sampleCombination ℚ) (sampleCombination ℚ).first
                        (sampleCombination ℚ).second)] }
            (fun _ => 1) 0 (zeroFlux ℚ)).flux
          - (getProductionFlux 2 (fun i => (i : Int)) (sampleProductSuper ℚ) (fun _ => 1) 0
              (zeroFlux ℚ)).flux) :=
  production_combination_flux_balance 2 (fun i => (i : Int)) (sampleSuper ℚ)
    (sampleProductSuper ℚ) (sampleCombination ℚ) (fun _ => 1) (fun _ => 2) (fun _ => 1)
    (fun _ => 1) 0 (zeroFlux ℚ) (zeroFlux ℚ)
    (Or.inl ⟨rfl, by decide⟩) rfl (fun _ _ _ => rfl) rfl rfl
    (by simp [sampleSuper]) (by simp [sampleProductSuper, sampleSuper])

/-- C19, counterexample: `psDim = 1`, the sample super-cluster `A` (`nTot = 2`) as first
operand of the sample combination `A + B → C` (rate 1), the sample product super-cluster
`C` (`nTot = 3`), all concentrations 1, flux results starting from zero.  After one
`participateIn` on `A` and one `resultFrom` on `C`, `A.getCombinationFlux` leaves `1/2` in
the scalar flux and `C.getProductionFlux` leaves `1/3`: the magnitudes differ. -/
theorem production_combination_flux_magnitudes_differ :
    (participateInProduction 1 (fun i => (i : Int)) (sampleSuper ℚ) (sampleCombination ℚ)
        (fun _ => 1)).map
      (fun sA2 => (getCombinationFlux 1 (fun i => (i : Int)) sA2 (fun _ => 1) 0
        (zeroFlux ℚ)).flux) = some (1 / 2)
    ∧ (resultFrom 1 (fun i => (i : Int)) (sampleProductSuper ℚ) (sampleCombination ℚ)
        (fun _ => 2) (fun _ => 1)).map
      (fun sC2 => (getProductionFlux 1 (fun i => (i : Int)) sC2 (fun _ => 1) 0
        (zeroFlux ℚ)).flux) = some (1 / 3)
    ∧ |(1 / 2 : ℚ)| ≠ |(1 / 3 : ℚ)| := by
  refine ⟨?_, ?_, ?_⟩
  · rw [participateInProduction_of_map_nil _ _ _ _ _ rfl]
    simp only [Option.map]
    rw [getCombinationFlux_flux]
    simp [participateInProductionEntry_coefs, ownDistance_apply, ownFactor_apply,
      (participateInProductionEntry_fields _ _ _ _ _).1,
      (participateInProductionEntry_fields _ _ _ _ _).2, CombiningCluster.create, findOtherClusterProd, sampleSuper, sampleCombination,
      sampleCluster, zeroFlux]
  · rw [resultFrom_of_map_nil _ _ _ _ _ _ rfl]
    simp only [Option.map]
    rw [getProductionFlux_flux]
    simp [resultFromEntry_coefs, operandDistance_apply, ownFactor_apply,
      (resultFromEntry_fields _ _ _ _ _ _).1, (resultFromEntry_fields _ _ _ _ _ _).2.1,
      (resultFromEntry_fields _ _ _ _ _ _).2.2, ProductionPair.create, sampleProductSuper, sampleSuper, sampleCombination,
      sampleCluster, zeroFlux]
  · norm_num [abs_of_pos]

/-! ## Overlap-region derivations: the zeroth-order coefficient (claim C13) -/

/-- A property that holds at the start of a counted loop and that every iteration keeps
holds after the loop. -/
theorem forLoop_invariant_from {σ : Type} (P : σ → Prop) (lo hi : Nat) (body : Nat → σ → σ)
    (init : σ) (h0 : P init) (h : ∀ i st, lo ≤ i → P st → P (body i st)) :
    P (forLoop lo hi body init) := by
  induction hi with
  | zero =>
    rw [forLoop_of_le lo 0 (Nat.zero_le lo)]
    exact h0
  | succ n ih =>
    by_cases hn : lo ≤ n
    · rw [forLoop_succ lo n hn]
      exact h n _ hn ih
    · rw [forLoop_of_le lo (n + 1) (by omega)]
      exact h0

theorem resultFromOverlapCoefs_zeroth (sums : MomentSums K) (psDim : Nat)
    (indexList : Nat → Int) (s : PSISuperCluster K) (o : OverlapRegion)
    (prodPair : ProductionPair K) :
    (resultFromOverlapCoefs sums psDim indexList s o prodPair).coefs 0 0 0
      = prodPair.coefs 0 0 0 + (o.nOverlap : K) := by
  unfold resultFromOverlapCoefs
  apply forLoop_invariant_from
    (fun (pp : ProductionPair K) => pp.coefs 0 0 0 = prodPair.coefs 0 0 0 + (o.nOverlap : K))
  · simp [addAt3_apply]
  · intro i st hi hP
    have hi0 : ¬ (0 = i) := by omega
    apply forLoop_invariant_from
      (fun (pp : ProductionPair K) => pp.coefs 0 0 0 = prodPair.coefs 0 0 0 + (o.nOverlap : K))
    · dsimp only
      split_ifs <;> simp [addAt3_apply, hP, hi0]
    · intro j st2 _ hP2
      dsimp only
      split_ifs <;> simp [addAt3_apply, hP2, hi0]

theorem participateInProductionOverlapCoefs_zeroth (sums : MomentSums K) (psDim : Nat)
    (indexList : Nat → Int) (s : PSISuperCluster K) (o : OverlapRegion)
    (combCluster : CombiningCluster K) :
    (participateInProductionOverlapCoefs sums psDim indexList s o combCluster).coefs 0 0 0
      = combCluster.coefs 0 0 0 + (o.nOverlap : K) := by
  unfold participateInProductionOverlapCoefs
  apply forLoop_invariant_from
    (fun (pp : CombiningCluster K) =>
      pp.coefs 0 0 0 = combCluster.coefs 0 0 0 + (o.nOverlap : K))
  · simp [addAt3_apply]
  · intro i st hi hP
    have hi0 : ¬ (0 = i) := by omega
    apply forLoop_invariant_from
      (fun (pp : CombiningCluster K) =>
        pp.coefs 0 0 0 = combCluster.coefs 0 0 0 + (o.nOverlap : K))
    · dsimp only
      split_ifs <;> simp [addAt3_apply, hP, hi0]
    · intro j st2 _ hP2
      dsimp only
      split_ifs <;> simp [addAt3_apply, hP2, hi0]

theorem participateInDissociationOverlapCoefs_zeroth (sums : MomentSums K) (psDim : Nat)
    (indexList : Nat → Int) (s : PSISuperCluster K) (o : OverlapRegion)
    (dissPair : DissociationPair K) :
    (participateInDissociationOverlapCoefs sums psDim indexList s o dissPair).coefs 0 0
      = dissPair.coefs 0 0 + (o.nOverlap : K) := by
  unfold participateInDissociationOverlapCoefs
  apply forLoop_invariant_from
    (fun (pp : DissociationPair K) => pp.coefs 0 0 = dissPair.coefs 0 0 + (o.nOverlap : K))
  · simp [addAt2_apply]
  · intro i st hi hP
    have hi0 : ¬ (0 = i) := by omega
    apply forLoop_invariant_from
      (fun (pp : DissociationPair K) => pp.coefs 0 0 = dissPair.coefs 0 0 + (o.nOverlap : K))
    · dsimp only
      split_ifs <;> simp [addAt2_apply, hP, hi0]
    · intro j st2 _ hP2
      dsimp only
      split_ifs <;> simp [addAt2_apply, hP2, hi0]

theorem emitFromOverlapCoefs_zeroth (sums : MomentSums K) (psDim : Nat)
    (indexList : Nat → Int) (s : PSISuperCluster K) (o : OverlapRegion)
    (dissPair : DissociationPair K) :
    (emitFromOverlapCoefs sums psDim indexList s o dissPair).coefs 0 0
      = dissPair.coefs 0 0 + (o.nOverlap : K) := by
  unfold emitFromOverlapCoefs
  apply forLoop_invariant_from
    (fun (pp : DissociationPair K) => pp.coefs 0 0 = dissPair.coefs 0 0 + (o.nOverlap : K))
  · simp [addAt2_apply]
  · intro i st hi hP
    have hi0 : ¬ (0 = i) := by omega
    apply forLoop_invariant_from
      (fun (pp : DissociationPair K) => pp.coefs 0 0 = dissPair.coefs 0 0 + (o.nOverlap : K))
    · dsimp only
      split_ifs <;> simp [addAt2_apply, hP, hi0]
    · intro j st2 _ hP2
      dsimp only
      split_ifs <;> simp [addAt2_apply, hP2, hi0]

theorem resultFromOverlapCoefs_one (sums : MomentSums K) (indexList : Nat → Int)
    (s : PSISuperCluster K) (o : OverlapRegion) (prodPair : ProductionPair K) :
    resultFromOverlapCoefs sums 1 indexList s o prodPair
      = { prodPair with coefs := addAt3 prodPair.coefs 0 0 0 (o.nOverlap : K) } := by
  unfold resultFromOverlapCoefs
  rw [forLoop_of_le 1 1 (Nat.le_refl 1)]

theorem participateInProductionOverlapCoefs_one (sums : MomentSums K) (indexList : Nat → Int)
    (s : PSISuperCluster K) (o : OverlapRegion) (combCluster : CombiningCluster K) :
    participateInProductionOverlapCoefs sums 1 indexList s o combCluster
      = { combCluster with coefs := addAt3 combCluster.coefs 0 0 0 (o.nOverlap : K) } := by
  unfold participateInProductionOverlapCoefs
  rw [forLoop_of_le 1 1 (Nat.le_refl 1)]

theorem participateInDissociationOverlapCoefs_one (sums : MomentSums K)
    (indexList : Nat → Int) (s : PSISuperCluster K) (o : OverlapRegion)
    (dissPair : DissociationPair K) :
    participateInDissociationOverlapCoefs sums 1 indexList s o dissPair
      = { dissPair with coefs := addAt2 dissPair.coefs 0 0 (o.nOverlap : K) } := by
  unfold participateInDissociationOverlapCoefs
  rw [forLoop_of_le 1 1 (Nat.le_refl 1)]

theorem emitFromOverlapCoefs_one (sums : MomentSums K) (indexList : Nat → Int)
    (s : PSISuperCluster K) (o : OverlapRegion) (dissPair : DissociationPair K) :
    emitFromOverlapCoefs sums 1 indexList s o dissPair
      = { dissPair with coefs := addAt2 dissPair.coefs 0 0 (o.nOverlap : K) } := by
  unfold emitFromOverlapCoefs
  rw [forLoop_of_le 1 1 (Nat.le_refl 1)]

theorem resultFromOverlap_nOverlap (prodPair : ProductionPair K) (product : PSICluster K) :
    (resultFromOverlap prodPair product).nOverlap
      = (resultFromOverlap prodPair product).width 0
        * (resultFromOverlap prodPair product).width 1
        * (resultFromOverlap prodPair product).width 2
        * (resultFromOverlap prodPair product).width 3 := by
  unfold resultFromOverlap
  simp only [forLoop, List.range', List.foldl, OverlapRegion.finishAxis, OverlapRegion.init]
  by_cases h1 : prodPair.first.type = ReactantType.PSISuper <;>
  by_cases h2 : prodPair.second.type = ReactantType.PSISuper <;>
  simp [Function.update, h1, h2]

theorem participateInProductionOverlap_nOverlap (s : PSISuperCluster K)
    (reaction : ProductionReaction K) (product : PSICluster K) :
    (participateInProductionOverlap s reaction product).nOverlap
      = (participateInProductionOverlap s reaction product).width 0
        * (participateInProductionOverlap s reaction product).width 1
        * (participateInProductionOverlap s reaction product).width 2
        * (participateInProductionOverlap s reaction product).width 3 := by
  unfold participateInProductionOverlap
  simp only [forLoop, List.range', List.foldl, OverlapRegion.finishAxis, OverlapRegion.init]
  simp [Function.update]

theorem participateInDissociationOverlap_nOverlap (s : PSISuperCluster K)
    (reaction : DissociationReaction K) (disso : PSICluster K) :
    (participateInDissociationOverlap s reaction disso).nOverlap
      = (participateInDissociationOverlap s reaction disso).width 0
        * (participateInDissociationOverlap s reaction disso).width 1
        * (participateInDissociationOverlap s reaction disso).width 2
        * (participateInDissociationOverlap s reaction disso).width 3 := by
  unfold participateInDissociationOverlap
  simp only [forLoop, List.range', List.foldl, OverlapRegion.finishAxis, OverlapRegion.init]
  simp [Function.update]

theorem emitFromOverlap_nOverlap (dissPair : DissociationPair K) (disso : PSICluster K) :
    (emitFromOverlap dissPair disso).nOverlap
      = (emitFromOverlap dissPair disso).width 0
        * (emitFromOverlap dissPair disso).width 1
        * (emitFromOverlap dissPair disso).width 2
        * (emitFromOverlap dissPair disso).width 3 := by
  unfold emitFromOverlap
  simp only [forLoop, List.range', List.foldl, OverlapRegion.finishAxis, OverlapRegion.init]
  by_cases h1 : dissPair.first.type = ReactantType.PSISuper <;>
  by_cases h2 : dissPair.second.type = ReactantType.PSISuper <;>
  simp [Function.update, h1, h2]

theorem resultFromReactant_eq_map (sums : MomentSums K) (psDim : Nat) (indexList : Nat → Int)
    (s : PSISuperCluster K) (reaction : ProductionReaction K) (product : PSICluster K) :
    resultFromReactant sums psDim indexList s reaction product
      = (addToEffReactingList s reaction).map (fun r =>
          { r.1 with
            effReactingList := modifyAt r.1.effReactingList r.2 (fun prodPair =>
              resultFromOverlapCoefs sums psDim indexList r.1
                (resultFromOverlap prodPair product) prodPair) }) := by
  unfold resultFromReactant
  cases addToEffReactingList s reaction <;> rfl

theorem participateInProductionReactant_eq_map (sums : MomentSums K) (psDim : Nat)
    (indexList : Nat → Int) (s : PSISuperCluster K) (reaction : ProductionReaction K)
    (product : PSICluster K) :
    participateInProductionReactant sums psDim indexList s reaction product
      = (addToEffCombiningList s reaction).map (fun r =>
          { r.1 with
            effCombiningList := modifyAt r.1.effCombiningList r.2
              (participateInProductionOverlapCoefs sums psDim indexList r.1
                (participateInProductionOverlap r.1 reaction product)) }) := by
  unfold participateInProductionReactant
  cases addToEffCombiningList s reaction <;> rfl

theorem participateInDissociationReactant_eq_map (sums : MomentSums K) (psDim : Nat)
    (indexList : Nat → Int) (s : PSISuperCluster K) (reaction : DissociationReaction K)
    (disso : PSICluster K) :
    participateInDissociationReactant sums psDim indexList s reaction disso
      = (addToEffDissociatingList s reaction).map (fun r =>
          { r.1 with
            effDissociatingList := modifyAt r.1.effDissociatingList r.2
              (participateInDissociationOverlapCoefs sums psDim indexList r.1
                (participateInDissociationOverlap r.1 reaction disso)) }) := by
  unfold participateInDissociationReactant
  cases addToEffDissociatingList s reaction <;> rfl

theorem emitFromReactant_eq_map (sums : MomentSums K) (psDim : Nat) (indexList : Nat → Int)
    (s : PSISuperCluster K) (reaction : DissociationReaction K) (disso : PSICluster K) :
    emitFromReactant sums psDim indexList s reaction disso
      = (addToEffEmissionList s reaction).map (fun r =>
          { r.1 with
            effEmissionList := modifyAt r.1.effEmissionList r.2 (fun dissPair =>
              emitFromOverlapCoefs sums psDim indexList r.1 (emitFromOverlap dissPair disso)
                dissPair) }) := by
  unfold emitFromReactant
  cases addToEffEmissionList s reaction <;> rfl

/-! ## Connectivity (claims C21, C22, C23) -/

/-- Membership in a set that a counted loop grows. -/
theorem forLoop_mem {σ : Type} (read : σ → Finset Int) (lo hi : Nat) (body : Nat → σ → σ)
    (G : Nat → Int → Prop)
    (h : ∀ i st x, x ∈ read (body i st) ↔ x ∈ read st ∨ G i x) (init : σ) (x : Int) :
    x ∈ read (forLoop lo hi body init)
      ↔ x ∈ read init ∨ ∃ i, lo ≤ i ∧ i < hi ∧ G i x := by
  induction hi with
  | zero =>
    rw [forLoop_of_le lo 0 (Nat.zero_le lo)]
    constructor
    · intro g
      exact Or.inl g
    · rintro (g | ⟨i, _, g, _⟩)
      · exact g
      · exact absurd g (Nat.not_lt_zero i)
  | succ n ih =>
    by_cases hn : lo ≤ n
    · rw [forLoop_succ lo n hn, h, ih]
      constructor
      · rintro ((g | ⟨i, g1, g2, g3⟩) | g)
        · exact Or.inl g
        · exact Or.inr ⟨i, g1, Nat.lt_succ_of_lt g2, g3⟩
        · exact Or.inr ⟨n, hn, Nat.lt_succ_self n, g⟩
      · rintro (g | ⟨i, g1, g2, g3⟩)
        · exact Or.inl (Or.inl g)
        · rcases Nat.lt_succ_iff_lt_or_eq.mp g2 with g4 | g4
          · exact Or.inl (Or.inr ⟨i, g1, g4, g3⟩)
          · subst g4
            exact Or.inr g3
    · rw [forLoop_of_le lo (n + 1) (by omega)]
      constructor
      · intro g
        exact Or.inl g
      · rintro (g | ⟨i, g1, g2, _⟩)
        · exact g
        · omega

/-- Membership in a set that a `for_each` grows. -/
theorem forEach_mem {α σ : Type} (read : σ → Finset Int) (l : List α) (body : σ → α → σ)
    (H : α → Int → Prop)
    (h : ∀ st p x, x ∈ read (body st p) ↔ x ∈ read st ∨ H p x) (init : σ) (x : Int) :
    x ∈ read (forEach l body init) ↔ x ∈ read init ∨ ∃ p, p ∈ l ∧ H p x := by
  unfold forEach
  induction l generalizing init with
  | nil => simp
  | cons p l ih =>
    rw [List.foldl_cons, ih, h]
    constructor
    · rintro ((g | g) | ⟨q, g1, g2⟩)
      · exact Or.inl g
      · exact Or.inr ⟨p, List.mem_cons_self p l, g⟩
      · exact Or.inr ⟨q, List.mem_cons_of_mem p g1, g2⟩
    · rintro (g | ⟨q, g1, g2⟩)
      · exact Or.inl (Or.inl g)
      · rcases List.mem_cons.mp g1 with g3 | g3
        · subst g3
          exact Or.inl (Or.inr g2)
        · exact Or.inr ⟨q, g3, g2⟩

theorem or_swap_two {A C E : Prop} : ((A ∨ C) ∨ E) ↔ (C ∨ A ∨ E) := by
  tauto

theorem or_swap_three {A B C E : Prop} : ((B ∨ A ∨ C) ∨ E) ↔ (C ∨ A ∨ B ∨ E) := by
  tauto

/-- The reaction connectivity set that `resetConnectivities` builds. -/
theorem resetConnectivitySets_reaction_mem (psDim : Nat) (indexList : Nat → Int)
    (s : PSISuperCluster K) (x : Int) :
    x ∈ (resetConnectivitySets psDim indexList s).1
      ↔ x = s.self.id
        ∨ (∃ i : Nat, i < 4 ∧ x = s.self.momId (i : Int))
        ∨ (∃ p, p ∈ s.effReactingList
            ∧ (x = p.first.id ∨ x = p.second.id
              ∨ ∃ i, 1 ≤ i ∧ i < psDim
                  ∧ (x = p.first.momId (indexList i - 1)
                    ∨ x = p.second.momId (indexList i - 1))))
        ∨ ∃ p, p ∈ s.effCombiningList
            ∧ (x = p.first.id
              ∨ ∃ i, 1 ≤ i ∧ i < psDim ∧ x = p.first.momId (indexList i - 1)) := by
  unfold resetConnectivitySets
  dsimp only
  rw [forEach_mem Prod.fst _ _ (fun _ _ => False)]
  · rw [forEach_mem Prod.fst _ _ (fun p x => x = p.first.id
      ∨ ∃ i, 1 ≤ i ∧ i < psDim ∧ x = p.first.momId (indexList i - 1))]
    · rw [forEach_mem Prod.fst _ _ (fun p x => x = p.first.id ∨ x = p.second.id
        ∨ ∃ i, 1 ≤ i ∧ i < psDim
            ∧ (x = p.first.momId (indexList i - 1) ∨ x = p.second.momId (indexList i - 1)))]
      · rw [forLoop_mem Prod.fst 0 4 _ (fun i x => x = s.self.momId (i : Int))]
        · simp only [setReactionConnectivity, setDissociationConnectivity, Finset.mem_insert,
            Finset.not_mem_empty, or_false, Nat.zero_le, true_and, and_false, exists_false,
            or_assoc]
        · intro i st y
          simp only [setReactionConnectivity, setDissociationConnectivity, Finset.mem_insert]
          exact or_comm
      · intro st p y
        rw [forLoop_mem Prod.fst 1 psDim _ (fun i x => x = p.first.momId (indexList i - 1)
          ∨ x = p.second.momId (indexList i - 1))]
        · simp only [setReactionConnectivity, Finset.mem_insert]
          exact or_swap_three
        · intro i st2 z
          simp only [setReactionConnectivity, Finset.mem_insert]
          tauto
    · intro st p y
      rw [forLoop_mem Prod.fst 1 psDim _ (fun i x => x = p.first.momId (indexList i - 1))]
      · simp only [setReactionConnectivity, Finset.mem_insert]
        exact or_swap_two
      · intro i st2 z
        simp only [setReactionConnectivity, Finset.mem_insert]
        exact or_comm
  · intro st p y
    rw [forLoop_mem Prod.fst 1 psDim _ (fun _ _ => False)]
    · simp [setDissociationConnectivity]
    · intro i st2 z
      simp [setDissociationConnectivity]

/-- The dissociation connectivity set that `resetConnectivities` builds. -/
theorem resetConnectivitySets_dissociation_mem (psDim : Nat) (indexList : Nat → Int)
    (s : PSISuperCluster K) (x : Int) :
    x ∈ (resetConnectivitySets psDim indexList s).2
      ↔ x = s.self.id
        ∨ (∃ i : Nat, i < 4 ∧ x = s.self.momId (i : Int))
        ∨ ∃ p, p ∈ s.effDissociatingList
            ∧ (x = p.first.id
              ∨ ∃ i, 1 ≤ i ∧ i < psDim ∧ x = p.first.momId (indexList i - 1)) := by
  unfold resetConnectivitySets
  dsimp only
  rw [forEach_mem Prod.snd _ _ (fun p x => x = p.first.id
    ∨ ∃ i, 1 ≤ i ∧ i < psDim ∧ x = p.first.momId (indexList i - 1))]
  · rw [forEach_mem Prod.snd _ _ (fun _ _ => False)]
    · rw [forEach_mem Prod.snd _ _ (fun _ _ => False)]
      · rw [forLoop_mem Prod.snd 0 4 _ (fun i x => x = s.self.momId (i : Int))]
        · simp only [setReactionConnectivity, setDissociationConnectivity, Finset.mem_insert,
            Finset.not_mem_empty, or_false, Nat.zero_le, true_and, and_false, exists_false,
            or_assoc]
        · intro i st y
          simp only [setReactionConnectivity, setDissociationConnectivity, Finset.mem_insert]
          exact or_comm
      · intro st p y
        rw [forLoop_mem Prod.snd 1 psDim _ (fun _ _ => False)]
        · simp [setReactionConnectivity]
        · intro i st2 z
          simp [setReactionConnectivity]
    · intro st p y
      rw [forLoop_mem Prod.snd 1 psDim _ (fun _ _ => False)]
      · simp [setReactionConnectivity]
      · intro i st2 z
        simp [setReactionConnectivity]
  · intro st p y
    rw [forLoop_mem Prod.snd 1 psDim _ (fun i x => x = p.first.momId (indexList i - 1))]
    · simp only [setDissociationConnectivity, Finset.mem_insert]
      exact or_swap_two
    · intro i st2 z
      simp only [setDissociationConnectivity, Finset.mem_insert]
      exact or_comm

/-- C21: after `resetConnectivities`, whatever the four effective lists hold and whatever
`psDim` is, the reaction connectivity set and the dissociation connectivity set both
contain this cluster's own id and its own moment id on each of the four composition
axes; the cluster itself (and so its ids) is not changed by the call. -/
theorem resetConnectivities_self_connected (psDim : Nat) (indexList : Nat → Int)
    (s : PSISuperCluster K) :
    (resetConnectivities psDim indexList s).self = s.self
    ∧ s.self.id ∈ (resetConnectivities psDim indexList s).reactionConnectivitySet
    ∧ s.self.id ∈ (resetConnectivities psDim indexList s).dissociationConnectivitySet
    ∧ ∀ i : Nat, i < 4 →
        s.self.momId (i : Int) ∈ (resetConnectivities psDim indexList s).reactionConnectivitySet
        ∧ s.self.momId (i : Int)
            ∈ (resetConnectivities psDim indexList s).dissociationConnectivitySet := by
  refine ⟨rfl, ?_, ?_, ?_⟩
  · exact (resetConnectivitySets_reaction_mem psDim indexList s _).mpr (Or.inl rfl)
  · exact (resetConnectivitySets_dissociation_mem psDim indexList s _).mpr (Or.inl rfl)
  · intro i hi
    exact ⟨(resetConnectivitySets_reaction_mem psDim indexList s _).mpr
        (Or.inr (Or.inl ⟨i, hi, rfl⟩)),
      (resetConnectivitySets_dissociation_mem psDim indexList s _).mpr
        (Or.inr (Or.inl ⟨i, hi, rfl⟩))⟩

/-- C22 (as the code behaves): after `resetConnectivities`, the reaction connectivity set
contains, for every reacting entry, the id of both operands and their moment ids along
every tracked axis `indexList[i]-1`, `1 ≤ i < psDim`, and for every combining entry the id
and tracked moment ids of the partner; the dissociation connectivity set contains, for
every dissociating entry, the id and tracked moment ids of the dissociating parent.  The
two sets hold nothing else besides the cluster's own id and four moment ids: emission
entries and the co-emitted cluster of a dissociating entry are not visited. -/
theorem resetConnectivities_partner_connected (psDim : Nat) (indexList : Nat → Int)
    (s : PSISuperCluster K) :
    (∀ p, p ∈ s.effReactingList →
      p.first.id ∈ (resetConnectivities psDim indexList s).reactionConnectivitySet
      ∧ p.second.id ∈ (resetConnectivities psDim indexList s).reactionConnectivitySet
      ∧ ∀ i, 1 ≤ i → i < psDim →
          p.first.momId (indexList i - 1)
            ∈ (resetConnectivities psDim indexList s).reactionConnectivitySet
          ∧ p.second.momId (indexList i - 1)
            ∈ (resetConnectivities psDim indexList s).reactionConnectivitySet)
    ∧ (∀ p, p ∈ s.effCombiningList →
      p.first.id ∈ (resetConnectivities psDim indexList s).reactionConnectivitySet
      ∧ ∀ i, 1 ≤ i → i < psDim →
          p.first.momId (indexList i - 1)
            ∈ (resetConnectivities psDim indexList s).reactionConnectivitySet)
    ∧ (∀ p, p ∈ s.effDissociatingList →
      p.first.id ∈ (resetConnectivities psDim indexList s).dissociationConnectivitySet
      ∧ ∀ i, 1 ≤ i → i < psDim →
          p.first.momId (indexList i - 1)
            ∈ (resetConnectivities psDim indexList s).dissociationConnectivitySet)
    ∧ (∀ x, x ∈ (resetConnectivities psDim indexList s).reactionConnectivitySet
        ↔ x = s.self.id
          ∨ (∃ i : Nat, i < 4 ∧ x = s.self.momId (i : Int))
          ∨ (∃ p, p ∈ s.effReactingList
              ∧ (x = p.first.id ∨ x = p.second.id
                ∨ ∃ i, 1 ≤ i ∧ i < psDim
                    ∧ (x = p.first.momId (indexList i - 1)
                      ∨ x = p.second.momId (indexList i - 1))))
          ∨ ∃ p, p ∈ s.effCombiningList
              ∧ (x = p.first.id
                ∨ ∃ i, 1 ≤ i ∧ i < psDim ∧ x = p.first.momId (indexList i - 1)))
    ∧ ∀ x, x ∈ (resetConnectivities psDim indexList s).dissociationConnectivitySet
        ↔ x = s.self.id
          ∨ (∃ i : Nat, i < 4 ∧ x = s.self.momId (i : Int))
          ∨ ∃ p, p ∈ s.effDissociatingList
              ∧ (x = p.first.id
                ∨ ∃ i, 1 ≤ i ∧ i < psDim ∧ x = p.first.momId (indexList i - 1)) := by
  have hR := resetConnectivitySets_reaction_mem psDim indexList s
  have hD := resetConnectivitySets_dissociation_mem psDim indexList s
  refine ⟨?_, ?_, ?_, hR, hD⟩
  · intro p hp
    refine ⟨(hR _).mpr (Or.inr (Or.inr (Or.inl ⟨p, hp, Or.inl rfl⟩))),
      (hR _).mpr (Or.inr (Or.inr (Or.inl ⟨p, hp, Or.inr (Or.inl rfl)⟩))), ?_⟩
    intro i h1 h2
    exact ⟨(hR _).mpr (Or.inr (Or.inr (Or.inl
        ⟨p, hp, Or.inr (Or.inr ⟨i, h1, h2, Or.inl rfl⟩)⟩))),
      (hR _).mpr (Or.inr (Or.inr (Or.inl
        ⟨p, hp, Or.inr (Or.inr ⟨i, h1, h2, Or.inr rfl⟩)⟩)))⟩
  · intro p hp
    refine ⟨(hR _).mpr (Or.inr (Or.inr (Or.inr ⟨p, hp, Or.inl rfl⟩))), ?_⟩
    intro i h1 h2
    exact (hR _).mpr (Or.inr (Or.inr (Or.inr ⟨p, hp, Or.inr ⟨i, h1, h2, rfl⟩⟩)))
  · intro p hp
    refine ⟨(hD _).mpr (Or.inr (Or.inr ⟨p, hp, Or.inl rfl⟩)), ?_⟩
    intro i h1 h2
    exact (hD _).mpr (Or.inr (Or.inr ⟨p, hp, Or.inr ⟨i, h1, h2, rfl⟩⟩))

/-- C22, counterexample: the sample super-cluster (id 1, moment ids 2 to 5) with one
emission entry whose first partner has id 6, `psDim = 2`.  After `resetConnectivities`
the id of that partner is in neither connectivity set. -/
theorem resetConnectivities_skips_emission_partner :
    ∃ p, p ∈ (sampleEmittingState ℚ).effEmissionList
      ∧ p.first.id = 6
      ∧ p.first.id ∉ (resetConnectivities 2 (fun i => (i : Int))
          (sampleEmittingState ℚ)).reactionConnectivitySet
      ∧ p.first.id ∉ (resetConnectivities 2 (fun i => (i : Int))
          (sampleEmittingState ℚ)).dissociationConnectivitySet := by
  refine ⟨_, List.mem_singleton.mpr rfl, rfl, ?_, ?_⟩
  · intro h
    rcases (resetConnectivitySets_reaction_mem 2 (fun i => (i : Int))
      (sampleEmittingState ℚ) _).mp h with g | ⟨i, g1, g2⟩ | ⟨p, g1, _⟩ | ⟨p, g1, _⟩
    · exact absurd g (by decide)
    · simp only [sampleEmittingState, sampleSuper, sampleEmission, sampleCluster] at g2
      omega
    · exact absurd g1 (List.not_mem_nil p)
    · exact absurd g1 (List.not_mem_nil p)
  · intro h
    rcases (resetConnectivitySets_dissociation_mem 2 (fun i => (i : Int))
      (sampleEmittingState ℚ) _).mp h with g | ⟨i, g1, g2⟩ | ⟨p, g1, _⟩
    · exact absurd g (by decide)
    · simp only [sampleEmittingState, sampleSuper, sampleEmission, sampleCluster] at g2
      omega
    · exact absurd g1 (List.not_mem_nil p)

/-- C23: `resetConnectivities` empties the four lookup maps and leaves the four effective
lists as they were (entries, order and coefficients); a second call yields the same two
connectivity sets as the first. -/
theorem resetConnectivities_frame (psDim : Nat) (indexList : Nat → Int)
    (s : PSISuperCluster K) :
    (resetConnectivities psDim indexList s).effReactingListMap = []
    ∧ (resetConnectivities psDim indexList s).effCombiningListMap = []
    ∧ (resetConnectivities psDim indexList s).effDissociatingListMap = []
    ∧ (resetConnectivities psDim indexList s).effEmissionListMap = []
    ∧ (resetConnectivities psDim indexList s).effReactingList = s.effReactingList
    ∧ (resetConnectivities psDim indexList s).effCombiningList = s.effCombiningList
    ∧ (resetConnectivities psDim indexList s).effDissociatingList = s.effDissociatingList
    ∧ (resetConnectivities psDim indexList s).effEmissionList = s.effEmissionList
    ∧ (resetConnectivities psDim indexList
          (resetConnectivities psDim indexList s)).reactionConnectivitySet
        = (resetConnectivities psDim indexList s).reactionConnectivitySet
    ∧ (resetConnectivities psDim indexList
          (resetConnectivities psDim indexList s)).dissociationConnectivitySet
        = (resetConnectivities psDim indexList s).dissociationConnectivitySet :=
  ⟨rfl, rfl, rfl, rfl, rfl, rfl, rfl, rfl, rfl, rfl⟩

/-! ## The constructor and the membership list (claims C24 to C27) -/

theorem construct_fields {F : Type} [LinearOrderedField F] [FloorRing F]
    (init : PSISuperCluster F) (num : Nat → F) (nTot : Int) (width lower higher : Nat → Int) :
    (PSISuperCluster.construct init num nTot width lower higher).self.size
        = init.self.size + truncToInt (num 0) + truncToInt (num 1) + truncToInt (num 2)
          + truncToInt (num 3)
    ∧ (PSISuperCluster.construct init num nTot width lower higher).composition Species.He
        = truncToInt (num 0)
    ∧ (PSISuperCluster.construct init num nTot width lower higher).composition Species.D
        = truncToInt (num 1)
    ∧ (PSISuperCluster.construct init num nTot width lower higher).composition Species.T
        = truncToInt (num 2)
    ∧ (PSISuperCluster.construct init num nTot width lower higher).composition Species.V
        = truncToInt (num 3)
    ∧ (PSISuperCluster.construct init num nTot width lower higher).composition Species.I
        = nTot
    ∧ (PSISuperCluster.construct init num nTot width lower higher).nTot = nTot
    ∧ ∀ i : Nat, i < 4 →
        (PSISuperCluster.construct init num nTot width lower higher).self.boundsBegin i
          = lower i
        ∧ (PSISuperCluster.construct init num nTot width lower higher).self.boundsEnd i
          = higher i + 1
        ∧ (PSISuperCluster.construct init num nTot width lower higher).numAtom (i : Int)
          = num i
        ∧ (PSISuperCluster.construct init num nTot width lower higher).sectionWidth (i : Int)
          = width i := by
  refine ⟨?_, ?_, ?_, ?_, ?_, ?_, ?_, ?_⟩
  · simp [PSISuperCluster.construct, forLoop, List.range', Function.update]
  · simp [PSISuperCluster.construct, forLoop, List.range', Function.update]
  · simp [PSISuperCluster.construct, forLoop, List.range', Function.update]
  · simp [PSISuperCluster.construct, forLoop, List.range', Function.update]
  · simp [PSISuperCluster.construct, forLoop, List.range', Function.update]
  · simp [PSISuperCluster.construct, forLoop, List.range', Function.update]
  · simp [PSISuperCluster.construct, forLoop, List.range', Function.update]
  · intro i hi
    interval_cases i <;>
      simp [PSISuperCluster.construct, forLoop, List.range', Function.update]

theorem truncToInt_intCast {F : Type} [LinearOrderedField F] [FloorRing F] (n : Int) :
    truncToInt ((n : Int) : F) = n := by
  unfold truncToInt
  split
  · exact Int.floor_intCast n
  · exact Int.ceil_intCast n

theorem truncToInt_three_halves : truncToInt (3 / 2 : ℚ) = 1 := by
  unfold truncToInt
  rw [if_pos (by norm_num), Int.floor_eq_iff]
  norm_num

theorem truncToInt_five_halves : truncToInt (5 / 2 : ℚ) = 2 := by
  unfold truncToInt
  rw [if_pos (by norm_num), Int.floor_eq_iff]
  norm_num

theorem truncToInt_zero : truncToInt (0 : ℚ) = 0 := by
  simp [truncToInt]

/-- C24 (as the code behaves): for every constructor input, the size of the constructed
super-cluster is the size the base-class constructor left plus the sum of the four mean
composition components, each converted with `(int)`, that is truncated toward zero; the
composition map records the truncated mean for He, D, T and V, and `nTot` for I.  When the
four components are integers these are the sum of the components and the components
themselves. -/
theorem construct_size_composition {F : Type} [LinearOrderedField F] [FloorRing F]
    (init : PSISuperCluster F) (num : Nat → F) (nTot : Int) (width lower higher : Nat → Int) :
    (PSISuperCluster.construct init num nTot width lower higher).self.size
        = init.self.size + truncToInt (num 0) + truncToInt (num 1) + truncToInt (num 2)
          + truncToInt (num 3)
    ∧ (PSISuperCluster.construct init num nTot width lower higher).composition Species.He = truncToInt (num 0)
    ∧ (PSISuperCluster.construct init num nTot width lower higher).composition Species.D = truncToInt (num 1)
    ∧ (PSISuperCluster.construct init num nTot width lower higher).composition Species.T = truncToInt (num 2)
    ∧ (PSISuperCluster.construct init num nTot width lower higher).composition Species.V = truncToInt (num 3)
    ∧ (PSISuperCluster.construct init num nTot width lower higher).composition Species.I = nTot
    ∧ (∀ x : F, truncToInt x = if 0 ≤ x then ⌊x⌋ else ⌈x⌉)
    ∧ ∀ n : Nat → Int, (∀ i, i < 4 → num i = ((n i : Int) : F)) →
        (PSISuperCluster.construct init num nTot width lower higher).self.size = init.self.size + n 0 + n 1 + n 2 + n 3
        ∧ (PSISuperCluster.construct init num nTot width lower higher).composition Species.He = n 0
        ∧ (PSISuperCluster.construct init num nTot width lower higher).composition Species.D = n 1
        ∧ (PSISuperCluster.construct init num nTot width lower higher).composition Species.T = n 2
        ∧ (PSISuperCluster.construct init num nTot width lower higher).composition Species.V = n 3 := by
  obtain ⟨h1, h2, h3, h4, h5, h6, _⟩ := construct_fields init num nTot width lower higher
  refine ⟨h1, h2, h3, h4, h5, h6, fun _ => rfl, ?_⟩
  intro n hn
  rw [h1, h2, h3, h4, h5, hn 0 (by decide), hn 1 (by decide), hn 2 (by decide),
    hn 3 (by decide)]
  simp only [truncToInt_intCast, and_self]

/-- C24, counterexample: the mean composition `(3/2, 0, 0, 5/2)` on a base object of size
0.  The constructed size is `1 + 0 + 0 + 2 = 3`, not the sum `4` of the components, and
the composition map records `1` for He, not the mean `3/2`. -/
theorem construct_size_truncates :
    (PSISuperCluster.construct (sampleBase ℚ)
        (fun i => if i = 0 then 3 / 2 else if i = 3 then 5 / 2 else 0) 2
        (fun _ => 2) (fun _ => 0) (fun _ => 1)).self.size = 3
    ∧ (((3 : Int) : ℚ) ≠ 3 / 2 + 0 + 0 + 5 / 2)
    ∧ (PSISuperCluster.construct (sampleBase ℚ)
        (fun i => if i = 0 then 3 / 2 else if i = 3 then 5 / 2 else 0) 2
        (fun _ => 2) (fun _ => 0) (fun _ => 1)).composition Species.He = 1
    ∧ (((1 : Int) : ℚ) ≠ 3 / 2) := by
  obtain ⟨h1, h2, _⟩ := construct_fields (sampleBase ℚ)
    (fun i => if i = 0 then (3 / 2 : ℚ) else if i = 3 then 5 / 2 else 0) 2
    (fun _ => 2) (fun _ => 0) (fun _ => 1)
  refine ⟨?_, by norm_num, ?_, by norm_num⟩
  · rw [h1]
    simp only [if_true, if_false, Nat.one_ne_zero, OfNat.ofNat_ne_zero,
      show ¬ ((1 : Nat) = 3) by decide, show ¬ ((2 : Nat) = 3) by decide,
      show ¬ ((2 : Nat) = 0) by decide, show ¬ ((3 : Nat) = 0) by decide,
      truncToInt_three_halves, truncToInt_five_halves, truncToInt_zero]
    rfl
  · rw [h2]
    simp only [if_true, truncToInt_three_halves]

/-- C25 (as the code behaves): for every constructor input and every axis `i`, `bounds[i]`
is the half-open range `[lower[i], higher[i] + 1)`, which contains exactly the integers
`lower[i] .. higher[i]` and so `higher[i] - lower[i] + 1` compositions, while
`sectionWidth[i]` is the constructor argument `width[i]`; it equals the number of
compositions in `bounds[i]` exactly when the caller passed
`width[i] = higher[i] - lower[i] + 1`. -/
theorem construct_bounds_sectionWidth {F : Type} [LinearOrderedField F] [FloorRing F]
    (init : PSISuperCluster F) (num : Nat → F) (nTot : Int) (width lower higher : Nat → Int) :
    (PSISuperCluster.construct init num nTot width lower higher).nTot = nTot
    ∧ ∀ i : Nat, i < 4 →
        (PSISuperCluster.construct init num nTot width lower higher).self.boundsBegin i = lower i
        ∧ (PSISuperCluster.construct init num nTot width lower higher).self.boundsEnd i = higher i + 1
        ∧ (∀ n : Int, ((PSISuperCluster.construct init num nTot width lower higher).self.boundsBegin i ≤ n ∧ n < (PSISuperCluster.construct init num nTot width lower higher).self.boundsEnd i)
            ↔ (lower i ≤ n ∧ n ≤ higher i))
        ∧ (PSISuperCluster.construct init num nTot width lower higher).self.boundsEnd i - (PSISuperCluster.construct init num nTot width lower higher).self.boundsBegin i = higher i - lower i + 1
        ∧ (PSISuperCluster.construct init num nTot width lower higher).sectionWidth (i : Int) = width i
        ∧ ((PSISuperCluster.construct init num nTot width lower higher).sectionWidth (i : Int) = higher i - lower i + 1
            ↔ width i = higher i - lower i + 1) := by
  obtain ⟨_, _, _, _, _, _, h7, h8⟩ := construct_fields init num nTot width lower higher
  refine ⟨h7, ?_⟩
  intro i hi
  obtain ⟨g1, g2, _, g4⟩ := h8 i hi
  refine ⟨g1, g2, ?_, ?_, g4, ?_⟩
  · intro n
    rw [g1, g2]
    constructor
    · rintro ⟨a, b⟩
      exact ⟨a, by omega⟩
    · rintro ⟨a, b⟩
      exact ⟨a, by omega⟩
  · rw [g1, g2]
    ring
  · rw [g4]

/-- C25, counterexample: the constructor called with `width = 5` and the inclusive bounds
`0 .. 1` on every axis: `sectionWidth[0]` is 5 while `bounds[0]` holds the 2 compositions
0 and 1. -/
theorem construct_sectionWidth_is_argument :
    ((0 : Int) ≤ 1)
    ∧ (PSISuperCluster.construct (sampleBase ℚ) (fun _ => 1) 2
        (fun _ => 5) (fun _ => 0) (fun _ => 1)).sectionWidth 0 = 5
    ∧ (PSISuperCluster.construct (sampleBase ℚ) (fun _ => 1) 2
        (fun _ => 5) (fun _ => 0) (fun _ => 1)).self.boundsBegin 0 = 0
    ∧ (PSISuperCluster.construct (sampleBase ℚ) (fun _ => 1) 2
        (fun _ => 5) (fun _ => 0) (fun _ => 1)).self.boundsEnd 0 = 2
    ∧ (PSISuperCluster.construct (sampleBase ℚ) (fun _ => 1) 2
        (fun _ => 5) (fun _ => 0) (fun _ => 1)).sectionWidth 0 ≠ 1 - 0 + 1 := by
  obtain ⟨_, _, _, _, _, _, _, h8⟩ := construct_fields (sampleBase ℚ) (fun _ => (1 : ℚ)) 2
    (fun _ => 5) (fun _ => 0) (fun _ => 1)
  obtain ⟨g1, g2, _, g4⟩ := h8 0 (by decide)
  simp only [Nat.cast_zero] at g4
  refine ⟨by decide, g4, g1, ?_, ?_⟩
  · rw [g2]
    rfl
  · rw [g4]
    decide

/-- C27 (as the code behaves): after the constructor followed by `setHeVVector(vec)`,
`nTot` is the constructor argument `_nTot` and `heVList` is `vec`, for every constructor
input and every `vec`; neither call compares them, so `nTot` equals the number of tuples
in `heVList` exactly when the caller passed `_nTot = vec.size()`. -/
theorem construct_setHeVVector_nTot {F : Type} [LinearOrderedField F] [FloorRing F]
    (init : PSISuperCluster F) (num : Nat → F) (nTot : Int) (width lower higher : Nat → Int)
    (memberRadius : Int → F) (vec : List (Int × Int × Int × Int)) :
    (setHeVVector memberRadius (PSISuperCluster.construct init num nTot width lower higher) vec).nTot = nTot
    ∧ (setHeVVector memberRadius (PSISuperCluster.construct init num nTot width lower higher) vec).heVList = vec
    ∧ ((setHeVVector memberRadius (PSISuperCluster.construct init num nTot width lower higher) vec).nTot
          = ((setHeVVector memberRadius (PSISuperCluster.construct init num nTot width lower higher) vec).heVList.length : Int)
        ↔ nTot = (vec.length : Int)) := by
  obtain ⟨h1, h2, _⟩ := setHeVVector_spec memberRadius (PSISuperCluster.construct init num nTot width lower higher) vec
  obtain ⟨_, _, _, _, _, _, h7, _⟩ := construct_fields init num nTot width lower higher
  rw [h1, h2, h7]
  exact ⟨rfl, rfl, Iff.rfl⟩

/-- C27, counterexample: the constructor called with `_nTot = 5`, then `setHeVVector` with
a list of three members: `nTot` is 5 and `heVList` has 3 tuples. -/
theorem construct_setHeVVector_nTot_differs :
    (setHeVVector (fun _ => (0 : ℚ))
        (PSISuperCluster.construct (sampleBase ℚ) (fun _ => 1) 5
          (fun _ => 2) (fun _ => 0) (fun _ => 1))
        [(2, 0, 0, 1), (3, 0, 0, 1), (4, 0, 0, 1)]).nTot = 5
    ∧ (setHeVVector (fun _ => (0 : ℚ))
        (PSISuperCluster.construct (sampleBase ℚ) (fun _ => 1) 5
          (fun _ => 2) (fun _ => 0) (fun _ => 1))
        [(2, 0, 0, 1), (3, 0, 0, 1), (4, 0, 0, 1)]).heVList.length = 3
    ∧ (5 : Int) ≠ ((3 : Nat) : Int) := by
  obtain ⟨h1, h2, _⟩ := setHeVVector_spec (fun _ => (0 : ℚ))
    (PSISuperCluster.construct (sampleBase ℚ) (fun _ => 1) 5
      (fun _ => 2) (fun _ => 0) (fun _ => 1))
    [(2, 0, 0, 1), (3, 0, 0, 1), (4, 0, 0, 1)]
  obtain ⟨_, _, _, _, _, _, h7, _⟩ := construct_fields (sampleBase ℚ) (fun _ => (1 : ℚ)) 5
    (fun _ => 2) (fun _ => 0) (fun _ => 1)
  rw [h1, h2, h7]
  exact ⟨rfl, rfl, by decide⟩

theorem sum_sq_sub_mean {F : Type} [Field F] (vals : List Int) (mu : F) :
    (vals.map (fun v : Int => ((v : F) - mu) ^ 2)).sum
      = (vals.map (fun v : Int => ((v * v : Int) : F))).sum
        - 2 * mu * (vals.map (fun v : Int => (v : F))).sum
        + (vals.length : F) * mu ^ 2 := by
  induction vals with
  | nil => simp
  | cons v l ih =>
    simp only [List.map_cons, List.sum_cons, List.length_cons, ih, Nat.cast_succ,
      Int.cast_mul]
    ring

/-- The value the dispersion formula takes is non-negative when the mean used in it is
the mean of the listed values. -/
theorem dispersion_value_nonneg {F : Type} [LinearOrderedField F] (vals : List Int) (mu : F)
    (n w : Int) (hn : n = (vals.length : Int)) (hpos : 1 ≤ vals.length) (hw : 1 ≤ w)
    (hmean : mu * (n : F) = (vals.map (fun v : Int => (v : F))).sum) :
    0 ≤ (if w = 1 then (1 : F)
        else 2 * ((vals.map (fun v : Int => ((v * v : Int) : F))).sum - mu * (n : F) * mu)
          / ((n * (w - 1) : Int) : F)) := by
  split_ifs with h1
  · exact zero_le_one
  · have hden : (0 : F) < ((n * (w - 1) : Int) : F) := by
      have : (0 : Int) < n * (w - 1) := by
        apply Int.mul_pos
        · omega
        · omega
      exact_mod_cast this
    have hlen : (n : F) = (vals.length : F) := by
      rw [hn]
      simp
    have nn : 0 ≤ (vals.map (fun v : Int => ((v : F) - mu) ^ 2)).sum := by
      apply List.sum_nonneg
      intro x hx
      obtain ⟨v, _, rfl⟩ := List.mem_map.mp hx
      positivity
    rw [sum_sq_sub_mean, ← hmean, ← hlen] at nn
    have e : (vals.map (fun v : Int => ((v * v : Int) : F))).sum - mu * (n : F) * mu
        = (vals.map (fun v : Int => ((v * v : Int) : F))).sum - 2 * mu * (mu * (n : F))
          + (n : F) * mu ^ 2 := by
      ring
    rw [e]
    exact div_nonneg (mul_nonneg (by norm_num) nn) hden.le

/-- The dispersions after the constructor followed by `setHeVVector`, in terms of the
constructor arguments. -/
theorem construct_setHeVVector_dispersion_eq {F : Type} [LinearOrderedField F] [FloorRing F]
    (init : PSISuperCluster F) (num : Nat → F) (nTot : Int) (width lower higher : Nat → Int)
    (memberRadius : Int → F) (vec : List (Int × Int × Int × Int)) :
    (setHeVVector memberRadius (PSISuperCluster.construct init num nTot width lower higher) vec).dispersion 0
        = (if width 0 = 1 then 1
          else 2 * ((vec.map (fun m => ((m.1 * m.1 : Int) : F))).sum
                - num 0 * (nTot : F) * num 0)
            / ((nTot * (width 0 - 1) : Int) : F))
    ∧ (setHeVVector memberRadius (PSISuperCluster.construct init num nTot width lower higher) vec).dispersion 1
        = (if width 1 = 1 then 1
          else 2 * ((vec.map (fun m => ((m.2.1 * m.2.1 : Int) : F))).sum
                - num 1 * (nTot : F) * num 1)
            / ((nTot * (width 1 - 1) : Int) : F))
    ∧ (setHeVVector memberRadius (PSISuperCluster.construct init num nTot width lower higher) vec).dispersion 2
        = (if width 2 = 1 then 1
          else 2 * ((vec.map (fun m => ((m.2.2.1 * m.2.2.1 : Int) : F))).sum
                - num 2 * (nTot : F) * num 2)
            / ((nTot * (width 2 - 1) : Int) : F))
    ∧ (setHeVVector memberRadius (PSISuperCluster.construct init num nTot width lower higher) vec).dispersion 3
        = (if width 3 = 1 then 1
          else 2 * ((vec.map (fun m => ((m.2.2.2 * m.2.2.2 : Int) : F))).sum
                - num 3 * (nTot : F) * num 3)
            / ((nTot * (width 3 - 1) : Int) : F)) := by
  obtain ⟨_, _, _, _, h⟩ := setHeVVector_spec memberRadius (PSISuperCluster.construct init num nTot width lower higher) vec
  obtain ⟨n0, n1, n2, n3⟩ := setHeVVectorSums_nSquare memberRadius { (PSISuperCluster.construct init num nTot width lower higher) with heVList := vec }
  obtain ⟨_, _, _, _, _, _, h7, h8⟩ := construct_fields init num nTot width lower higher
  have h0 := h 0 (by decide)
  have h1 := h 1 (by decide)
  have h2 := h 2 (by decide)
  have h3 := h 3 (by decide)
  obtain ⟨_, _, a0, b0⟩ := h8 0 (by decide)
  obtain ⟨_, _, a1, b1⟩ := h8 1 (by decide)
  obtain ⟨_, _, a2, b2⟩ := h8 2 (by decide)
  obtain ⟨_, _, a3, b3⟩ := h8 3 (by decide)
  rw [n0, a0, b0, h7] at h0
  rw [n1, a1, b1, h7] at h1
  rw [n2, a2, b2, h7] at h2
  rw [n3, a3, b3, h7] at h3
  simp only [Nat.cast_zero, Nat.cast_one, Nat.cast_ofNat] at h0 h1 h2 h3
  exact ⟨h0, h1, h2, h3⟩

/-- C26 (as the code behaves): for a super-cluster built by the constructor and then given
its members with `setHeVVector(vec)`, where `nTot == vec.size() >= 1`, every
`sectionWidth[i] >= 1`, and on every axis `numAtom[i]` is the mean of the members' values
(`numAtom[i] * nTot` is their sum), `dispersion[i] >= 0` holds on every axis. -/
theorem dispersion_nonneg_of_mean {F : Type} [LinearOrderedField F] [FloorRing F]
    (init : PSISuperCluster F) (num : Nat → F) (nTot : Int) (width lower higher : Nat → Int)
    (memberRadius : Int → F) (vec : List (Int × Int × Int × Int))
    (hn : nTot = (vec.length : Int)) (hpos : 1 ≤ vec.length)
    (hw : ∀ i, i < 4 → 1 ≤ width i)
    (hmean : num 0 * (nTot : F) = (vec.map (fun m => ((m.1 : Int) : F))).sum
      ∧ num 1 * (nTot : F) = (vec.map (fun m => ((m.2.1 : Int) : F))).sum
      ∧ num 2 * (nTot : F) = (vec.map (fun m => ((m.2.2.1 : Int) : F))).sum
      ∧ num 3 * (nTot : F) = (vec.map (fun m => ((m.2.2.2 : Int) : F))).sum) :
    0 ≤ (setHeVVector memberRadius (PSISuperCluster.construct init num nTot width lower higher) vec).dispersion 0
    ∧ 0 ≤ (setHeVVector memberRadius (PSISuperCluster.construct init num nTot width lower higher) vec).dispersion 1
    ∧ 0 ≤ (setHeVVector memberRadius (PSISuperCluster.construct init num nTot width lower higher) vec).dispersion 2
    ∧ 0 ≤ (setHeVVector memberRadius (PSISuperCluster.construct init num nTot width lower higher) vec).dispersion 3 := by
  obtain ⟨e0, e1, e2, e3⟩ := construct_setHeVVector_dispersion_eq init num nTot width lower
    higher memberRadius vec
  obtain ⟨m0, m1, m2, m3⟩ := hmean
  rw [e0, e1, e2, e3]
  refine ⟨?_, ?_, ?_, ?_⟩
  · have g := dispersion_value_nonneg (vec.map (fun m => m.1)) (num 0) nTot (width 0)
      (by simpa using hn) (by simpa using hpos) (hw 0 (by decide))
      (by simpa [List.map_map, Function.comp] using m0)
    simpa [List.map_map, Function.comp] using g
  · have g := dispersion_value_nonneg (vec.map (fun m => m.2.1)) (num 1) nTot (width 1)
      (by simpa using hn) (by simpa using hpos) (hw 1 (by decide))
      (by simpa [List.map_map, Function.comp] using m1)
    simpa [List.map_map, Function.comp] using g
  · have g := dispersion_value_nonneg (vec.map (fun m => m.2.2.1)) (num 2) nTot (width 2)
      (by simpa using hn) (by simpa using hpos) (hw 2 (by decide))
      (by simpa [List.map_map, Function.comp] using m2)
    simpa [List.map_map, Function.comp] using g
  · have g := dispersion_value_nonneg (vec.map (fun m => m.2.2.2)) (num 3) nTot (width 3)
      (by simpa using hn) (by simpa using hpos) (hw 3 (by decide))
      (by simpa [List.map_map, Function.comp] using m3)
    simpa [List.map_map, Function.comp] using g

/-- C26, witness: the group of three members with He values 2, 3, 4 and one vacancy each,
built with mean composition `(3, 0, 0, 1)`, `nTot = 3`, widths `(3, 1, 1, 1)` and bounds
`2 .. 4` on the He axis. -/
theorem dispersion_nonneg_of_mean_witness :
    0 ≤ (setHeVVector (fun _ => (0 : ℚ))
        (PSISuperCluster.construct (sampleBase ℚ)
          (fun i => if i = 0 then 3 else if i = 3 then 1 else 0) 3
          (fun i => if i = 0 then 3 else 1)
          (fun i => if i = 0 then 2 else if i = 3 then 1 else 0)
          (fun i => if i = 0 then 4 else if i = 3 then 1 else 0))
        [(2, 0, 0, 1), (3, 0, 0, 1), (4, 0, 0, 1)]).dispersion 0
    ∧ 0 ≤ (setHeVVector (fun _ => (0 : ℚ))
        (PSISuperCluster.construct (sampleBase ℚ)
          (fun i => if i = 0 then 3 else if i = 3 then 1 else 0) 3
          (fun i => if i = 0 then 3 else 1)
          (fun i => if i = 0 then 2 else if i = 3 then 1 else 0)
          (fun i => if i = 0 then 4 else if i = 3 then 1 else 0))
        [(2, 0, 0, 1), (3, 0, 0, 1), (4, 0, 0, 1)]).dispersion 1
    ∧ 0 ≤ (setHeVVector (fun _ => (0 : ℚ))
        (PSISuperCluster.construct (sampleBase ℚ)
          (fun i => if i = 0 then 3 else if i = 3 then 1 else 0) 3
          (fun i => if i = 0 then 3 else 1)
          (fun i => if i = 0 then 2 else if i = 3 then 1 else 0)
          (fun i => if i = 0 then 4 else if i = 3 then 1 else 0))
        [(2, 0, 0, 1), (3, 0, 0, 1), (4, 0, 0, 1)]).dispersion 2
    ∧ 0 ≤ (setHeVVector (fun _ => (0 : ℚ))
        (PSISuperCluster.construct (sampleBase ℚ)
          (fun i => if i = 0 then 3 else if i = 3 then 1 else 0) 3
          (fun i => if i = 0 then 3 else 1)
          (fun i => if i = 0 then 2 else if i = 3 then 1 else 0)
          (fun i => if i = 0 then 4 else if i = 3 then 1 else 0))
        [(2, 0, 0, 1), (3, 0, 0, 1), (4, 0, 0, 1)]).dispersion 3 :=
  dispersion_nonneg_of_mean (sampleBase ℚ)
    (fun i => if i = 0 then 3 else if i = 3 then 1 else 0) 3
    (fun i => if i = 0 then 3 else 1)
    (fun i => if i = 0 then 2 else if i = 3 then 1 else 0)
    (fun i => if i = 0 then 4 else if i = 3 then 1 else 0)
    (fun _ => (0 : ℚ)) [(2, 0, 0, 1), (3, 0, 0, 1), (4, 0, 0, 1)]
    (by decide) (by decide)
    (by
      intro i hi
      interval_cases i <;> decide)
    (by norm_num)

/-- C26, counterexample: the constructor called with mean composition 1 on every axis,
`nTot = 1`, width 2 and bounds `0 .. 1`, followed by `setHeVVector` with the single member
`(0, 0, 0, 0)`.  Then `nTot == vec.size() == 1`, `sectionWidth[0] = 2 >= 1` and
`numAtom[0] = 1` lies within `bounds[0] = [0, 2)`, yet `dispersion[0] = -2`. -/
theorem dispersion_negative_off_mean :
    ((1 : Int) = (([(0, 0, 0, 0)] : List (Int × Int × Int × Int)).length : Int))
    ∧ (PSISuperCluster.construct (sampleBase ℚ) (fun _ => (1 : ℚ)) 1
        (fun _ => 2) (fun _ => 0) (fun _ => 1)).sectionWidth 0 = 2
    ∧ (PSISuperCluster.construct (sampleBase ℚ) (fun _ => (1 : ℚ)) 1
        (fun _ => 2) (fun _ => 0) (fun _ => 1)).numAtom 0 = 1
    ∧ (PSISuperCluster.construct (sampleBase ℚ) (fun _ => (1 : ℚ)) 1
        (fun _ => 2) (fun _ => 0) (fun _ => 1)).self.boundsBegin 0 = 0
    ∧ (PSISuperCluster.construct (sampleBase ℚ) (fun _ => (1 : ℚ)) 1
        (fun _ => 2) (fun _ => 0) (fun _ => 1)).self.boundsEnd 0 = 2
    ∧ (setHeVVector (fun _ => (0 : ℚ))
        (PSISuperCluster.construct (sampleBase ℚ) (fun _ => 1) 1
          (fun _ => 2) (fun _ => 0) (fun _ => 1))
        [(0, 0, 0, 0)]).dispersion 0 = -2
    ∧ ¬ (0 ≤ (setHeVVector (fun _ => (0 : ℚ))
        (PSISuperCluster.construct (sampleBase ℚ) (fun _ => 1) 1
          (fun _ => 2) (fun _ => 0) (fun _ => 1))
        [(0, 0, 0, 0)]).dispersion 0) := by
  obtain ⟨e0, _⟩ := construct_setHeVVector_dispersion_eq (sampleBase ℚ) (fun _ => (1 : ℚ)) 1
    (fun _ => 2) (fun _ => 0) (fun _ => 1) (fun _ => (0 : ℚ)) [(0, 0, 0, 0)]
  obtain ⟨_, _, _, _, _, _, _, h8⟩ := construct_fields (sampleBase ℚ) (fun _ => (1 : ℚ)) 1
    (fun _ => 2) (fun _ => 0) (fun _ => 1)
  obtain ⟨g1, g2, g3, g4⟩ := h8 0 (by decide)
  simp only [Nat.cast_zero] at g3 g4
  have d : (setHeVVector (fun _ => (0 : ℚ))
        (PSISuperCluster.construct (sampleBase ℚ) (fun _ => 1) 1
          (fun _ => 2) (fun _ => 0) (fun _ => 1))
        [(0, 0, 0, 0)]).dispersion 0 = -2 := by
    rw [e0]
    norm_num
  refine ⟨by decide, g4, g3, g1, ?_, d, ?_⟩
  · rw [g2]
    rfl
  · rw [d]
    norm_num

/-! ## Singleton axes in the overlap-region derivations (claim C28) -/

/-- C29: with assertions enabled, `getProdVector`, `getCombVector`, `getDissoVector` and
`getEmitVector` fail on their leading `assert(false)` for every cluster state and every
`psDim`; none of them returns a vector. -/
theorem vector_queries_always_fail (psDim : Nat) (s : PSISuperCluster K) :
    getProdVector psDim s = none
    ∧ getCombVector psDim s = none
    ∧ getDissoVector psDim s = none
    ∧ getEmitVector psDim s = none
    ∧ ∀ v : List (List K),
        getProdVector psDim s ≠ some v ∧ getCombVector psDim s ≠ some v
        ∧ getDissoVector psDim s ≠ some v ∧ getEmitVector psDim s ≠ some v := by
  refine ⟨rfl, rfl, rfl, rfl, ?_⟩
  intro v
  refine ⟨?_, ?_, ?_, ?_⟩ <;> intro h <;> cases h

/-! ## Coefficient dump (claim C30) -/

theorem forLoop_append_flatMap {β : Type} (n : Nat) (body : Nat → List β → List β)
    (g : Nat → List β) (h : ∀ i os, body i os = os ++ g i) (init : List β) :
    forLoop 0 n body init = init ++ (List.range n).flatMap g := by
  induction n with
  | zero => simp [forLoop_of_le]
  | succ m ih =>
    rw [forLoop_succ 0 m (Nat.zero_le m), ih, h, List.range_succ, List.flatMap_append,
      List.flatMap_singleton, List.append_assoc]

theorem forEach_append_flatMap {α β : Type} (l : List α) (body : List β → α → List β)
    (g : α → List β) (h : ∀ os p, body os p = os ++ g p) (init : List β) :
    forEach l body init = init ++ l.flatMap g := by
  unfold forEach
  induction l generalizing init with
  | nil => simp
  | cons p l ih =>
    rw [List.foldl_cons, ih, h, List.flatMap_cons, List.append_assoc]

theorem range_mul_flatMap {β : Type} (m n : Nat) (g : Nat → List β) :
    (List.range (m * n)).flatMap g
      = (List.range m).flatMap (fun a => (List.range n).flatMap (fun b => g (a * n + b))) := by
  induction m with
  | zero => simp
  | succ k ih =>
    rw [Nat.succ_mul, List.range_add, List.flatMap_append, ih, List.flatMap_map,
      List.range_succ, List.flatMap_append, List.flatMap_singleton]

theorem flat_index (p a b : Nat) (hb : b < p) :
    (a * p + b) / p = a ∧ (a * p + b) % p = b := by
  have hp : 0 < p := Nat.lt_of_le_of_lt (Nat.zero_le b) hb
  constructor
  · rw [Nat.add_comm, Nat.add_mul_div_right _ _ hp, Nat.div_eq_of_lt hb, Nat.zero_add]
  · rw [Nat.add_comm, Nat.add_mul_mod_self_right, Nat.mod_eq_of_lt hb]

theorem rowMajor3_flatMap {β : Type} (p : Nat) (coefs : Nat → Nat → Nat → K)
    (F : K → List β) :
    (rowMajor3 p coefs).flatMap F
      = (List.range p).flatMap (fun k =>
          (List.range p).flatMap (fun j =>
            (List.range p).flatMap (fun i => F (coefs k j i)))) := by
  unfold rowMajor3
  rw [List.flatMap_map, range_mul_flatMap (p * p) p, range_mul_flatMap p p]
  apply List.flatMap_congr
  intro k _
  apply List.flatMap_congr
  intro j hj
  apply List.flatMap_congr
  intro i hi
  have hj2 := List.mem_range.mp hj
  have hi2 := List.mem_range.mp hi
  obtain ⟨a1, a2⟩ := flat_index p (k * p + j) i hi2
  obtain ⟨b1, b2⟩ := flat_index p k j hj2
  rw [a1, a2, b1, b2]

theorem rowMajor2_flatMap {β : Type} (p : Nat) (coefs : Nat → Nat → K) (F : K → List β) :
    (rowMajor2 p coefs).flatMap F
      = (List.range p).flatMap (fun j =>
          (List.range p).flatMap (fun i => F (coefs j i))) := by
  unfold rowMajor2
  rw [List.flatMap_map, range_mul_flatMap p p]
  apply List.flatMap_congr
  intro j _
  apply List.flatMap_congr
  intro i hi
  obtain ⟨a1, a2⟩ := flat_index p j i (List.mem_range.mp hi)
  rw [a1, a2]

theorem dumpCoefficients3_eq (psDim : Nat) (os : List (OutToken K))
    (coefs : Nat → Nat → Nat → K) :
    dumpCoefficients3 psDim os coefs
      = os ++ ([OutToken.text "a[0-4][0-4][0-4]: "]
          ++ (rowMajor3 psDim coefs).flatMap (fun x => [OutToken.value x, OutToken.space])) := by
  unfold dumpCoefficients3
  have inner : ∀ k j (st : List (OutToken K)),
      forLoop 0 psDim (fun i os => os ++ [OutToken.value (coefs k j i), OutToken.space]) st
        = st ++ (List.range psDim).flatMap
            (fun i => [OutToken.value (coefs k j i), OutToken.space]) :=
    fun k j st => forLoop_append_flatMap psDim _ _ (fun _ _ => rfl) st
  have mid : ∀ k (st : List (OutToken K)),
      forLoop 0 psDim (fun j os =>
          forLoop 0 psDim (fun i os =>
            os ++ [OutToken.value (coefs k j i), OutToken.space]) os) st
        = st ++ (List.range psDim).flatMap (fun j => (List.range psDim).flatMap
            (fun i => [OutToken.value (coefs k j i), OutToken.space])) :=
    fun k st => forLoop_append_flatMap psDim _ _ (inner k) st
  rw [forLoop_append_flatMap psDim _ _ mid, rowMajor3_flatMap, List.append_assoc]

theorem dumpCoefficients2_eq (psDim : Nat) (os : List (OutToken K))
    (coefs : Nat → Nat → K) :
    dumpCoefficients2 psDim os coefs
      = os ++ ([OutToken.text "a[0-4][0-4]: "]
          ++ (rowMajor2 psDim coefs).flatMap (fun x => [OutToken.value x, OutToken.space])) := by
  unfold dumpCoefficients2
  have inner : ∀ j (st : List (OutToken K)),
      forLoop 0 psDim (fun i os => os ++ [OutToken.value (coefs j i), OutToken.space]) st
        = st ++ (List.range psDim).flatMap
            (fun i => [OutToken.value (coefs j i), OutToken.space]) :=
    fun j st => forLoop_append_flatMap psDim _ _ (fun _ _ => rfl) st
  rw [forLoop_append_flatMap psDim _ _ inner, rowMajor2_flatMap, List.append_assoc]

theorem outputCoefficientsTo_eq (psDim : Nat) (s : PSISuperCluster K)
    (os : List (OutToken K)) :
    outputCoefficientsTo psDim s os
      = os ++ [OutToken.text "name: ", OutToken.name s.self.name, OutToken.newline]
        ++ [OutToken.text "reacting: ", OutToken.count s.effReactingList.length,
            OutToken.newline]
        ++ s.effReactingList.flatMap (fun p =>
            [OutToken.text "first: ", OutToken.name p.first.name,
              OutToken.text "; second: ", OutToken.name p.second.name, OutToken.text ";",
              OutToken.text "a[0-4][0-4][0-4]: "]
            ++ (rowMajor3 psDim p.coefs).flatMap (fun x => [OutToken.value x, OutToken.space])
            ++ [OutToken.newline])
        ++ [OutToken.text "combining: ", OutToken.count s.effCombiningList.length,
            OutToken.newline]
        ++ s.effCombiningList.flatMap (fun p =>
            [OutToken.text "other: ", OutToken.name p.first.name, OutToken.text ";",
              OutToken.text "a[0-4][0-4][0-4]: "]
            ++ (rowMajor3 psDim p.coefs).flatMap (fun x => [OutToken.value x, OutToken.space])
            ++ [OutToken.newline])
        ++ [OutToken.text "dissociating: ", OutToken.count s.effDissociatingList.length,
            OutToken.newline]
        ++ s.effDissociatingList.flatMap (fun p =>
            [OutToken.text "first: ", OutToken.name p.first.name,
              OutToken.text "; second: ", OutToken.name p.second.name, OutToken.text "; ",
              OutToken.text "a[0-4][0-4]: "]
            ++ (rowMajor2 psDim p.coefs).flatMap (fun x => [OutToken.value x, OutToken.space])
            ++ [OutToken.newline])
        ++ [OutToken.text "emitting: ", OutToken.count s.effEmissionList.length,
            OutToken.newline]
        ++ s.effEmissionList.flatMap (fun p =>
            [OutToken.text "first: ", OutToken.name p.first.name,
              OutToken.text "; second: ", OutToken.name p.second.name, OutToken.text "; ",
              OutToken.text "a[0-4][0-4]: "]
            ++ (rowMajor2 psDim p.coefs).flatMap (fun x => [OutToken.value x, OutToken.space])
            ++ [OutToken.newline]) := by
  unfold outputCoefficientsTo
  dsimp only
  rw [forEach_append_flatMap s.effEmissionList _ (fun p =>
        [OutToken.text "first: ", OutToken.name p.first.name,
          OutToken.text "; second: ", OutToken.name p.second.name, OutToken.text "; ",
          OutToken.text "a[0-4][0-4]: "]
        ++ (rowMajor2 psDim p.coefs).flatMap (fun x => [OutToken.value x, OutToken.space])
        ++ [OutToken.newline]),
    forEach_append_flatMap s.effDissociatingList _ (fun p =>
        [OutToken.text "first: ", OutToken.name p.first.name,
          OutToken.text "; second: ", OutToken.name p.second.name, OutToken.text "; ",
          OutToken.text "a[0-4][0-4]: "]
        ++ (rowMajor2 psDim p.coefs).flatMap (fun x => [OutToken.value x, OutToken.space])
        ++ [OutToken.newline]),
    forEach_append_flatMap s.effCombiningList _ (fun p =>
        [OutToken.text "other: ", OutToken.name p.first.name, OutToken.text ";",
          OutToken.text "a[0-4][0-4][0-4]: "]
        ++ (rowMajor3 psDim p.coefs).flatMap (fun x => [OutToken.value x, OutToken.space])
        ++ [OutToken.newline]),
    forEach_append_flatMap s.effReactingList _ (fun p =>
        [OutToken.text "first: ", OutToken.name p.first.name,
          OutToken.text "; second: ", OutToken.name p.second.name, OutToken.text ";",
          OutToken.text "a[0-4][0-4][0-4]: "]
        ++ (rowMajor3 psDim p.coefs).flatMap (fun x => [OutToken.value x, OutToken.space])
        ++ [OutToken.newline])]
  · intro st p
    rw [dumpCoefficients3_eq]
    simp only [List.append_assoc, List.cons_append, List.nil_append]
  · intro st p
    rw [dumpCoefficients3_eq]
    simp only [List.append_assoc, List.cons_append, List.nil_append]
  · intro st p
    rw [dumpCoefficients2_eq]
    simp only [List.append_assoc, List.cons_append, List.nil_append]
  · intro st p
    rw [dumpCoefficients2_eq]
    simp only [List.append_assoc, List.cons_append, List.nil_append]

theorem rowMajor3_fresh (p : Nat) (coef : Nat → K) :
    rowMajor3 p (fun i j k =>
        (0 : K) + if i < p ∧ j < p ∧ k < p then coef ((i * p + j) * p + k) else 0)
      = (List.range (p * p * p)).map coef := by
  unfold rowMajor3
  apply List.map_congr_left
  intro n hn
  have hn2 : n < p * p * p := List.mem_range.mp hn
  have hp : 0 < p := by
    rcases Nat.eq_zero_or_pos p with h | h
    · subst h
      simp at hn2
    · exact h
  have h1 : n % p < p := Nat.mod_lt _ hp
  have h2 : n / p % p < p := Nat.mod_lt _ hp
  have h4 : n / p < p * p := by
    apply Nat.div_lt_of_lt_mul
    calc n < p * p * p := hn2
      _ = p * (p * p) := Nat.mul_assoc p p p
  have h3 : n / p / p < p := Nat.div_lt_of_lt_mul h4
  have e : (n / p / p * p + n / p % p) * p + n % p = n := by
    rw [Nat.div_add_mod' (n / p) p, Nat.div_add_mod' n p]
  simp only [h1, h2, h3, and_self, if_true, zero_add, e]

theorem resultFromCoef_of_map_nil (psDim : Nat) (s : PSISuperCluster K)
    (reaction : ProductionReaction K) (coef : Nat → K) (h : s.effReactingListMap = []) :
    resultFromCoef psDim s reaction coef
      = some { s with
          effReactingList := s.effReactingList
            ++ [{ ProductionPair.create reaction reaction.first reaction.second with
                  coefs := fun i j k =>
                    (0 : K) + if i < psDim ∧ j < psDim ∧ k < psDim then
                        coef ((i * psDim + j) * psDim + k)
                      else 0 }] } := by
  rw [resultFromCoef_eq, addToEffReactingList_of_map_nil s reaction h]
  simp only [Option.map, modifyAt_append_length]
  rfl

/-- C30: `outputCoefficientsTo` writes the name line and then, for each of the four
effective lists in turn, a line with the number of entries followed by one line per
entry in list order; an entry line holds the partner names, the label and the tensor of
the entry as its `psDim^3` (respectively `psDim^2`) values in row-major order, each
followed by a space.  Consequently, on a cluster with an empty lookup map,
`resultFrom(reaction, coef)` appends an entry whose dumped values are
`coef[0], ..., coef[psDim^3 - 1]` in this order. -/
theorem outputCoefficientsTo_order (psDim : Nat) (s : PSISuperCluster K)
    (os : List (OutToken K)) (reaction : ProductionReaction K) (coef : Nat → K) :
    (outputCoefficientsTo psDim s os
      = os ++ [OutToken.text "name: ", OutToken.name s.self.name, OutToken.newline]
        ++ [OutToken.text "reacting: ", OutToken.count s.effReactingList.length,
            OutToken.newline]
        ++ s.effReactingList.flatMap (fun p =>
            [OutToken.text "first: ", OutToken.name p.first.name,
              OutToken.text "; second: ", OutToken.name p.second.name, OutToken.text ";",
              OutToken.text "a[0-4][0-4][0-4]: "]
            ++ (rowMajor3 psDim p.coefs).flatMap (fun x => [OutToken.value x, OutToken.space])
            ++ [OutToken.newline])
        ++ [OutToken.text "combining: ", OutToken.count s.effCombiningList.length,
            OutToken.newline]
        ++ s.effCombiningList.flatMap (fun p =>
            [OutToken.text "other: ", OutToken.name p.first.name, OutToken.text ";",
              OutToken.text "a[0-4][0-4][0-4]: "]
            ++ (rowMajor3 psDim p.coefs).flatMap (fun x => [OutToken.value x, OutToken.space])
            ++ [OutToken.newline])
        ++ [OutToken.text "dissociating: ", OutToken.count s.effDissociatingList.length,
            OutToken.newline]
        ++ s.effDissociatingList.flatMap (fun p =>
            [OutToken.text "first: ", OutToken.name p.first.name,
              OutToken.text "; second: ", OutToken.name p.second.name, OutToken.text "; ",
              OutToken.text "a[0-4][0-4]: "]
            ++ (rowMajor2 psDim p.coefs).flatMap (fun x => [OutToken.value x, OutToken.space])
            ++ [OutToken.newline])
        ++ [OutToken.text "emitting: ", OutToken.count s.effEmissionList.length,
            OutToken.newline]
        ++ s.effEmissionList.flatMap (fun p =>
            [OutToken.text "first: ", OutToken.name p.first.name,
              OutToken.text "; second: ", OutToken.name p.second.name, OutToken.text "; ",
              OutToken.text "a[0-4][0-4]: "]
            ++ (rowMajor2 psDim p.coefs).flatMap (fun x => [OutToken.value x, OutToken.space])
            ++ [OutToken.newline]))
    ∧ (∀ coefs : Nat → Nat → Nat → K, (rowMajor3 psDim coefs).length = psDim ^ 3)
    ∧ (∀ coefs : Nat → Nat → K, (rowMajor2 psDim coefs).length = psDim ^ 2)
    ∧ (s.effReactingListMap = [] →
        ∃ e : ProductionPair K,
          resultFromCoef psDim s reaction coef
            = some { s with effReactingList := s.effReactingList ++ [e] }
          ∧ rowMajor3 psDim e.coefs = (List.range (psDim ^ 3)).map coef) := by
  have e3 : psDim ^ 3 = psDim * psDim * psDim := by ring
  have e2 : psDim ^ 2 = psDim * psDim := by ring
  refine ⟨outputCoefficientsTo_eq psDim s os, ?_, ?_, ?_⟩
  · intro coefs
    rw [e3]
    simp [rowMajor3]
  · intro coefs
    rw [e2]
    simp [rowMajor2]
  · intro h
    refine ⟨_, resultFromCoef_of_map_nil psDim s reaction coef h, ?_⟩
    rw [e3]
    exact rowMajor3_fresh psDim coef

/-! ## The selection of the zeroth-order path (claim C38) -/

/-- C38: each call of `useZerothMomentSpecializations` appends to each of the four reduced
lists one reduced entry per entry of the corresponding full list, in the order of the full
list, and leaves the four full lists unchanged; starting from empty reduced lists, one
call makes each reduced list as long as its full list and a second call makes it twice
as long. -/
theorem useZerothMomentSpecializations_appends (s : PSISuperCluster K) :
    ((useZerothMomentSpecializations s).effReactingList0
        = s.effReactingList0 ++ s.effReactingList.map ProductionPair0.ofPair
      ∧ (useZerothMomentSpecializations s).effCombiningList0
        = s.effCombiningList0 ++ s.effCombiningList.map CombiningCluster0.ofCluster
      ∧ (useZerothMomentSpecializations s).effDissociatingList0
        = s.effDissociatingList0 ++ s.effDissociatingList.map DissociationPair0.ofPair
      ∧ (useZerothMomentSpecializations s).effEmissionList0
        = s.effEmissionList0 ++ s.effEmissionList.map DissociationPair0.ofPair)
    ∧ ((useZerothMomentSpecializations s).effReactingList = s.effReactingList
      ∧ (useZerothMomentSpecializations s).effCombiningList = s.effCombiningList
      ∧ (useZerothMomentSpecializations s).effDissociatingList = s.effDissociatingList
      ∧ (useZerothMomentSpecializations s).effEmissionList = s.effEmissionList)
    ∧ (s.effReactingList0 = [] → s.effCombiningList0 = [] → s.effDissociatingList0 = []
        → s.effEmissionList0 = [] →
      ((useZerothMomentSpecializations s).effReactingList0.length = s.effReactingList.length
        ∧ (useZerothMomentSpecializations s).effCombiningList0.length
            = s.effCombiningList.length
        ∧ (useZerothMomentSpecializations s).effDissociatingList0.length
            = s.effDissociatingList.length
        ∧ (useZerothMomentSpecializations s).effEmissionList0.length
            = s.effEmissionList.length)
      ∧ (useZerothMomentSpecializations (useZerothMomentSpecializations s)).effReactingList0.length
            = 2 * s.effReactingList.length
      ∧ (useZerothMomentSpecializations (useZerothMomentSpecializations s)).effCombiningList0.length
            = 2 * s.effCombiningList.length
      ∧ (useZerothMomentSpecializations
            (useZerothMomentSpecializations s)).effDissociatingList0.length
            = 2 * s.effDissociatingList.length
      ∧ (useZerothMomentSpecializations (useZerothMomentSpecializations s)).effEmissionList0.length
            = 2 * s.effEmissionList.length) := by
  refine ⟨?_, ?_, ?_⟩
  · rw [useZerothMomentSpecializations_eq]
    exact ⟨rfl, rfl, rfl, rfl⟩
  · rw [useZerothMomentSpecializations_eq]
    exact ⟨rfl, rfl, rfl, rfl⟩
  · intro h1 h2 h3 h4
    rw [useZerothMomentSpecializations_eq (useZerothMomentSpecializations s),
      useZerothMomentSpecializations_eq s]
    simp only [h1, h2, h3, h4, List.nil_append, List.length_append, List.length_map]
    refine ⟨⟨?_, ?_, ?_, ?_⟩, ?_, ?_, ?_, ?_⟩ <;> first | trivial | omega

/-! ## Batch updates against the explicit updates (claim C34) -/

theorem modifyAt_id {α : Type} (l : List α) (pos : Nat) : modifyAt l pos (fun e => e) = l := by
  unfold modifyAt
  cases h : l[pos]? with
  | none => rfl
  | some x =>
    simp only
    rw [List.getElem?_eq_some_iff] at h
    obtain ⟨hlt, hx⟩ := h
    apply List.ext_getElem (by simp)
    intro n h1 h2
    rw [List.getElem_set]
    split
    · next hn =>
      subst hn
      exact hx.symm
    · rfl

theorem resultFromBatchEntry_eq_foldl (psDim : Nat) (indexList : Nat → Int)
    (s : PSISuperCluster K) (prInfos : List PendingProductionReactionInfo)
    (e : ProductionPair K) :
    resultFromBatchEntry psDim indexList s prInfos e
      = prInfos.foldl (fun e pri => resultFromEntry psDim indexList s pri.a pri.b e) e := rfl

theorem participateInProductionBatchEntry_eq_foldl (psDim : Nat) (indexList : Nat → Int)
    (s : PSISuperCluster K) (prInfos : List PendingProductionReactionInfo)
    (e : CombiningCluster K) :
    participateInProductionBatchEntry psDim indexList s prInfos e
      = prInfos.foldl (fun e pri => participateInProductionEntry psDim indexList s pri.b e) e :=
  rfl

theorem participateInDissociationBatchEntry_eq_foldl (psDim : Nat) (indexList : Nat → Int)
    (s : PSISuperCluster K) (reaction : DissociationReaction K)
    (prInfos : List PendingProductionReactionInfo) (e : DissociationPair K) :
    participateInDissociationBatchEntry psDim indexList s reaction prInfos e
      = prInfos.foldl
          (fun e pri => participateInDissociationEntry psDim indexList s reaction pri.a pri.b e)
          e := rfl

theorem emitFromBatchEntry_eq_foldl (psDim : Nat) (indexList : Nat → Int)
    (s : PSISuperCluster K) (prInfos : List PendingProductionReactionInfo)
    (e : DissociationPair K) :
    emitFromBatchEntry psDim indexList s prInfos e
      = prInfos.foldl (fun e pri => emitFromEntry psDim indexList s pri.a e) e := rfl

theorem resultFromBatch_eq_map (psDim : Nat) (indexList : Nat → Int) (s : PSISuperCluster K)
    (reaction : ProductionReaction K) (prInfos : List PendingProductionReactionInfo) :
    resultFromBatch psDim indexList s reaction prInfos
      = (addToEffReactingList s reaction).map (fun r =>
          { r.1 with
            effReactingList :=
              modifyAt r.1.effReactingList r.2 (fun e =>
                prInfos.foldl (fun e pri => resultFromEntry psDim indexList s pri.a pri.b e) e) })
    := by
  unfold resultFromBatch
  cases h : addToEffReactingList s reaction with
  | none => rfl
  | some r =>
    have hs : r.1.self = s.self := addToEffReactingList_self s reaction r h
    have e : resultFromBatchEntry psDim indexList r.1 prInfos
        = fun e => prInfos.foldl
            (fun e pri => resultFromEntry psDim indexList s pri.a pri.b e) e := by
      funext prodPair
      rw [resultFromBatchEntry_eq_foldl]
      unfold resultFromEntry
      rw [hs]
    simp only [Option.map, e]

theorem participateInProductionBatch_eq_map (psDim : Nat) (indexList : Nat → Int)
    (s : PSISuperCluster K) (reaction : ProductionReaction K)
    (prInfos : List PendingProductionReactionInfo) :
    participateInProductionBatch psDim indexList s reaction prInfos
      = (addToEffCombiningList s reaction).map (fun r =>
          { r.1 with
            effCombiningList :=
              modifyAt r.1.effCombiningList r.2 (fun e =>
                prInfos.foldl
                  (fun e pri => participateInProductionEntry psDim indexList s pri.b e) e) })
    := by
  unfold participateInProductionBatch
  cases h : addToEffCombiningList s reaction with
  | none => rfl
  | some r =>
    have hs : r.1.self = s.self := addToEffCombiningList_self s reaction r h
    have e : participateInProductionBatchEntry psDim indexList r.1 prInfos
        = fun e => prInfos.foldl
            (fun e pri => participateInProductionEntry psDim indexList s pri.b e) e := by
      funext combCluster
      rw [participateInProductionBatchEntry_eq_foldl]
      unfold participateInProductionEntry
      rw [hs]
    simp only [Option.map, e]

theorem participateInDissociationBatch_eq_map (psDim : Nat) (indexList : Nat → Int)
    (s : PSISuperCluster K) (reaction : DissociationReaction K)
    (prInfos : List PendingProductionReactionInfo) :
    participateInDissociationBatch psDim indexList s reaction prInfos
      = (addToEffDissociatingList s reaction).map (fun r =>
          { r.1 with
            effDissociatingList :=
              modifyAt r.1.effDissociatingList r.2 (fun e =>
                prInfos.foldl
                  (fun e pri =>
                    participateInDissociationEntry psDim indexList s reaction pri.a pri.b e)
                  e) }) := by
  unfold participateInDissociationBatch
  cases h : addToEffDissociatingList s reaction with
  | none => rfl
  | some r =>
    have hs : r.1.self = s.self := addToEffDissociatingList_self s reaction r h
    have e : participateInDissociationBatchEntry psDim indexList r.1 reaction prInfos
        = fun e => prInfos.foldl
            (fun e pri =>
              participateInDissociationEntry psDim indexList s reaction pri.a pri.b e) e := by
      funext dissPair
      rw [participateInDissociationBatchEntry_eq_foldl]
      unfold participateInDissociationEntry
      rw [hs]
    simp only [Option.map, e]

theorem emitFromBatch_eq_map (psDim : Nat) (indexList : Nat → Int) (s : PSISuperCluster K)
    (reaction : DissociationReaction K) (prInfos : List PendingProductionReactionInfo) :
    emitFromBatch psDim indexList s reaction prInfos
      = (addToEffEmissionList s reaction).map (fun r =>
          { r.1 with
            effEmissionList :=
              modifyAt r.1.effEmissionList r.2 (fun e =>
                prInfos.foldl (fun e pri => emitFromEntry psDim indexList s pri.a e) e) })
    := by
  unfold emitFromBatch
  cases h : addToEffEmissionList s reaction with
  | none => rfl
  | some r =>
    have hs : r.1.self = s.self := addToEffEmissionList_self s reaction r h
    have e : emitFromBatchEntry psDim indexList r.1 prInfos
        = fun e => prInfos.foldl (fun e pri => emitFromEntry psDim indexList s pri.a e) e := by
      funext dissPair
      rw [emitFromBatchEntry_eq_foldl]
      unfold emitFromEntry
      rw [hs]
    simp only [Option.map, e]

theorem option_map_with_self {α β : Type} (o : Option (α × β)) (f g : α × β → α)
    (h : ∀ r, f r = g r) : o.map f = o.map g := by
  cases o with
  | none => rfl
  | some r => simp only [Option.map, h]

/-- C34: for every list `prInfos`, each batch update acts on the aggregated entry as the
explicit per-member update applied once per element in order (`resultFrom` with `pri.a,
pri.b`; the dissociation `participateIn` with `pri.a, pri.b`; `emitFrom` with `pri.a`;
the production `participateIn` with `pri.b`), both on the entry and through the call that
first locates or creates the entry; with an empty `prInfos` the call returns the state in
which the builder left the lists, so no coefficient changes while the entry exists. -/
theorem batch_updates_fold_explicit (psDim : Nat) (indexList : Nat → Int)
    (s : PSISuperCluster K) (reaction : ProductionReaction K)
    (dissociation : DissociationReaction K) (prInfos : List PendingProductionReactionInfo) :
    ((∀ e, resultFromBatchEntry psDim indexList s prInfos e
        = prInfos.foldl (fun e pri => resultFromEntry psDim indexList s pri.a pri.b e) e)
      ∧ (∀ e, participateInDissociationBatchEntry psDim indexList s dissociation prInfos e
        = prInfos.foldl (fun e pri =>
            participateInDissociationEntry psDim indexList s dissociation pri.a pri.b e) e)
      ∧ (∀ e, emitFromBatchEntry psDim indexList s prInfos e
        = prInfos.foldl (fun e pri => emitFromEntry psDim indexList s pri.a e) e)
      ∧ (∀ e, participateInProductionBatchEntry psDim indexList s prInfos e
        = prInfos.foldl (fun e pri => participateInProductionEntry psDim indexList s pri.b e) e))
    ∧ (resultFromBatch psDim indexList s reaction prInfos
        = (addToEffReactingList s reaction).map (fun r =>
            { r.1 with
              effReactingList :=
                modifyAt r.1.effReactingList r.2 (fun e =>
                  prInfos.foldl
                    (fun e pri => resultFromEntry psDim indexList s pri.a pri.b e) e) })
      ∧ participateInDissociationBatch psDim indexList s dissociation prInfos
        = (addToEffDissociatingList s dissociation).map (fun r =>
            { r.1 with
              effDissociatingList :=
                modifyAt r.1.effDissociatingList r.2 (fun e =>
                  prInfos.foldl (fun e pri =>
                    participateInDissociationEntry psDim indexList s dissociation pri.a pri.b e)
                    e) })
      ∧ emitFromBatch psDim indexList s dissociation prInfos
        = (addToEffEmissionList s dissociation).map (fun r =>
            { r.1 with
              effEmissionList :=
                modifyAt r.1.effEmissionList r.2 (fun e =>
                  prInfos.foldl (fun e pri => emitFromEntry psDim indexList s pri.a e) e) })
      ∧ participateInProductionBatch psDim indexList s reaction prInfos
        = (addToEffCombiningList s reaction).map (fun r =>
            { r.1 with
              effCombiningList :=
                modifyAt r.1.effCombiningList r.2 (fun e =>
                  prInfos.foldl
                    (fun e pri => participateInProductionEntry psDim indexList s pri.b e) e) }))
    ∧ (resultFromBatch psDim indexList s reaction []
        = (addToEffReactingList s reaction).map (fun r => r.1)
      ∧ participateInDissociationBatch psDim indexList s dissociation []
        = (addToEffDissociatingList s dissociation).map (fun r => r.1)
      ∧ emitFromBatch psDim indexList s dissociation []
        = (addToEffEmissionList s dissociation).map (fun r => r.1)
      ∧ participateInProductionBatch psDim indexList s reaction []
        = (addToEffCombiningList s reaction).map (fun r => r.1)) := by
  refine ⟨⟨fun e => rfl, fun e => rfl, fun e => rfl, fun e => rfl⟩,
    ⟨resultFromBatch_eq_map psDim indexList s reaction prInfos,
      participateInDissociationBatch_eq_map psDim indexList s dissociation prInfos,
      emitFromBatch_eq_map psDim indexList s dissociation prInfos,
      participateInProductionBatch_eq_map psDim indexList s reaction prInfos⟩, ?_, ?_, ?_, ?_⟩
  · rw [resultFromBatch_eq_map]
    apply option_map_with_self
    intro r
    simp only [List.foldl_nil, modifyAt_id]
  · rw [participateInDissociationBatch_eq_map]
    apply option_map_with_self
    intro r
    simp only [List.foldl_nil, modifyAt_id]
  · rw [emitFromBatch_eq_map]
    apply option_map_with_self
    intro r
    simp only [List.foldl_nil, modifyAt_id]
  · rw [participateInProductionBatch_eq_map]
    apply option_map_with_self
    intro r
    simp only [List.foldl_nil, modifyAt_id]

/-! ## The combining update and the partner's moments (claim C36) -/

theorem participateInProductionEntry_frame (psDim : Nat) (indexList : Nat → Int)
    (s : PSISuperCluster K) (a : Int → Int) (combCluster : CombiningCluster K) (i j k : Nat)
    (hj : j ≠ 0) :
    (participateInProductionEntry psDim indexList s a combCluster).coefs i j k
      = combCluster.coefs i j k := by
  rw [participateInProductionEntry_coefs]
  simp [hj]

theorem participateInProductionBatchEntry_fields (psDim : Nat) (indexList : Nat → Int)
    (s : PSISuperCluster K) (prInfos : List PendingProductionReactionInfo)
    (e : CombiningCluster K) :
    (participateInProductionBatchEntry psDim indexList s prInfos e).reaction = e.reaction
    ∧ (participateInProductionBatchEntry psDim indexList s prInfos e).first = e.first
    ∧ ∀ i j k, j ≠ 0 →
        (participateInProductionBatchEntry psDim indexList s prInfos e).coefs i j k
          = e.coefs i j k := by
  unfold participateInProductionBatchEntry
  apply forEach_invariant (fun (x : CombiningCluster K) =>
    x.reaction = e.reaction ∧ x.first = e.first
      ∧ ∀ i j k, j ≠ 0 → x.coefs i j k = e.coefs i j k)
  · intro st x h
    refine ⟨h.1, h.2.1, ?_⟩
    intro i j k hj
    rw [← h.2.2 i j k hj]
    exact participateInProductionEntry_frame psDim indexList s x.b st i j k hj
  · exact ⟨rfl, rfl, fun _ _ _ _ => rfl⟩

/-- An entry touched only by combining updates keeps the partner it was created for and
has a zero coefficient wherever the partner index is nonzero. -/
theorem BuiltByCombiningUpdates.spec (psDim : Nat) (indexList : Nat → Int)
    (s : PSISuperCluster K) (reaction : ProductionReaction K) (other : PSICluster K)
    (e : CombiningCluster K)
    (h : BuiltByCombiningUpdates psDim indexList s reaction other e) :
    e.reaction = reaction ∧ e.first = other ∧ ∀ i j k, j ≠ 0 → e.coefs i j k = 0 := by
  induction h with
  | created => exact ⟨rfl, rfl, fun _ _ _ _ => rfl⟩
  | explicit a e _ ih =>
    refine ⟨ih.1, ih.2.1, ?_⟩
    intro i j k hj
    rw [participateInProductionEntry_frame psDim indexList s a e i j k hj]
    exact ih.2.2 i j k hj
  | batch prInfos e _ ih =>
    obtain ⟨h1, h2, h3⟩ := participateInProductionBatchEntry_fields psDim indexList s prInfos e
    refine ⟨h1.trans ih.1, h2.trans ih.2.1, ?_⟩
    intro i j k hj
    rw [h3 i j k hj]
    exact ih.2.2 i j k hj

/-- When the tensor vanishes off partner index 0, the contraction of the combination flux
reads the partner's state only at position 0. -/
theorem combinationSum_of_partner_zero (psDim : Nat) (coefs : Nat → Nat → Nat → K)
    (lA lB lB2 : Nat → K) (k : Nat) (hz : ∀ i j k, j ≠ 0 → coefs i j k = 0)
    (h0 : lB 0 = lB2 0) :
    combinationSum psDim coefs lA lB k = combinationSum psDim coefs lA lB2 k := by
  rw [combinationSum_apply, combinationSum_apply]
  split
  · apply Finset.sum_congr rfl
    intro j _
    apply Finset.sum_congr rfl
    intro i _
    by_cases hj : j = 0
    · subst hj
      rw [h0]
    · rw [hz i j k hj]
      simp
  · rfl

theorem getCombinationFluxBody_partner (psDim : Nat) (indexList : Nat → Int)
    (s : PSISuperCluster K) (concs : Int → K) (xi : Nat) (fl : Flux K)
    (e : CombiningCluster K) (partner : PSICluster K)
    (hz : ∀ i j k, j ≠ 0 → e.coefs i j k = 0)
    (hc : partner.getConcentration concs = e.first.getConcentration concs) :
    getCombinationFluxBody psDim indexList s concs xi fl { e with first := partner }
      = getCombinationFluxBody psDim indexList s concs xi fl e := by
  have key : ∀ k, combinationSum psDim e.coefs (gatherMoments psDim indexList s.self concs)
        (gatherMoments psDim indexList partner concs) k
      = combinationSum psDim e.coefs (gatherMoments psDim indexList s.self concs)
        (gatherMoments psDim indexList e.first concs) k := by
    intro k
    apply combinationSum_of_partner_zero psDim e.coefs _ _ _ k hz
    rw [gatherMoments_apply, gatherMoments_apply]
    simp [hc]
  apply Flux.eq_of_fields
  · rw [getCombinationFluxBody_flux, getCombinationFluxBody_flux]
    simp only [key]
  · intro a
    rw [getCombinationFluxBody_momentFlux, getCombinationFluxBody_momentFlux]
    simp only [key]

/-! ## Direct-index Jacobian assembly against the general path (claims C32, C33) -/

theorem forEachM_eq_some {α σ : Type} (l : List α) (body : σ → α → Option σ)
    (body2 : σ → α → σ) (h : ∀ st x, x ∈ l → body st x = some (body2 st x)) (init : σ) :
    forEachM l body init = some (forEach l body2 init) := by
  unfold forEachM forEach
  induction l generalizing init with
  | nil => rfl
  | cons p l ih =>
    simp only [List.foldlM_cons, List.foldl_cons, h init p (List.mem_cons_self p l),
      Option.bind_eq_bind, Option.some_bind]
    exact ih (fun st x hx => h st x (List.mem_cons_of_mem p hx)) _

theorem forEach_comm_map {α σ τ : Type} (f : σ → τ) (l : List α) (body : σ → α → σ)
    (body2 : τ → α → τ) (h : ∀ st x, f (body st x) = body2 (f st) x) (init : σ) :
    f (forEach l body init) = forEach l body2 (f init) := by
  unfold forEach
  induction l generalizing init with
  | nil => rfl
  | cons p l ih => simp only [List.foldl_cons, ih, h]

/-- With the identity index map the general production body performs the loops of
`computeProdPartials2` with the columns `stateIndex`. -/
theorem computeProductionPartialDerivativesBody_identity (psDim : Nat) (indexList : Nat → Int)
    (s : PSISuperCluster K) (concs : Int → K) (xi : Nat) (partials : Nat → Int → K)
    (p : ProductionPair K) :
    computeProductionPartialDerivativesBody psDim indexList s concs xi (fun _ idx => some idx)
        partials p
      = some (forLoop 0 psDim (fun j partials =>
          forLoop 0 psDim (fun i partials =>
            addPartial
              (addPartial partials i (stateIndex indexList p.first j)
                (p.reaction.kConstant xi / (s.nTot : K)
                  * productionPartialSums psDim p.coefs
                      (gatherMoments psDim indexList p.first concs)
                      (gatherMoments psDim indexList p.second concs) i j 0))
              i (stateIndex indexList p.second j)
              (p.reaction.kConstant xi / (s.nTot : K)
                * productionPartialSums psDim p.coefs
                    (gatherMoments psDim indexList p.first concs)
                    (gatherMoments psDim indexList p.second concs) i j 1)) partials)
          partials) := by
  unfold computeProductionPartialDerivativesBody
  exact forLoopM_eq_some 0 psDim _ _ (fun j _ _ st => rfl) partials

theorem computeCombinationPartialDerivativesBody_identity (psDim : Nat)
    (indexList : Nat → Int) (s : PSISuperCluster K) (concs : Int → K) (xi : Nat)
    (partials : Nat → Int → K) (p : CombiningCluster K) :
    computeCombinationPartialDerivativesBody psDim indexList s concs xi
        (fun _ idx => some idx) partials p
      = some (computeCombPartials2Body psDim indexList s concs xi partials p) := by
  unfold computeCombinationPartialDerivativesBody computeCombPartials2Body
  exact forLoopM_eq_some 0 psDim _ _ (fun j _ _ st => rfl) partials

theorem computeDissociationPartialDerivativesBody_identity (psDim : Nat)
    (indexList : Nat → Int) (s : PSISuperCluster K) (xi : Nat)
    (partials : Nat → Int → K) (p : DissociationPair K) :
    computeDissociationPartialDerivativesBody psDim indexList s xi
        (fun _ idx => some idx) partials p
      = some (computeDissPartials2Body psDim indexList s xi partials p) := by
  unfold computeDissociationPartialDerivativesBody computeDissPartials2Body
  exact forLoopM_eq_some 0 psDim _ _ (fun j _ _ st => rfl) partials

theorem computeEmissionPartialDerivativesBody_identity (psDim : Nat)
    (indexList : Nat → Int) (s : PSISuperCluster K) (xi : Nat)
    (partials : Nat → Int → K) (p : DissociationPair K) :
    computeEmissionPartialDerivativesBody psDim indexList s xi
        (fun _ idx => some idx) partials p
      = some (computeEmitPartials2Body psDim indexList s xi partials p) := by
  unfold computeEmissionPartialDerivativesBody computeEmitPartials2Body
  exact forLoopM_eq_some 0 psDim _ _ (fun j _ _ st => rfl) partials

theorem forLoop_congr {σ : Type} (lo hi : Nat) (body1 body2 : Nat → σ → σ)
    (h : ∀ i, lo ≤ i → i < hi → ∀ st, body1 i st = body2 i st) (init : σ) :
    forLoop lo hi body1 init = forLoop lo hi body2 init := by
  induction hi with
  | zero => rw [forLoop_of_le lo 0 (Nat.zero_le lo), forLoop_of_le lo 0 (Nat.zero_le lo)]
  | succ n ih =>
    by_cases hn : lo ≤ n
    · rw [forLoop_succ lo n hn, forLoop_succ lo n hn,
        ih (fun i h1 h2 st => h i h1 (by omega) st)]
      exact h n hn (by omega) _
    · rw [forLoop_of_le lo (n + 1) (by omega), forLoop_of_le lo (n + 1) (by omega)]

/-- For `psDim ≤ 1` only `j = 0` is visited, where both production assemblers write the
columns `getId() - 1`. -/
theorem computeProdPartials2Body_of_le_one (psDim : Nat) (hp : psDim ≤ 1) (indexList : Nat → Int)
    (s : PSISuperCluster K) (concs : Int → K) (xi : Nat) (partials : Nat → Int → K)
    (p : ProductionPair K) :
    computeProductionPartialDerivativesBody psDim indexList s concs xi (fun _ idx => some idx)
        partials p
      = some (computeProdPartials2Body psDim indexList s concs xi partials p) := by
  rw [computeProductionPartialDerivativesBody_identity]
  unfold computeProdPartials2Body
  congr 1
  apply forLoop_congr
  intro j _ hj st
  have hj0 : j = 0 := by omega
  subst hj0
  rfl

theorem twoSlotLoops_direct (psDim : Nat) (idxA idxB : Nat → Int) (v0 v1 : Nat → Nat → K)
    (partials : Nat → Int → K) (x : Nat) (y : Int) :
    forLoop 0 psDim (fun j partials =>
        forLoop 0 psDim (fun i partials =>
          addPartial (addPartial partials i (idxA j) (v0 i j)) i (idxB j) (v1 i j)) partials)
        partials x y
      = partials x y
          + ∑ j ∈ Finset.range psDim, ∑ i ∈ Finset.range psDim,
              ((if x = i ∧ y = idxA j then v0 i j else 0)
                + (if x = i ∧ y = idxB j then v1 i j else 0)) := by
  obtain ⟨partials2, h1, h2⟩ := twoSlotLoops_apply psDim (fun _ idx => some idx) idxA idxB
    idxA idxB (fun _ _ => rfl) (fun _ _ => rfl) v0 v1 partials
  rw [forLoopM_eq_some 0 psDim _ (fun j partials =>
        forLoop 0 psDim (fun i partials =>
          addPartial (addPartial partials i (idxA j) (v0 i j)) i (idxB j) (v1 i j)) partials)
      (fun j _ _ st => rfl) partials] at h1
  rw [Option.some.inj h1]
  exact h2 x y

theorem sampleProduction_general_columns (y : Int) :
    (computeProductionPartialDerivatives 2 (fun i => (i : Int)) (sampleNetworkState ℚ)
        (fun _ => 1) 0 (fun _ idx => some idx) (fun _ _ => 0)).map (fun g => g 0 y)
      = some (if y = 5 ∨ y = 10 ∨ y = 6 ∨ y = 11 then 1 else 0) := by
  unfold computeProductionPartialDerivatives
  rw [forEachM_eq_some _ _ _ (fun st x _ =>
    computeProductionPartialDerivativesBody_identity 2 _ _ _ 0 st x)]
  simp only [Option.map, sampleNetworkState, forEach, List.foldl_cons, List.foldl_nil]
  rw [twoSlotLoops_direct]
  have hs : ∀ k j, k < 2 → j < 2 → ∀ (lA lB : Nat → ℚ),
      productionPartialSums 2 (fun _ _ _ => (1 : ℚ)) lA lB k j 0 = lB 0 + lB 1
      ∧ productionPartialSums 2 (fun _ _ _ => (1 : ℚ)) lA lB k j 1 = lA 0 + lA 1 := by
    intro k j hk hj lA lB
    have h := productionPartialSums_apply 2 (fun _ _ _ => (1 : ℚ)) lA lB k j hk hj
    simpa [Finset.sum_range_succ] using h
  simp only [Finset.sum_range_succ, Finset.sum_range_zero, zero_add,
    (hs 0 0 (by decide) (by decide) _ _).1, (hs 0 0 (by decide) (by decide) _ _).2,
    (hs 0 1 (by decide) (by decide) _ _).1, (hs 0 1 (by decide) (by decide) _ _).2,
    (hs 1 0 (by decide) (by decide) _ _).1, (hs 1 0 (by decide) (by decide) _ _).2,
    (hs 1 1 (by decide) (by decide) _ _).1, (hs 1 1 (by decide) (by decide) _ _).2,
    gatherMoments_apply]
  simp only [stateIndex, sampleProduction, sampleSuper, sampleCluster]
  have e : (1 : ℚ) / ((2 : Int) : ℚ) * (1 + 1) = 1 := by norm_num
  simp [e]
  split_ifs <;> first | omega | norm_num

theorem sampleProduction_direct_columns (y : Int) :
    computeProdPartials2 2 (fun i => (i : Int)) (sampleNetworkState ℚ) (fun _ => 1) 0
        (fun _ _ => 0) 0 y
      = if y = 5 ∨ y = 10 ∨ y = 7 ∨ y = 12 then 1 else 0 := by
  unfold computeProdPartials2
  simp only [sampleNetworkState, forEach, List.foldl_cons, List.foldl_nil]
  unfold computeProdPartials2Body
  rw [twoSlotLoops_direct]
  have hs : ∀ k j, k < 2 → j < 2 → ∀ (lA lB : Nat → ℚ),
      productionPartialSums 2 (fun _ _ _ => (1 : ℚ)) lA lB k j 0 = lB 0 + lB 1
      ∧ productionPartialSums 2 (fun _ _ _ => (1 : ℚ)) lA lB k j 1 = lA 0 + lA 1 := by
    intro k j hk hj lA lB
    have h := productionPartialSums_apply 2 (fun _ _ _ => (1 : ℚ)) lA lB k j hk hj
    simpa [Finset.sum_range_succ] using h
  simp only [Finset.sum_range_succ, Finset.sum_range_zero, zero_add,
    (hs 0 0 (by decide) (by decide) _ _).1, (hs 0 0 (by decide) (by decide) _ _).2,
    (hs 0 1 (by decide) (by decide) _ _).1, (hs 0 1 (by decide) (by decide) _ _).2,
    (hs 1 0 (by decide) (by decide) _ _).1, (hs 1 0 (by decide) (by decide) _ _).2,
    (hs 1 1 (by decide) (by decide) _ _).1, (hs 1 1 (by decide) (by decide) _ _).2,
    gatherMoments_apply]
  simp only [sampleProduction, sampleSuper, sampleCluster]
  have e : (1 : ℚ) / ((2 : Int) : ℚ) * (1 + 1) = 1 := by norm_num
  simp [e]
  split_ifs <;> first | omega | norm_num

/-- C32: with the caller's index map taken as the identity, `computeCombPartials2`,
`computeDissPartials2` and `computeEmitPartials2` accumulate the same values into the same
columns as the general path for every `psDim`, and `computeProdPartials2` does so for
`psDim ≤ 1`; for `j ≥ 1` `computeProdPartials2` writes the column
`getMomentId(indexList[j] - 1)` where the general path writes
`getMomentId(indexList[j] - 1) - 1`.  For the sample reacting pair (ids 6 and 11, moment
ids 7 and 12 on axis 0) at `psDim = 2` the general path fills columns 5, 10, 6, 11 of row
0 and `computeProdPartials2` fills columns 5, 10, 7, 12. -/
theorem partials2_against_general (psDim : Nat) (indexList : Nat → Int)
    (s : PSISuperCluster K) (concs : Int → K) (xi : Nat) (partials : Nat → Int → K) :
    computeCombinationPartialDerivatives psDim indexList s concs xi (fun _ idx => some idx)
        partials = some (computeCombPartials2 psDim indexList s concs xi partials)
    ∧ computeDissociationPartialDerivatives psDim indexList s xi (fun _ idx => some idx)
        partials = some (computeDissPartials2 psDim indexList s xi partials)
    ∧ computeEmissionPartialDerivatives psDim indexList s xi (fun _ idx => some idx)
        partials = some (computeEmitPartials2 psDim indexList s xi partials)
    ∧ (psDim ≤ 1 →
      computeProductionPartialDerivatives psDim indexList s concs xi (fun _ idx => some idx)
        partials = some (computeProdPartials2 psDim indexList s concs xi partials))
    ∧ (∀ y : Int,
      (computeProductionPartialDerivatives 2 (fun i => (i : Int)) (sampleNetworkState ℚ)
          (fun _ => 1) 0 (fun _ idx => some idx) (fun _ _ => 0)).map (fun g => g 0 y)
        = some (if y = 5 ∨ y = 10 ∨ y = 6 ∨ y = 11 then 1 else 0))
    ∧ (∀ y : Int,
      computeProdPartials2 2 (fun i => (i : Int)) (sampleNetworkState ℚ) (fun _ => 1) 0
          (fun _ _ => 0) 0 y
        = if y = 5 ∨ y = 10 ∨ y = 7 ∨ y = 12 then 1 else 0) := by
  refine ⟨?_, ?_, ?_, ?_, sampleProduction_general_columns, sampleProduction_direct_columns⟩
  · exact forEachM_eq_some _ _ _ (fun st x _ =>
      computeCombinationPartialDerivativesBody_identity psDim indexList s concs xi st x) partials
  · exact forEachM_eq_some _ _ _ (fun st x _ =>
      computeDissociationPartialDerivativesBody_identity psDim indexList s xi st x) partials
  · exact forEachM_eq_some _ _ _ (fun st x _ =>
      computeEmissionPartialDerivativesBody_identity psDim indexList s xi st x) partials
  · intro hp
    exact forEachM_eq_some _ _ _ (fun st x _ =>
      computeProdPartials2Body_of_le_one psDim hp indexList s concs xi st x) partials

theorem addPartial_same (partials : Nat → Int → K) (i : Nat) (idx : Int) (v : K) :
    addPartial partials i idx v i = addAt (partials i) idx v := by
  unfold addPartial
  simp

theorem subPartial_same (partials : Nat → Int → K) (i : Nat) (idx : Int) (v : K) :
    subPartial partials i idx v i = subAt (partials i) idx v := by
  unfold subPartial
  simp

theorem forLoop_zero_one {σ : Type} (body : Nat → σ → σ) (init : σ) :
    forLoop 0 1 body init = body 0 init := by
  rw [forLoop_succ 0 0 (le_refl 0), forLoop_of_le 0 0 (le_refl 0)]

theorem computeProdPartials2Body_one (indexList : Nat → Int) (s : PSISuperCluster K)
    (concs : Int → K) (xi : Nat) (partials : Nat → Int → K) (p : ProductionPair K) :
    computeProdPartials2Body 1 indexList s concs xi partials p 0
      = addAt (addAt (partials 0) (p.first.id - 1)
            (p.reaction.kConstant xi / (s.nTot : K)
              * (p.coefs 0 0 0 * p.second.getConcentration concs)))
          (p.second.id - 1)
          (p.reaction.kConstant xi / (s.nTot : K)
            * (p.coefs 0 0 0 * p.first.getConcentration concs)) := by
  unfold computeProdPartials2Body
  simp only [forLoop_zero_one, if_true, addPartial_same,
    (productionPartialSums_apply 1 _ _ _ 0 0 (by decide) (by decide)).1,
    (productionPartialSums_apply 1 _ _ _ 0 0 (by decide) (by decide)).2,
    Finset.sum_range_one, gatherMoments_apply]

theorem computeCombPartials2Body_one (indexList : Nat → Int) (s : PSISuperCluster K)
    (concs : Int → K) (xi : Nat) (partials : Nat → Int → K) (p : CombiningCluster K) :
    computeCombPartials2Body 1 indexList s concs xi partials p 0
      = subAt (subAt (partials 0) (p.first.id - 1)
            (p.reaction.kConstant xi / (s.nTot : K)
              * (p.coefs 0 0 0 * s.self.getConcentration concs)))
          (s.self.id - 1)
          (p.reaction.kConstant xi / (s.nTot : K)
            * (p.coefs 0 0 0 * p.first.getConcentration concs)) := by
  unfold computeCombPartials2Body
  simp only [forLoop_zero_one, if_true, subPartial_same,
    (combinationPartialSums_apply 1 _ _ _ 0 0 (by decide) (by decide)).1,
    (combinationPartialSums_apply 1 _ _ _ 0 0 (by decide) (by decide)).2,
    Finset.sum_range_one, gatherMoments_apply]

theorem computeDissPartials2Body_one (indexList : Nat → Int) (s : PSISuperCluster K)
    (xi : Nat) (partials : Nat → Int → K) (p : DissociationPair K) :
    computeDissPartials2Body 1 indexList s xi partials p 0
      = addAt (partials 0) (p.first.id - 1)
          (p.reaction.kConstant xi / (s.nTot : K) * p.coefs 0 0) := by
  unfold computeDissPartials2Body
  simp only [forLoop_zero_one, if_true, addPartial_same]

theorem computeEmitPartials2Body_one (indexList : Nat → Int) (s : PSISuperCluster K)
    (xi : Nat) (partials : Nat → Int → K) (p : DissociationPair K) :
    computeEmitPartials2Body 1 indexList s xi partials p 0
      = subAt (partials 0) (s.self.id - 1)
          (p.reaction.kConstant xi / (s.nTot : K) * p.coefs 0 0) := by
  unfold computeEmitPartials2Body
  simp only [forLoop_zero_one, if_true, subPartial_same]

/-- C33: when `psDim == 1` and the reduced lists mirror the full lists (same reaction and
clusters, `coeff0` equal to the `[0][0][0]` / `[0][0]` coefficient),
`computeProdPartials0`, `computeCombPartials0`, `computeDissPartials0` and
`computeEmitPartials0` turn the row `partials[0]` into exactly the row 0 that
`computeProdPartials2`, `computeCombPartials2`, `computeDissPartials2` and
`computeEmitPartials2` produce, for every global index, grid index and concentration
vector. -/
theorem zerothMoment_partials_eq (indexList : Nat → Int) (s : PSISuperCluster K)
    (concs : Int → K) (xi : Nat) (partials : Nat → Int → K)
    (hR : s.effReactingList0 = s.effReactingList.map ProductionPair0.ofPair)
    (hC : s.effCombiningList0 = s.effCombiningList.map CombiningCluster0.ofCluster)
    (hD : s.effDissociatingList0 = s.effDissociatingList.map DissociationPair0.ofPair)
    (hE : s.effEmissionList0 = s.effEmissionList.map DissociationPair0.ofPair) :
    (∀ g : Int, computeProdPartials0 s concs xi (partials 0) g
        = computeProdPartials2 1 indexList s concs xi partials 0 g)
    ∧ (∀ g : Int, computeCombPartials0 s concs xi (partials 0) g
        = computeCombPartials2 1 indexList s concs xi partials 0 g)
    ∧ (∀ g : Int, computeDissPartials0 s xi (partials 0) g
        = computeDissPartials2 1 indexList s xi partials 0 g)
    ∧ (∀ g : Int, computeEmitPartials0 s xi (partials 0) g
        = computeEmitPartials2 1 indexList s xi partials 0 g) := by
  refine ⟨?_, ?_, ?_, ?_⟩
  · intro g
    unfold computeProdPartials0 computeProdPartials2
    rw [hR, forEach_map,
      forEach_comm_map (fun (p : Nat → Int → K) => p 0) s.effReactingList
        (computeProdPartials2Body 1 indexList s concs xi)
        (fun row p => addAt (addAt row (p.first.id - 1)
            (p.reaction.kConstant xi / (s.nTot : K)
              * (p.coefs 0 0 0 * p.second.getConcentration concs)))
          (p.second.id - 1)
          (p.reaction.kConstant xi / (s.nTot : K)
            * (p.coefs 0 0 0 * p.first.getConcentration concs)))
        (fun st x => computeProdPartials2Body_one indexList s concs xi st x)]
    rfl
  · intro g
    unfold computeCombPartials0 computeCombPartials2
    rw [hC, forEach_map,
      forEach_comm_map (fun (p : Nat → Int → K) => p 0) s.effCombiningList
        (computeCombPartials2Body 1 indexList s concs xi)
        (fun row p => subAt (subAt row (p.first.id - 1)
            (p.reaction.kConstant xi / (s.nTot : K)
              * (p.coefs 0 0 0 * s.self.getConcentration concs)))
          (s.self.id - 1)
          (p.reaction.kConstant xi / (s.nTot : K)
            * (p.coefs 0 0 0 * p.first.getConcentration concs)))
        (fun st x => computeCombPartials2Body_one indexList s concs xi st x)]
    rfl
  · intro g
    unfold computeDissPartials0 computeDissPartials2
    rw [hD, forEach_map,
      forEach_comm_map (fun (p : Nat → Int → K) => p 0) s.effDissociatingList
        (computeDissPartials2Body 1 indexList s xi)
        (fun row p => addAt row (p.first.id - 1)
          (p.reaction.kConstant xi / (s.nTot : K) * p.coefs 0 0))
        (fun st x => computeDissPartials2Body_one indexList s xi st x)]
    rfl
  · intro g
    unfold computeEmitPartials0 computeEmitPartials2
    rw [hE, forEach_map,
      forEach_comm_map (fun (p : Nat → Int → K) => p 0) s.effEmissionList
        (computeEmitPartials2Body 1 indexList s xi)
        (fun row p => subAt row (s.self.id - 1)
          (p.reaction.kConstant xi / (s.nTot : K) * p.coefs 0 0))
        (fun st x => computeEmitPartials2Body_one indexList s xi st x)]
    rfl

theorem zerothMoment_partials_eq_witness :
    ((useZerothMomentSpecializations (sampleNetworkState ℚ)).effReactingList0
        = (useZerothMomentSpecializations (sampleNetworkState ℚ)).effReactingList.map
            ProductionPair0.ofPair
      ∧ (useZerothMomentSpecializations (sampleNetworkState ℚ)).effCombiningList0
        = (useZerothMomentSpecializations (sampleNetworkState ℚ)).effCombiningList.map
            CombiningCluster0.ofCluster
      ∧ (useZerothMomentSpecializations (sampleNetworkState ℚ)).effDissociatingList0
        = (useZerothMomentSpecializations (sampleNetworkState ℚ)).effDissociatingList.map
            DissociationPair0.ofPair
      ∧ (useZerothMomentSpecializations (sampleNetworkState ℚ)).effEmissionList0
        = (useZerothMomentSpecializations (sampleNetworkState ℚ)).effEmissionList.map
            DissociationPair0.ofPair)
    ∧ (∀ g : Int,
        computeProdPartials0 (useZerothMomentSpecializations (sampleNetworkState ℚ))
            (fun _ => 1) 0 (fun _ => 0) g
          = computeProdPartials2 1 (fun i => (i : Int))
              (useZerothMomentSpecializations (sampleNetworkState ℚ)) (fun _ => 1) 0
              (fun _ _ => 0) 0 g) :=
  ⟨⟨rfl, rfl, rfl, rfl⟩, (zerothMoment_partials_eq (fun i => (i : Int))
    (useZerothMomentSpecializations (sampleNetworkState ℚ)) (fun _ => 1) 0 (fun _ _ => 0)
    rfl rfl rfl rfl).1⟩

/-! ## Integrated concentrations (claim C39) -/

/-- The concentration of one member as the integrated-concentration loops evaluate it. -/
theorem getTotalConcentration_eq (getConcentration : (Int → K) → K → K → K → K → K)
    (s : PSISuperCluster K) (concs : Int → K) :
    getTotalConcentration getConcentration s concs
      = (s.heVList.map (fun pair =>
          getConcentration concs (s.self.getDistance (tupleGet pair 0) 0)
            (s.self.getDistance (tupleGet pair 1) 1) (s.self.getDistance (tupleGet pair 2) 2)
            (s.self.getDistance (tupleGet pair 3) 3))).sum := by
  unfold getTotalConcentration
  rw [forEach_add_read (fun x : K => x) s.heVList _ _ (fun st x => rfl) 0, zero_add]

theorem getTotalAtomConcHelper_eq (getConcentration : (Int → K) → K → K → K → K → K)
    (axis : Nat) (s : PSISuperCluster K) (concs : Int → K) :
    getTotalAtomConcHelper getConcentration axis s concs
      = (s.heVList.map (fun pair =>
          getConcentration concs (s.self.getDistance (tupleGet pair 0) 0)
            (s.self.getDistance (tupleGet pair 1) 1) (s.self.getDistance (tupleGet pair 2) 2)
            (s.self.getDistance (tupleGet pair 3) 3) * ((tupleGet pair axis : Int) : K))).sum
    := by
  unfold getTotalAtomConcHelper
  rw [forEach_add_read (fun x : K => x) s.heVList _ _ (fun st x => rfl) 0, zero_add]

theorem getIntegratedVConcentration_eq (getConcentration : (Int → K) → K → K → K → K → K)
    (s : PSISuperCluster K) (concs : Int → K) (v : Int) :
    getIntegratedVConcentration getConcentration s concs v
      = (s.heVList.map (fun pair =>
          if tupleGet pair 3 = v then
            getConcentration concs (s.self.getDistance (tupleGet pair 0) 0)
              (s.self.getDistance (tupleGet pair 1) 1) (s.self.getDistance (tupleGet pair 2) 2)
              (s.self.getDistance (tupleGet pair 3) 3)
          else 0)).sum := by
  unfold getIntegratedVConcentration
  rw [forEach_add_read (fun x : K => x) s.heVList _ _ _ 0, zero_add]
  intro st x
  by_cases h : tupleGet x 3 = v
  · simp [h]
  · simp [h]

theorem finset_sum_list_sum {α ι : Type} (S : Finset ι) (l : List α) (f : ι → α → K) :
    ∑ v ∈ S, (l.map (f v)).sum = (l.map (fun p => ∑ v ∈ S, f v p)).sum := by
  induction l with
  | nil => simp
  | cons p l ih => simp only [List.map_cons, List.sum_cons, Finset.sum_add_distrib, ih]

/-- Grouping a sum over the members by the value of a key. -/
theorem list_sum_group_by {α : Type} (l : List α) (key : α → Int) (c : α → K) (w : Int → K) :
    ∑ v ∈ (l.map key).toFinset, w v * (l.map (fun p => if key p = v then c p else 0)).sum
      = (l.map (fun p => w (key p) * c p)).sum := by
  have e : ∀ v : Int, w v * (l.map (fun p => if key p = v then c p else 0)).sum
      = (l.map (fun p => if key p = v then w v * c p else 0)).sum := by
    intro v
    rw [← List.sum_map_mul_left]
    apply congrArg
    apply List.map_congr_left
    intro p _
    split <;> simp
  simp only [e]
  rw [finset_sum_list_sum]
  apply congrArg
  apply List.map_congr_left
  intro p hp
  rw [Finset.sum_ite_eq]
  have hm : key p ∈ (l.map key).toFinset := by
    rw [List.mem_toFinset]
    exact List.mem_map_of_mem key hp
  simp [hm]

/-- C39: in exact arithmetic, for every membership list and concentration vector,
`getTotalConcentration` is the sum over the distinct vacancy values `v` occurring in
`heVList` of `getIntegratedVConcentration(concs, v)`, `getTotalVacancyConcentration` is
the sum over those `v` of `v * getIntegratedVConcentration(concs, v)`, and
`getIntegratedVConcentration` is 0 for a `v` that no member has. -/
theorem integrated_concentration_partition
    (getConcentration : (Int → K) → K → K → K → K → K) (s : PSISuperCluster K)
    (concs : Int → K) :
    getTotalConcentration getConcentration s concs
        = ∑ v ∈ (s.heVList.map (fun pair => tupleGet pair 3)).toFinset,
            getIntegratedVConcentration getConcentration s concs v
    ∧ getTotalVacancyConcentration getConcentration s concs
        = ∑ v ∈ (s.heVList.map (fun pair => tupleGet pair 3)).toFinset,
            (v : K) * getIntegratedVConcentration getConcentration s concs v
    ∧ ∀ v : Int, (∀ pair ∈ s.heVList, tupleGet pair 3 ≠ v) →
        getIntegratedVConcentration getConcentration s concs v = 0 := by
  refine ⟨?_, ?_, ?_⟩
  · rw [getTotalConcentration_eq]
    simp only [getIntegratedVConcentration_eq]
    have h := list_sum_group_by s.heVList (fun pair => tupleGet pair 3)
      (fun pair => getConcentration concs (s.self.getDistance (tupleGet pair 0) 0)
        (s.self.getDistance (tupleGet pair 1) 1) (s.self.getDistance (tupleGet pair 2) 2)
        (s.self.getDistance (tupleGet pair 3) 3)) (fun _ => 1)
    simp only [one_mul] at h
    exact h.symm
  · unfold getTotalVacancyConcentration
    rw [getTotalAtomConcHelper_eq]
    simp only [getIntegratedVConcentration_eq]
    have h := list_sum_group_by s.heVList (fun pair => tupleGet pair 3)
      (fun pair => getConcentration concs (s.self.getDistance (tupleGet pair 0) 0)
        (s.self.getDistance (tupleGet pair 1) 1) (s.self.getDistance (tupleGet pair 2) 2)
        (s.self.getDistance (tupleGet pair 3) 3)) (fun v => (v : K))
    rw [h]
    apply congrArg
    apply List.map_congr_left
    intro p _
    exact mul_comm _ _
  · intro v hv
    rw [getIntegratedVConcentration_eq]
    have e : s.heVList.map (fun pair =>
          if tupleGet pair 3 = v then
            getConcentration concs (s.self.getDistance (tupleGet pair 0) 0)
              (s.self.getDistance (tupleGet pair 1) 1) (s.self.getDistance (tupleGet pair 2) 2)
              (s.self.getDistance (tupleGet pair 3) 3)
          else 0) = s.heVList.map (fun _ => (0 : K)) := by
      apply List.map_congr_left
      intro p hp
      simp [hv p hp]
    rw [e]
    simp

/-! ## Overlap-region derivations: which axis the arrays are read at (claim C31) -/

theorem forLoop_add_read_from {σ : Type} (read : σ → K) (lo hi : Nat) (body : Nat → σ → σ)
    (F : Nat → K) (h : ∀ i st, lo ≤ i → i < hi → read (body i st) = read st + F i)
    (init : σ) :
    read (forLoop lo hi body init) = read init + ∑ i ∈ Finset.Ico lo hi, F i := by
  induction hi with
  | zero => simp [forLoop_of_le lo 0 (Nat.zero_le lo)]
  | succ n ih =>
    by_cases hn : lo ≤ n
    · rw [forLoop_succ lo n hn, h n _ hn (by omega),
        ih (fun i st h1 h2 => h i st h1 (by omega)), Finset.sum_Ico_succ_top hn, add_assoc]
    · rw [forLoop_of_le lo (n + 1) (by omega), Finset.Ico_eq_empty (by omega)]
      simp

theorem sum_Ico_ite_eq (lo hi i : Nat) (h1 : lo ≤ i) (h2 : i < hi) (v : Nat → K) :
    ∑ x ∈ Finset.Ico lo hi, (if x = i then v x else 0) = v i := by
  rw [Finset.sum_ite_eq']
  simp [h1, h2]

theorem resultFromOverlapCoefs_first (sums : MomentSums K) (psDim : Nat)
    (indexList : Nat → Int) (s : PSISuperCluster K) (o : OverlapRegion)
    (prodPair : ProductionPair K) (i : Nat) (h1 : 1 ≤ i) (h2 : i < psDim) :
    (resultFromOverlapCoefs sums psDim indexList s o prodPair).coefs 0 0 i
      = prodPair.coefs 0 0 i
        + ((o.nOverlap : K) / (s.dispersion (indexList i - 1) * (o.width (i - 1) : K)))
          * sums.firstOrderSum
              (max (o.lo (i - 1)) (o.r1Lo (i - 1) + o.singleComp (i - 1)))
              (min (o.hi (i - 1)) (o.r1Hi (i - 1) + o.singleComp (i - 1)))
              (s.numAtom (indexList i - 1)) := by
  unfold resultFromOverlapCoefs
  have hi0 : ¬ (i = 0) := by omega
  rw [forLoop_add_read_from (fun (pp : ProductionPair K) => pp.coefs 0 0 i) 1 psDim _
    (fun x => if x = i then
      ((o.nOverlap : K) / (s.dispersion (indexList x - 1) * (o.width (x - 1) : K)))
          * sums.firstOrderSum
              (max (o.lo (x - 1)) (o.r1Lo (x - 1) + o.singleComp (x - 1)))
              (min (o.hi (x - 1)) (o.r1Hi (x - 1) + o.singleComp (x - 1)))
              (s.numAtom (indexList x - 1)) else 0)]
  · rw [sum_Ico_ite_eq 1 psDim i h1 h2]
    simp [addAt3_apply, hi0]
  · intro x st hx1 _
    have hx0 : ¬ (0 = x) := by omega
    apply forLoop_invariant_from
      (fun (pp : ProductionPair K) => pp.coefs 0 0 i = st.coefs 0 0 i + _)
    · dsimp only
      by_cases hxi : x = i
      · subst hxi
        rw [if_pos rfl]
        split_ifs <;> simp [addAt3_apply, hx0]
      · have hix : ¬ (i = x) := fun h => hxi h.symm
        rw [if_neg hxi]
        split_ifs <;> simp [addAt3_apply, hx0, hix]
    · intro j st2 _ hP2
      refine Eq.trans ?_ hP2
      dsimp only
      split_ifs <;> simp [addAt3_apply, hx0]

theorem participateInProductionOverlapCoefs_first (sums : MomentSums K) (psDim : Nat)
    (indexList : Nat → Int) (s : PSISuperCluster K) (o : OverlapRegion)
    (combCluster : CombiningCluster K) (i : Nat) (h1 : 1 ≤ i) (h2 : i < psDim) :
    (participateInProductionOverlapCoefs sums psDim indexList s o combCluster).coefs 0 0 i
      = combCluster.coefs 0 0 i
        + ((o.nOverlap : K) / (s.dispersion (indexList i - 1) * (o.width (i - 1) : K)))
          * sums.firstOrderSum
              (max (o.lo (i - 1) - o.singleComp (i - 1)) (o.r1Lo (i - 1)))
              (min (o.hi (i - 1) - o.singleComp (i - 1)) (o.r1Hi (i - 1)))
              (s.numAtom (indexList i - 1)) := by
  unfold participateInProductionOverlapCoefs
  have hi0 : ¬ (i = 0) := by omega
  rw [forLoop_add_read_from (fun (pp : CombiningCluster K) => pp.coefs 0 0 i) 1 psDim _
    (fun x => if x = i then
      ((o.nOverlap : K) / (s.dispersion (indexList x - 1) * (o.width (x - 1) : K)))
          * sums.firstOrderSum
              (max (o.lo (x - 1) - o.singleComp (x - 1)) (o.r1Lo (x - 1)))
              (min (o.hi (x - 1) - o.singleComp (x - 1)) (o.r1Hi (x - 1)))
              (s.numAtom (indexList x - 1)) else 0)]
  · rw [sum_Ico_ite_eq 1 psDim i h1 h2]
    simp [addAt3_apply, hi0]
  · intro x st hx1 _
    have hx0 : ¬ (0 = x) := by omega
    unfold participateInProductionOverlapStep
    apply forLoop_invariant_from
      (fun (pp : CombiningCluster K) => pp.coefs 0 0 i = st.coefs 0 0 i + _)
    · dsimp only
      by_cases hxi : x = i
      · subst hxi
        rw [if_pos rfl]
        split_ifs <;> simp [addAt3_apply, hx0]
      · have hix : ¬ (i = x) := fun h => hxi h.symm
        rw [if_neg hxi]
        split_ifs <;> simp [addAt3_apply, hx0, hix]
    · intro j st2 _ hP2
      refine Eq.trans ?_ hP2
      dsimp only
      split_ifs <;> simp [addAt3_apply, hx0]

theorem participateInDissociationOverlapCoefs_first (sums : MomentSums K) (psDim : Nat)
    (indexList : Nat → Int) (s : PSISuperCluster K) (o : OverlapRegion)
    (dissPair : DissociationPair K) (i : Nat) (h1 : 1 ≤ i) (h2 : i < psDim) :
    (participateInDissociationOverlapCoefs sums psDim indexList s o dissPair).coefs 0 i
      = dissPair.coefs 0 i
        + ((o.nOverlap : K) / (s.dispersion (indexList i - 1) * (o.width (i - 1) : K)))
          * sums.firstOrderSum
              (max (o.lo (i - 1) - o.singleComp (i - 1)) (o.r1Lo (i - 1)))
              (min (o.hi (i - 1) - o.singleComp (i - 1)) (o.r1Hi (i - 1)))
              (s.numAtom (indexList i - 1)) := by
  unfold participateInDissociationOverlapCoefs
  have hi0 : ¬ (i = 0) := by omega
  rw [forLoop_add_read_from (fun (pp : DissociationPair K) => pp.coefs 0 i) 1 psDim _
    (fun x => if x = i then
      ((o.nOverlap : K) / (s.dispersion (indexList x - 1) * (o.width (x - 1) : K)))
          * sums.firstOrderSum
              (max (o.lo (x - 1) - o.singleComp (x - 1)) (o.r1Lo (x - 1)))
              (min (o.hi (x - 1) - o.singleComp (x - 1)) (o.r1Hi (x - 1)))
              (s.numAtom (indexList x - 1)) else 0)]
  · rw [sum_Ico_ite_eq 1 psDim i h1 h2]
    simp [addAt2_apply, hi0]
  · intro x st hx1 _
    have hx0 : ¬ (0 = x) := by omega
    apply forLoop_invariant_from
      (fun (pp : DissociationPair K) => pp.coefs 0 i = st.coefs 0 i + _)
    · dsimp only
      by_cases hxi : x = i
      · subst hxi
        rw [if_pos rfl]
        split_ifs <;> simp [addAt2_apply, hx0]
      · have hix : ¬ (i = x) := fun h => hxi h.symm
        rw [if_neg hxi]
        split_ifs <;> simp [addAt2_apply, hx0, hix]
    · intro j st2 _ hP2
      refine Eq.trans ?_ hP2
      dsimp only
      split_ifs <;> simp [addAt2_apply, hx0]

theorem emitFromOverlapCoefs_first (sums : MomentSums K) (psDim : Nat)
    (indexList : Nat → Int) (s : PSISuperCluster K) (o : OverlapRegion)
    (dissPair : DissociationPair K) (i : Nat) (h1 : 1 ≤ i) (h2 : i < psDim) :
    (emitFromOverlapCoefs sums psDim indexList s o dissPair).coefs 0 i
      = dissPair.coefs 0 i
        + ((o.nOverlap : K) / (s.dispersion (indexList i - 1) * (o.width (i - 1) : K)))
          * sums.firstOrderSum
              (max (o.lo (i - 1)) (o.r1Lo (i - 1) + o.singleComp (i - 1)))
              (min (o.hi (i - 1)) (o.r1Hi (i - 1) + o.singleComp (i - 1)))
              (s.numAtom (indexList i - 1)) := by
  unfold emitFromOverlapCoefs
  have hi0 : ¬ (i = 0) := by omega
  rw [forLoop_add_read_from (fun (pp : DissociationPair K) => pp.coefs 0 i) 1 psDim _
    (fun x => if x = i then
      ((o.nOverlap : K) / (s.dispersion (indexList x - 1) * (o.width (x - 1) : K)))
          * sums.firstOrderSum
              (max (o.lo (x - 1)) (o.r1Lo (x - 1) + o.singleComp (x - 1)))
              (min (o.hi (x - 1)) (o.r1Hi (x - 1) + o.singleComp (x - 1)))
              (s.numAtom (indexList x - 1)) else 0)]
  · rw [sum_Ico_ite_eq 1 psDim i h1 h2]
    simp [addAt2_apply, hi0]
  · intro x st hx1 _
    have hx0 : ¬ (0 = x) := by omega
    unfold emitFromOverlapStep
    apply forLoop_invariant_from
      (fun (pp : DissociationPair K) => pp.coefs 0 i = st.coefs 0 i + _)
    · dsimp only
      by_cases hxi : x = i
      · subst hxi
        rw [if_pos rfl]
        split_ifs <;> simp [addAt2_apply, hx0]
      · have hix : ¬ (i = x) := fun h => hxi h.symm
        rw [if_neg hxi]
        split_ifs <;> simp [addAt2_apply, hx0, hix]
    · intro j st2 _ hP2
      refine Eq.trans ?_ hP2
      dsimp only
      split_ifs <;> simp [addAt2_apply, hx0]

/-- C31: in each of the four overlap-region derivations the first-order coefficient of
expansion position `i` (`1 ≤ i < psDim`) is built from the overlap width and overlap
bounds stored at array position `i - 1`, together with the dispersion and mean of
composition axis `indexList[i] - 1`; the two agree only when `indexList[i] = i`.  In a
helium-vacancy network (`psDim = 3`, `indexList = {0, 1, 4}`) the coefficient of the
vacancy position 2 is computed from the width 1 and the range `0 .. 0` of the deuterium
axis, while the vacancy axis has overlap width 2 and overlap range `4 .. 5`. -/
theorem overlap_arrays_read_by_position (sums : MomentSums K) (psDim : Nat)
    (indexList : Nat → Int) (s : PSISuperCluster K) (o : OverlapRegion) :
    (∀ (prodPair : ProductionPair K) (i : Nat), 1 ≤ i → i < psDim →
      (resultFromOverlapCoefs sums psDim indexList s o prodPair).coefs 0 0 i
        = prodPair.coefs 0 0 i
          + ((o.nOverlap : K) / (s.dispersion (indexList i - 1) * (o.width (i - 1) : K)))
            * sums.firstOrderSum
                (max (o.lo (i - 1)) (o.r1Lo (i - 1) + o.singleComp (i - 1)))
                (min (o.hi (i - 1)) (o.r1Hi (i - 1) + o.singleComp (i - 1)))
                (s.numAtom (indexList i - 1)))
    ∧ (∀ (combCluster : CombiningCluster K) (i : Nat), 1 ≤ i → i < psDim →
      (participateInProductionOverlapCoefs sums psDim indexList s o combCluster).coefs 0 0 i
        = combCluster.coefs 0 0 i
          + ((o.nOverlap : K) / (s.dispersion (indexList i - 1) * (o.width (i - 1) : K)))
            * sums.firstOrderSum
                (max (o.lo (i - 1) - o.singleComp (i - 1)) (o.r1Lo (i - 1)))
                (min (o.hi (i - 1) - o.singleComp (i - 1)) (o.r1Hi (i - 1)))
                (s.numAtom (indexList i - 1)))
    ∧ (∀ (dissPair : DissociationPair K) (i : Nat), 1 ≤ i → i < psDim →
      (participateInDissociationOverlapCoefs sums psDim indexList s o dissPair).coefs 0 i
        = dissPair.coefs 0 i
          + ((o.nOverlap : K) / (s.dispersion (indexList i - 1) * (o.width (i - 1) : K)))
            * sums.firstOrderSum
                (max (o.lo (i - 1) - o.singleComp (i - 1)) (o.r1Lo (i - 1)))
                (min (o.hi (i - 1) - o.singleComp (i - 1)) (o.r1Hi (i - 1)))
                (s.numAtom (indexList i - 1)))
    ∧ (∀ (dissPair : DissociationPair K) (i : Nat), 1 ≤ i → i < psDim →
      (emitFromOverlapCoefs sums psDim indexList s o dissPair).coefs 0 i
        = dissPair.coefs 0 i
          + ((o.nOverlap : K) / (s.dispersion (indexList i - 1) * (o.width (i - 1) : K)))
            * sums.firstOrderSum
                (max (o.lo (i - 1)) (o.r1Lo (i - 1) + o.singleComp (i - 1)))
                (min (o.hi (i - 1)) (o.r1Hi (i - 1) + o.singleComp (i - 1)))
                (s.numAtom (indexList i - 1)))
    ∧ (∀ (rational : MomentSums ℚ) (combCluster : CombiningCluster ℚ),
      heVIndexList 2 - 1 = 3
      ∧ (sampleHeVGroup ℚ).sectionWidth 3 = 2
      ∧ (participateInProductionOverlap (sampleHeVGroup ℚ) (sampleHeVCombination ℚ)
          (sampleHeVProduct ℚ)).width 3 = 2
      ∧ max ((participateInProductionOverlap (sampleHeVGroup ℚ) (sampleHeVCombination ℚ)
              (sampleHeVProduct ℚ)).lo 3
            - (participateInProductionOverlap (sampleHeVGroup ℚ) (sampleHeVCombination ℚ)
              (sampleHeVProduct ℚ)).singleComp 3)
          ((participateInProductionOverlap (sampleHeVGroup ℚ) (sampleHeVCombination ℚ)
              (sampleHeVProduct ℚ)).r1Lo 3) = 4
      ∧ min ((participateInProductionOverlap (sampleHeVGroup ℚ) (sampleHeVCombination ℚ)
              (sampleHeVProduct ℚ)).hi 3
            - (participateInProductionOverlap (sampleHeVGroup ℚ) (sampleHeVCombination ℚ)
              (sampleHeVProduct ℚ)).singleComp 3)
          ((participateInProductionOverlap (sampleHeVGroup ℚ) (sampleHeVCombination ℚ)
              (sampleHeVProduct ℚ)).r1Hi 3) = 5
      ∧ (participateInProductionOverlapCoefs rational 3 heVIndexList (sampleHeVGroup ℚ)
          (participateInProductionOverlap (sampleHeVGroup ℚ) (sampleHeVCombination ℚ)
            (sampleHeVProduct ℚ)) combCluster).coefs 0 0 2
        = combCluster.coefs 0 0 2
          + (4 : ℚ) / (1 / 2 * 1) * rational.firstOrderSum 0 0 (9 / 2)) := by
  refine ⟨fun p i h1 h2 => resultFromOverlapCoefs_first sums psDim indexList s o p i h1 h2,
    fun p i h1 h2 => participateInProductionOverlapCoefs_first sums psDim indexList s o p i h1 h2,
    fun p i h1 h2 =>
      participateInDissociationOverlapCoefs_first sums psDim indexList s o p i h1 h2,
    fun p i h1 h2 => emitFromOverlapCoefs_first sums psDim indexList s o p i h1 h2, ?_⟩
  intro rational combCluster
  refine ⟨by decide, rfl, by decide, by decide, by decide, ?_⟩
  rw [participateInProductionOverlapCoefs_first rational 3 heVIndexList (sampleHeVGroup ℚ) _
    combCluster 2 (by decide) (by decide)]
  have e1 : (participateInProductionOverlap (sampleHeVGroup ℚ) (sampleHeVCombination ℚ)
      (sampleHeVProduct ℚ)).nOverlap = 4 := by decide
  have e2 : (participateInProductionOverlap (sampleHeVGroup ℚ) (sampleHeVCombination ℚ)
      (sampleHeVProduct ℚ)).width (2 - 1) = 1 := by decide
  have e3 : max ((participateInProductionOverlap (sampleHeVGroup ℚ) (sampleHeVCombination ℚ)
              (sampleHeVProduct ℚ)).lo (2 - 1)
            - (participateInProductionOverlap (sampleHeVGroup ℚ) (sampleHeVCombination ℚ)
              (sampleHeVProduct ℚ)).singleComp (2 - 1))
          ((participateInProductionOverlap (sampleHeVGroup ℚ) (sampleHeVCombination ℚ)
              (sampleHeVProduct ℚ)).r1Lo (2 - 1)) = 0 := by decide
  have e4 : min ((participateInProductionOverlap (sampleHeVGroup ℚ) (sampleHeVCombination ℚ)
              (sampleHeVProduct ℚ)).hi (2 - 1)
            - (participateInProductionOverlap (sampleHeVGroup ℚ) (sampleHeVCombination ℚ)
              (sampleHeVProduct ℚ)).singleComp (2 - 1))
          ((participateInProductionOverlap (sampleHeVGroup ℚ) (sampleHeVCombination ℚ)
              (sampleHeVProduct ℚ)).r1Hi (2 - 1)) = 0 := by decide
  have e5 : heVIndexList 2 - 1 = 3 := by decide
  rw [e1, e2, e3, e4, e5]
  simp [sampleHeVGroup]

/-! ## Overlap-region derivations: the divisors (claim C37) -/

theorem checkedDiv_of_ne [DecidableEq K] (x y : K) (h : y ≠ 0) :
    checkedDiv x y = some (x / y) := by
  unfold checkedDiv
  rw [if_neg h]

theorem width_cast_ne_zero [CharZero K] (o : OverlapRegion) (hw : ∀ a, a < 4 → 1 ≤ o.width a)
    (a : Nat) (ha : a < 4) : ((o.width a : Int) : K) ≠ 0 := by
  have h := hw a ha
  exact Int.cast_ne_zero.mpr (by omega)

theorem resultFromOverlapCoefsChecked_eq [DecidableEq K] [CharZero K] (sums : MomentSums K)
    (psDim : Nat) (hp : psDim ≤ 5)
    (indexList : Nat → Int) (s : PSISuperCluster K) (o : OverlapRegion)
    (hw : ∀ a, a < 4 → 1 ≤ o.width a)
    (hd : ∀ i, 1 ≤ i → i < psDim → s.dispersion (indexList i - 1) ≠ 0)
    (prodPair : ProductionPair K) :
    resultFromOverlapCoefsChecked sums psDim indexList s o prodPair
      = some (resultFromOverlapCoefs sums psDim indexList s o prodPair) := by
  unfold resultFromOverlapCoefsChecked resultFromOverlapCoefs
  apply forLoopM_eq_some
  intro i h1 h2 st
  have hwi : ((o.width (i - 1) : Int) : K) ≠ 0 := width_cast_ne_zero o hw (i - 1) (by omega)
  have hwz : o.width (i - 1) ≠ 0 := by
    have := hw (i - 1) (by omega)
    omega
  have hdi := hd i h1 h2
  have h2ne : (2 : K) ≠ 0 := two_ne_zero
  rw [checkedDiv_of_ne _ _ (mul_ne_zero hdi hwi)]
  simp only [Option.bind_eq_bind, Option.some_bind, Option.pure_def]
  by_cases hr : o.r1Hi (i - 1) ≠ o.r1Lo (i - 1)
  · have hr0 : o.r1Hi (i - 1) - o.r1Lo (i - 1) ≠ 0 := sub_ne_zero.mpr hr
    have hc : (((o.r1Hi (i - 1) - o.r1Lo (i - 1)) * o.width (i - 1) : Int) : K) ≠ 0 :=
      Int.cast_ne_zero.mpr (mul_ne_zero hr0 hwz)
    simp only [if_pos hr, checkedDiv_of_ne _ _ hc, checkedDiv_of_ne _ _ h2ne,
      checkedDiv_of_ne _ _ (mul_ne_zero hc hdi), Option.bind_eq_bind, Option.some_bind,
      Option.pure_def]
    apply forLoopM_eq_some
    intro j hj1 hj2 st2
    by_cases hij : i = j
    · simp only [if_pos hij, Option.pure_def]
    · have hwj : o.width (j - 1) ≠ 0 := by
        have := hw (j - 1) (by omega)
        omega
      have hc2 : (((o.r1Hi (i - 1) - o.r1Lo (i - 1)) * o.width (i - 1) * o.width (j - 1) : Int)
          : K) ≠ 0 := Int.cast_ne_zero.mpr (mul_ne_zero (mul_ne_zero hr0 hwz) hwj)
      simp only [if_neg hij, if_pos hr, checkedDiv_of_ne _ _ h2ne,
        checkedDiv_of_ne _ _ (mul_ne_zero hc2 (hd j hj1 hj2)), Option.bind_eq_bind,
        Option.some_bind, Option.pure_def]
  · simp only [if_neg hr, Option.pure_def, Option.bind_eq_bind, Option.some_bind]
    apply forLoopM_eq_some
    intro j hj1 hj2 st2
    by_cases hij : i = j
    · simp only [if_pos hij, Option.pure_def]
    · simp only [if_neg hij, if_neg hr, Option.pure_def]

theorem participateInProductionOverlapCoefsChecked_eq [DecidableEq K] [CharZero K]
    (sums : MomentSums K) (psDim : Nat) (hp : psDim ≤ 5)
    (indexList : Nat → Int) (s : PSISuperCluster K) (o : OverlapRegion)
    (hw : ∀ a, a < 4 → 1 ≤ o.width a)
    (hd : ∀ i, 1 ≤ i → i < psDim → s.dispersion (indexList i - 1) ≠ 0)
    (combCluster : CombiningCluster K) :
    participateInProductionOverlapCoefsChecked sums psDim indexList s o combCluster
      = some (participateInProductionOverlapCoefs sums psDim indexList s o combCluster) := by
  unfold participateInProductionOverlapCoefsChecked participateInProductionOverlapCoefs
  apply forLoopM_eq_some
  intro i h1 h2 st
  unfold participateInProductionOverlapStepChecked participateInProductionOverlapStep
  have hwi : ((o.width (i - 1) : Int) : K) ≠ 0 := width_cast_ne_zero o hw (i - 1) (by omega)
  have hwz : o.width (i - 1) ≠ 0 := by
    have := hw (i - 1) (by omega)
    omega
  have hdi := hd i h1 h2
  rw [checkedDiv_of_ne _ _ (mul_ne_zero hdi hwi)]
  simp only [Option.bind_eq_bind, Option.some_bind, Option.pure_def]
  by_cases hr : s.sectionWidth (indexList i - 1) ≠ 1
  · have hr0 : s.sectionWidth (indexList i - 1) - 1 ≠ 0 := sub_ne_zero.mpr hr
    have hc : (((s.sectionWidth (indexList i - 1) - 1) * o.width (i - 1) : Int) : K) ≠ 0 :=
      Int.cast_ne_zero.mpr (mul_ne_zero hr0 hwz)
    simp only [if_pos hr, checkedDiv_of_ne _ _ hc,
      checkedDiv_of_ne _ _ (mul_ne_zero hc hdi), Option.bind_eq_bind, Option.some_bind,
      Option.pure_def]
    apply forLoopM_eq_some
    intro j hj1 hj2 st2
    by_cases hij : i = j
    · simp only [if_pos hij, Option.pure_def]
    · have hwj : o.width (j - 1) ≠ 0 := by
        have := hw (j - 1) (by omega)
        omega
      have hc2 : (((s.sectionWidth (indexList i - 1) - 1) * o.width (i - 1) * o.width (j - 1)
          : Int) : K) ≠ 0 := Int.cast_ne_zero.mpr (mul_ne_zero (mul_ne_zero hr0 hwz) hwj)
      simp only [if_neg hij, if_pos hr,
        checkedDiv_of_ne _ _ (mul_ne_zero hc2 (hd j hj1 hj2)), Option.bind_eq_bind,
        Option.some_bind, Option.pure_def]
  · simp only [if_neg hr, Option.pure_def, Option.bind_eq_bind, Option.some_bind]
    apply forLoopM_eq_some
    intro j hj1 hj2 st2
    by_cases hij : i = j
    · simp only [if_pos hij, Option.pure_def]
    · simp only [if_neg hij, if_neg hr, Option.pure_def]

theorem participateInDissociationOverlapCoefsChecked_eq [DecidableEq K] [CharZero K]
    (sums : MomentSums K) (psDim : Nat) (hp : psDim ≤ 5)
    (indexList : Nat → Int) (s : PSISuperCluster K) (o : OverlapRegion)
    (hw : ∀ a, a < 4 → 1 ≤ o.width a)
    (hd : ∀ i, 1 ≤ i → i < psDim → s.dispersion (indexList i - 1) ≠ 0)
    (dissPair : DissociationPair K) :
    participateInDissociationOverlapCoefsChecked sums psDim indexList s o dissPair
      = some (participateInDissociationOverlapCoefs sums psDim indexList s o dissPair) := by
  unfold participateInDissociationOverlapCoefsChecked participateInDissociationOverlapCoefs
  apply forLoopM_eq_some
  intro i h1 h2 st
  have hwi : ((o.width (i - 1) : Int) : K) ≠ 0 := width_cast_ne_zero o hw (i - 1) (by omega)
  have hwz : o.width (i - 1) ≠ 0 := by
    have := hw (i - 1) (by omega)
    omega
  have hdi := hd i h1 h2
  have h2ne : (2 : K) ≠ 0 := two_ne_zero
  rw [checkedDiv_of_ne _ _ (mul_ne_zero hdi hwi)]
  simp only [Option.bind_eq_bind, Option.some_bind, Option.pure_def]
  by_cases hr : o.hi (i - 1) ≠ o.lo (i - 1)
  · have hr0 : o.hi (i - 1) - o.lo (i - 1) ≠ 0 := sub_ne_zero.mpr hr
    have hc : (((o.hi (i - 1) - o.lo (i - 1)) * o.width (i - 1) : Int) : K) ≠ 0 :=
      Int.cast_ne_zero.mpr (mul_ne_zero hr0 hwz)
    simp only [if_pos hr, checkedDiv_of_ne _ _ hc, checkedDiv_of_ne _ _ h2ne,
      checkedDiv_of_ne _ _ (mul_ne_zero hc hdi), Option.bind_eq_bind, Option.some_bind,
      Option.pure_def]
    apply forLoopM_eq_some
    intro j hj1 hj2 st2
    by_cases hij : i = j
    · simp only [if_pos hij, Option.pure_def]
    · have hwj : o.width (j - 1) ≠ 0 := by
        have := hw (j - 1) (by omega)
        omega
      have hc2 : (((o.hi (i - 1) - o.lo (i - 1)) * o.width (i - 1) * o.width (j - 1) : Int)
          : K) ≠ 0 := Int.cast_ne_zero.mpr (mul_ne_zero (mul_ne_zero hr0 hwz) hwj)
      simp only [if_neg hij, if_pos hr, checkedDiv_of_ne _ _ h2ne,
        checkedDiv_of_ne _ _ (mul_ne_zero hc2 (hd j hj1 hj2)), Option.bind_eq_bind,
        Option.some_bind, Option.pure_def]
  · simp only [if_neg hr, Option.pure_def, Option.bind_eq_bind, Option.some_bind]
    apply forLoopM_eq_some
    intro j hj1 hj2 st2
    by_cases hij : i = j
    · simp only [if_pos hij, Option.pure_def]
    · simp only [if_neg hij, if_neg hr, Option.pure_def]

theorem emitFromOverlapCoefsChecked_eq [DecidableEq K] [CharZero K]
    (sums : MomentSums K) (psDim : Nat) (hp : psDim ≤ 5)
    (indexList : Nat → Int) (s : PSISuperCluster K) (o : OverlapRegion)
    (hw : ∀ a, a < 4 → 1 ≤ o.width a)
    (hd : ∀ i, 1 ≤ i → i < psDim → s.dispersion (indexList i - 1) ≠ 0)
    (dissPair : DissociationPair K) :
    emitFromOverlapCoefsChecked sums psDim indexList s o dissPair
      = some (emitFromOverlapCoefs sums psDim indexList s o dissPair) := by
  unfold emitFromOverlapCoefsChecked emitFromOverlapCoefs
  apply forLoopM_eq_some
  intro i h1 h2 st
  unfold emitFromOverlapStepChecked emitFromOverlapStep
  have hwi : ((o.width (i - 1) : Int) : K) ≠ 0 := width_cast_ne_zero o hw (i - 1) (by omega)
  have hwz : o.width (i - 1) ≠ 0 := by
    have := hw (i - 1) (by omega)
    omega
  have hdi := hd i h1 h2
  rw [checkedDiv_of_ne _ _ (mul_ne_zero hdi hwi)]
  simp only [Option.bind_eq_bind, Option.some_bind, Option.pure_def]
  by_cases hr : s.sectionWidth (indexList i - 1) ≠ 1
  · have hr0 : s.sectionWidth (indexList i - 1) - 1 ≠ 0 := sub_ne_zero.mpr hr
    have hc : (((s.sectionWidth (indexList i - 1) - 1) * o.width (i - 1) : Int) : K) ≠ 0 :=
      Int.cast_ne_zero.mpr (mul_ne_zero hr0 hwz)
    simp only [if_pos hr, checkedDiv_of_ne _ _ hc,
      checkedDiv_of_ne _ _ (mul_ne_zero hc hdi), Option.bind_eq_bind, Option.some_bind,
      Option.pure_def]
    apply forLoopM_eq_some
    intro j hj1 hj2 st2
    by_cases hij : i = j
    · simp only [if_pos hij, Option.pure_def]
    · have hwj : o.width (j - 1) ≠ 0 := by
        have := hw (j - 1) (by omega)
        omega
      have hc2 : ((o.width (i - 1) * o.width (j - 1) * (s.sectionWidth (indexList i - 1) - 1)
          : Int) : K) ≠ 0 := Int.cast_ne_zero.mpr (mul_ne_zero (mul_ne_zero hwz hwj) hr0)
      simp only [if_neg hij, if_pos hr,
        checkedDiv_of_ne _ _ (mul_ne_zero hc2 (hd j hj1 hj2)), Option.bind_eq_bind,
        Option.some_bind, Option.pure_def]
  · simp only [if_neg hr, Option.pure_def, Option.bind_eq_bind, Option.some_bind]
    apply forLoopM_eq_some
    intro j hj1 hj2 st2
    by_cases hij : i = j
    · simp only [if_pos hij, Option.pure_def]
    · simp only [if_neg hij, if_neg hr, Option.pure_def]

/-- C37: in each of the four overlap-region derivations, when every per-axis overlap
width is at least 1 and the dispersion on every tracked axis is nonzero (with at most four
tracked axes), every division performed has a nonzero divisor: run with every division
checked, each derivation completes and returns the coefficients of the unchecked run.  The
guards on `sectionWidth != 1` and on the operand extent `hi != lo` cover the divisors that
the two preconditions do not. -/
theorem overlap_divisors_nonzero [DecidableEq K] [CharZero K] (sums : MomentSums K)
    (psDim : Nat) (hp : psDim ≤ 5) (indexList : Nat → Int) (s : PSISuperCluster K)
    (o : OverlapRegion) (hw : ∀ a, a < 4 → 1 ≤ o.width a)
    (hd : ∀ i, 1 ≤ i → i < psDim → s.dispersion (indexList i - 1) ≠ 0) :
    (∀ prodPair : ProductionPair K,
      resultFromOverlapCoefsChecked sums psDim indexList s o prodPair
        = some (resultFromOverlapCoefs sums psDim indexList s o prodPair))
    ∧ (∀ combCluster : CombiningCluster K,
      participateInProductionOverlapCoefsChecked sums psDim indexList s o combCluster
        = some (participateInProductionOverlapCoefs sums psDim indexList s o combCluster))
    ∧ (∀ dissPair : DissociationPair K,
      participateInDissociationOverlapCoefsChecked sums psDim indexList s o dissPair
        = some (participateInDissociationOverlapCoefs sums psDim indexList s o dissPair))
    ∧ (∀ dissPair : DissociationPair K,
      emitFromOverlapCoefsChecked sums psDim indexList s o dissPair
        = some (emitFromOverlapCoefs sums psDim indexList s o dissPair)) :=
  ⟨resultFromOverlapCoefsChecked_eq sums psDim hp indexList s o hw hd,
    participateInProductionOverlapCoefsChecked_eq sums psDim hp indexList s o hw hd,
    participateInDissociationOverlapCoefsChecked_eq sums psDim hp indexList s o hw hd,
    emitFromOverlapCoefsChecked_eq sums psDim hp indexList s o hw hd⟩

theorem overlap_divisors_nonzero_witness :
    ((3 : Nat) ≤ 5
      ∧ (∀ a, a < 4 →
          1 ≤ (participateInProductionOverlap (sampleHeVGroup ℚ) (sampleHeVCombination ℚ)
                (sampleHeVProduct ℚ)).width a)
      ∧ (∀ i, 1 ≤ i → i < 3 → (sampleHeVGroup ℚ).dispersion (heVIndexList i - 1) ≠ 0))
    ∧ (∀ combCluster : CombiningCluster ℚ,
        participateInProductionOverlapCoefsChecked (sampleSums ℚ) 3 heVIndexList
            (sampleHeVGroup ℚ)
            (participateInProductionOverlap (sampleHeVGroup ℚ) (sampleHeVCombination ℚ)
              (sampleHeVProduct ℚ)) combCluster
          = some (participateInProductionOverlapCoefs (sampleSums ℚ) 3 heVIndexList
              (sampleHeVGroup ℚ)
              (participateInProductionOverlap (sampleHeVGroup ℚ) (sampleHeVCombination ℚ)
                (sampleHeVProduct ℚ)) combCluster)) := by
  have h1 : ∀ a, a < 4 →
      1 ≤ (participateInProductionOverlap (sampleHeVGroup ℚ) (sampleHeVCombination ℚ)
            (sampleHeVProduct ℚ)).width a := by
    intro a ha
    interval_cases a <;> decide
  have h2 : ∀ i, 1 ≤ i → i < 3 → (sampleHeVGroup ℚ).dispersion (heVIndexList i - 1) ≠ 0 := by
    intro i hi1 hi2
    interval_cases i <;> norm_num [sampleHeVGroup, heVIndexList]
  exact ⟨⟨by decide, h1, h2⟩,
    (overlap_divisors_nonzero (sampleSums ℚ) 3 (by decide) heVIndexList (sampleHeVGroup ℚ)
      _ h1 h2).2.1⟩

/-! ## Full groups: the dispersion (claim C35) -/

theorem list_sum_map_flatMap {α β : Type} (l : List α) (f : α → List β) (g : β → K) :
    ((l.flatMap f).map g).sum = (l.map (fun a => ((f a).map g).sum)).sum := by
  induction l with
  | nil => rfl
  | cons a l ih =>
    simp only [List.flatMap_cons, List.map_append, List.sum_append, List.map_cons,
      List.sum_cons, ih]

theorem list_sum_range_const (n : Nat) (c : K) :
    ((List.range n).map (fun _ => c)).sum = (n : K) * c := by
  induction n with
  | zero => simp
  | succ n ih =>
    rw [List.range_succ, List.map_append, List.sum_append, ih]
    simp only [List.map_cons, List.map_nil, List.sum_cons, List.sum_nil, add_zero,
      Nat.cast_succ]
    ring

theorem dense_sum_axis (lower : Nat → Int) (W : Nat → Nat) (g : Int → K) :
    ((denseRectangle lower W).map (fun m => g m.1)).sum
        = (W 1 : K) * (W 2 : K) * (W 3 : K)
          * ((List.range (W 0)).map (fun (a : Nat) => g (lower 0 + (a : Int)))).sum
    ∧ ((denseRectangle lower W).map (fun m => g m.2.1)).sum
        = (W 0 : K) * (W 2 : K) * (W 3 : K)
          * ((List.range (W 1)).map (fun (a : Nat) => g (lower 1 + (a : Int)))).sum
    ∧ ((denseRectangle lower W).map (fun m => g m.2.2.1)).sum
        = (W 0 : K) * (W 1 : K) * (W 3 : K)
          * ((List.range (W 2)).map (fun (a : Nat) => g (lower 2 + (a : Int)))).sum
    ∧ ((denseRectangle lower W).map (fun m => g m.2.2.2)).sum
        = (W 0 : K) * (W 1 : K) * (W 2 : K)
          * ((List.range (W 3)).map (fun (a : Nat) => g (lower 3 + (a : Int)))).sum := by
  unfold denseRectangle
  simp only [list_sum_map_flatMap, List.map_map, Function.comp_def, list_sum_range_const,
    List.sum_map_mul_left]
  refine ⟨?_, ?_, ?_, ?_⟩ <;> ring

theorem range_sq_sum (lo : Int) (w : Nat) :
    6 * ((List.range w).map (fun (a : Nat) => (((lo + (a : Int)) * (lo + (a : Int)) : Int) : K))).sum
      = 6 * (w : K) * (lo : K) ^ 2 + 6 * (lo : K) * (w : K) * ((w : K) - 1)
        + ((w : K) - 1) * (w : K) * (2 * (w : K) - 1) := by
  induction w with
  | zero => simp
  | succ n ih =>
    rw [List.range_succ, List.map_append, List.sum_append, mul_add, ih]
    simp only [List.map_cons, List.map_nil, List.sum_cons, List.sum_nil, add_zero,
      Nat.cast_succ, Int.cast_mul, Int.cast_add, Int.cast_natCast]
    ring

theorem dispersion_dense_value {F : Type} [LinearOrderedField F] (P w : Nat) (lo : Int)
    (S mu n : F) (hP : 1 ≤ P) (hw : 1 < w)
    (h6 : 6 * S = 6 * (w : F) * (lo : F) ^ 2 + 6 * (lo : F) * (w : F) * ((w : F) - 1)
        + ((w : F) - 1) * (w : F) * (2 * (w : F) - 1))
    (hmu : mu = (lo : F) + ((w : F) - 1) / 2) (hn : n = (P : F) * (w : F)) :
    2 * ((P : F) * S - mu * n * mu) / (n * ((w : F) - 1)) = ((w : F) + 1) / 6
    ∧ 0 < ((w : F) + 1) / 6 := by
  have hPpos : (0 : F) < (P : F) := by exact_mod_cast hP
  have hwpos : (0 : F) < (w : F) := by
    have : 0 < w := by omega
    exact_mod_cast this
  have hw1 : (0 : F) < (w : F) - 1 := by
    have : (1 : F) < (w : F) := by exact_mod_cast hw
    linarith
  have hS : S = (6 * (w : F) * (lo : F) ^ 2 + 6 * (lo : F) * (w : F) * ((w : F) - 1)
        + ((w : F) - 1) * (w : F) * (2 * (w : F) - 1)) / 6 := by
    rw [← h6]
    ring
  refine ⟨?_, by positivity⟩
  rw [hS, hmu, hn]
  field_simp
  ring

theorem dense_nSquare {F : Type} [LinearOrderedField F] (memberRadius : Int → F)
    (s : PSISuperCluster F) (vec : List (Int × Int × Int × Int)) (lower : Nat → Int)
    (W : Nat → Nat) (hvec : vec.Perm (denseRectangle lower W)) :
    (setHeVVectorSums memberRadius { s with heVList := vec }).2 0
        = (W 1 : F) * (W 2 : F) * (W 3 : F)
          * ((List.range (W 0)).map
              (fun (a : Nat) => (((lower 0 + (a : Int)) * (lower 0 + (a : Int)) : Int) : F))).sum
    ∧ (setHeVVectorSums memberRadius { s with heVList := vec }).2 1
        = (W 0 : F) * (W 2 : F) * (W 3 : F)
          * ((List.range (W 1)).map
              (fun (a : Nat) => (((lower 1 + (a : Int)) * (lower 1 + (a : Int)) : Int) : F))).sum
    ∧ (setHeVVectorSums memberRadius { s with heVList := vec }).2 2
        = (W 0 : F) * (W 1 : F) * (W 3 : F)
          * ((List.range (W 2)).map
              (fun (a : Nat) => (((lower 2 + (a : Int)) * (lower 2 + (a : Int)) : Int) : F))).sum
    ∧ (setHeVVectorSums memberRadius { s with heVList := vec }).2 3
        = (W 0 : F) * (W 1 : F) * (W 2 : F)
          * ((List.range (W 3)).map
              (fun (a : Nat) => (((lower 3 + (a : Int)) * (lower 3 + (a : Int)) : Int) : F))).sum
    := by
  obtain ⟨n0, n1, n2, n3⟩ := setHeVVectorSums_nSquare memberRadius { s with heVList := vec }
  obtain ⟨d0, d1, d2, d3⟩ := dense_sum_axis lower W (fun v : Int => (((v * v : Int)) : F))
  refine ⟨?_, ?_, ?_, ?_⟩
  · rw [n0, ← d0]
    exact (hvec.map _).sum_eq
  · rw [n1, ← d1]
    exact (hvec.map _).sum_eq
  · rw [n2, ← d2]
    exact (hvec.map _).sum_eq
  · rw [n3, ← d3]
    exact (hvec.map _).sum_eq

/-- C35: for a full group, whose membership list is the dense hyper-rectangle with lower
corner at the group's lower bounds and `sectionWidth[i]` values on axis `i`, whose `nTot`
is the product of the four widths, and whose `numAtom[i]` is the arithmetic mean
`lower[i] + (sectionWidth[i] - 1) / 2`, `setHeVVector` yields
`dispersion[i] = (sectionWidth[i] + 1) / 6` on every axis with `sectionWidth[i] > 1`,
which is strictly positive. -/
theorem dense_group_dispersion {F : Type} [LinearOrderedField F] (memberRadius : Int → F)
    (s : PSISuperCluster F) (vec : List (Int × Int × Int × Int)) (W : Nat → Nat)
    (hvec : vec.Perm (denseRectangle s.self.boundsBegin W))
    (hsw : ∀ i : Nat, i < 4 → s.sectionWidth (i : Int) = (W i : Int))
    (hpos : ∀ i : Nat, i < 4 → 1 ≤ W i)
    (hn : s.nTot = ((W 0 * W 1 * W 2 * W 3 : Nat) : Int))
    (hmean : ∀ i : Nat, i < 4 →
      s.numAtom (i : Int) = (s.self.boundsBegin i : F) + ((W i : F) - 1) / 2) :
    ∀ i : Nat, i < 4 → 1 < W i →
      (setHeVVector memberRadius s vec).dispersion (i : Int)
          = ((s.sectionWidth (i : Int) : F) + 1) / 6
      ∧ 0 < (setHeVVector memberRadius s vec).dispersion (i : Int) := by
  intro i hi hw1
  obtain ⟨_, _, _, _, hd⟩ := setHeVVector_spec memberRadius s vec
  obtain ⟨q0, q1, q2, q3⟩ := dense_nSquare memberRadius s vec s.self.boundsBegin W hvec
  have hne : ¬ (s.sectionWidth (i : Int) = 1) := by
    rw [hsw i hi]
    omega
  have hval := hd i hi
  rw [if_neg hne] at hval
  have hnF : (s.nTot : F) = (W 0 : F) * (W 1 : F) * (W 2 : F) * (W 3 : F) := by
    rw [hn]
    push_cast
    ring
  have hden : ((s.nTot * (s.sectionWidth (i : Int) - 1) : Int) : F)
      = (s.nTot : F) * ((W i : F) - 1) := by
    rw [hsw i hi]
    push_cast
    ring
  have hswF : (s.sectionWidth (i : Int) : F) = (W i : F) := by
    rw [hsw i hi]
    push_cast
    ring
  rw [hval, hden, hswF]
  have p0 := hpos 0 (by decide)
  have p1 := hpos 1 (by decide)
  have p2 := hpos 2 (by decide)
  have p3 := hpos 3 (by decide)
  have key : 2 * ((setHeVVectorSums memberRadius { s with heVList := vec }).2 i
        - s.numAtom (i : Int) * (s.nTot : F) * s.numAtom (i : Int))
        / ((s.nTot : F) * ((W i : F) - 1)) = ((W i : F) + 1) / 6
      ∧ 0 < ((W i : F) + 1) / 6 := by
    interval_cases i
    · rw [q0, mul_assoc (s.numAtom _)]
      have h := dispersion_dense_value (W 1 * W 2 * W 3) (W 0) (s.self.boundsBegin 0) _
        (s.numAtom ((0 : Nat) : Int)) (s.nTot : F)
        (Nat.one_le_iff_ne_zero.mpr (by positivity)) hw1
        (range_sq_sum (s.self.boundsBegin 0) (W 0)) (hmean 0 (by decide))
        (by rw [hnF]; push_cast; ring)
      rw [mul_assoc (s.numAtom _)] at h
      push_cast at h ⊢
      exact h
    · rw [q1, mul_assoc (s.numAtom _)]
      have h := dispersion_dense_value (W 0 * W 2 * W 3) (W 1) (s.self.boundsBegin 1) _
        (s.numAtom ((1 : Nat) : Int)) (s.nTot : F)
        (Nat.one_le_iff_ne_zero.mpr (by positivity)) hw1
        (range_sq_sum (s.self.boundsBegin 1) (W 1)) (hmean 1 (by decide))
        (by rw [hnF]; push_cast; ring)
      rw [mul_assoc (s.numAtom _)] at h
      push_cast at h ⊢
      exact h
    · rw [q2, mul_assoc (s.numAtom _)]
      have h := dispersion_dense_value (W 0 * W 1 * W 3) (W 2) (s.self.boundsBegin 2) _
        (s.numAtom ((2 : Nat) : Int)) (s.nTot : F)
        (Nat.one_le_iff_ne_zero.mpr (by positivity)) hw1
        (range_sq_sum (s.self.boundsBegin 2) (W 2)) (hmean 2 (by decide))
        (by rw [hnF]; push_cast; ring)
      rw [mul_assoc (s.numAtom _)] at h
      push_cast at h ⊢
      exact h
    · rw [q3, mul_assoc (s.numAtom _)]
      have h := dispersion_dense_value (W 0 * W 1 * W 2) (W 3) (s.self.boundsBegin 3) _
        (s.numAtom ((3 : Nat) : Int)) (s.nTot : F)
        (Nat.one_le_iff_ne_zero.mpr (by positivity)) hw1
        (range_sq_sum (s.self.boundsBegin 3) (W 3)) (hmean 3 (by decide))
        (by rw [hnF]; push_cast; ring)
      rw [mul_assoc (s.numAtom _)] at h
      push_cast at h ⊢
      exact h
  exact ⟨key.1, by rw [key.1]; exact key.2⟩

theorem dense_group_dispersion_witness :
    (List.Perm (denseRectangle (sampleHeVGroup ℚ).self.boundsBegin sampleHeVWidths)
        (denseRectangle (sampleHeVGroup ℚ).self.boundsBegin sampleHeVWidths)
      ∧ (∀ i : Nat, i < 4 →
          (sampleHeVGroup ℚ).sectionWidth (i : Int) = (sampleHeVWidths i : Int))
      ∧ (∀ i : Nat, i < 4 → 1 ≤ sampleHeVWidths i)
      ∧ (sampleHeVGroup ℚ).nTot
          = ((sampleHeVWidths 0 * sampleHeVWidths 1 * sampleHeVWidths 2 * sampleHeVWidths 3
              : Nat) : Int)
      ∧ (∀ i : Nat, i < 4 →
          (sampleHeVGroup ℚ).numAtom (i : Int)
            = ((sampleHeVGroup ℚ).self.boundsBegin i : ℚ) + ((sampleHeVWidths i : ℚ) - 1) / 2)
      ∧ 1 < sampleHeVWidths 3)
    ∧ (setHeVVector (fun _ => (0 : ℚ)) (sampleHeVGroup ℚ)
          (denseRectangle (sampleHeVGroup ℚ).self.boundsBegin sampleHeVWidths)).dispersion
          ((3 : Nat) : Int)
        = (((sampleHeVGroup ℚ).sectionWidth ((3 : Nat) : Int) : ℚ) + 1) / 6
      ∧ 0 < (setHeVVector (fun _ => (0 : ℚ)) (sampleHeVGroup ℚ)
          (denseRectangle (sampleHeVGroup ℚ).self.boundsBegin sampleHeVWidths)).dispersion
          ((3 : Nat) : Int) := by
  have h1 : ∀ i : Nat, i < 4 →
      (sampleHeVGroup ℚ).sectionWidth (i : Int) = (sampleHeVWidths i : Int) := by
    intro i hi
    interval_cases i <;> decide
  have h2 : ∀ i : Nat, i < 4 → 1 ≤ sampleHeVWidths i := by
    intro i hi
    interval_cases i <;> decide
  have h3 : (sampleHeVGroup ℚ).nTot
      = ((sampleHeVWidths 0 * sampleHeVWidths 1 * sampleHeVWidths 2 * sampleHeVWidths 3
          : Nat) : Int) := by decide
  have h4 : ∀ i : Nat, i < 4 →
      (sampleHeVGroup ℚ).numAtom (i : Int)
        = ((sampleHeVGroup ℚ).self.boundsBegin i : ℚ) + ((sampleHeVWidths i : ℚ) - 1) / 2 := by
    intro i hi
    interval_cases i <;> norm_num [sampleHeVGroup, sampleHeVCluster, sampleHeVWidths]
  exact ⟨⟨List.Perm.refl _, h1, h2, h3, h4, by decide⟩,
    dense_group_dispersion (fun _ => (0 : ℚ)) (sampleHeVGroup ℚ) _ sampleHeVWidths
      (List.Perm.refl _) h1 h2 h3 h4 3 (by decide) (by decide)⟩

/-! ## Reading the parameter file (claim C40) -/

theorem readParamsLoop_of_runAccepted {σ : Type} (optionsMap : OptionsMap σ)
    (pre rest : List (List String)) (st st2 : Options σ × List (String × String))
    (h : runAccepted optionsMap pre st = some st2) :
    readParamsLoop optionsMap (pre ++ rest) st = readParamsLoop optionsMap rest st2 := by
  induction pre generalizing st with
  | nil =>
    simp only [runAccepted, Option.some.injEq] at h
    rw [← h]
    rfl
  | cons line pre ih =>
    match line, h with
    | [], h => simp [runAccepted] at h
    | [_], h => simp [runAccepted] at h
    | key :: arg :: more, h =>
      simp only [runAccepted] at h
      cases hm : optionsMap key with
      | none => simp [hm] at h
      | some currOpt =>
        cases currOpt with
        | none => simp [hm] at h
        | some handler =>
          simp only [hm] at h
          by_cases hc : (handler st.1 arg).2 = true
          · simp only [hc, if_true] at h
            simp only [List.cons_append, readParamsLoop, hm, hc, Bool.not_true,
              Bool.false_eq_true, if_false]
            exact ih _ h
          · simp [hc] at h

theorem runAccepted_flags {σ : Type} (optionsMap : OptionsMap σ)
    (hk : HandlersKeepFlags optionsMap) (pre : List (List String))
    (st st2 : Options σ × List (String × String))
    (h : runAccepted optionsMap pre st = some st2) :
    st2.1.shouldRunFlag = st.1.shouldRunFlag ∧ st2.1.exitCode = st.1.exitCode := by
  induction pre generalizing st with
  | nil =>
    simp only [runAccepted, Option.some.injEq] at h
    rw [← h]
    exact ⟨rfl, rfl⟩
  | cons line pre ih =>
    match line, h with
    | [], h => simp [runAccepted] at h
    | [_], h => simp [runAccepted] at h
    | key :: arg :: more, h =>
      simp only [runAccepted] at h
      cases hm : optionsMap key with
      | none => simp [hm] at h
      | some currOpt =>
        cases currOpt with
        | none => simp [hm] at h
        | some handler =>
          simp only [hm] at h
          by_cases hc : (handler st.1 arg).2 = true
          · simp only [hc, if_true] at h
            have h1 := ih _ h
            have h2 := hk key handler hm st.1 arg hc
            exact ⟨h1.1.trans h2.1, h1.2.trans h2.2⟩
          · simp [hc] at h

/-- C40: provided the parameter stream is good, `Options::readParams` processes the lines
in order: after a prefix `pre` of lines that are all recognized and whose handlers all
succeed (leaving the state `st2`), a line whose key is not in the map, or is mapped to no
handler, or whose handler reports failure ends the loop with `shouldRunFlag = false` and
`exitCode = EXIT_FAILURE`, and the result is the same whatever lines `post` follow, with
no handler call recorded for them; an empty line vector ends the loop without touching the
flags; and when all lines are accepted the result is `st2`, whose flags are those before
the call if the succeeding handlers leave the flags alone (`true` and `EXIT_SUCCESS`
right after construction).  When the stream is not good the flags are set to `false` and
`EXIT_FAILURE` without reading any line. -/
theorem readParams_stops_at_first_failure {σ : Type} (optionsMap : OptionsMap σ)
    (pre post : List (List String)) (opts : Options σ)
    (st2 : Options σ × List (String × String))
    (h : runAccepted optionsMap pre (opts, []) = some st2) :
    (∀ key args, optionsMap key = none →
      readParams optionsMap true (pre ++ (key :: args) :: post) opts
        = some ({ st2.1 with shouldRunFlag := false, exitCode := EXIT_FAILURE }, st2.2))
    ∧ (∀ key args, optionsMap key = some none →
      readParams optionsMap true (pre ++ (key :: args) :: post) opts
        = some ({ st2.1 with shouldRunFlag := false, exitCode := EXIT_FAILURE }, st2.2))
    ∧ (∀ key arg more handler, optionsMap key = some (some handler) →
      (handler st2.1 arg).2 = false →
      readParams optionsMap true (pre ++ (key :: arg :: more) :: post) opts
        = some ({ (handler st2.1 arg).1 with shouldRunFlag := false, exitCode := EXIT_FAILURE },
            st2.2 ++ [(key, arg)]))
    ∧ readParams optionsMap true (pre ++ [] :: post) opts = some st2
    ∧ readParams optionsMap true pre opts = some st2
    ∧ (HandlersKeepFlags optionsMap →
        st2.1.shouldRunFlag = opts.shouldRunFlag ∧ st2.1.exitCode = opts.exitCode)
    ∧ (∀ settings : σ, opts = Options.construct settings → HandlersKeepFlags optionsMap →
        st2.1.shouldRunFlag = true ∧ st2.1.exitCode = EXIT_SUCCESS)
    ∧ ∀ lines, readParams optionsMap false lines opts
        = some ({ opts with shouldRunFlag := false, exitCode := EXIT_FAILURE }, []) := by
  have key := fun rest => readParamsLoop_of_runAccepted optionsMap pre rest (opts, []) st2 h
  refine ⟨?_, ?_, ?_, ?_, ?_, ?_, ?_, ?_⟩
  · intro k args hk
    simp only [readParams, Bool.not_true, Bool.false_eq_true, if_false, key, readParamsLoop, hk,
      Options.fail]
  · intro k args hk
    simp only [readParams, Bool.not_true, Bool.false_eq_true, if_false, key, readParamsLoop, hk,
      Options.fail]
  · intro k arg more handler hk hf
    simp only [readParams, Bool.not_true, Bool.false_eq_true, if_false, key, readParamsLoop, hk,
      hf, Bool.not_false, if_true, Options.fail]
  · simp only [readParams, Bool.not_true, Bool.false_eq_true, if_false, key, readParamsLoop]
  · have e := key []
    rw [List.append_nil] at e
    simp only [readParams, Bool.not_true, Bool.false_eq_true, if_false, e, readParamsLoop]
  · intro hk
    exact runAccepted_flags optionsMap hk pre (opts, []) st2 h
  · intro settings ho hk
    have e := runAccepted_flags optionsMap hk pre (opts, []) st2 h
    rw [ho] at e
    exact e
  · intro lines
    simp only [readParams, Bool.not_false, if_true, Options.fail]

theorem readParams_stops_at_first_failure_witness :
    runAccepted sampleOptionsMap [["dimensions", "2"]] (Options.construct 0, [])
        = some ({ shouldRunFlag := true, exitCode := EXIT_SUCCESS, settings := 1 },
            [("dimensions", "2")])
    ∧ readParams sampleOptionsMap true
        ([["dimensions", "2"]] ++ ["petscArgs", "-ts_max_steps 1"] :: [["dimensions", "3"]])
        (Options.construct 0)
      = some ({ shouldRunFlag := false, exitCode := EXIT_FAILURE, settings := 1 },
          [("dimensions", "2")]) :=
  ⟨rfl,
    (readParams_stops_at_first_failure sampleOptionsMap [["dimensions", "2"]]
      [["dimensions", "3"]] (Options.construct 0)
      ({ shouldRunFlag := true, exitCode := EXIT_SUCCESS, settings := 1 },
        [("dimensions", "2")]) rfl).1 "petscArgs" ["-ts_max_steps 1"] rfl⟩

/-- Counterexample to C40 as stated: with a parameter stream that is not good, no line is
read, so every line is recognized and every handler succeeds, yet the flags do not keep
the values `true` and `EXIT_SUCCESS` they had after construction. -/
theorem readParams_bad_stream_sets_failure :
    runAccepted sampleOptionsMap [] (Options.construct 0, []) = some (Options.construct 0, [])
    ∧ HandlersKeepFlags sampleOptionsMap
    ∧ (Options.construct 0 : Options Nat).shouldRunFlag = true
    ∧ (Options.construct 0 : Options Nat).exitCode = EXIT_SUCCESS
    ∧ (readParams sampleOptionsMap false [] (Options.construct 0)).map
        (fun r => (r.1.shouldRunFlag, r.1.exitCode, r.2)) = some (false, EXIT_FAILURE, [])
    ∧ EXIT_FAILURE ≠ EXIT_SUCCESS := by
  refine ⟨rfl, ?_, rfl, rfl, rfl, by decide⟩
  intro key handler hk opts arg _
  unfold sampleOptionsMap at hk
  split at hk
  · simp only [Option.some.injEq] at hk
    rw [← hk]
    exact ⟨rfl, rfl⟩
  · exact absurd hk (by simp)

/-! ## Jacobian consistency of the whole assemblers (claims C4, C5, C20) -/

/-- Folding a body that may throw but, on every entry of the list, succeeds and adds
`D p x y` to cell `(x, y)`: the fold succeeds and adds the sum of the `D p x y`. -/
theorem forEachM_add_spec {α : Type} (l : List α)
    (body : (Nat → Int → K) → α → Option (Nat → Int → K)) (D : α → Nat → Int → K)
    (h : ∀ p ∈ l, ∀ st, ∃ st2, body st p = some st2 ∧ ∀ x y, st2 x y = st x y + D p x y)
    (init : Nat → Int → K) :
    ∃ r, forEachM l body init = some r
      ∧ ∀ x y, r x y = init x y + (l.map (fun p => D p x y)).sum := by
  unfold forEachM
  induction l generalizing init with
  | nil => exact ⟨init, rfl, fun x y => by simp⟩
  | cons p l ih =>
    obtain ⟨st2, h1, h2⟩ := h p (List.mem_cons_self p l) init
    obtain ⟨r, h3, h4⟩ := ih (fun q hq st => h q (List.mem_cons_of_mem p hq) st) st2
    refine ⟨r, ?_, ?_⟩
    · simp only [List.foldlM_cons, h1, Option.bind_eq_bind, Option.some_bind]
      exact h3
    · intro x y
      rw [h4, h2, List.map_cons, List.sum_cons, add_assoc]

/-- Folding a body that, on every entry of the list, adds `F p` to an observed cell. -/
theorem forEach_add_read_mem {α σ : Type} (read : σ → K) (l : List α) (body : σ → α → σ)
    (F : α → K) (h : ∀ p ∈ l, ∀ st, read (body st p) = read st + F p) (init : σ) :
    read (forEach l body init) = read init + (l.map F).sum := by
  unfold forEach
  induction l generalizing init with
  | nil => simp
  | cons p l ih =>
    rw [List.foldl_cons, ih (fun q hq st => h q (List.mem_cons_of_mem p hq) st),
      h p (List.mem_cons_self p l), List.map_cons, List.sum_cons, add_assoc]

theorem hasDerivAt_list_sum {α : Type} (l : List α) (f : α → ℝ → ℝ) (d : α → ℝ) (x : ℝ)
    (h : ∀ p ∈ l, HasDerivAt (f p) (d p) x) :
    HasDerivAt (fun t => (l.map (fun p => f p t)).sum) (l.map d).sum x := by
  induction l with
  | nil => simpa using hasDerivAt_const x (0 : ℝ)
  | cons p l ih =>
    simp only [List.map_cons, List.sum_cons]
    exact (h p (List.mem_cons_self p l)).add (ih (fun q hq => h q (List.mem_cons_of_mem p hq)))

/-- The derivative of a state entry `concs[v]` with respect to `concs[g]`. -/
theorem hasDerivAt_update_read (concs : Int → ℝ) (g v : Int) :
    HasDerivAt (fun t => Function.update concs g t v) (if v = g then 1 else 0) (concs g) := by
  by_cases h : v = g
  · subst h
    simp only [Function.update_same, if_true]
    exact hasDerivAt_id _
  · simp only [Function.update_noteq h, if_neg h]
    exact hasDerivAt_const _ _

/-- The derivative, with respect to `concs[g]`, of a linear form in the state entries
`concs[a i]`. -/
theorem hasDerivAt_linear_form (n : Nat) (c : Nat → ℝ) (a : Nat → Int) (concs : Int → ℝ)
    (g : Int) :
    HasDerivAt (fun t => ∑ i ∈ Finset.range n, c i * Function.update concs g t (a i))
      (∑ i ∈ Finset.range n, if a i = g then c i else 0) (concs g) := by
  have h : ∀ i ∈ Finset.range n,
      HasDerivAt (fun t => c i * Function.update concs g t (a i))
        (if a i = g then c i else 0) (concs g) := by
    intro i _
    have := (hasDerivAt_update_read concs g (a i)).const_mul (c i)
    convert this using 1
    split <;> simp
  have := HasDerivAt.sum h
  convert this using 1

/-- The derivative, with respect to `concs[g]`, of a bilinear form in the state entries
`concs[a j]` and `concs[b i]`. -/
theorem hasDerivAt_bilinear_form (n : Nat) (c : Nat → Nat → ℝ) (a b : Nat → Int)
    (concs : Int → ℝ) (g : Int) :
    HasDerivAt
      (fun t => ∑ j ∈ Finset.range n, ∑ i ∈ Finset.range n,
        c j i * Function.update concs g t (a j) * Function.update concs g t (b i))
      (∑ j ∈ Finset.range n,
        ((if a j = g then ∑ i ∈ Finset.range n, c j i * concs (b i) else 0)
          + (if b j = g then ∑ i ∈ Finset.range n, c i j * concs (a i) else 0)))
      (concs g) := by
  have h : ∀ j ∈ Finset.range n, ∀ i ∈ Finset.range n,
      HasDerivAt
        (fun t => c j i * Function.update concs g t (a j) * Function.update concs g t (b i))
        ((if a j = g then c j i * concs (b i) else 0)
          + (if b i = g then c j i * concs (a j) else 0)) (concs g) := by
    intro j _ i _
    have h1 := ((hasDerivAt_update_read concs g (a j)).const_mul (c j i)).mul
      (hasDerivAt_update_read concs g (b i))
    simp only [Function.update_eq_self] at h1
    convert h1 using 1
    split <;> split <;> ring
  have h2 : ∀ j ∈ Finset.range n,
      HasDerivAt
        (fun t => ∑ i ∈ Finset.range n,
          c j i * Function.update concs g t (a j) * Function.update concs g t (b i))
        (∑ i ∈ Finset.range n,
          ((if a j = g then c j i * concs (b i) else 0)
            + (if b i = g then c j i * concs (a j) else 0))) (concs g) := by
    intro j hj
    have := HasDerivAt.sum (h j hj)
    convert this using 1
  have h3 := HasDerivAt.sum h2
  convert h3 using 1
  simp only [Finset.sum_add_distrib]
  congr 1
  · apply Finset.sum_congr rfl
    intro j _
    split
    · rfl
    · simp
  · rw [Finset.sum_comm]
    apply Finset.sum_congr rfl
    intro j _
    split
    · rfl
    · simp

theorem sum_range_ite_and (n k : Nat) (hk : k < n) (c : Prop) [Decidable c] (f : Nat → K) :
    (∑ i ∈ Finset.range n, if k = i ∧ c then f i else 0) = if c then f k else 0 := by
  by_cases hc : c
  · simp only [hc, and_true, if_true]
    rw [Finset.sum_ite_eq]
    simp [hk]
  · simp [hc]

/-- The amount one entry of a two-slot assembler files in row `k` at the slot of the
state variable `g`, when distinct variables have distinct slots. -/
theorem twoSlot_amount_at (psDim : Nat) (slot : Int → Int) (hslot : Function.Injective slot)
    (a b : Nat → Int) (v0 v1 : Nat → Nat → K) (k : Nat) (hk : k < psDim) (g : Int) :
    (∑ j ∈ Finset.range psDim, ∑ i ∈ Finset.range psDim,
        ((if k = i ∧ slot g = slot (a j) then v0 i j else 0)
          + (if k = i ∧ slot g = slot (b j) then v1 i j else 0)))
      = ∑ j ∈ Finset.range psDim,
          ((if a j = g then v0 k j else 0) + (if b j = g then v1 k j else 0)) := by
  apply Finset.sum_congr rfl
  intro j _
  rw [Finset.sum_add_distrib, sum_range_ite_and psDim k hk, sum_range_ite_and psDim k hk]
  have e1 : (slot g = slot (a j)) = (a j = g) :=
    propext ⟨fun h => (hslot h).symm, fun h => by rw [h]⟩
  have e2 : (slot g = slot (b j)) = (b j = g) :=
    propext ⟨fun h => (hslot h).symm, fun h => by rw [h]⟩
  simp only [e1, e2]

theorem oneSlot_amount_at (psDim : Nat) (slot : Int → Int) (hslot : Function.Injective slot)
    (a : Nat → Int) (v : Nat → Nat → K) (k : Nat) (hk : k < psDim) (g : Int) :
    (∑ j ∈ Finset.range psDim, ∑ i ∈ Finset.range psDim,
        (if k = i ∧ slot g = slot (a j) then v i j else 0))
      = ∑ j ∈ Finset.range psDim, (if a j = g then v k j else 0) := by
  apply Finset.sum_congr rfl
  intro j _
  rw [sum_range_ite_and psDim k hk]
  have e1 : (slot g = slot (a j)) = (a j = g) :=
    propext ⟨fun h => (hslot h).symm, fun h => by rw [h]⟩
  simp only [e1]

/-- The whole production assembler in closed form. -/
theorem computeProductionPartialDerivatives_spec (psDim : Nat) (indexList : Nat → Int)
    (s : PSISuperCluster K) (concs : Int → K) (xi : Nat)
    (partialsIdxMap : Nat → Int → Option Int) (partials : Nat → Int → K) (slot : Int → Int)
    (hmap : ∀ p ∈ s.effReactingList, ∀ j, j < psDim →
      partialsIdxMap j (stateIndex indexList p.first j)
          = some (slot (stateIndex indexList p.first j))
      ∧ partialsIdxMap j (stateIndex indexList p.second j)
          = some (slot (stateIndex indexList p.second j))) :
    ∃ partials2 : Nat → Int → K,
      computeProductionPartialDerivatives psDim indexList s concs xi partialsIdxMap partials
        = some partials2
      ∧ ∀ x y, partials2 x y = partials x y
          + (s.effReactingList.map (fun p =>
              ∑ j ∈ Finset.range psDim, ∑ i ∈ Finset.range psDim,
                ((if x = i ∧ y = slot (stateIndex indexList p.first j) then
                    p.reaction.kConstant xi / (s.nTot : K)
                      * productionPartialSums psDim p.coefs
                          (gatherMoments psDim indexList p.first concs)
                          (gatherMoments psDim indexList p.second concs) i j 0
                  else 0)
                + (if x = i ∧ y = slot (stateIndex indexList p.second j) then
                    p.reaction.kConstant xi / (s.nTot : K)
                      * productionPartialSums psDim p.coefs
                          (gatherMoments psDim indexList p.first concs)
                          (gatherMoments psDim indexList p.second concs) i j 1
                  else 0)))).sum := by
  unfold computeProductionPartialDerivatives
  apply forEachM_add_spec
  intro p hp st
  exact twoSlotLoops_apply psDim partialsIdxMap
    (stateIndex indexList p.first) (stateIndex indexList p.second)
    (fun j => slot (stateIndex indexList p.first j))
    (fun j => slot (stateIndex indexList p.second j))
    (fun j hj => (hmap p hp j hj).1) (fun j hj => (hmap p hp j hj).2) _ _ st

/-- Component `k` of the whole production flux in closed form. -/
theorem getProductionFlux_component (psDim : Nat) (indexList : Nat → Int)
    (s : PSISuperCluster K) (concs : Int → K) (xi : Nat) (fl : Flux K)
    (k : Nat) (hk : k < psDim)
    (hidx : ∀ i, 1 ≤ i → i < psDim → ∀ i2, 1 ≤ i2 → i2 < psDim →
      indexList i = indexList i2 → i = i2)
    (hreads : ∀ p ∈ s.effReactingList, ReadsOwnState p.first ∧ ReadsOwnState p.second) :
    (if k = 0 then (getProductionFlux psDim indexList s concs xi fl).flux
      else (getProductionFlux psDim indexList s concs xi fl).momentFlux (indexList k - 1))
      = (if k = 0 then fl.flux else fl.momentFlux (indexList k - 1))
        + (s.effReactingList.map (fun p =>
            p.reaction.kConstant xi / (s.nTot : K)
              * ∑ j ∈ Finset.range psDim, ∑ i ∈ Finset.range psDim,
                  p.coefs j i k * concs (stateIndex indexList p.first j)
                    * concs (stateIndex indexList p.second i))).sum := by
  unfold getProductionFlux
  rw [forEach_add_read_mem
    (fun fl : Flux K => if k = 0 then fl.flux else fl.momentFlux (indexList k - 1))
    s.effReactingList _
    (fun p => p.reaction.kConstant xi / (s.nTot : K)
      * ∑ j ∈ Finset.range psDim, ∑ i ∈ Finset.range psDim,
          p.coefs j i k * concs (stateIndex indexList p.first j)
            * concs (stateIndex indexList p.second i))]
  intro p hp st
  show (if k = 0 then (getProductionFluxBody psDim indexList s concs xi st p).flux
    else (getProductionFluxBody psDim indexList s concs xi st p).momentFlux (indexList k - 1))
    = _
  rw [getProductionFluxBody_component psDim indexList s concs xi st p k hk hidx]
  congr 2
  apply Finset.sum_congr rfl
  intro j hj
  apply Finset.sum_congr rfl
  intro i hi
  rw [gatherMoments_of_readsOwnState psDim indexList p.first (hreads p hp).1 concs j
      (Finset.mem_range.mp hj),
    gatherMoments_of_readsOwnState psDim indexList p.second (hreads p hp).2 concs i
      (Finset.mem_range.mp hi)]

/-- The whole production assembler against the whole production flux: for every state
variable `g`, the amount filed in row `k` at the slot of `g` is the derivative of component
`k` of the flux with respect to `g`. -/
theorem production_jacobian (psDim : Nat) (indexList : Nat → Int)
    (s : PSISuperCluster ℝ) (concs : Int → ℝ) (xi : Nat)
    (partialsIdxMap : Nat → Int → Option Int) (partials : Nat → Int → ℝ) (fl : Flux ℝ)
    (slot : Int → Int) (k : Nat) (hk : k < psDim)
    (hidx : ∀ i, 1 ≤ i → i < psDim → ∀ i2, 1 ≤ i2 → i2 < psDim →
      indexList i = indexList i2 → i = i2)
    (hreads : ∀ p ∈ s.effReactingList, ReadsOwnState p.first ∧ ReadsOwnState p.second)
    (hmap : ∀ p ∈ s.effReactingList, ∀ j, j < psDim →
      partialsIdxMap j (stateIndex indexList p.first j)
          = some (slot (stateIndex indexList p.first j))
      ∧ partialsIdxMap j (stateIndex indexList p.second j)
          = some (slot (stateIndex indexList p.second j)))
    (hslot : Function.Injective slot) :
    ∃ partials2 : Nat → Int → ℝ,
      computeProductionPartialDerivatives psDim indexList s concs xi partialsIdxMap partials
        = some partials2
      ∧ ∀ g : Int,
          partials2 k (slot g) - partials k (slot g)
            = (s.effReactingList.map (fun p =>
                ∑ j ∈ Finset.range psDim,
                  ((if stateIndex indexList p.first j = g then
                      p.reaction.kConstant xi / (s.nTot : ℝ)
                        * ∑ i ∈ Finset.range psDim,
                            p.coefs j i k * gatherMoments psDim indexList p.second concs i
                    else 0)
                  + (if stateIndex indexList p.second j = g then
                      p.reaction.kConstant xi / (s.nTot : ℝ)
                        * ∑ i ∈ Finset.range psDim,
                            p.coefs i j k * gatherMoments psDim indexList p.first concs i
                    else 0)))).sum
          ∧ HasDerivAt
              (fun t =>
                if k = 0 then
                  (getProductionFlux psDim indexList s (Function.update concs g t) xi fl).flux
                else
                  (getProductionFlux psDim indexList s (Function.update concs g t) xi
                    fl).momentFlux (indexList k - 1))
              (partials2 k (slot g) - partials k (slot g)) (concs g) := by
  obtain ⟨p2, h1, h2⟩ := computeProductionPartialDerivatives_spec psDim indexList s concs xi
    partialsIdxMap partials slot hmap
  refine ⟨p2, h1, ?_⟩
  intro g
  have hamount : p2 k (slot g) - partials k (slot g)
      = (s.effReactingList.map (fun p =>
          ∑ j ∈ Finset.range psDim,
            ((if stateIndex indexList p.first j = g then
                p.reaction.kConstant xi / (s.nTot : ℝ)
                  * ∑ i ∈ Finset.range psDim,
                      p.coefs j i k * gatherMoments psDim indexList p.second concs i
              else 0)
            + (if stateIndex indexList p.second j = g then
                p.reaction.kConstant xi / (s.nTot : ℝ)
                  * ∑ i ∈ Finset.range psDim,
                      p.coefs i j k * gatherMoments psDim indexList p.first concs i
              else 0)))).sum := by
    rw [h2, add_sub_cancel_left]
    apply congrArg
    apply List.map_congr_left
    intro p _
    rw [twoSlot_amount_at psDim slot hslot _ _ _ _ k hk g]
    apply Finset.sum_congr rfl
    intro j hj
    rw [(productionPartialSums_apply psDim p.coefs _ _ k j hk (Finset.mem_range.mp hj)).1,
      (productionPartialSums_apply psDim p.coefs _ _ k j hk (Finset.mem_range.mp hj)).2]
  refine ⟨hamount, ?_⟩
  rw [hamount]
  have hfun : (fun t =>
      if k = 0 then
        (getProductionFlux psDim indexList s (Function.update concs g t) xi fl).flux
      else
        (getProductionFlux psDim indexList s (Function.update concs g t) xi
          fl).momentFlux (indexList k - 1))
      = fun t => (if k = 0 then fl.flux else fl.momentFlux (indexList k - 1))
        + (s.effReactingList.map (fun p =>
            p.reaction.kConstant xi / (s.nTot : ℝ)
              * ∑ j ∈ Finset.range psDim, ∑ i ∈ Finset.range psDim,
                  p.coefs j i k * Function.update concs g t (stateIndex indexList p.first j)
                    * Function.update concs g t (stateIndex indexList p.second i))).sum := by
    funext t
    exact getProductionFlux_component psDim indexList s _ xi fl k hk hidx hreads
  rw [hfun]
  apply HasDerivAt.const_add
  have hl := hasDerivAt_list_sum s.effReactingList
    (fun p t => p.reaction.kConstant xi / (s.nTot : ℝ)
      * ∑ j ∈ Finset.range psDim, ∑ i ∈ Finset.range psDim,
          p.coefs j i k * Function.update concs g t (stateIndex indexList p.first j)
            * Function.update concs g t (stateIndex indexList p.second i))
    (fun p => ∑ j ∈ Finset.range psDim,
      ((if stateIndex indexList p.first j = g then
          p.reaction.kConstant xi / (s.nTot : ℝ)
            * ∑ i ∈ Finset.range psDim,
                p.coefs j i k * gatherMoments psDim indexList p.second concs i
        else 0)
      + (if stateIndex indexList p.second j = g then
          p.reaction.kConstant xi / (s.nTot : ℝ)
            * ∑ i ∈ Finset.range psDim,
                p.coefs i j k * gatherMoments psDim indexList p.first concs i
        else 0))) (concs g) ?_
  · exact hl
  · intro p hp
    have hb := (hasDerivAt_bilinear_form psDim (fun j i => p.coefs j i k)
      (stateIndex indexList p.first) (stateIndex indexList p.second) concs g).const_mul
      (p.reaction.kConstant xi / (s.nTot : ℝ))
    convert hb using 1
    rw [Finset.mul_sum]
    apply Finset.sum_congr rfl
    intro j _
    rw [mul_add]
    congr 1
    · split
      · congr 1
        apply Finset.sum_congr rfl
        intro i hi
        rw [gatherMoments_of_readsOwnState psDim indexList p.second (hreads p hp).2 concs i
          (Finset.mem_range.mp hi)]
      · simp
    · split
      · congr 1
        apply Finset.sum_congr rfl
        intro i hi
        rw [gatherMoments_of_readsOwnState psDim indexList p.first (hreads p hp).1 concs i
          (Finset.mem_range.mp hi)]
      · simp

/-- The whole combination assembler in closed form. -/
theorem computeCombinationPartialDerivatives_spec (psDim : Nat) (indexList : Nat → Int)
    (s : PSISuperCluster K) (concs : Int → K) (xi : Nat)
    (partialsIdxMap : Nat → Int → Option Int) (partials : Nat → Int → K) (slot : Int → Int)
    (hmap : ∀ p ∈ s.effCombiningList, ∀ j, j < psDim →
      partialsIdxMap j (stateIndex indexList p.first j)
          = some (slot (stateIndex indexList p.first j))
      ∧ partialsIdxMap j (stateIndex indexList s.self j)
          = some (slot (stateIndex indexList s.self j))) :
    ∃ partials2 : Nat → Int → K,
      computeCombinationPartialDerivatives psDim indexList s concs xi partialsIdxMap partials
        = some partials2
      ∧ ∀ x y, partials2 x y = partials x y
          + (s.effCombiningList.map (fun p =>
              ∑ j ∈ Finset.range psDim, ∑ i ∈ Finset.range psDim,
                ((if x = i ∧ y = slot (stateIndex indexList p.first j) then
                    -(p.reaction.kConstant xi / (s.nTot : K)
                      * combinationPartialSums psDim p.coefs
                          (gatherMoments psDim indexList s.self concs)
                          (gatherMoments psDim indexList p.first concs) i j 0)
                  else 0)
                + (if x = i ∧ y = slot (stateIndex indexList s.self j) then
                    -(p.reaction.kConstant xi / (s.nTot : K)
                      * combinationPartialSums psDim p.coefs
                          (gatherMoments psDim indexList s.self concs)
                          (gatherMoments psDim indexList p.first concs) i j 1)
                  else 0)))).sum := by
  unfold computeCombinationPartialDerivatives
  apply forEachM_add_spec
  intro p hp st
  obtain ⟨p2, h1, h2⟩ := twoSlotLoops_apply psDim partialsIdxMap
    (stateIndex indexList p.first) (stateIndex indexList s.self)
    (fun j => slot (stateIndex indexList p.first j))
    (fun j => slot (stateIndex indexList s.self j))
    (fun j hj => (hmap p hp j hj).1) (fun j hj => (hmap p hp j hj).2)
    (fun i j => -(p.reaction.kConstant xi / (s.nTot : K)
      * combinationPartialSums psDim p.coefs (gatherMoments psDim indexList s.self concs)
          (gatherMoments psDim indexList p.first concs) i j 0))
    (fun i j => -(p.reaction.kConstant xi / (s.nTot : K)
      * combinationPartialSums psDim p.coefs (gatherMoments psDim indexList s.self concs)
          (gatherMoments psDim indexList p.first concs) i j 1)) st
  refine ⟨p2, ?_, h2⟩
  unfold computeCombinationPartialDerivativesBody
  simp only [subPartial_eq_addPartial]
  exact h1

/-- Component `k` of the whole combination flux in closed form, the scalar flux taken
with the opposite sign. -/
theorem getCombinationFlux_component (psDim : Nat) (indexList : Nat → Int)
    (s : PSISuperCluster K) (concs : Int → K) (xi : Nat) (fl : Flux K)
    (k : Nat) (hk : k < psDim)
    (hidx : ∀ i, 1 ≤ i → i < psDim → ∀ i2, 1 ≤ i2 → i2 < psDim →
      indexList i = indexList i2 → i = i2)
    (hself : ReadsOwnState s.self)
    (hreads : ∀ p ∈ s.effCombiningList, ReadsOwnState p.first) :
    (if k = 0 then -(getCombinationFlux psDim indexList s concs xi fl).flux
      else (getCombinationFlux psDim indexList s concs xi fl).momentFlux (indexList k - 1))
      = (if k = 0 then -fl.flux else fl.momentFlux (indexList k - 1))
        + (s.effCombiningList.map (fun p =>
            -(p.reaction.kConstant xi / (s.nTot : K)
              * ∑ j ∈ Finset.range psDim, ∑ i ∈ Finset.range psDim,
                  p.coefs i j k * concs (stateIndex indexList p.first j)
                    * concs (stateIndex indexList s.self i)))).sum := by
  unfold getCombinationFlux
  rw [forEach_add_read_mem
    (fun fl : Flux K => if k = 0 then -fl.flux else fl.momentFlux (indexList k - 1))
    s.effCombiningList _
    (fun p => -(p.reaction.kConstant xi / (s.nTot : K)
      * ∑ j ∈ Finset.range psDim, ∑ i ∈ Finset.range psDim,
          p.coefs i j k * concs (stateIndex indexList p.first j)
            * concs (stateIndex indexList s.self i)))]
  intro p hp st
  show (if k = 0 then -(getCombinationFluxBody psDim indexList s concs xi st p).flux
    else (getCombinationFluxBody psDim indexList s concs xi st p).momentFlux (indexList k - 1))
    = _
  rw [getCombinationFluxBody_component psDim indexList s concs xi st p k hk hidx,
    sub_eq_add_neg]
  congr 3
  apply Finset.sum_congr rfl
  intro j hj
  apply Finset.sum_congr rfl
  intro i hi
  rw [gatherMoments_of_readsOwnState psDim indexList p.first (hreads p hp) concs j
      (Finset.mem_range.mp hj),
    gatherMoments_of_readsOwnState psDim indexList s.self hself concs i
      (Finset.mem_range.mp hi)]
  ring

/-- The whole combination assembler against the whole combination flux. -/
theorem combination_jacobian (psDim : Nat) (indexList : Nat → Int)
    (s : PSISuperCluster ℝ) (concs : Int → ℝ) (xi : Nat)
    (partialsIdxMap : Nat → Int → Option Int) (partials : Nat → Int → ℝ) (fl : Flux ℝ)
    (slot : Int → Int) (k : Nat) (hk : k < psDim)
    (hidx : ∀ i, 1 ≤ i → i < psDim → ∀ i2, 1 ≤ i2 → i2 < psDim →
      indexList i = indexList i2 → i = i2)
    (hself : ReadsOwnState s.self)
    (hreads : ∀ p ∈ s.effCombiningList, ReadsOwnState p.first)
    (hmap : ∀ p ∈ s.effCombiningList, ∀ j, j < psDim →
      partialsIdxMap j (stateIndex indexList p.first j)
          = some (slot (stateIndex indexList p.first j))
      ∧ partialsIdxMap j (stateIndex indexList s.self j)
          = some (slot (stateIndex indexList s.self j)))
    (hslot : Function.Injective slot) :
    ∃ partials2 : Nat → Int → ℝ,
      computeCombinationPartialDerivatives psDim indexList s concs xi partialsIdxMap partials
        = some partials2
      ∧ ∀ g : Int,
          partials2 k (slot g) - partials k (slot g)
            = (s.effCombiningList.map (fun p =>
                ∑ j ∈ Finset.range psDim,
                  ((if stateIndex indexList p.first j = g then
                      -(p.reaction.kConstant xi / (s.nTot : ℝ)
                        * ∑ i ∈ Finset.range psDim,
                            p.coefs i j k * gatherMoments psDim indexList s.self concs i)
                    else 0)
                  + (if stateIndex indexList s.self j = g then
                      -(p.reaction.kConstant xi / (s.nTot : ℝ)
                        * ∑ i ∈ Finset.range psDim,
                            p.coefs j i k * gatherMoments psDim indexList p.first concs i)
                    else 0)))).sum
          ∧ HasDerivAt
              (fun t =>
                if k = 0 then
                  -(getCombinationFlux psDim indexList s (Function.update concs g t) xi
                    fl).flux
                else
                  (getCombinationFlux psDim indexList s (Function.update concs g t) xi
                    fl).momentFlux (indexList k - 1))
              (partials2 k (slot g) - partials k (slot g)) (concs g) := by
  obtain ⟨p2, h1, h2⟩ := computeCombinationPartialDerivatives_spec psDim indexList s concs xi
    partialsIdxMap partials slot hmap
  refine ⟨p2, h1, ?_⟩
  intro g
  have hamount : p2 k (slot g) - partials k (slot g)
      = (s.effCombiningList.map (fun p =>
          ∑ j ∈ Finset.range psDim,
            ((if stateIndex indexList p.first j = g then
                -(p.reaction.kConstant xi / (s.nTot : ℝ)
                  * ∑ i ∈ Finset.range psDim,
                      p.coefs i j k * gatherMoments psDim indexList s.self concs i)
              else 0)
            + (if stateIndex indexList s.self j = g then
                -(p.reaction.kConstant xi / (s.nTot : ℝ)
                  * ∑ i ∈ Finset.range psDim,
                      p.coefs j i k * gatherMoments psDim indexList p.first concs i)
              else 0)))).sum := by
    rw [h2, add_sub_cancel_left]
    apply congrArg
    apply List.map_congr_left
    intro p _
    rw [twoSlot_amount_at psDim slot hslot _ _ _ _ k hk g]
    apply Finset.sum_congr rfl
    intro j hj
    rw [(combinationPartialSums_apply psDim p.coefs _ _ k j hk (Finset.mem_range.mp hj)).1,
      (combinationPartialSums_apply psDim p.coefs _ _ k j hk (Finset.mem_range.mp hj)).2]
  refine ⟨hamount, ?_⟩
  rw [hamount]
  have hfun : (fun t =>
      if k = 0 then
        -(getCombinationFlux psDim indexList s (Function.update concs g t) xi fl).flux
      else
        (getCombinationFlux psDim indexList s (Function.update concs g t) xi
          fl).momentFlux (indexList k - 1))
      = fun t => (if k = 0 then -fl.flux else fl.momentFlux (indexList k - 1))
        + (s.effCombiningList.map (fun p =>
            -(p.reaction.kConstant xi / (s.nTot : ℝ)
              * ∑ j ∈ Finset.range psDim, ∑ i ∈ Finset.range psDim,
                  p.coefs i j k * Function.update concs g t (stateIndex indexList p.first j)
                    * Function.update concs g t (stateIndex indexList s.self i)))).sum := by
    funext t
    exact getCombinationFlux_component psDim indexList s _ xi fl k hk hidx hself hreads
  rw [hfun]
  apply HasDerivAt.const_add
  have hl := hasDerivAt_list_sum s.effCombiningList
    (fun p t => -(p.reaction.kConstant xi / (s.nTot : ℝ)
      * ∑ j ∈ Finset.range psDim, ∑ i ∈ Finset.range psDim,
          p.coefs i j k * Function.update concs g t (stateIndex indexList p.first j)
            * Function.update concs g t (stateIndex indexList s.self i)))
    (fun p => ∑ j ∈ Finset.range psDim,
      ((if stateIndex indexList p.first j = g then
          -(p.reaction.kConstant xi / (s.nTot : ℝ)
            * ∑ i ∈ Finset.range psDim,
                p.coefs i j k * gatherMoments psDim indexList s.self concs i)
        else 0)
      + (if stateIndex indexList s.self j = g then
          -(p.reaction.kConstant xi / (s.nTot : ℝ)
            * ∑ i ∈ Finset.range psDim,
                p.coefs j i k * gatherMoments psDim indexList p.first concs i)
        else 0))) (concs g) ?_
  · exact hl
  · intro p hp
    have hb := ((hasDerivAt_bilinear_form psDim (fun j i => p.coefs i j k)
      (stateIndex indexList p.first) (stateIndex indexList s.self) concs g).const_mul
      (p.reaction.kConstant xi / (s.nTot : ℝ))).neg
    convert hb using 1
    rw [Finset.mul_sum, ← Finset.sum_neg_distrib]
    apply Finset.sum_congr rfl
    intro j _
    rw [mul_add, neg_add]
    congr 1
    · split
      · congr 2
        apply Finset.sum_congr rfl
        intro i hi
        rw [gatherMoments_of_readsOwnState psDim indexList s.self hself concs i
          (Finset.mem_range.mp hi)]
      · simp
    · split
      · congr 2
        apply Finset.sum_congr rfl
        intro i hi
        rw [gatherMoments_of_readsOwnState psDim indexList p.first (hreads p hp) concs i
          (Finset.mem_range.mp hi)]
      · simp

/-- The whole dissociation assembler in closed form. -/
theorem computeDissociationPartialDerivatives_spec (psDim : Nat) (indexList : Nat → Int)
    (s : PSISuperCluster K) (xi : Nat)
    (partialsIdxMap : Nat → Int → Option Int) (partials : Nat → Int → K) (slot : Int → Int)
    (hmap : ∀ p ∈ s.effDissociatingList, ∀ j, j < psDim →
      partialsIdxMap j (stateIndex indexList p.first j)
          = some (slot (stateIndex indexList p.first j))) :
    ∃ partials2 : Nat → Int → K,
      computeDissociationPartialDerivatives psDim indexList s xi partialsIdxMap partials
        = some partials2
      ∧ ∀ x y, partials2 x y = partials x y
          + (s.effDissociatingList.map (fun p =>
              ∑ j ∈ Finset.range psDim, ∑ i ∈ Finset.range psDim,
                (if x = i ∧ y = slot (stateIndex indexList p.first j) then
                    (p.reaction.kConstant xi / (s.nTot : K) * p.coefs j i)
                  else 0))).sum := by
  unfold computeDissociationPartialDerivatives
  apply forEachM_add_spec
  intro p hp st
  obtain ⟨p2, h1, h2⟩ := oneSlotLoops_apply psDim partialsIdxMap
    (stateIndex indexList p.first) (fun j => slot (stateIndex indexList p.first j))
    (fun j hj => hmap p hp j hj)
    (fun i j => (p.reaction.kConstant xi / (s.nTot : K) * p.coefs j i)) st
  refine ⟨p2, ?_, h2⟩
  exact h1

/-- Component `k` of the whole dissociation flux in closed form. -/
theorem getDissociationFlux_component (psDim : Nat) (indexList : Nat → Int)
    (s : PSISuperCluster K) (concs : Int → K) (xi : Nat) (fl : Flux K)
    (k : Nat) (hk : k < psDim)
    (hidx : ∀ i, 1 ≤ i → i < psDim → ∀ i2, 1 ≤ i2 → i2 < psDim →
      indexList i = indexList i2 → i = i2)
    (hreads : ∀ p ∈ s.effDissociatingList, ReadsOwnState p.first) :
    (if k = 0 then (getDissociationFlux psDim indexList s concs xi fl).flux
      else (getDissociationFlux psDim indexList s concs xi fl).momentFlux (indexList k - 1))
      = (if k = 0 then fl.flux else fl.momentFlux (indexList k - 1))
        + (s.effDissociatingList.map (fun p =>
            (p.reaction.kConstant xi / (s.nTot : K)
              * ∑ i ∈ Finset.range psDim,
                  p.coefs i k * concs (stateIndex indexList p.first i)))).sum := by
  unfold getDissociationFlux
  rw [forEach_add_read_mem
    (fun fl : Flux K => if k = 0 then fl.flux else fl.momentFlux (indexList k - 1))
    s.effDissociatingList _
    (fun p => (p.reaction.kConstant xi / (s.nTot : K)
      * ∑ i ∈ Finset.range psDim,
          p.coefs i k * concs (stateIndex indexList p.first i)))]
  intro p hp st
  show (if k = 0 then (getDissociationFluxBody psDim indexList s concs xi st p).flux
    else (getDissociationFluxBody psDim indexList s concs xi st p).momentFlux (indexList k - 1))
    = _
  rw [getDissociationFluxBody_component psDim indexList s concs xi st p k hk hidx]
  congr 2
  apply Finset.sum_congr rfl
  intro i hi
  rw [gatherMoments_of_readsOwnState psDim indexList p.first (hreads p hp) concs i
      (Finset.mem_range.mp hi)]

/-- The whole dissociation assembler against the whole dissociation flux. -/
theorem dissociation_jacobian (psDim : Nat) (indexList : Nat → Int)
    (s : PSISuperCluster ℝ) (concs : Int → ℝ) (xi : Nat)
    (partialsIdxMap : Nat → Int → Option Int) (partials : Nat → Int → ℝ) (fl : Flux ℝ)
    (slot : Int → Int) (k : Nat) (hk : k < psDim)
    (hidx : ∀ i, 1 ≤ i → i < psDim → ∀ i2, 1 ≤ i2 → i2 < psDim →
      indexList i = indexList i2 → i = i2)
    (hreads : ∀ p ∈ s.effDissociatingList, ReadsOwnState p.first)
    (hmap : ∀ p ∈ s.effDissociatingList, ∀ j, j < psDim →
      partialsIdxMap j (stateIndex indexList p.first j)
          = some (slot (stateIndex indexList p.first j)))
    (hslot : Function.Injective slot) :
    ∃ partials2 : Nat → Int → ℝ,
      computeDissociationPartialDerivatives psDim indexList s xi partialsIdxMap partials
        = some partials2
      ∧ ∀ g : Int,
          partials2 k (slot g) - partials k (slot g)
            = (s.effDissociatingList.map (fun p =>
                ∑ j ∈ Finset.range psDim,
                  (if stateIndex indexList p.first j = g then
                      (p.reaction.kConstant xi / (s.nTot : ℝ) * p.coefs j k)
                    else 0))).sum
          ∧ HasDerivAt
              (fun t =>
                if k = 0 then
                  (getDissociationFlux psDim indexList s (Function.update concs g t) xi
                    fl).flux
                else
                  (getDissociationFlux psDim indexList s (Function.update concs g t) xi
                    fl).momentFlux (indexList k - 1))
              (partials2 k (slot g) - partials k (slot g)) (concs g) := by
  obtain ⟨p2, h1, h2⟩ := computeDissociationPartialDerivatives_spec psDim indexList s xi
    partialsIdxMap partials slot hmap
  refine ⟨p2, h1, ?_⟩
  intro g
  have hamount : p2 k (slot g) - partials k (slot g)
      = (s.effDissociatingList.map (fun p =>
          ∑ j ∈ Finset.range psDim,
            (if stateIndex indexList p.first j = g then
                (p.reaction.kConstant xi / (s.nTot : ℝ) * p.coefs j k)
              else 0))).sum := by
    rw [h2, add_sub_cancel_left]
    apply congrArg
    apply List.map_congr_left
    intro p _
    rw [oneSlot_amount_at psDim slot hslot _ _ k hk g]
  refine ⟨hamount, ?_⟩
  rw [hamount]
  have hfun : (fun t =>
      if k = 0 then
        (getDissociationFlux psDim indexList s (Function.update concs g t) xi fl).flux
      else
        (getDissociationFlux psDim indexList s (Function.update concs g t) xi
          fl).momentFlux (indexList k - 1))
      = fun t => (if k = 0 then fl.flux else fl.momentFlux (indexList k - 1))
        + (s.effDissociatingList.map (fun p =>
            (p.reaction.kConstant xi / (s.nTot : ℝ)
              * ∑ i ∈ Finset.range psDim,
                  p.coefs i k * Function.update concs g t (stateIndex indexList p.first i)))).sum
      := by
    funext t
    exact getDissociationFlux_component psDim indexList s _ xi fl k hk hidx hreads
  rw [hfun]
  apply HasDerivAt.const_add
  have hl := hasDerivAt_list_sum s.effDissociatingList
    (fun p t => (p.reaction.kConstant xi / (s.nTot : ℝ)
      * ∑ i ∈ Finset.range psDim,
          p.coefs i k * Function.update concs g t (stateIndex indexList p.first i)))
    (fun p => ∑ j ∈ Finset.range psDim,
      (if stateIndex indexList p.first j = g then
          (p.reaction.kConstant xi / (s.nTot : ℝ) * p.coefs j k)
        else 0)) (concs g) ?_
  · exact hl
  · intro p hp
    have hb := (hasDerivAt_linear_form psDim (fun i => p.coefs i k)
      (stateIndex indexList p.first) concs g).const_mul
      (p.reaction.kConstant xi / (s.nTot : ℝ))
    convert hb using 1
    rw [Finset.mul_sum]
    apply Finset.sum_congr rfl
    intro j _
    split <;> simp

/-- The whole emission assembler in closed form. -/
theorem computeEmissionPartialDerivatives_spec (psDim : Nat) (indexList : Nat → Int)
    (s : PSISuperCluster K) (xi : Nat)
    (partialsIdxMap : Nat → Int → Option Int) (partials : Nat → Int → K) (slot : Int → Int)
    (hmap : ∀ p ∈ s.effEmissionList, ∀ j, j < psDim →
      partialsIdxMap j (stateIndex indexList s.self j)
          = some (slot (stateIndex indexList s.self j))) :
    ∃ partials2 : Nat → Int → K,
      computeEmissionPartialDerivatives psDim indexList s xi partialsIdxMap partials
        = some partials2
      ∧ ∀ x y, partials2 x y = partials x y
          + (s.effEmissionList.map (fun p =>
              ∑ j ∈ Finset.range psDim, ∑ i ∈ Finset.range psDim,
                (if x = i ∧ y = slot (stateIndex indexList s.self j) then
                    -(p.reaction.kConstant xi / (s.nTot : K) * p.coefs j i)
                  else 0))).sum := by
  unfold computeEmissionPartialDerivatives
  apply forEachM_add_spec
  intro p hp st
  obtain ⟨p2, h1, h2⟩ := oneSlotLoops_apply psDim partialsIdxMap
    (stateIndex indexList s.self) (fun j => slot (stateIndex indexList s.self j))
    (fun j hj => hmap p hp j hj)
    (fun i j => -(p.reaction.kConstant xi / (s.nTot : K) * p.coefs j i)) st
  refine ⟨p2, ?_, h2⟩
  unfold computeEmissionPartialDerivativesBody
  simp only [subPartial_eq_addPartial]
  exact h1

/-- Component `k` of the whole emission flux in closed form, the scalar flux taken with the opposite sign. -/
theorem getEmissionFlux_component (psDim : Nat) (indexList : Nat → Int)
    (s : PSISuperCluster K) (concs : Int → K) (xi : Nat) (fl : Flux K)
    (k : Nat) (hk : k < psDim)
    (hidx : ∀ i, 1 ≤ i → i < psDim → ∀ i2, 1 ≤ i2 → i2 < psDim →
      indexList i = indexList i2 → i = i2)
    (hself : ReadsOwnState s.self) :
    (if k = 0 then -(getEmissionFlux psDim indexList s concs xi fl).flux
      else (getEmissionFlux psDim indexList s concs xi fl).momentFlux (indexList k - 1))
      = (if k = 0 then -fl.flux else fl.momentFlux (indexList k - 1))
        + (s.effEmissionList.map (fun p =>
            -(p.reaction.kConstant xi / (s.nTot : K)
              * ∑ i ∈ Finset.range psDim,
                  p.coefs i k * concs (stateIndex indexList s.self i)))).sum := by
  unfold getEmissionFlux
  rw [forEach_add_read_mem
    (fun fl : Flux K => if k = 0 then -fl.flux else fl.momentFlux (indexList k - 1))
    s.effEmissionList _
    (fun p => -(p.reaction.kConstant xi / (s.nTot : K)
      * ∑ i ∈ Finset.range psDim,
          p.coefs i k * concs (stateIndex indexList s.self i)))]
  intro p hp st
  show (if k = 0 then -(getEmissionFluxBody psDim indexList s concs xi st p).flux
    else (getEmissionFluxBody psDim indexList s concs xi st p).momentFlux (indexList k - 1))
    = _
  rw [getEmissionFluxBody_component psDim indexList s concs xi st p k hk hidx,
    sub_eq_add_neg]
  congr 3
  apply Finset.sum_congr rfl
  intro i hi
  rw [gatherMoments_of_readsOwnState psDim indexList s.self hself concs i
      (Finset.mem_range.mp hi)]

/-- The whole emission assembler against the whole emission flux. -/
theorem emission_jacobian (psDim : Nat) (indexList : Nat → Int)
    (s : PSISuperCluster ℝ) (concs : Int → ℝ) (xi : Nat)
    (partialsIdxMap : Nat → Int → Option Int) (partials : Nat → Int → ℝ) (fl : Flux ℝ)
    (slot : Int → Int) (k : Nat) (hk : k < psDim)
    (hidx : ∀ i, 1 ≤ i → i < psDim → ∀ i2, 1 ≤ i2 → i2 < psDim →
      indexList i = indexList i2 → i = i2)
    (hself : ReadsOwnState s.self)
    (hmap : ∀ p ∈ s.effEmissionList, ∀ j, j < psDim →
      partialsIdxMap j (stateIndex indexList s.self j)
          = some (slot (stateIndex indexList s.self j)))
    (hslot : Function.Injective slot) :
    ∃ partials2 : Nat → Int → ℝ,
      computeEmissionPartialDerivatives psDim indexList s xi partialsIdxMap partials
        = some partials2
      ∧ ∀ g : Int,
          partials2 k (slot g) - partials k (slot g)
            = (s.effEmissionList.map (fun p =>
                ∑ j ∈ Finset.range psDim,
                  (if stateIndex indexList s.self j = g then
                      -(p.reaction.kConstant xi / (s.nTot : ℝ) * p.coefs j k)
                    else 0))).sum
          ∧ HasDerivAt
              (fun t =>
                if k = 0 then
                  -(getEmissionFlux psDim indexList s (Function.update concs g t) xi
                    fl).flux
                else
                  (getEmissionFlux psDim indexList s (Function.update concs g t) xi
                    fl).momentFlux (indexList k - 1))
              (partials2 k (slot g) - partials k (slot g)) (concs g) := by
  obtain ⟨p2, h1, h2⟩ := computeEmissionPartialDerivatives_spec psDim indexList s xi
    partialsIdxMap partials slot hmap
  refine ⟨p2, h1, ?_⟩
  intro g
  have hamount : p2 k (slot g) - partials k (slot g)
      = (s.effEmissionList.map (fun p =>
          ∑ j ∈ Finset.range psDim,
            (if stateIndex indexList s.self j = g then
                -(p.reaction.kConstant xi / (s.nTot : ℝ) * p.coefs j k)
              else 0))).sum := by
    rw [h2, add_sub_cancel_left]
    apply congrArg
    apply List.map_congr_left
    intro p _
    rw [oneSlot_amount_at psDim slot hslot _ _ k hk g]
  refine ⟨hamount, ?_⟩
  rw [hamount]
  have hfun : (fun t =>
      if k = 0 then
        -(getEmissionFlux psDim indexList s (Function.update concs g t) xi fl).flux
      else
        (getEmissionFlux psDim indexList s (Function.update concs g t) xi
          fl).momentFlux (indexList k - 1))
      = fun t => (if k = 0 then -fl.flux else fl.momentFlux (indexList k - 1))
        + (s.effEmissionList.map (fun p =>
            -(p.reaction.kConstant xi / (s.nTot : ℝ)
              * ∑ i ∈ Finset.range psDim,
                  p.coefs i k * Function.update concs g t (stateIndex indexList s.self i)))).sum
      := by
    funext t
    exact getEmissionFlux_component psDim indexList s _ xi fl k hk hidx hself
  rw [hfun]
  apply HasDerivAt.const_add
  have hl := hasDerivAt_list_sum s.effEmissionList
    (fun p t => -(p.reaction.kConstant xi / (s.nTot : ℝ)
      * ∑ i ∈ Finset.range psDim,
          p.coefs i k * Function.update concs g t (stateIndex indexList s.self i)))
    (fun p => ∑ j ∈ Finset.range psDim,
      (if stateIndex indexList s.self j = g then
          -(p.reaction.kConstant xi / (s.nTot : ℝ) * p.coefs j k)
        else 0)) (concs g) ?_
  · exact hl
  · intro p hp
    have hb := ((hasDerivAt_linear_form psDim (fun i => p.coefs i k)
      (stateIndex indexList s.self) concs g).const_mul
      (p.reaction.kConstant xi / (s.nTot : ℝ))).neg
    convert hb using 1
    rw [Finset.mul_sum, ← Finset.sum_neg_distrib]
    apply Finset.sum_congr rfl
    intro j _
    split <;> simp

/-- C4: for a super-cluster whose reacting entries have operands `A` (first) and `B`
(second) that read their own state variables, with an index map that files every state
variable under a slot of its own, for every grid index, concentration vector and row
`k < psDim`: `computeProductionPartialDerivatives` succeeds, and for every state variable
`g` the amount it adds to `partials[k]` at the slot of `g` is the sum, over the reacting
entries, of `(kConstant[xi]/nTot) * sum_i coefs[j][i][k] * lB[i]` when `g` is `A`'s `j`-th
state variable and of `(kConstant[xi]/nTot) * sum_i coefs[i][j][k] * lA[i]` when `g` is
`B`'s `j`-th state variable, and this amount is the derivative, with respect to `g`, of
component `k` (the scalar flux for `k = 0`, `momentFlux[indexList[k]-1]` otherwise) of the
result of `getProductionFlux`. -/
theorem production_partials_are_flux_derivatives (psDim : Nat) (indexList : Nat → Int)
    (s : PSISuperCluster ℝ) (concs : Int → ℝ) (xi : Nat)
    (partialsIdxMap : Nat → Int → Option Int) (partials : Nat → Int → ℝ) (fl : Flux ℝ)
    (slot : Int → Int) (k : Nat) (hk : k < psDim)
    (hidx : ∀ i, 1 ≤ i → i < psDim → ∀ i2, 1 ≤ i2 → i2 < psDim →
      indexList i = indexList i2 → i = i2)
    (hreads : ∀ p ∈ s.effReactingList, ReadsOwnState p.first ∧ ReadsOwnState p.second)
    (hmap : ∀ p ∈ s.effReactingList, ∀ j, j < psDim →
      partialsIdxMap j (stateIndex indexList p.first j)
          = some (slot (stateIndex indexList p.first j))
      ∧ partialsIdxMap j (stateIndex indexList p.second j)
          = some (slot (stateIndex indexList p.second j)))
    (hslot : Function.Injective slot) :
    ∃ partials2 : Nat → Int → ℝ,
      computeProductionPartialDerivatives psDim indexList s concs xi partialsIdxMap partials
        = some partials2
      ∧ ∀ g : Int,
          partials2 k (slot g) - partials k (slot g)
            = (s.effReactingList.map (fun p =>
                ∑ j ∈ Finset.range psDim,
                  ((if stateIndex indexList p.first j = g then
                      p.reaction.kConstant xi / (s.nTot : ℝ)
                        * ∑ i ∈ Finset.range psDim,
                            p.coefs j i k * gatherMoments psDim indexList p.second concs i
                    else 0)
                  + (if stateIndex indexList p.second j = g then
                      p.reaction.kConstant xi / (s.nTot : ℝ)
                        * ∑ i ∈ Finset.range psDim,
                            p.coefs i j k * gatherMoments psDim indexList p.first concs i
                    else 0)))).sum
          ∧ HasDerivAt
              (fun t =>
                if k = 0 then
                  (getProductionFlux psDim indexList s (Function.update concs g t) xi fl).flux
                else
                  (getProductionFlux psDim indexList s (Function.update concs g t) xi
                    fl).momentFlux (indexList k - 1))
              (partials2 k (slot g) - partials k (slot g)) (concs g) :=
  production_jacobian psDim indexList s concs xi partialsIdxMap partials fl slot k hk hidx
    hreads hmap hslot

theorem sampleNetworkState_reads :
    (∀ p ∈ (sampleNetworkState ℝ).effReactingList,
      ReadsOwnState p.first ∧ ReadsOwnState p.second)
    ∧ ReadsOwnState (sampleNetworkState ℝ).self
    ∧ (∀ p ∈ (sampleNetworkState ℝ).effCombiningList, ReadsOwnState p.first)
    ∧ (∀ p ∈ (sampleNetworkState ℝ).effDissociatingList, ReadsOwnState p.first) := by
  refine ⟨?_, fun _ => ⟨rfl, fun _ => rfl⟩, ?_, ?_⟩
  · intro p hp
    simp only [sampleNetworkState, List.mem_singleton] at hp
    subst hp
    exact ⟨fun _ => ⟨rfl, fun _ => rfl⟩, fun _ => ⟨rfl, fun _ => rfl⟩⟩
  · intro p hp
    simp only [sampleNetworkState, List.mem_singleton] at hp
    subst hp
    exact fun _ => ⟨rfl, fun _ => rfl⟩
  · intro p hp
    simp only [sampleNetworkState, List.mem_singleton] at hp
    subst hp
    exact fun _ => ⟨rfl, fun _ => rfl⟩

/-- C4, witness: `psDim = 2` with position 1 tracking axis 0, the sample super-cluster
with its one reacting entry (operand ids 6 and 11, moment ids 7 and 12 on axis 0), the
identity index map, all concentrations 1, row `k = 1`; the state variable is the first
operand's moment (index 6). -/
theorem production_partials_are_flux_derivatives_witness :
    ∃ partials2 : Nat → Int → ℝ,
      computeProductionPartialDerivatives 2 (fun i => (i : Int)) (sampleNetworkState ℝ)
          (fun _ => 1) 0 (fun _ idx => some idx) (fun _ _ => 0) = some partials2
      ∧ HasDerivAt
          (fun t =>
            (getProductionFlux 2 (fun i => (i : Int)) (sampleNetworkState ℝ)
              (Function.update (fun _ => 1) 6 t) 0 (zeroFlux ℝ)).momentFlux 0)
          (partials2 1 6 - 0) 1 := by
  obtain ⟨p2, h1, h2⟩ := production_partials_are_flux_derivatives 2 (fun i => (i : Int))
    (sampleNetworkState ℝ) (fun _ => 1) 0 (fun _ idx => some idx) (fun _ _ => 0) (zeroFlux ℝ)
    (fun x => x) 1 (by decide) (fun i h1 h2 i2 h3 h4 _ => by omega)
    sampleNetworkState_reads.1 (fun _ _ _ _ => ⟨rfl, rfl⟩) (fun _ _ h => h)
  exact ⟨p2, h1, (h2 6).2⟩

/-- C5, amended: for a super-cluster whose own cluster and whose combining partners read
their own state variables, with an index map that files every state variable under a slot
of its own, for every grid index, concentration vector and row `k < psDim`:
`computeCombinationPartialDerivatives` and `computeEmissionPartialDerivatives` succeed, and
for every state variable `g` the amount each adds to `partials[k]` at the slot of `g` (the
sum over the list entries of the stated per-entry amounts) is the derivative, with respect
to `g`, of `momentFlux[indexList[k]-1]` of the result of `getCombinationFlux`
(respectively `getEmissionFlux`) when `k >= 1`, and of minus the scalar flux of that
result when `k = 0`. -/
theorem combination_emission_partials_are_signed_flux_derivatives (psDim : Nat)
    (indexList : Nat → Int) (s : PSISuperCluster ℝ) (concs : Int → ℝ) (xi : Nat)
    (partialsIdxMap : Nat → Int → Option Int) (partials : Nat → Int → ℝ) (fl : Flux ℝ)
    (slot : Int → Int) (k : Nat) (hk : k < psDim)
    (hidx : ∀ i, 1 ≤ i → i < psDim → ∀ i2, 1 ≤ i2 → i2 < psDim →
      indexList i = indexList i2 → i = i2)
    (hself : ReadsOwnState s.self)
    (hreads : ∀ p ∈ s.effCombiningList, ReadsOwnState p.first)
    (hmapC : ∀ p ∈ s.effCombiningList, ∀ j, j < psDim →
      partialsIdxMap j (stateIndex indexList p.first j)
          = some (slot (stateIndex indexList p.first j))
      ∧ partialsIdxMap j (stateIndex indexList s.self j)
          = some (slot (stateIndex indexList s.self j)))
    (hmapE : ∀ p ∈ s.effEmissionList, ∀ j, j < psDim →
      partialsIdxMap j (stateIndex indexList s.self j)
          = some (slot (stateIndex indexList s.self j)))
    (hslot : Function.Injective slot) :
    (∃ partials2 : Nat → Int → ℝ,
      computeCombinationPartialDerivatives psDim indexList s concs xi partialsIdxMap partials
        = some partials2
      ∧ ∀ g : Int,
          partials2 k (slot g) - partials k (slot g)
            = (s.effCombiningList.map (fun p =>
                ∑ j ∈ Finset.range psDim,
                  ((if stateIndex indexList p.first j = g then
                      -(p.reaction.kConstant xi / (s.nTot : ℝ)
                        * ∑ i ∈ Finset.range psDim,
                            p.coefs i j k * gatherMoments psDim indexList s.self concs i)
                    else 0)
                  + (if stateIndex indexList s.self j = g then
                      -(p.reaction.kConstant xi / (s.nTot : ℝ)
                        * ∑ i ∈ Finset.range psDim,
                            p.coefs j i k * gatherMoments psDim indexList p.first concs i)
                    else 0)))).sum
          ∧ HasDerivAt
              (fun t =>
                if k = 0 then
                  -(getCombinationFlux psDim indexList s (Function.update concs g t) xi
                    fl).flux
                else
                  (getCombinationFlux psDim indexList s (Function.update concs g t) xi
                    fl).momentFlux (indexList k - 1))
              (partials2 k (slot g) - partials k (slot g)) (concs g))
    ∧ (∃ partials2 : Nat → Int → ℝ,
      computeEmissionPartialDerivatives psDim indexList s xi partialsIdxMap partials
        = some partials2
      ∧ ∀ g : Int,
          partials2 k (slot g) - partials k (slot g)
            = (s.effEmissionList.map (fun p =>
                ∑ j ∈ Finset.range psDim,
                  (if stateIndex indexList s.self j = g then
                      -(p.reaction.kConstant xi / (s.nTot : ℝ) * p.coefs j k)
                    else 0))).sum
          ∧ HasDerivAt
              (fun t =>
                if k = 0 then
                  -(getEmissionFlux psDim indexList s (Function.update concs g t) xi
                    fl).flux
                else
                  (getEmissionFlux psDim indexList s (Function.update concs g t) xi
                    fl).momentFlux (indexList k - 1))
              (partials2 k (slot g) - partials k (slot g)) (concs g)) :=
  ⟨combination_jacobian psDim indexList s concs xi partialsIdxMap partials fl slot k hk hidx
      hself hreads hmapC hslot,
    emission_jacobian psDim indexList s concs xi partialsIdxMap partials fl slot k hk hidx
      hself hmapE hslot⟩

/-- C5, witness: `psDim = 2` with position 1 tracking axis 0, the sample super-cluster
(own id 1, own moment id 2 on axis 0) with its one combining entry and its one emission
entry, the identity index map, all concentrations 1, row `k = 1`; the state variable is
this cluster's own moment (index 1). -/
theorem combination_emission_partials_witness :
    (∃ partials2 : Nat → Int → ℝ,
      computeCombinationPartialDerivatives 2 (fun i => (i : Int)) (sampleNetworkState ℝ)
          (fun _ => 1) 0 (fun _ idx => some idx) (fun _ _ => 0) = some partials2
      ∧ HasDerivAt
          (fun t =>
            (getCombinationFlux 2 (fun i => (i : Int)) (sampleNetworkState ℝ)
              (Function.update (fun _ => 1) 1 t) 0 (zeroFlux ℝ)).momentFlux 0)
          (partials2 1 1 - 0) 1)
    ∧ (∃ partials2 : Nat → Int → ℝ,
      computeEmissionPartialDerivatives 2 (fun i => (i : Int)) (sampleNetworkState ℝ)
          0 (fun _ idx => some idx) (fun _ _ => 0) = some partials2
      ∧ HasDerivAt
          (fun t =>
            (getEmissionFlux 2 (fun i => (i : Int)) (sampleNetworkState ℝ)
              (Function.update (fun _ => 1) 1 t) 0 (zeroFlux ℝ)).momentFlux 0)
          (partials2 1 1 - 0) 1) := by
  obtain ⟨⟨p2, h1, h2⟩, ⟨p3, h3, h4⟩⟩ :=
    combination_emission_partials_are_signed_flux_derivatives 2 (fun i => (i : Int))
      (sampleNetworkState ℝ) (fun _ => 1) 0 (fun _ idx => some idx) (fun _ _ => 0)
      (zeroFlux ℝ) (fun x => x) 1 (by decide) (fun i h1 h2 i2 h3 h4 _ => by omega)
      sampleNetworkState_reads.2.1 sampleNetworkState_reads.2.2.1
      (fun _ _ _ _ => ⟨rfl, rfl⟩) (fun _ _ _ _ => rfl) (fun _ _ h => h)
  exact ⟨⟨p2, h1, (h2 1).2⟩, ⟨p3, h3, (h4 1).2⟩⟩

/-- C5, counterexample to the claimed "same sign" in row 0: for the sample super-cluster
with `psDim = 1` and all concentrations 1, `computeCombinationPartialDerivatives` adds
`-1/2` to `partials[0]` at the slot of this cluster's own concentration (index 0), while
the derivative with respect to that concentration of the scalar flux returned by
`getCombinationFlux` is `+1/2`. -/
theorem combination_scalar_partial_has_opposite_sign :
    ∃ partials2 : Nat → Int → ℝ,
      computeCombinationPartialDerivatives 1 (fun i => (i : Int)) (sampleNetworkState ℝ)
          (fun _ => 1) 0 (fun _ idx => some idx) (fun _ _ => 0) = some partials2
      ∧ partials2 0 0 - 0 = -(1 / 2)
      ∧ HasDerivAt
          (fun t =>
            (getCombinationFlux 1 (fun i => (i : Int)) (sampleNetworkState ℝ)
              (Function.update (fun _ => 1) 0 t) 0 (zeroFlux ℝ)).flux)
          (1 / 2) 1
      ∧ ¬ HasDerivAt
          (fun t =>
            (getCombinationFlux 1 (fun i => (i : Int)) (sampleNetworkState ℝ)
              (Function.update (fun _ => 1) 0 t) 0 (zeroFlux ℝ)).flux)
          (partials2 0 0 - 0) 1 := by
  obtain ⟨p2, h1, h2⟩ := combination_jacobian 1 (fun i => (i : Int))
      (sampleNetworkState ℝ) (fun _ => 1) 0 (fun _ idx => some idx) (fun _ _ => 0)
      (zeroFlux ℝ) (fun x => x) 0 (by decide) (fun i h1 h2 i2 h3 h4 _ => by omega)
      sampleNetworkState_reads.2.1 sampleNetworkState_reads.2.2.1
      (fun _ _ _ _ => ⟨rfl, rfl⟩) (fun _ _ h => h)
  obtain ⟨ha, hd⟩ := h2 0
  have hv : p2 0 0 - 0 = -(1 / 2 : ℝ) := by
    rw [ha]
    simp [sampleNetworkState, sampleSuper, sampleCombination, sampleCluster, stateIndex,
      gatherMoments, forLoop]
  have hd2 : HasDerivAt
      (fun t =>
        (getCombinationFlux 1 (fun i => (i : Int)) (sampleNetworkState ℝ)
          (Function.update (fun _ => 1) 0 t) 0 (zeroFlux ℝ)).flux)
      (1 / 2) 1 := by
    have h5 := hd.neg
    simp only [if_true, neg_neg] at h5
    rw [hv, neg_neg] at h5
    convert h5 using 1
  refine ⟨p2, h1, hv, hd2, ?_⟩
  intro hbad
  have := hd2.unique hbad
  rw [hv] at this
  norm_num at this

/-- C20: for a super-cluster whose dissociating parents read their own state variables,
with an index map that files every state variable under a slot of its own, for every grid
index and row `k < psDim`: `computeDissociationPartialDerivatives` succeeds; what it adds
to the cell `(x, y)` of `partials` is one term `(kConstant[xi]/nTot) * coefs[j][i]` for each
entry and each `(i, j)` with `x = i` and `y` the slot of the parent's `j`-th state variable;
the result is the same whatever the concentration vector (the code's lambda does not
capture `concs`, which the assembler here does not take); and at every concentration
vector, for every state variable `g`, the amount added to `partials[k]` at the slot of `g`
is the derivative, with respect to `g`, of component `k` of the result of
`getDissociationFlux`. -/
theorem dissociation_partials_are_flux_derivatives (psDim : Nat) (indexList : Nat → Int)
    (s : PSISuperCluster ℝ) (xi : Nat)
    (partialsIdxMap : Nat → Int → Option Int) (partials : Nat → Int → ℝ) (fl : Flux ℝ)
    (slot : Int → Int) (k : Nat) (hk : k < psDim)
    (hidx : ∀ i, 1 ≤ i → i < psDim → ∀ i2, 1 ≤ i2 → i2 < psDim →
      indexList i = indexList i2 → i = i2)
    (hreads : ∀ p ∈ s.effDissociatingList, ReadsOwnState p.first)
    (hmap : ∀ p ∈ s.effDissociatingList, ∀ j, j < psDim →
      partialsIdxMap j (stateIndex indexList p.first j)
          = some (slot (stateIndex indexList p.first j)))
    (hslot : Function.Injective slot) :
    ∃ partials2 : Nat → Int → ℝ,
      computeDissociationPartialDerivatives psDim indexList s xi partialsIdxMap partials
        = some partials2
      ∧ (∀ x y, partials2 x y = partials x y
          + (s.effDissociatingList.map (fun p =>
              ∑ j ∈ Finset.range psDim, ∑ i ∈ Finset.range psDim,
                (if x = i ∧ y = slot (stateIndex indexList p.first j) then
                    (p.reaction.kConstant xi / (s.nTot : ℝ) * p.coefs j i)
                  else 0))).sum)
      ∧ ∀ (concs : Int → ℝ) (g : Int),
          partials2 k (slot g) - partials k (slot g)
            = (s.effDissociatingList.map (fun p =>
                ∑ j ∈ Finset.range psDim,
                  (if stateIndex indexList p.first j = g then
                      (p.reaction.kConstant xi / (s.nTot : ℝ) * p.coefs j k)
                    else 0))).sum
          ∧ HasDerivAt
              (fun t =>
                if k = 0 then
                  (getDissociationFlux psDim indexList s (Function.update concs g t) xi
                    fl).flux
                else
                  (getDissociationFlux psDim indexList s (Function.update concs g t) xi
                    fl).momentFlux (indexList k - 1))
              (partials2 k (slot g) - partials k (slot g)) (concs g) := by
  obtain ⟨p2, h1, h2⟩ := computeDissociationPartialDerivatives_spec psDim indexList s xi
    partialsIdxMap partials slot hmap
  refine ⟨p2, h1, h2, ?_⟩
  intro concs g
  obtain ⟨p3, h3, h4⟩ := dissociation_jacobian psDim indexList s concs xi partialsIdxMap
    partials fl slot k hk hidx hreads hmap hslot
  have e : p2 = p3 := Option.some.inj (h1.symm.trans h3)
  subst e
  exact h4 g

/-- C20, witness: `psDim = 2` with position 1 tracking axis 0, the sample super-cluster
with its one dissociating entry (parent id 16, moment id 17 on axis 0), the identity index
map, all concentrations 1, row `k = 1`; the state variable is the parent's moment
(index 16). -/
theorem dissociation_partials_are_flux_derivatives_witness :
    ∃ partials2 : Nat → Int → ℝ,
      computeDissociationPartialDerivatives 2 (fun i => (i : Int)) (sampleNetworkState ℝ)
          0 (fun _ idx => some idx) (fun _ _ => 0) = some partials2
      ∧ HasDerivAt
          (fun t =>
            (getDissociationFlux 2 (fun i => (i : Int)) (sampleNetworkState ℝ)
              (Function.update (fun _ => 1) 16 t) 0 (zeroFlux ℝ)).momentFlux 0)
          (partials2 1 16 - 0) 1 := by
  obtain ⟨p2, h1, _, h2⟩ := dissociation_partials_are_flux_derivatives 2
    (fun i => (i : Int)) (sampleNetworkState ℝ) 0 (fun _ idx => some idx)
    (fun _ _ => 0) (zeroFlux ℝ) (fun x => x) 1 (by decide)
    (fun i h1 h2 i2 h3 h4 _ => by omega)
    sampleNetworkState_reads.2.2.2 (fun _ _ _ _ => rfl) (fun _ _ h => h)
  exact ⟨p2, h1, (h2 (fun _ => 1) 16).2⟩

/-! ## The combining updates on the whole cluster (claim C36) -/

theorem modifyAt_getElem? {α : Type} (l : List α) (pos : Nat) (f : α → α) (n : Nat) :
    (modifyAt l pos f)[n]? = (l[n]?).map (fun e => if n = pos then f e else e) := by
  unfold modifyAt
  cases h : l[pos]? with
  | none =>
    by_cases hn : n = pos
    · subst hn
      simp [h]
    · cases l[n]? <;> simp [hn]
  | some x =>
    simp only [List.getElem?_set]
    by_cases hn : pos = n
    · subst hn
      have hlt : pos < l.length := by
        by_contra hc
        rw [List.getElem?_eq_none (by omega)] at h
        exact Option.noConfusion h
      simp [hlt, h]
    · have hn2 : ¬ n = pos := fun h => hn h.symm
      rw [if_neg hn]
      cases l[n]? <;> simp [hn2]

theorem mem_modifyAt {α : Type} (l : List α) (pos : Nat) (f : α → α) (x : α)
    (h : x ∈ modifyAt l pos f) : x ∈ l ∨ ∃ y ∈ l, x = f y := by
  obtain ⟨n, hn⟩ := List.mem_iff_getElem?.mp h
  rw [modifyAt_getElem?] at hn
  cases hl : l[n]? with
  | none => rw [hl] at hn; exact Option.noConfusion hn
  | some e =>
    rw [hl] at hn
    simp only [Option.map_some'] at hn
    have he : e ∈ l := List.mem_iff_getElem?.mpr ⟨n, hl⟩
    have := Option.some.inj hn
    split at this
    · exact Or.inr ⟨e, he, this.symm⟩
    · exact Or.inl (this ▸ he)

theorem forEach_congr_mem {α σ : Type} (l : List α) (body1 body2 : σ → α → σ)
    (h : ∀ x ∈ l, ∀ st, body1 st x = body2 st x) (init : σ) :
    forEach l body1 init = forEach l body2 init := by
  unfold forEach
  induction l generalizing init with
  | nil => rfl
  | cons p l ih =>
    rw [List.foldl_cons, List.foldl_cons, h p (List.mem_cons_self p l),
      ih (fun q hq st => h q (List.mem_cons_of_mem p hq) st)]

/-- What `addToEffCombiningList` returns: the cluster unchanged, or with one freshly created
entry (zero coefficients) appended to the combining list. -/
theorem addToEffCombiningList_cases (s : PSISuperCluster K) (reaction : ProductionReaction K)
    (r : PSISuperCluster K × Nat) (h : addToEffCombiningList s reaction = some r) :
    r.1 = s
    ∨ r.1 = { s with effCombiningList := s.effCombiningList
                ++ [CombiningCluster.create reaction (findOtherClusterProd s reaction)] } := by
  unfold addToEffCombiningList at h
  simp only at h
  split at h
  · cases hl : s.effCombiningListMap.lookup (findOtherClusterProd s reaction).addr with
    | some pos =>
      rw [hl] at h
      exact Or.inl (by rw [← Option.some.inj h])
    | none =>
      rw [hl] at h
      exact Or.inr (by rw [← Option.some.inj h])
  · exact Option.noConfusion h

/-- The explicit combining update on the whole cluster, entry by entry. -/
theorem participateInProduction_entries (psDim : Nat) (indexList : Nat → Int)
    (s : PSISuperCluster K) (reaction : ProductionReaction K) (a : Int → Int)
    (r : PSISuperCluster K × Nat) (h : addToEffCombiningList s reaction = some r) :
    ∃ s2 : PSISuperCluster K,
      participateInProduction psDim indexList s reaction a = some s2
      ∧ s2.self = s.self ∧ s2.nTot = s.nTot
      ∧ s2.effCombiningList.length = r.1.effCombiningList.length
      ∧ ∀ (n : Nat) (e : CombiningCluster K), r.1.effCombiningList[n]? = some e →
          ∃ e2 : CombiningCluster K,
            s2.effCombiningList[n]? = some e2
            ∧ e2.reaction = e.reaction ∧ e2.first = e.first
            ∧ (∀ i j k : Nat, e2.coefs i j k
                = e.coefs i j k
                  + if n = r.2 ∧ i < psDim ∧ j = 0 ∧ k < psDim then
                      ownDistance psDim indexList s.self a i
                        * ownFactor psDim indexList s.self a k
                    else 0)
            ∧ (n = r.2 → 0 < psDim → e2.coefs 0 0 0 = e.coefs 0 0 0 + 1) := by
  have hself := addToEffCombiningList_self s reaction r h
  have hn : r.1.nTot = s.nTot := by
    rcases addToEffCombiningList_cases s reaction r h with h1 | h1 <;> rw [h1]
  obtain ⟨s1, pos⟩ := r
  simp only at hself hn
  refine ⟨{ s1 with
      effCombiningList :=
        modifyAt s1.effCombiningList pos (participateInProductionEntry psDim indexList s1 a) },
    ?_, hself, hn, ?_, ?_⟩
  · unfold participateInProduction
    rw [h]
  · show (modifyAt _ _ _).length = _
    unfold modifyAt
    split <;> simp
  · intro n e he
    show ∃ e2, (modifyAt s1.effCombiningList pos
      (participateInProductionEntry psDim indexList s1 a))[n]? = some e2 ∧ _
    simp only at he
    rw [modifyAt_getElem?, he]
    by_cases hnr : n = pos
    · refine ⟨participateInProductionEntry psDim indexList s1 a e, by simp [hnr],
        (participateInProductionEntry_fields psDim indexList s1 a e).2,
        (participateInProductionEntry_fields psDim indexList s1 a e).1, ?_, ?_⟩
      · intro i j k
        rw [participateInProductionEntry_coefs, hself]
        simp [hnr]
      · intro _ hp
        rw [participateInProductionEntry_coefs, hself]
        simp [hp, ownDistance_apply, ownFactor_apply]
    · refine ⟨e, by simp [hnr], rfl, rfl, ?_, ?_⟩
      · intro i j k
        simp [hnr]
      · intro h1
        exact absurd h1 hnr

/-- Every entry of a combining list built only by the combining updates has zero
coefficients at every nonzero partner index. -/
theorem CombiningListBuiltByUpdates.coefs_zero (psDim : Nat) (indexList : Nat → Int)
    (s : PSISuperCluster K) (h : CombiningListBuiltByUpdates psDim indexList s) :
    ∀ e ∈ s.effCombiningList, ∀ i j k : Nat, j ≠ 0 → e.coefs i j k = 0 := by
  induction h with
  | start s h0 =>
    intro e he
    rw [h0] at he
    exact absurd he (List.not_mem_nil e)
  | explicit s s2 reaction a _ hs ih =>
    unfold participateInProduction at hs
    cases hr : addToEffCombiningList s reaction with
    | none => rw [hr] at hs; exact Option.noConfusion hs
    | some r =>
      rw [hr] at hs
      have hs2 := Option.some.inj hs
      have hbase : ∀ e ∈ r.1.effCombiningList, ∀ i j k : Nat, j ≠ 0 → e.coefs i j k = 0 := by
        intro e he
        rcases addToEffCombiningList_cases s reaction r hr with h1 | h1
        · rw [h1] at he
          exact ih e he
        · rw [h1] at he
          rcases List.mem_append.mp he with h2 | h2
          · exact ih e h2
          · rw [List.mem_singleton.mp h2]
            intro _ _ _ _
            rfl
      intro e he i j k hj
      rw [← hs2] at he
      rcases mem_modifyAt _ _ _ e he with h3 | ⟨y, hy, h3⟩
      · exact hbase e h3 i j k hj
      · rw [h3, participateInProductionEntry_frame psDim indexList _ a y i j k hj]
        exact hbase y hy i j k hj
  | batch s s2 reaction prInfos _ hs ih =>
    unfold participateInProductionBatch at hs
    cases hr : addToEffCombiningList s reaction with
    | none => rw [hr] at hs; exact Option.noConfusion hs
    | some r =>
      rw [hr] at hs
      have hs2 := Option.some.inj hs
      have hbase : ∀ e ∈ r.1.effCombiningList, ∀ i j k : Nat, j ≠ 0 → e.coefs i j k = 0 := by
        intro e he
        rcases addToEffCombiningList_cases s reaction r hr with h1 | h1
        · rw [h1] at he
          exact ih e he
        · rw [h1] at he
          rcases List.mem_append.mp he with h2 | h2
          · exact ih e h2
          · rw [List.mem_singleton.mp h2]
            intro _ _ _ _
            rfl
      intro e he i j k hj
      rw [← hs2] at he
      rcases mem_modifyAt _ _ _ e he with h3 | ⟨y, hy, h3⟩
      · exact hbase e h3 i j k hj
      · rw [h3, (participateInProductionBatchEntry_fields psDim indexList _ prInfos y).2.2
          i j k hj]
        exact hbase y hy i j k hj

/-- The whole combination flux of a cluster whose entries have zero coefficients at every
nonzero partner index reads each partner only through its concentration. -/
theorem getCombinationFlux_partner (psDim : Nat) (indexList : Nat → Int)
    (s : PSISuperCluster K) (concs : Int → K) (xi : Nat) (fl : Flux K)
    (partner : PSICluster K → PSICluster K)
    (hz : ∀ e ∈ s.effCombiningList, ∀ i j k : Nat, j ≠ 0 → e.coefs i j k = 0)
    (hc : ∀ e ∈ s.effCombiningList,
      (partner e.first).getConcentration concs = e.first.getConcentration concs) :
    getCombinationFlux psDim indexList
        { s with effCombiningList :=
            s.effCombiningList.map (fun e => { e with first := partner e.first }) }
        concs xi fl
      = getCombinationFlux psDim indexList s concs xi fl := by
  unfold getCombinationFlux
  show forEach (s.effCombiningList.map (fun e => { e with first := partner e.first }))
    (getCombinationFluxBody psDim indexList s concs xi) fl = _
  rw [forEach_map]
  apply forEach_congr_mem
  intro e he st
  exact getCombinationFluxBody_partner psDim indexList s concs xi st e (partner e.first)
    (hz e he) (hc e he)

/-- The explicit combining update for a partner that is not in the lookup map: one entry is
appended, holding `distance[i] * factor[k]` at `coefs[i][0][k]` and zero elsewhere. -/
theorem participateInProduction_fresh (psDim : Nat) (indexList : Nat → Int)
    (s : PSISuperCluster K) (reaction : ProductionReaction K) (a : Int → Int)
    (hl : s.effCombiningListMap.lookup ((findOtherClusterProd s reaction).addr) = none) :
    ∃ (s2 : PSISuperCluster K) (e2 : CombiningCluster K),
      participateInProduction psDim indexList s reaction a = some s2
      ∧ s2.effCombiningList = s.effCombiningList ++ [e2]
      ∧ e2.reaction = reaction ∧ e2.first = findOtherClusterProd s reaction
      ∧ ∀ i j k : Nat, e2.coefs i j k
          = if i < psDim ∧ j = 0 ∧ k < psDim then
              ownDistance psDim indexList s.self a i * ownFactor psDim indexList s.self a k
            else 0 := by
  have hp : participateInProduction psDim indexList s reaction a
      = some { s with
          effCombiningList := s.effCombiningList
            ++ [participateInProductionEntry psDim indexList s a
                  (CombiningCluster.create reaction (findOtherClusterProd s reaction))] } := by
    rw [participateInProduction_eq_map, addToEffCombiningList_of_lookup_none s reaction hl]
    simp only [Option.map, modifyAt_append_length]
  refine ⟨_, participateInProductionEntry psDim indexList s a
      (CombiningCluster.create reaction (findOtherClusterProd s reaction)), hp, rfl,
    (participateInProductionEntry_fields psDim indexList s a _).2,
    (participateInProductionEntry_fields psDim indexList s a _).1, ?_⟩
  intro i j k
  rw [participateInProductionEntry_coefs]
  show (0 : K) + _ = _
  rw [zero_add]

/-- C36: the explicit combining update `participateInProduction`, as a whole: whenever the
find-or-create step `addToEffCombiningList` returns the cluster `r.1` and the position
`r.2`, the update returns a cluster whose combining list has the entries of `r.1` with the
same reactions and partners, the entry at position `r.2` having `coefs[i][0][k]` increased
by `distance[i] * factor[k]` for `i, k < psDim` (so `coefs[0][0][0]` by exactly 1) and every
other coefficient of every entry unchanged, in particular every coefficient whose second
index is nonzero; for a partner not in the lookup map the step succeeds and the appended
entry holds exactly these products. Hence, for a cluster whose combining list was built
from the empty list by explicit and batch updates only, `getCombinationFlux` is unchanged
when every partner is replaced by a cluster with the same concentration, whatever its
moments; and the same holds entry by entry. -/
theorem combining_update_frame (psDim : Nat) (indexList : Nat → Int) :
    (∀ (s : PSISuperCluster K) (reaction : ProductionReaction K) (a : Int → Int)
        (r : PSISuperCluster K × Nat), addToEffCombiningList s reaction = some r →
      ∃ s2 : PSISuperCluster K,
        participateInProduction psDim indexList s reaction a = some s2
        ∧ s2.self = s.self ∧ s2.nTot = s.nTot
        ∧ s2.effCombiningList.length = r.1.effCombiningList.length
        ∧ ∀ (n : Nat) (e : CombiningCluster K), r.1.effCombiningList[n]? = some e →
            ∃ e2 : CombiningCluster K,
              s2.effCombiningList[n]? = some e2
              ∧ e2.reaction = e.reaction ∧ e2.first = e.first
              ∧ (∀ i j k : Nat, e2.coefs i j k
                  = e.coefs i j k
                    + if n = r.2 ∧ i < psDim ∧ j = 0 ∧ k < psDim then
                        ownDistance psDim indexList s.self a i
                          * ownFactor psDim indexList s.self a k
                      else 0)
              ∧ (n = r.2 → 0 < psDim → e2.coefs 0 0 0 = e.coefs 0 0 0 + 1))
    ∧ (∀ (s : PSISuperCluster K) (reaction : ProductionReaction K) (a : Int → Int),
        s.effCombiningListMap.lookup ((findOtherClusterProd s reaction).addr) = none →
      ∃ (s2 : PSISuperCluster K) (e2 : CombiningCluster K),
        participateInProduction psDim indexList s reaction a = some s2
        ∧ s2.effCombiningList = s.effCombiningList ++ [e2]
        ∧ e2.reaction = reaction ∧ e2.first = findOtherClusterProd s reaction
        ∧ ∀ i j k : Nat, e2.coefs i j k
            = if i < psDim ∧ j = 0 ∧ k < psDim then
                ownDistance psDim indexList s.self a i * ownFactor psDim indexList s.self a k
              else 0)
    ∧ (∀ s : PSISuperCluster K, CombiningListBuiltByUpdates psDim indexList s →
      ∀ (concs : Int → K) (xi : Nat) (fl : Flux K) (partner : PSICluster K → PSICluster K),
        (∀ e ∈ s.effCombiningList,
          (partner e.first).getConcentration concs = e.first.getConcentration concs) →
        getCombinationFlux psDim indexList
            { s with effCombiningList :=
                s.effCombiningList.map (fun e => { e with first := partner e.first }) }
            concs xi fl
          = getCombinationFlux psDim indexList s concs xi fl)
    ∧ (∀ (s : PSISuperCluster K) (reaction : ProductionReaction K) (other : PSICluster K)
        (e : CombiningCluster K),
      BuiltByCombiningUpdates psDim indexList s reaction other e →
      ∀ (concs : Int → K) (xi : Nat) (fl : Flux K) (partner : PSICluster K),
        partner.getConcentration concs = other.getConcentration concs →
        getCombinationFluxBody psDim indexList s concs xi fl { e with first := partner }
          = getCombinationFluxBody psDim indexList s concs xi fl e) := by
  refine ⟨?_, ?_, ?_, ?_⟩
  · intro s reaction a r h
    exact participateInProduction_entries psDim indexList s reaction a r h
  · intro s reaction a hl
    exact participateInProduction_fresh psDim indexList s reaction a hl
  · intro s hb concs xi fl partner hc
    exact getCombinationFlux_partner psDim indexList s concs xi fl partner
      (CombiningListBuiltByUpdates.coefs_zero psDim indexList s hb) hc
  · intro s reaction other e hb concs xi fl partner hc
    obtain ⟨_, h2, h3⟩ := BuiltByCombiningUpdates.spec psDim indexList s reaction other e hb
    exact getCombinationFluxBody_partner psDim indexList s concs xi fl e partner h3
      (by rw [h2]; exact hc)

/-! ## Overlap regions in terms of the reactants' bounds (claims C10, C13) -/

/-- The overlap region of `resultFrom(ProductionReaction&, IReactant&)` on axis `a`, read
off the bounds of the entry's two reactants and of the product. -/
theorem resultFromOverlap_operand (prodPair : ProductionPair K) (product : PSICluster K)
    (a : Nat) (ha : a < 4) :
    (resultFromOverlap prodPair product).r1Lo a
        = (if prodPair.second.type = ReactantType.PSISuper then prodPair.second.boundsBegin a
          else if prodPair.first.type = ReactantType.PSISuper then
            prodPair.first.boundsBegin a
          else 0)
    ∧ (resultFromOverlap prodPair product).r1Hi a
        = (if prodPair.second.type = ReactantType.PSISuper then
            prodPair.second.boundsEnd a - 1
          else if prodPair.first.type = ReactantType.PSISuper then
            prodPair.first.boundsEnd a - 1
          else 0)
    ∧ (resultFromOverlap prodPair product).singleComp a
        = (if prodPair.second.type = ReactantType.PSISuper then prodPair.first.boundsBegin a
          else if prodPair.first.type = ReactantType.PSISuper then
            prodPair.second.boundsBegin a
          else 0)
          - (if a = 3 then
              (if prodPair.first.type = ReactantType.I then prodPair.first.size
                else if prodPair.second.type = ReactantType.I then prodPair.second.size
                else 0)
            else 0) := by
  unfold resultFromOverlap
  simp only [forLoop, List.range', List.foldl, OverlapRegion.finishAxis, OverlapRegion.init]
  by_cases h1 : prodPair.first.type = ReactantType.PSISuper <;>
  by_cases h2 : prodPair.second.type = ReactantType.PSISuper <;>
  interval_cases a <;> simp [Function.update, h1, h2]

/-- The overlap region of `emitFrom(DissociationReaction&, IReactant&)` on axis `a`, read
off the bounds of the entry's two clusters and of the dissociating cluster. -/
theorem emitFromOverlap_operand (dissPair : DissociationPair K) (disso : PSICluster K)
    (a : Nat) (ha : a < 4) :
    (emitFromOverlap dissPair disso).r1Lo a
        = (if dissPair.second.type = ReactantType.PSISuper then dissPair.second.boundsBegin a
          else if dissPair.first.type = ReactantType.PSISuper then
            dissPair.first.boundsBegin a
          else 0)
    ∧ (emitFromOverlap dissPair disso).r1Hi a
        = (if dissPair.second.type = ReactantType.PSISuper then
            dissPair.second.boundsEnd a - 1
          else if dissPair.first.type = ReactantType.PSISuper then
            dissPair.first.boundsEnd a - 1
          else 0)
    ∧ (emitFromOverlap dissPair disso).singleComp a
        = (if dissPair.second.type = ReactantType.PSISuper then dissPair.first.boundsBegin a
          else if dissPair.first.type = ReactantType.PSISuper then
            dissPair.second.boundsBegin a
          else 0)
          - (if a = 3 then
              (if dissPair.first.type = ReactantType.I then dissPair.first.size
                else if dissPair.second.type = ReactantType.I then dissPair.second.size
                else 0)
            else 0) := by
  unfold emitFromOverlap
  simp only [forLoop, List.range', List.foldl, OverlapRegion.finishAxis, OverlapRegion.init]
  by_cases h1 : dissPair.first.type = ReactantType.PSISuper <;>
  by_cases h2 : dissPair.second.type = ReactantType.PSISuper <;>
  interval_cases a <;> simp [Function.update, h1, h2]

/-- The overlap region of `participateIn(ProductionReaction&, IReactant&)` on axis `a`,
read off the bounds of this cluster, of the other reactant and of the product. -/
theorem participateInProductionOverlap_operand (s : PSISuperCluster K)
    (reaction : ProductionReaction K) (product : PSICluster K) (a : Nat) (ha : a < 4) :
    (participateInProductionOverlap s reaction product).r1Lo a = s.self.boundsBegin a
    ∧ (participateInProductionOverlap s reaction product).r1Hi a = s.self.boundsEnd a - 1
    ∧ (participateInProductionOverlap s reaction product).singleComp a
        = (findOtherClusterProd s reaction).boundsBegin a
          - (if a = 3 then
              (if (findOtherClusterProd s reaction).type = ReactantType.I then
                (findOtherClusterProd s reaction).size else 0)
            else 0) := by
  unfold participateInProductionOverlap
  simp only [forLoop, List.range', List.foldl, OverlapRegion.finishAxis, OverlapRegion.init]
  interval_cases a <;> simp [Function.update]

/-- The overlap region of `participateIn(DissociationReaction&, IReactant&)` on axis `a`,
read off the bounds of this cluster, of the emitted cluster and of the dissociating
cluster. -/
theorem participateInDissociationOverlap_operand (s : PSISuperCluster K)
    (reaction : DissociationReaction K) (disso : PSICluster K) (a : Nat) (ha : a < 4) :
    (participateInDissociationOverlap s reaction disso).r1Lo a = s.self.boundsBegin a
    ∧ (participateInDissociationOverlap s reaction disso).r1Hi a = s.self.boundsEnd a - 1
    ∧ (participateInDissociationOverlap s reaction disso).singleComp a
        = (findOtherClusterDiss s reaction).boundsBegin a
          - (if a = 3 then
              (if (findOtherClusterDiss s reaction).type = ReactantType.I then
                (findOtherClusterDiss s reaction).size else 0)
            else 0) := by
  unfold participateInDissociationOverlap
  simp only [forLoop, List.range', List.foldl, OverlapRegion.finishAxis, OverlapRegion.init]
  interval_cases a <;> simp [Function.update]

/-- The width `resultFrom(ProductionReaction&, IReactant&)` computes on axis `a`, in terms
of the bounds of the entry's reactants and of the product. -/
theorem resultFromOverlap_width (prodPair : ProductionPair K) (product : PSICluster K)
    (a : Nat) (ha : a < 4) :
    (resultFromOverlap prodPair product).width a
      = specOverlapWidth (product.boundsBegin a) (product.boundsEnd a - 1)
            (if prodPair.second.type = ReactantType.PSISuper then prodPair.second.boundsBegin a
              else if prodPair.first.type = ReactantType.PSISuper then prodPair.first.boundsBegin a
              else 0)
            (if prodPair.second.type = ReactantType.PSISuper then prodPair.second.boundsEnd a - 1
              else if prodPair.first.type = ReactantType.PSISuper then prodPair.first.boundsEnd a - 1
              else 0)
            ((if prodPair.second.type = ReactantType.PSISuper then prodPair.first.boundsBegin a
                else if prodPair.first.type = ReactantType.PSISuper then prodPair.second.boundsBegin a
                else 0)
              - (if a = 3 then
                  (if prodPair.first.type = ReactantType.I then prodPair.first.size
                    else if prodPair.second.type = ReactantType.I then prodPair.second.size
                    else 0)
                else 0)) := by
  obtain ⟨h1, h2, h3⟩ := resultFromOverlap_axis prodPair product a ha
  obtain ⟨h4, h5, h6⟩ := resultFromOverlap_operand prodPair product a ha
  rw [h3, h1, h2, h4, h5, h6]
  rfl

/-- The width `emitFrom(DissociationReaction&, IReactant&)` computes on axis `a`, in terms
of the bounds of the entry's clusters and of the dissociating cluster. -/
theorem emitFromOverlap_width (dissPair : DissociationPair K) (product : PSICluster K)
    (a : Nat) (ha : a < 4) :
    (emitFromOverlap dissPair product).width a
      = specOverlapWidth (product.boundsBegin a) (product.boundsEnd a - 1)
            (if dissPair.second.type = ReactantType.PSISuper then dissPair.second.boundsBegin a
              else if dissPair.first.type = ReactantType.PSISuper then dissPair.first.boundsBegin a
              else 0)
            (if dissPair.second.type = ReactantType.PSISuper then dissPair.second.boundsEnd a - 1
              else if dissPair.first.type = ReactantType.PSISuper then dissPair.first.boundsEnd a - 1
              else 0)
            ((if dissPair.second.type = ReactantType.PSISuper then dissPair.first.boundsBegin a
                else if dissPair.first.type = ReactantType.PSISuper then dissPair.second.boundsBegin a
                else 0)
              - (if a = 3 then
                  (if dissPair.first.type = ReactantType.I then dissPair.first.size
                    else if dissPair.second.type = ReactantType.I then dissPair.second.size
                    else 0)
                else 0)) := by
  obtain ⟨h1, h2, h3⟩ := emitFromOverlap_axis dissPair product a ha
  obtain ⟨h4, h5, h6⟩ := emitFromOverlap_operand dissPair product a ha
  rw [h3, h1, h2, h4, h5, h6]
  rfl

/-- The width `participateIn(ProductionReaction&, IReactant&)` computes on axis `a`, in
terms of the bounds of this cluster, of the other reactant and of the product. -/
theorem participateInProductionOverlap_width (s : PSISuperCluster K)
    (reaction : ProductionReaction K) (product : PSICluster K) (a : Nat) (ha : a < 4) :
    (participateInProductionOverlap s reaction product).width a
      = specOverlapWidth (product.boundsBegin a) (product.boundsEnd a - 1)
            (s.self.boundsBegin a) (s.self.boundsEnd a - 1)
            ((findOtherClusterProd s reaction).boundsBegin a
              - (if a = 3 then
                  (if (findOtherClusterProd s reaction).type = ReactantType.I then (findOtherClusterProd s reaction).size else 0)
                else 0)) := by
  obtain ⟨h1, h2, h3⟩ := participateInProductionOverlap_axis s reaction product a ha
  obtain ⟨h4, h5, h6⟩ := participateInProductionOverlap_operand s reaction product a ha
  rw [h3, h1, h2, h4, h5, h6]
  rfl

/-- The width `participateIn(DissociationReaction&, IReactant&)` computes on axis `a`, in
terms of the bounds of this cluster, of the emitted cluster and of the dissociating
cluster. -/
theorem participateInDissociationOverlap_width (s : PSISuperCluster K)
    (dissociation : DissociationReaction K) (product : PSICluster K) (a : Nat) (ha : a < 4) :
    (participateInDissociationOverlap s dissociation product).width a
      = specOverlapWidth (product.boundsBegin a) (product.boundsEnd a - 1)
            (s.self.boundsBegin a) (s.self.boundsEnd a - 1)
            ((findOtherClusterDiss s dissociation).boundsBegin a
              - (if a = 3 then
                  (if (findOtherClusterDiss s dissociation).type = ReactantType.I then (findOtherClusterDiss s dissociation).size else 0)
                else 0)) := by
  obtain ⟨h1, h2, h3⟩ := participateInDissociationOverlap_axis s dissociation product a ha
  obtain ⟨h4, h5, h6⟩ := participateInDissociationOverlap_operand s dissociation product a ha
  rw [h3, h1, h2, h4, h5, h6]
  rfl

/-- When the specification's width is non-negative, at least 1, and negative. -/
theorem specOverlapWidth_sign (productLo productHi r1Lo r1Hi singleComp : Int) :
    (0 ≤ specOverlapWidth productLo productHi r1Lo r1Hi singleComp
        ↔ max productLo (r1Lo + singleComp) ≤ min productHi (r1Hi + singleComp) + 1)
    ∧ (1 ≤ specOverlapWidth productLo productHi r1Lo r1Hi singleComp
        ↔ max productLo (r1Lo + singleComp) ≤ min productHi (r1Hi + singleComp))
    ∧ (productLo ≤ productHi → r1Lo ≤ r1Hi →
        (specOverlapWidth productLo productHi r1Lo r1Hi singleComp < 0
          ↔ r1Hi + singleComp + 1 < productLo ∨ productHi + 1 < r1Lo + singleComp)) := by
  unfold specOverlapWidth
  refine ⟨?_, ?_, ?_⟩
  · constructor <;> intro h <;> linarith
  · constructor <;> intro h <;> linarith
  · intro h1 h2
    constructor
    · intro h
      by_contra hc
      push_neg at hc
      obtain ⟨h3, h4⟩ := hc
      have h5 : max productLo (r1Lo + singleComp) ≤ min productHi (r1Hi + singleComp) + 1 := by
        rcases max_cases productLo (r1Lo + singleComp) with ⟨e1, _⟩ | ⟨e1, _⟩ <;>
        rcases min_cases productHi (r1Hi + singleComp) with ⟨e2, _⟩ | ⟨e2, _⟩ <;>
        rw [e1, e2] <;> omega
      linarith
    · intro h
      rcases h with h | h
      · have h3 : min productHi (r1Hi + singleComp) ≤ r1Hi + singleComp := min_le_right _ _
        have h4 : productLo ≤ max productLo (r1Lo + singleComp) := le_max_left _ _
        linarith
      · have h3 : min productHi (r1Hi + singleComp) ≤ productHi := min_le_left _ _
        have h4 : r1Lo + singleComp ≤ max productLo (r1Lo + singleComp) := le_max_right _ _
        linarith

/-- C13: each of the four overlap-region derivations is the find-or-create step followed
by the coefficient update of the found entry; that update increases the zeroth-order
coefficient (`coefs[0][0][0]`, respectively `coefs[0][0]`) by exactly `nOverlap`;
`nOverlap` is the product of the four per-axis widths; the width on axis `a` is
`min(productHi, r1Hi + singleComp) - max(productLo, r1Lo + singleComp) + 1` taken from the
bounds of the clusters involved (product or dissociating cluster, grouped operand, lower
bound of the other operand less the interstitial size on the last axis); and with
`psDim = 1` no other coefficient of the entry changes. -/
theorem overlap_zeroth_coefficient (sums : MomentSums K) (psDim : Nat)
    (indexList : Nat → Int) (s : PSISuperCluster K) (reaction : ProductionReaction K)
    (dissociation : DissociationReaction K) (product : PSICluster K) :
    (resultFromReactant sums psDim indexList s reaction product
        = (addToEffReactingList s reaction).map (fun r =>
            { r.1 with
              effReactingList := modifyAt r.1.effReactingList r.2 (fun prodPair =>
                resultFromOverlapCoefs sums psDim indexList r.1
                  (resultFromOverlap prodPair product) prodPair) })
      ∧ ∀ (s1 : PSISuperCluster K) (prodPair : ProductionPair K),
          (resultFromOverlapCoefs sums psDim indexList s1
              (resultFromOverlap prodPair product) prodPair).coefs 0 0 0
            = prodPair.coefs 0 0 0 + ((resultFromOverlap prodPair product).nOverlap : K)
          ∧ (resultFromOverlap prodPair product).nOverlap
            = (resultFromOverlap prodPair product).width 0
              * (resultFromOverlap prodPair product).width 1
              * (resultFromOverlap prodPair product).width 2
              * (resultFromOverlap prodPair product).width 3
          ∧ (∀ a : Nat, a < 4 →
              (resultFromOverlap prodPair product).width a
                = specOverlapWidth (product.boundsBegin a) (product.boundsEnd a - 1)
                  (if prodPair.second.type = ReactantType.PSISuper then prodPair.second.boundsBegin a
                    else if prodPair.first.type = ReactantType.PSISuper then prodPair.first.boundsBegin a
                    else 0)
                  (if prodPair.second.type = ReactantType.PSISuper then prodPair.second.boundsEnd a - 1
                    else if prodPair.first.type = ReactantType.PSISuper then prodPair.first.boundsEnd a - 1
                    else 0)
                  ((if prodPair.second.type = ReactantType.PSISuper then prodPair.first.boundsBegin a
                      else if prodPair.first.type = ReactantType.PSISuper then prodPair.second.boundsBegin a
                      else 0)
                    - (if a = 3 then
                        (if prodPair.first.type = ReactantType.I then prodPair.first.size
                          else if prodPair.second.type = ReactantType.I then prodPair.second.size
                          else 0)
                      else 0)))
          ∧ ∀ i j k, ¬ (i = 0 ∧ j = 0 ∧ k = 0) →
              (resultFromOverlapCoefs sums 1 indexList s1
                (resultFromOverlap prodPair product) prodPair).coefs i j k
              = prodPair.coefs i j k)
    ∧ (participateInProductionReactant sums psDim indexList s reaction product
        = (addToEffCombiningList s reaction).map (fun r =>
            { r.1 with
              effCombiningList := modifyAt r.1.effCombiningList r.2
                (participateInProductionOverlapCoefs sums psDim indexList r.1
                  (participateInProductionOverlap r.1 reaction product)) })
      ∧ ∀ (s1 : PSISuperCluster K) (combCluster : CombiningCluster K),
          (participateInProductionOverlapCoefs sums psDim indexList s1
              (participateInProductionOverlap s1 reaction product) combCluster).coefs 0 0 0
            = combCluster.coefs 0 0 0
              + ((participateInProductionOverlap s1 reaction product).nOverlap : K)
          ∧ (participateInProductionOverlap s1 reaction product).nOverlap
            = (participateInProductionOverlap s1 reaction product).width 0
              * (participateInProductionOverlap s1 reaction product).width 1
              * (participateInProductionOverlap s1 reaction product).width 2
              * (participateInProductionOverlap s1 reaction product).width 3
          ∧ (∀ a : Nat, a < 4 →
              (participateInProductionOverlap s1 reaction product).width a
                = specOverlapWidth (product.boundsBegin a) (product.boundsEnd a - 1)
                  (s1.self.boundsBegin a) (s1.self.boundsEnd a - 1)
                  ((findOtherClusterProd s1 reaction).boundsBegin a
                    - (if a = 3 then
                        (if (findOtherClusterProd s1 reaction).type = ReactantType.I then (findOtherClusterProd s1 reaction).size else 0)
                      else 0)))
          ∧ ∀ i j k, ¬ (i = 0 ∧ j = 0 ∧ k = 0) →
              (participateInProductionOverlapCoefs sums 1 indexList s1
                (participateInProductionOverlap s1 reaction product) combCluster).coefs i j k
              = combCluster.coefs i j k)
    ∧ (participateInDissociationReactant sums psDim indexList s dissociation product
        = (addToEffDissociatingList s dissociation).map (fun r =>
            { r.1 with
              effDissociatingList := modifyAt r.1.effDissociatingList r.2
                (participateInDissociationOverlapCoefs sums psDim indexList r.1
                  (participateInDissociationOverlap r.1 dissociation product)) })
      ∧ ∀ (s1 : PSISuperCluster K) (dissPair : DissociationPair K),
          (participateInDissociationOverlapCoefs sums psDim indexList s1
              (participateInDissociationOverlap s1 dissociation product) dissPair).coefs 0 0
            = dissPair.coefs 0 0
              + ((participateInDissociationOverlap s1 dissociation product).nOverlap : K)
          ∧ (participateInDissociationOverlap s1 dissociation product).nOverlap
            = (participateInDissociationOverlap s1 dissociation product).width 0
              * (participateInDissociationOverlap s1 dissociation product).width 1
              * (participateInDissociationOverlap s1 dissociation product).width 2
              * (participateInDissociationOverlap s1 dissociation product).width 3
          ∧ (∀ a : Nat, a < 4 →
              (participateInDissociationOverlap s1 dissociation product).width a
                = specOverlapWidth (product.boundsBegin a) (product.boundsEnd a - 1)
                  (s1.self.boundsBegin a) (s1.self.boundsEnd a - 1)
                  ((findOtherClusterDiss s1 dissociation).boundsBegin a
                    - (if a = 3 then
                        (if (findOtherClusterDiss s1 dissociation).type = ReactantType.I then (findOtherClusterDiss s1 dissociation).size else 0)
                      else 0)))
          ∧ ∀ i j, ¬ (i = 0 ∧ j = 0) →
              (participateInDissociationOverlapCoefs sums 1 indexList s1
                (participateInDissociationOverlap s1 dissociation product) dissPair).coefs i j
              = dissPair.coefs i j)
    ∧ (emitFromReactant sums psDim indexList s dissociation product
        = (addToEffEmissionList s dissociation).map (fun r =>
            { r.1 with
              effEmissionList := modifyAt r.1.effEmissionList r.2 (fun dissPair =>
                emitFromOverlapCoefs sums psDim indexList r.1
                  (emitFromOverlap dissPair product) dissPair) })
      ∧ ∀ (s1 : PSISuperCluster K) (dissPair : DissociationPair K),
          (emitFromOverlapCoefs sums psDim indexList s1
              (emitFromOverlap dissPair product) dissPair).coefs 0 0
            = dissPair.coefs 0 0 + ((emitFromOverlap dissPair product).nOverlap : K)
          ∧ (emitFromOverlap dissPair product).nOverlap
            = (emitFromOverlap dissPair product).width 0
              * (emitFromOverlap dissPair product).width 1
              * (emitFromOverlap dissPair product).width 2
              * (emitFromOverlap dissPair product).width 3
          ∧ (∀ a : Nat, a < 4 →
              (emitFromOverlap dissPair product).width a
                = specOverlapWidth (product.boundsBegin a) (product.boundsEnd a - 1)
                  (if dissPair.second.type = ReactantType.PSISuper then dissPair.second.boundsBegin a
                    else if dissPair.first.type = ReactantType.PSISuper then dissPair.first.boundsBegin a
                    else 0)
                  (if dissPair.second.type = ReactantType.PSISuper then dissPair.second.boundsEnd a - 1
                    else if dissPair.first.type = ReactantType.PSISuper then dissPair.first.boundsEnd a - 1
                    else 0)
                  ((if dissPair.second.type = ReactantType.PSISuper then dissPair.first.boundsBegin a
                      else if dissPair.first.type = ReactantType.PSISuper then dissPair.second.boundsBegin a
                      else 0)
                    - (if a = 3 then
                        (if dissPair.first.type = ReactantType.I then dissPair.first.size
                          else if dissPair.second.type = ReactantType.I then dissPair.second.size
                          else 0)
                      else 0)))
          ∧ ∀ i j, ¬ (i = 0 ∧ j = 0) →
              (emitFromOverlapCoefs sums 1 indexList s1
                (emitFromOverlap dissPair product) dissPair).coefs i j
              = dissPair.coefs i j) := by
  refine ⟨⟨resultFromReactant_eq_map sums psDim indexList s reaction product, ?_⟩,
    ⟨participateInProductionReactant_eq_map sums psDim indexList s reaction product, ?_⟩,
    ⟨participateInDissociationReactant_eq_map sums psDim indexList s dissociation product, ?_⟩,
    ⟨emitFromReactant_eq_map sums psDim indexList s dissociation product, ?_⟩⟩
  · intro s1 prodPair
    refine ⟨resultFromOverlapCoefs_zeroth sums psDim indexList s1 _ prodPair,
      resultFromOverlap_nOverlap prodPair product,
      fun a ha => resultFromOverlap_width prodPair product a ha, ?_⟩
    intro i j k h
    rw [resultFromOverlapCoefs_one]
    simp only [addAt3_apply]
    have h2 : ¬ (i = 0 ∧ j = 0 ∧ k = 0) := h
    simp [h2]
  · intro s1 combCluster
    refine ⟨participateInProductionOverlapCoefs_zeroth sums psDim indexList s1 _ combCluster,
      participateInProductionOverlap_nOverlap s1 reaction product,
      fun a ha => participateInProductionOverlap_width s1 reaction product a ha, ?_⟩
    intro i j k h
    rw [participateInProductionOverlapCoefs_one]
    simp only [addAt3_apply]
    have h2 : ¬ (i = 0 ∧ j = 0 ∧ k = 0) := h
    simp [h2]
  · intro s1 dissPair
    refine ⟨participateInDissociationOverlapCoefs_zeroth sums psDim indexList s1 _ dissPair,
      participateInDissociationOverlap_nOverlap s1 dissociation product,
      fun a ha => participateInDissociationOverlap_width s1 dissociation product a ha, ?_⟩
    intro i j h
    rw [participateInDissociationOverlapCoefs_one]
    simp only [addAt2_apply]
    have h2 : ¬ (i = 0 ∧ j = 0) := h
    simp [h2]
  · intro s1 dissPair
    refine ⟨emitFromOverlapCoefs_zeroth sums psDim indexList s1 _ dissPair,
      emitFromOverlap_nOverlap dissPair product,
      fun a ha => emitFromOverlap_width dissPair product a ha, ?_⟩
    intro i j h
    rw [emitFromOverlapCoefs_one]
    simp only [addAt2_apply]
    have h2 : ¬ (i = 0 ∧ j = 0) := h
    simp [h2]

/-- C10, amended: in each of the four overlap-region derivations the width on axis `a` is
`min(productHi, r1Hi + singleComp) - max(productLo, r1Lo + singleComp) + 1` taken from the
bounds of the clusters involved, and `nOverlap` is the product of the four widths as
computed, with no clamp or rejection. The width is non-negative exactly when
`max(productLo, r1Lo + singleComp) <= min(productHi, r1Hi + singleComp) + 1`, at least 1
exactly when `max(productLo, r1Lo + singleComp) <= min(productHi, r1Hi + singleComp)`, and,
for valid ranges (`productLo <= productHi`, `r1Lo <= r1Hi`), negative exactly when
`r1Hi + singleComp + 1 < productLo` or `productHi + 1 < r1Lo + singleComp`. -/
theorem overlapWidth_nonneg_iff (prodPair : ProductionPair K)
    (dissPair : DissociationPair K) (s : PSISuperCluster K) (reaction : ProductionReaction K)
    (dissociation : DissociationReaction K) (product : PSICluster K) (a : Nat) (ha : a < 4) :
    ((resultFromOverlap prodPair product).width a
        = specOverlapWidth (product.boundsBegin a) (product.boundsEnd a - 1)
            (if prodPair.second.type = ReactantType.PSISuper then prodPair.second.boundsBegin a
              else if prodPair.first.type = ReactantType.PSISuper then prodPair.first.boundsBegin a
              else 0)
            (if prodPair.second.type = ReactantType.PSISuper then prodPair.second.boundsEnd a - 1
              else if prodPair.first.type = ReactantType.PSISuper then prodPair.first.boundsEnd a - 1
              else 0)
            ((if prodPair.second.type = ReactantType.PSISuper then prodPair.first.boundsBegin a
                else if prodPair.first.type = ReactantType.PSISuper then prodPair.second.boundsBegin a
                else 0)
              - (if a = 3 then
                  (if prodPair.first.type = ReactantType.I then prodPair.first.size
                    else if prodPair.second.type = ReactantType.I then prodPair.second.size
                    else 0)
                else 0))
      ∧ (resultFromOverlap prodPair product).nOverlap
        = (resultFromOverlap prodPair product).width 0
          * (resultFromOverlap prodPair product).width 1
          * (resultFromOverlap prodPair product).width 2
          * (resultFromOverlap prodPair product).width 3)
    ∧ ((participateInProductionOverlap s reaction product).width a
        = specOverlapWidth (product.boundsBegin a) (product.boundsEnd a - 1)
            (s.self.boundsBegin a) (s.self.boundsEnd a - 1)
            ((findOtherClusterProd s reaction).boundsBegin a
              - (if a = 3 then
                  (if (findOtherClusterProd s reaction).type = ReactantType.I then (findOtherClusterProd s reaction).size else 0)
                else 0))
      ∧ (participateInProductionOverlap s reaction product).nOverlap
        = (participateInProductionOverlap s reaction product).width 0
          * (participateInProductionOverlap s reaction product).width 1
          * (participateInProductionOverlap s reaction product).width 2
          * (participateInProductionOverlap s reaction product).width 3)
    ∧ ((participateInDissociationOverlap s dissociation product).width a
        = specOverlapWidth (product.boundsBegin a) (product.boundsEnd a - 1)
            (s.self.boundsBegin a) (s.self.boundsEnd a - 1)
            ((findOtherClusterDiss s dissociation).boundsBegin a
              - (if a = 3 then
                  (if (findOtherClusterDiss s dissociation).type = ReactantType.I then (findOtherClusterDiss s dissociation).size else 0)
                else 0))
      ∧ (participateInDissociationOverlap s dissociation product).nOverlap
        = (participateInDissociationOverlap s dissociation product).width 0
          * (participateInDissociationOverlap s dissociation product).width 1
          * (participateInDissociationOverlap s dissociation product).width 2
          * (participateInDissociationOverlap s dissociation product).width 3)
    ∧ ((emitFromOverlap dissPair product).width a
        = specOverlapWidth (product.boundsBegin a) (product.boundsEnd a - 1)
            (if dissPair.second.type = ReactantType.PSISuper then dissPair.second.boundsBegin a
              else if dissPair.first.type = ReactantType.PSISuper then dissPair.first.boundsBegin a
              else 0)
            (if dissPair.second.type = ReactantType.PSISuper then dissPair.second.boundsEnd a - 1
              else if dissPair.first.type = ReactantType.PSISuper then dissPair.first.boundsEnd a - 1
              else 0)
            ((if dissPair.second.type = ReactantType.PSISuper then dissPair.first.boundsBegin a
                else if dissPair.first.type = ReactantType.PSISuper then dissPair.second.boundsBegin a
                else 0)
              - (if a = 3 then
                  (if dissPair.first.type = ReactantType.I then dissPair.first.size
                    else if dissPair.second.type = ReactantType.I then dissPair.second.size
                    else 0)
                else 0))
      ∧ (emitFromOverlap dissPair product).nOverlap
        = (emitFromOverlap dissPair product).width 0
          * (emitFromOverlap dissPair product).width 1
          * (emitFromOverlap dissPair product).width 2
          * (emitFromOverlap dissPair product).width 3)
    ∧ ∀ productLo productHi r1Lo r1Hi singleComp : Int,
        (0 ≤ specOverlapWidth productLo productHi r1Lo r1Hi singleComp
            ↔ max productLo (r1Lo + singleComp) ≤ min productHi (r1Hi + singleComp) + 1)
        ∧ (1 ≤ specOverlapWidth productLo productHi r1Lo r1Hi singleComp
            ↔ max productLo (r1Lo + singleComp) ≤ min productHi (r1Hi + singleComp))
        ∧ (productLo ≤ productHi → r1Lo ≤ r1Hi →
            (specOverlapWidth productLo productHi r1Lo r1Hi singleComp < 0
              ↔ r1Hi + singleComp + 1 < productLo
                ∨ productHi + 1 < r1Lo + singleComp)) :=
  ⟨⟨resultFromOverlap_width prodPair product a ha, resultFromOverlap_nOverlap prodPair product⟩,
    ⟨participateInProductionOverlap_width s reaction product a ha,
      participateInProductionOverlap_nOverlap s reaction product⟩,
    ⟨participateInDissociationOverlap_width s dissociation product a ha,
      participateInDissociationOverlap_nOverlap s dissociation product⟩,
    ⟨emitFromOverlap_width dissPair product a ha, emitFromOverlap_nOverlap dissPair product⟩,
    specOverlapWidth_sign⟩

/-- C10, witness: the sample super-cluster (bounds `0..1`) combining with a single
cluster at composition 0 into a product with bounds `0..2`: the width on axis 0 is 2. -/
theorem overlapWidth_nonneg_iff_witness :
    (participateInProductionOverlap (sampleSuper ℚ) (sampleCombination ℚ)
        (sampleCluster ℚ 5 21 ReactantType.PSISuper 0 2)).width 0 = 2
    ∧ 1 ≤ (participateInProductionOverlap (sampleSuper ℚ) (sampleCombination ℚ)
        (sampleCluster ℚ 5 21 ReactantType.PSISuper 0 2)).width 0 := by
  have h := overlapWidth_nonneg_iff
    { reaction := sampleProduction ℚ, first := (sampleProduction ℚ).first,
      second := (sampleProduction ℚ).second, coefs := fun _ _ _ => 0 }
    { reaction := sampleEmission ℚ, first := (sampleEmission ℚ).first,
      second := (sampleEmission ℚ).second, coefs := fun _ _ => 0 }
    (sampleSuper ℚ) (sampleCombination ℚ) (sampleDissociation ℚ)
    (sampleCluster ℚ 5 21 ReactantType.PSISuper 0 2) 0 (by decide)
  have hw : (participateInProductionOverlap (sampleSuper ℚ) (sampleCombination ℚ)
        (sampleCluster ℚ 5 21 ReactantType.PSISuper 0 2)).width 0 = 2 := by
    rw [h.2.1.1]
    decide
  exact ⟨hw, by rw [hw]; decide⟩

end Xolotl
